import Mathlib

/-!
# Stem export

A shallow embedding of `src/deluge/processing/stem_export/stem_export.cpp` (the
`StemExport` class of the Deluge firmware) and the properties proved about it.

Conventions of the embedding

* The project model (`Song`, `Output`, `Clip`, `NoteRow`) carries exactly the fields
  the source reads or writes.  Results of methods whose bodies live elsewhere
  (`isEmpty(false)`, `hasNoNotes()`) are fields of the value they are called on.
* The playback handler, the audio recorder, the level meter and the task scheduler live
  outside this file.  They are a parameter: a `World W` gives, for an arbitrary state
  type `W`, what the source observes of them and how each call the source makes
  changes them.  The general theorems hold for all `W` and all `World W`.
* While a run is suspended in a wait the other work may change the collaborators and
  may cancel the run; it does not touch the targets of the song, whose flags belong to the
  run until it ends.
* A pointer into a collection is an index into a list; `bool& muteState` is a `MuteRef`.
* Display, LED and scroll-position calls touch no field modelled here and are left out.
* `Sys.log` is a ghost trace: each operation appends the program point it reached
  together with a copy of the state at that point.  Nothing ever reads the trace.
* Indices and counters are `Nat`/`Int`: an export counter never exceeds the number of
  targets, which the source holds in an `int32_t`.  Arithmetic on values that come from
  the collaborators (the tick-to-sample product, the current tick position) is wrapped
  to 32 bits explicitly.  The folder number and the number of the fallback file name
  move by one per export or per search attempt and are integers without a bound.
* The levels of the meter (`approxRMSLevel`) are rationals: the source compares them with
  a constant and takes their maximum, nothing else.
* The SD card is a parameter as well: a `Storage D` gives `initSD` and `f_mkdir` over an
  arbitrary state `D`.  A `PathState` holds what the path functions read and write, how
  many operations of the `String` class still succeed, and a ghost list of the `f_mkdir`
  requests with their results.  The search loop `while (true)` takes the number of
  attempts looked at; a call that has not left the loop by then is `searching`.
-/

namespace Deluge

/-! ## Data model -/

/-- The two kinds of export run (`StemExportType`). -/
inductive StemExportType
  | CLIP
  | TRACK
deriving DecidableEq, Repr

/-- Output classification (`OutputType`); the source names `AUDIO`, `SYNTH`, `KIT`,
`MIDI_OUT` and `CV`, any further value is `NONE`. -/
inductive OutputType
  | SYNTH
  | KIT
  | MIDI_OUT
  | CV
  | AUDIO
  | NONE
deriving DecidableEq, Repr

/-- Clip classification (`ClipType`). -/
inductive ClipType
  | INSTRUMENT
  | AUDIO
deriving DecidableEq, Repr

/-- Arm state of a session clip (`ArmState`); the source only ever writes `OFF`. -/
inductive ArmState
  | OFF
  | ON_NORMAL
  | ON_TO_SOLO
deriving DecidableEq, Repr

/-- Recording mode of the playback handler (`RecordingMode`); the source only ever
compares with and writes `OFF`. -/
inductive RecordingMode
  | OFF
  | NORMAL
  | ARRANGEMENT
deriving DecidableEq, Repr

/-- An arrangement track (`Output`), with the fields stem export touches. -/
structure Output where
  name : String
  type : OutputType
  /-- the value of `isEmpty(false)` -/
  isEmpty : Bool
  mutedInArrangementMode : Bool
  mutedInArrangementModeBeforeStemExport : Bool
  armedForRecording : Bool
  recordingInArrangement : Bool
  soloingInArrangementMode : Bool
  exportStem : Bool
deriving DecidableEq, Repr

/-- A note row of an instrument clip (`NoteRow`). -/
structure NoteRow where
  loopLengthIfIndependent : Int
  /-- the value of `hasNoNotes()` -/
  hasNoNotes : Bool
deriving DecidableEq, Repr

/-- A session clip (`Clip`); `noteRows` is only read when `type` is `INSTRUMENT`. -/
structure Clip where
  type : ClipType
  loopLength : Int
  noteRows : List NoteRow
  /-- the output the clip plays on (`clip->output`), only read here -/
  output : Output
  /-- the value of `isEmpty(false)` -/
  isEmpty : Bool
  activeIfNoSolo : Bool
  activeIfNoSoloBeforeStemExport : Bool
  armState : ArmState
  armedForRecording : Bool
  soloingInSessionMode : Bool
  exportStem : Bool
deriving DecidableEq, Repr

/-- The current song: its outputs and its session clips, both in natural order. -/
structure Song where
  name : String
  outputs : List Output
  sessionClips : List Clip
deriving DecidableEq, Repr

/-- The member variables of `StemExport`. -/
structure StemExport where
  currentStemExportType : StemExportType
  processStarted : Bool
  stopOutputRecordingAtSilence : Bool
  highestUsedStemFolderNumber : Int
  wavFileNameForStemExportSet : Bool
  wavFileNameForStemExport : String
  lastSongNameForStemExport : String
  numStemsExported : Int
  totalNumStemsToExport : Int
  loopLengthToStopStemExport : Int
  loopEndPointInSamplesForAudioFile : Int
deriving DecidableEq, Repr

/-- The constructor `StemExport::StemExport()`. -/
def StemExport.new : StemExport where
  currentStemExportType := StemExportType.CLIP
  processStarted := false
  stopOutputRecordingAtSilence := false
  highestUsedStemFolderNumber := -1
  wavFileNameForStemExportSet := false
  wavFileNameForStemExport := ""
  lastSongNameForStemExport := ""
  numStemsExported := 0
  totalNumStemsToExport := 0
  loopLengthToStopStemExport := 0
  loopEndPointInSamplesForAudioFile := 0

/-- The collaborators of `StemExport` (transport, capture engine, level meter, string
allocator, scheduler), over an arbitrary state `W`.  Observations are functions out of
`W`; every call the source makes on a collaborator is a function `W → W`. -/
structure World (W : Type) where
  /-- `playbackHandler.isEitherClockActive()` -/
  isEitherClockActive : W → Bool
  /-- `playbackHandler.recording` -/
  recording : W → RecordingMode
  /-- `audioRecorder.recordingSource` as its underlying number, `NONE` being 0 -/
  recordingSource : W → Nat
  /-- `AudioEngine::approxRMSLevel`, left and right -/
  approxRMSLevel : W → Rat × Rat
  /-- `playbackHandler.getTimePerInternalTick()`, an unsigned 32-bit value -/
  getTimePerInternalTick : W → Nat
  /-- `playbackHandler.lastSwungTickActioned` -/
  lastSwungTickActioned : W → Int
  /-- `playbackHandler.getNumSwungTicksInSinceLastActionedSwungTick()` -/
  getNumSwungTicksInSinceLastActionedSwungTick : W → Int
  /-- how many of the next string operations succeed (`none`: all of them) -/
  stringOpsBeforeFailure : W → Option Nat
  /-- `playbackHandler.playButtonPressed(kInternalButtonPressLatency)` -/
  playButtonPressed : W → W
  /-- `audioRecorder.beginOutputRecording(STEMS, MIX, writeLoopEndPos)` -/
  beginOutputRecording : Bool → W → W
  /-- `audioRecorder.endRecordingSoon()` -/
  endRecordingSoon : W → W
  /-- `playbackHandler.endPlayback()` -/
  endPlayback : W → W
  /-- everything the other tasks do to the collaborators in one scheduler round -/
  runOtherTasks : W → W
  /-- whether the transport polls `checkForLoopEnd` in this round -/
  pollsLoopEnd : W → Bool
  /-- whether the user's cancel command reaches `stopStemExportProcess` in this round -/
  cancelRequested : W → Bool

/-- The `bool& muteState` argument of `startCurrentStemExport` and
`finishCurrentStemExport`: which flag of which target the reference points at. -/
inductive MuteRef
  /-- `output->mutedInArrangementMode` of the output at this index -/
  | output (idx : Nat)
  /-- `clip->activeIfNoSolo` of the session clip at this index -/
  | clip (idx : Nat)
deriving DecidableEq, Repr

/-- Program points recorded in the ghost trace. -/
inductive Step
  /-- `disarmAll…ForStemExport` has returned -/
  | prepared
  /-- `startCurrentStemExport` was entered with this `indexNumber` -/
  | startCurrent (indexNumber : Nat)
  /-- `startCurrentStemExport` has written `muteState` -/
  | muteStateWritten (indexNumber : Nat)
  /-- `setWavFileNameForStemExport` was called with this `fileNumber` -/
  | fileNameRequested (fileNumber : Nat)
  /-- `startOutputRecordingUntilLoopEndAndSilence` has returned -/
  | recordingRequested (indexNumber : Nat)
  /-- one scheduler round of the cooperative wait has passed -/
  | yielded
  /-- `finishCurrentStemExport` has returned -/
  | finishCurrent (muteState : MuteRef)
  /-- `restoreAll…Mutes` has returned -/
  | restored
deriving DecidableEq, Repr

/-- One entry of the ghost trace: the program point and the state there. -/
structure Event (W : Type) where
  step : Step
  se : StemExport
  song : Song
  world : W

/-- The whole state: the `stemExport` object, `currentSong`, the collaborators, and
the ghost trace (oldest entry first). -/
structure Sys (W : Type) where
  se : StemExport
  song : Song
  world : W
  log : List (Event W)

variable {W : Type}

/-- A state with an empty trace. -/
def Sys.start (se : StemExport) (song : Song) (world : W) : Sys W :=
  { se := se, song := song, world := world, log := [] }

/-- Append the current program point to the ghost trace. -/
def Sys.emit (st : Step) (s : Sys W) : Sys W :=
  { s with log := s.log ++ [{ step := st, se := s.se, song := s.song, world := s.world }] }

/-- Assignment through a `bool& muteState`. -/
def MuteRef.write (r : MuteRef) (b : Bool) (song : Song) : Song :=
  match r with
  | MuteRef.output idx =>
    match song.outputs[idx]? with
    | some o => { song with outputs := song.outputs.set idx { o with mutedInArrangementMode := b } }
    | none => song
  | MuteRef.clip idx =>
    match song.sessionClips[idx]? with
    | some c => { song with sessionClips := song.sessionClips.set idx { c with activeIfNoSolo := b } }
    | none => song

/-- Conversion of a mathematical integer to `int32_t` (two's complement). -/
def toInt32 (x : Int) : Int := (x + 2 ^ 31) % 2 ^ 32 - 2 ^ 31

/-! ## Loop length and loop-end marker -/

/-- One iteration of the note-row loop of `getLoopLengthOfLongestNotEmptyNoteRow`. -/
def noteRowStep (clip : Clip) (se : StemExport) (idxNoteRow : Nat) : StemExport :=
  match clip.noteRows[idxNoteRow]? with
  | some thisNoteRow =>
    if thisNoteRow.loopLengthIfIndependent > se.loopLengthToStopStemExport
        && !thisNoteRow.hasNoNotes then
      { se with loopLengthToStopStemExport := thisNoteRow.loopLengthIfIndependent }
    else se
  | none => se

/-- `StemExport::getLoopLengthOfLongestNotEmptyNoteRow`. -/
def getLoopLengthOfLongestNotEmptyNoteRow (clip : Clip) (se : StemExport) : StemExport :=
  let se0 := { se with loopLengthToStopStemExport := clip.loopLength }
  if clip.type = ClipType.INSTRUMENT then
    (List.range clip.noteRows.length).foldl (noteRowStep clip) se0
  else se0

/-- `StemExport::getLoopEndPointInSamplesForAudioFile`: the product of an `int32_t` and
the unsigned 32-bit time per tick, stored in an `int32_t`. -/
def getLoopEndPointInSamplesForAudioFile (E : World W) (loopLength : Int) (s : Sys W) : Sys W :=
  { s with se := { s.se with
      loopEndPointInSamplesForAudioFile :=
        toInt32 (loopLength * (E.getTimePerInternalTick s.world : Int)) } }

/-- `StemExport::writeLoopEndPos`. -/
def writeLoopEndPos (se : StemExport) : Bool :=
  se.processStarted && decide (se.currentStemExportType = StemExportType.CLIP)

/-! ## Recording, transport and cancellation -/

/-- `StemExport::startOutputRecordingUntilLoopEndAndSilence`. -/
def startOutputRecordingUntilLoopEndAndSilence (E : World W) (s : Sys W) : Sys W :=
  let w1 := E.playButtonPressed s.world
  if E.isEitherClockActive w1 then
    let w2 := E.beginOutputRecording (writeLoopEndPos s.se) w1
    if 0 < E.recordingSource w2 then
      { s with world := w2, se := { s.se with stopOutputRecordingAtSilence := true } }
    else { s with world := w2 }
  else { s with world := w1 }

/-- `StemExport::stopOutputRecordingAndPlayback`. -/
def stopOutputRecordingAndPlayback (E : World W) (s : Sys W) : Sys W :=
  let w1 := if E.isEitherClockActive s.world then E.playButtonPressed s.world else s.world
  { s with world := w1,
           se := { s.se with highestUsedStemFolderNumber := s.se.highestUsedStemFolderNumber + 1 } }

/-- `StemExport::stopStemExportProcess`. -/
def stopStemExportProcess (E : World W) (s : Sys W) : Sys W :=
  let s1 := stopOutputRecordingAndPlayback E s
  { s1 with se := { s1.se with processStarted := false } }

/-- `StemExport::checkForLoopEnd`; `currentPos` is an `int32_t`. -/
def checkForLoopEnd (E : World W) (s : Sys W) : Bool × Sys W :=
  if s.se.processStarted && decide (s.se.currentStemExportType ≠ StemExportType.TRACK) then
    let currentPos := toInt32 (E.lastSwungTickActioned s.world
      + E.getNumSwungTicksInSinceLastActionedSwungTick s.world)
    if currentPos = s.se.loopLengthToStopStemExport then
      (true, { s with world := E.endPlayback s.world })
    else (false, s)
  else (false, s)

/-- `StemExport::checkForSilence`. -/
def checkForSilence (E : World W) (s : Sys W) : Sys W :=
  if !E.isEitherClockActive s.world && decide (E.recording s.world = RecordingMode.OFF) then
    if max (E.approxRMSLevel s.world).1 (E.approxRMSLevel s.world).2 < 9 then
      { s with world := E.endRecordingSoon s.world,
               se := { s.se with stopOutputRecordingAtSilence := false } }
    else s
  else s

/-! ## File name of a stem -/

/-- Modelled from the spec: the text `String::concatenateInt(number, minNumDigits)`
appends for a number that is not negative; the string class is not part of the source
file. The spec words it as the number "zero-padded to 5 digits": the decimal digits,
padded with zeros on the left up to `minNumDigits`. -/
def intToStringPadded (number : Nat) (minNumDigits : Nat) : String :=
  let digits := Nat.toDigits 10 number
  String.mk (List.replicate (minNumDigits - digits.length) '0' ++ digits)

/-- The `switch (output->type)` of `setWavFileNameForStemExport`; the source leaves the
pointer uninitialised for any other type. -/
def outputTypeTag : OutputType → Option String
  | OutputType.AUDIO => some "AUDIO"
  | OutputType.SYNTH => some "SYNTH"
  | OutputType.KIT => some "KIT"
  | _ => none

/-- The text appended for the export type in `setWavFileNameForStemExport`. -/
def stemExportTypeTag : StemExportType → String
  | StemExportType.CLIP => "CLIP_"
  | StemExportType.TRACK => "TRACK_"

/-- `StemExport::setWavFileNameForStemExport`.  The string operations are performed in
the source's order; the first one that fails (as the collaborators decide) makes the
function return with what was built so far and without setting the flag.  For an
output type outside the switch the model stops after the first operation. -/
def setWavFileNameForStemExport (E : World W) (stemExportType : StemExportType)
    (output : Output) (fileNumber : Nat) (s : Sys W) : Sys W :=
  let pieces : List String :=
    match outputTypeTag output.type with
    | some outputType =>
      ["/", outputType, "_", stemExportTypeTag stemExportType, output.name, "_",
        intToStringPadded fileNumber 5, ".WAV"]
    | none => ["/"]
  let done : Nat :=
    match E.stringOpsBeforeFailure s.world with
    | none => pieces.length
    | some b => min b pieces.length
  let se1 : StemExport :=
    if done = 0 then s.se
    else { s.se with wavFileNameForStemExport := String.join (pieces.take done) }
  let se2 : StemExport :=
    if done = 8 then { se1 with wavFileNameForStemExportSet := true } else se1
  Sys.emit (Step.fileNameRequested fileNumber) { s with se := se2 }

/-! ## Preparing and restoring the targets -/

/-- The condition under which `disarmAllInstrumentsForStemExport` sets `exportStem`. -/
def outputEligible (output : Output) : Bool :=
  !output.mutedInArrangementMode && !output.isEmpty
    && decide (output.type ≠ OutputType.MIDI_OUT) && decide (output.type ≠ OutputType.CV)

/-- The condition under which `disarmAllClipsForStemExport` sets `exportStem`. -/
def clipEligible (clip : Clip) : Bool :=
  !clip.isEmpty && decide (clip.output.type ≠ OutputType.MIDI_OUT)
    && decide (clip.output.type ≠ OutputType.CV)

/-- The body of the loop of `disarmAllInstrumentsForStemExport` for one output. -/
def disarmInstrumentStep (s : Sys W) (idxOutput : Nat) : Sys W :=
  match s.song.outputs[idxOutput]? with
  | none => s
  | some output =>
    let eligible : Bool := outputEligible output
    let se1 : StemExport :=
      if eligible then
        { s.se with totalNumStemsToExport := s.se.totalNumStemsToExport + 1 }
      else s.se
    let output1 : Output :=
      { output with
          exportStem := eligible
          mutedInArrangementModeBeforeStemExport := output.mutedInArrangementMode
          mutedInArrangementMode := true
          recordingInArrangement := false
          armedForRecording := false
          soloingInArrangementMode := false }
    { s with se := se1, song := { s.song with outputs := s.song.outputs.set idxOutput output1 } }

/-- `StemExport::disarmAllInstrumentsForStemExport`; returns `totalNumOutputs`. -/
def disarmAllInstrumentsForStemExport (s : Sys W) : Nat × Sys W :=
  let s0 : Sys W := { s with se := { s.se with numStemsExported := 0, totalNumStemsToExport := 0 } }
  let totalNumOutputs := s0.song.outputs.length
  let s1 := (List.range totalNumOutputs).foldl disarmInstrumentStep s0
  (totalNumOutputs, Sys.emit Step.prepared s1)

/-- The body of the loop of `restoreAllInstrumentMutes` for one output. -/
def restoreInstrumentStep (s : Sys W) (idxOutput : Nat) : Sys W :=
  match s.song.outputs[idxOutput]? with
  | none => s
  | some output =>
    let output1 : Output :=
      { output with mutedInArrangementMode := output.mutedInArrangementModeBeforeStemExport }
    { s with song := { s.song with outputs := s.song.outputs.set idxOutput output1 } }

/-- `StemExport::restoreAllInstrumentMutes`. -/
def restoreAllInstrumentMutes (totalNumOutputs : Nat) (s : Sys W) : Sys W :=
  Sys.emit Step.restored ((List.range totalNumOutputs).foldl restoreInstrumentStep s)

/-- The body of the loop of `disarmAllClipsForStemExport` for one clip. -/
def disarmClipStep (s : Sys W) (idxClip : Nat) : Sys W :=
  match s.song.sessionClips[idxClip]? with
  | none => s
  | some clip =>
    let eligible : Bool := clipEligible clip
    let se1 : StemExport :=
      if eligible then
        { s.se with totalNumStemsToExport := s.se.totalNumStemsToExport + 1 }
      else s.se
    let clip1 : Clip :=
      { clip with
          exportStem := eligible
          activeIfNoSoloBeforeStemExport := clip.activeIfNoSolo
          activeIfNoSolo := false
          armState := ArmState.OFF
          armedForRecording := false
          soloingInSessionMode := false }
    { s with se := se1,
             song := { s.song with sessionClips := s.song.sessionClips.set idxClip clip1 } }

/-- `StemExport::disarmAllClipsForStemExport`; returns `totalNumClips`. -/
def disarmAllClipsForStemExport (s : Sys W) : Nat × Sys W :=
  let s0 : Sys W := { s with se := { s.se with numStemsExported := 0, totalNumStemsToExport := 0 } }
  let totalNumClips := s0.song.sessionClips.length
  let s1 := (List.range totalNumClips).foldl disarmClipStep s0
  (totalNumClips, Sys.emit Step.prepared s1)

/-- The body of the loop of `restoreAllClipMutes` for one clip. -/
def restoreClipStep (s : Sys W) (idxClip : Nat) : Sys W :=
  match s.song.sessionClips[idxClip]? with
  | none => s
  | some clip =>
    let clip1 : Clip := { clip with activeIfNoSolo := clip.activeIfNoSoloBeforeStemExport }
    { s with song := { s.song with sessionClips := s.song.sessionClips.set idxClip clip1 } }

/-- `StemExport::restoreAllClipMutes`. -/
def restoreAllClipMutes (totalNumClips : Nat) (s : Sys W) : Sys W :=
  Sys.emit Step.restored ((List.range totalNumClips).foldl restoreClipStep s)

/-! ## One target -/

/-- `StemExport::startCurrentStemExport`; returns `started`. -/
def startCurrentStemExport (E : World W) (stemExportType : StemExportType) (output : Output)
    (muteState : MuteRef) (indexNumber : Nat) (exportStem : Bool) (s : Sys W) : Bool × Sys W :=
  let s0 := Sys.emit (Step.startCurrent indexNumber) s
  if !exportStem then (false, s0)
  else
    let s1 : Sys W :=
      match stemExportType with
      | StemExportType.CLIP => { s0 with song := muteState.write true s0.song }
      | StemExportType.TRACK => { s0 with song := muteState.write false s0.song }
    let s2 := Sys.emit (Step.muteStateWritten indexNumber) s1
    let s3 := setWavFileNameForStemExport E stemExportType output indexNumber s2
    let s4 := startOutputRecordingUntilLoopEndAndSilence E s3
    (true, Sys.emit (Step.recordingRequested indexNumber) s4)

/-- `StemExport::finishCurrentStemExport`. -/
def finishCurrentStemExport (stemExportType : StemExportType) (muteState : MuteRef)
    (s : Sys W) : Sys W :=
  let s1 : Sys W :=
    match stemExportType with
    | StemExportType.CLIP => { s with song := muteState.write false s.song }
    | StemExportType.TRACK => { s with song := muteState.write true s.song }
  Sys.emit (Step.finishCurrent muteState)
    { s1 with se := { s1.se with numStemsExported := s1.se.numStemsExported + 1 } }

/-! ## The cooperative wait -/

/-- Modelled from the spec: the task scheduler (`task_scheduler.h`) is not part of the
sources; per the spec the sequencer is suspended while the host scheduler runs other
work.  One round lets the collaborators move on, lets the transport poll
`checkForLoopEnd`, and lets the user's cancel command call `stopStemExportProcess`. -/
def schedulerRound (E : World W) (s : Sys W) : Sys W :=
  let s1 : Sys W := { s with world := E.runOtherTasks s.world }
  let s2 := if E.pollsLoopEnd s1.world then (checkForLoopEnd E s1).2 else s1
  if E.cancelRequested s2.world then stopStemExportProcess E s2 else s2

/-- The release condition passed to `yield` by both export loops. -/
def exportWaitCondition (E : World W) (s : Sys W) : Bool × Sys W :=
  let s1 := if s.se.stopOutputRecordingAtSilence then checkForSilence E s else s
  (!(decide (E.recording s1.world ≠ RecordingMode.OFF) || decide (0 < E.recordingSource s1.world)
      || E.isEitherClockActive s1.world), s1)

/-- One resumption of the wait: a scheduler round, then the release condition. -/
def yieldRound (E : World W) (s : Sys W) : Bool × Sys W :=
  let r := exportWaitCondition E (schedulerRound E s)
  (r.1, Sys.emit Step.yielded r.2)

/-- How far a call got: it returned a value, or it is still suspended in a cooperative
wait (with the state reached) after the scheduler rounds granted to that wait. -/
inductive Progress (W : Type) (α : Type)
  | returned (a : α)
  | suspended (s : Sys W)

/-- Modelled from the spec: `yield(condition)` of the task scheduler, which resumes the
caller once the release condition holds after a scheduler round.  `fuel` bounds the
number of rounds looked at; the spec puts no bound on the wait itself. -/
def yieldUntil (E : World W) : Nat → Sys W → Progress W (Sys W)
  | 0, s => Progress.suspended s
  | fuel + 1, s =>
    if (yieldRound E s).1 then Progress.returned (yieldRound E s).2
    else yieldUntil E fuel (yieldRound E s).2

/-! ## The two export loops -/

/-- A loop `for (idx = n - 1; idx >= 0; --idx) body`, where `body` reports whether it
left through `break`. -/
def descLoop (body : Nat → Sys W → Progress W (Bool × Sys W)) :
    Nat → Sys W → Progress W (Sys W)
  | 0, s => Progress.returned s
  | idx + 1, s =>
    match body idx s with
    | Progress.suspended s1 => Progress.suspended s1
    | Progress.returned (true, s1) => Progress.returned s1
    | Progress.returned (false, s1) => descLoop body idx s1

/-- The part of both loop bodies from `startCurrentStemExport` on: `continue` when the
target was not started, else the wait, `finishCurrentStemExport`, and the check of
`processStarted`; `true` stands for `break`. -/
def exportTarget (E : World W) (fuel : Nat) (stemExportType : StemExportType)
    (output : Output) (muteState : MuteRef) (indexNumber : Nat) (exportStem : Bool)
    (s : Sys W) : Progress W (Bool × Sys W) :=
  let r := startCurrentStemExport E stemExportType output muteState indexNumber exportStem s
  if !r.1 then Progress.returned (false, r.2)
  else
    match yieldUntil E fuel r.2 with
    | Progress.suspended s2 => Progress.suspended s2
    | Progress.returned s2 =>
      let s3 := finishCurrentStemExport stemExportType muteState s2
      Progress.returned (!s3.se.processStarted, s3)

/-- The body of the loop of `exportInstrumentStems`; `true` stands for `break`. -/
def exportInstrumentBody (E : World W) (fuel : Nat) (stemExportType : StemExportType)
    (idxOutput : Nat) (s : Sys W) : Progress W (Bool × Sys W) :=
  match s.song.outputs[idxOutput]? with
  | none => Progress.returned (!s.se.processStarted, s)
  | some output =>
    exportTarget E fuel stemExportType output (MuteRef.output idxOutput) idxOutput
      output.exportStem s

/-- `StemExport::exportInstrumentStems`; returns `totalNumOutputs` and the final state,
unless a wait is still suspended after `fuel` rounds. -/
def exportInstrumentStems (E : World W) (fuel : Nat) (stemExportType : StemExportType)
    (s : Sys W) : Progress W (Nat × Sys W) :=
  let r := disarmAllInstrumentsForStemExport s
  match descLoop (exportInstrumentBody E fuel stemExportType) r.1 r.2 with
  | Progress.suspended s1 => Progress.suspended s1
  | Progress.returned s1 => Progress.returned (r.1, restoreAllInstrumentMutes r.1 s1)

/-- The body of the loop of `exportClipStems`; `true` stands for `break`. -/
def exportClipBody (E : World W) (fuel : Nat) (stemExportType : StemExportType)
    (idxClip : Nat) (s : Sys W) : Progress W (Bool × Sys W) :=
  match s.song.sessionClips[idxClip]? with
  | none => Progress.returned (!s.se.processStarted, s)
  | some clip =>
    let s0 : Sys W := { s with se := getLoopLengthOfLongestNotEmptyNoteRow clip s.se }
    let s1 := getLoopEndPointInSamplesForAudioFile E clip.loopLength s0
    exportTarget E fuel stemExportType clip.output (MuteRef.clip idxClip) idxClip
      clip.exportStem s1

/-- `StemExport::exportClipStems`; returns `totalNumClips` and the final state, unless
a wait is still suspended after `fuel` rounds. -/
def exportClipStems (E : World W) (fuel : Nat) (stemExportType : StemExportType)
    (s : Sys W) : Progress W (Nat × Sys W) :=
  let r := disarmAllClipsForStemExport s
  match descLoop (exportClipBody E fuel stemExportType) r.1 r.2 with
  | Progress.suspended s1 => Progress.suspended s1
  | Progress.returned s1 => Progress.returned (r.1, restoreAllClipMutes r.1 s1)

/-- The state a call has reached, returned or not. -/
def Progress.state : Progress W (Nat × Sys W) → Sys W
  | Progress.returned r => r.2
  | Progress.suspended s => s

/-! ## Auxiliary definitions used in the statements -/

/-- Apply `f` to the element at index `i`, if there is one. -/
def setAt {α : Type} (f : α → α) (l : List α) (i : Nat) : List α :=
  match l[i]? with
  | some a => l.set i (f a)
  | none => l

/-- What `disarmAllInstrumentsForStemExport` makes of one output. -/
def disarmOutput (o : Output) : Output :=
  { o with
      exportStem := outputEligible o
      mutedInArrangementModeBeforeStemExport := o.mutedInArrangementMode
      mutedInArrangementMode := true
      recordingInArrangement := false
      armedForRecording := false
      soloingInArrangementMode := false }

/-- What `restoreAllInstrumentMutes` makes of one output. -/
def restoreOutput (o : Output) : Output :=
  { o with mutedInArrangementMode := o.mutedInArrangementModeBeforeStemExport }

/-- What `disarmAllClipsForStemExport` makes of one clip. -/
def disarmClip (c : Clip) : Clip :=
  { c with
      exportStem := clipEligible c
      activeIfNoSoloBeforeStemExport := c.activeIfNoSolo
      activeIfNoSolo := false
      armState := ArmState.OFF
      armedForRecording := false
      soloingInSessionMode := false }

/-- What `restoreAllClipMutes` makes of one clip. -/
def restoreClip (c : Clip) : Clip :=
  { c with activeIfNoSolo := c.activeIfNoSoloBeforeStemExport }

/-- An output with its mute flag blanked. -/
def eraseOutput (o : Output) : Output := { o with mutedInArrangementMode := false }

/-- A clip with its active flag blanked. -/
def eraseClip (c : Clip) : Clip := { c with activeIfNoSolo := false }

/-- A song with the flag behind every `MuteRef` blanked: what is left is everything
the loops may not change. -/
def Song.eraseMutes (song : Song) : Song :=
  { song with outputs := song.outputs.map eraseOutput
              sessionClips := song.sessionClips.map eraseClip }

/-! ## A small concrete world for worked examples -/

/-- A toy transport and capture engine: the play button toggles the clock (starting it
only if `starts`), the capture engine takes the recording only if `accepts`, a running
clock stops by itself after `remaining` rounds, the capture ends when told to end soon,
and the user cancels when `cancelIn` reaches zero. -/
structure Rig where
  clock : Bool
  source : Nat
  remaining : Nat
  cancelIn : Option Nat
  accepts : Bool
  starts : Bool
deriving DecidableEq, Repr

/-- The collaborators as played by a `Rig`. -/
def rigWorld : World Rig where
  isEitherClockActive r := r.clock
  recording _ := RecordingMode.OFF
  recordingSource r := r.source
  approxRMSLevel _ := (0, 0)
  getTimePerInternalTick _ := 459
  lastSwungTickActioned _ := 0
  getNumSwungTicksInSinceLastActionedSwungTick _ := 0
  stringOpsBeforeFailure _ := none
  playButtonPressed r :=
    if r.clock then { r with clock := false } else { r with clock := r.starts, remaining := 2 }
  beginOutputRecording _ r := { r with source := if r.accepts then 5 else 0 }
  endRecordingSoon r := { r with source := 0 }
  endPlayback r := { r with clock := false }
  runOtherTasks r :=
    { r with clock := r.clock && decide (0 < r.remaining)
             remaining := r.remaining - 1
             cancelIn := r.cancelIn.map (fun n => n - 1) }
  pollsLoopEnd _ := false
  cancelRequested r := decide (r.cancelIn = some 0)

/-- A rig at rest whose transport starts and whose capture engine accepts. -/
def rigIdle : Rig :=
  { clock := false, source := 0, remaining := 0, cancelIn := none, accepts := true, starts := true }

/-- An output for the examples: name, type, emptiness, mute flag and arm flag. -/
def demoOutput (name : String) (type : OutputType) (isEmpty muted armed : Bool) : Output :=
  { name := name, type := type, isEmpty := isEmpty, mutedInArrangementMode := muted,
    mutedInArrangementModeBeforeStemExport := false, armedForRecording := armed,
    recordingInArrangement := false, soloingInArrangementMode := false, exportStem := false }

/-- A clip for the examples: its output, loop length, note rows, emptiness and flags. -/
def demoClip (output : Output) (loopLength : Int) (noteRows : List NoteRow)
    (isEmpty active : Bool) : Clip :=
  { type := ClipType.INSTRUMENT, loopLength := loopLength, noteRows := noteRows,
    output := output, isEmpty := isEmpty, activeIfNoSolo := active,
    activeIfNoSoloBeforeStemExport := false, armState := ArmState.ON_NORMAL,
    armedForRecording := false, soloingInSessionMode := true, exportStem := false }

/-- Three outputs (an armed synth, a MIDI track, a muted kit) and three clips. -/
def demoSong : Song :=
  { name := "Song A"
    outputs :=
      [demoOutput "Bass" OutputType.SYNTH false false true,
       demoOutput "Ext" OutputType.MIDI_OUT false false false,
       demoOutput "Drums" OutputType.KIT false true false]
    sessionClips :=
      [demoClip (demoOutput "Bass" OutputType.SYNTH false false true) 96
         [⟨48, true⟩, ⟨192, false⟩, ⟨64, false⟩] false true,
       demoClip (demoOutput "Ext" OutputType.MIDI_OUT false false false) 96 [] false false,
       demoClip (demoOutput "Drums" OutputType.KIT false true false) 48 [] false true] }

/-- The state in which the examples start a run of the given type on a given rig. -/
def demoStart (ty : StemExportType) (rig : Rig) : Sys Rig :=
  Sys.start { StemExport.new with processStarted := true, currentStemExportType := ty }
    demoSong rig

/-- A step between two trace entries that leaves the song, the trace and the two
counters alone and does not set `processStarted`: what the collaborators, the file
name, the silence check and a cancel request can do. -/
def Quiet (s t : Sys W) : Prop :=
  t.log = s.log ∧ t.song = s.song
    ∧ t.se.numStemsExported = s.se.numStemsExported
    ∧ t.se.totalNumStemsToExport = s.se.totalNumStemsToExport
    ∧ (t.se.processStarted = true → s.se.processStarted = true)

/-- The value `startCurrentStemExport` writes through `muteState`. -/
def startFlag : StemExportType → Bool
  | StemExportType.CLIP => true
  | StemExportType.TRACK => false

/-- The counter invariant of a run with `d` eligible targets still to come: every trace
entry has `0 ≤ numStemsExported ≤ totalNumStemsToExport`, from one entry to the next the
counter stays or grows by one, the newest entry shows the current counter, and the
current counter leaves room for the `d` targets. -/
def CounterInv (d : Int) (s : Sys W) : Prop :=
  (∀ e ∈ s.log, 0 ≤ e.se.numStemsExported
      ∧ e.se.numStemsExported ≤ e.se.totalNumStemsToExport)
    ∧ List.Chain' (fun a b : Event W =>
        b.se.numStemsExported = a.se.numStemsExported
          ∨ b.se.numStemsExported = a.se.numStemsExported + 1) s.log
    ∧ (∀ e ∈ s.log.getLast?, e.se.numStemsExported = s.se.numStemsExported)
    ∧ 0 ≤ s.se.numStemsExported ∧ 0 ≤ d
    ∧ s.se.numStemsExported + d ≤ s.se.totalNumStemsToExport

/-- Reading through a `bool& muteState`. -/
def MuteRef.read (r : MuteRef) (song : Song) : Option Bool :=
  match r with
  | MuteRef.output idx => (song.outputs[idx]?).map (fun o => o.mutedInArrangementMode)
  | MuteRef.clip idx => (song.sessionClips[idx]?).map (fun c => c.activeIfNoSolo)

/-- The `exportStem` flag of the target a `MuteRef` points into. -/
def MuteRef.exportStem (r : MuteRef) (song : Song) : Option Bool :=
  match r with
  | MuteRef.output idx => (song.outputs[idx]?).map (fun o => o.exportStem)
  | MuteRef.clip idx => (song.sessionClips[idx]?).map (fun c => c.exportStem)

/-- The invariant kept for a target `r0` at index `i0` that is not to be exported, whose
flag was forced to `forced` by the prepare step: no trace entry shows a write, a file
name, a capture request or a finish for it, every entry shows its flag still forced, the
counter moves only at the finish of another target, and the target is still marked as
not exported. -/
def EligInv (r0 : MuteRef) (i0 : Nat) (forced : Bool) (s : Sys W) : Prop :=
  (∀ e ∈ s.log, e.step ≠ Step.muteStateWritten i0 ∧ e.step ≠ Step.fileNameRequested i0
      ∧ e.step ≠ Step.recordingRequested i0 ∧ e.step ≠ Step.finishCurrent r0
      ∧ e.step ≠ Step.restored ∧ r0.read e.song = some forced)
    ∧ List.Chain' (fun a b : Event W =>
        b.se.numStemsExported ≠ a.se.numStemsExported →
          ∃ r, r ≠ r0 ∧ b.step = Step.finishCurrent r) s.log
    ∧ (∀ e ∈ s.log.getLast?, e.se.numStemsExported = s.se.numStemsExported)
    ∧ r0.read s.song = some forced
    ∧ r0.exportStem s.song = some false

/-- What a trace shows of a target `r0` at index `i0` that was never started: no entry
for a write through its `muteState`, for a file name with its index, for a capture
request or for a finish; its flag at the value `forced` at every entry before the restore
step; and no change of `numStemsExported` except at the finish of another target. -/
def NeverStarted (r0 : MuteRef) (i0 : Nat) (forced : Bool) (log : List (Event W)) : Prop :=
  (∀ e ∈ log, e.step ≠ Step.muteStateWritten i0 ∧ e.step ≠ Step.fileNameRequested i0
      ∧ e.step ≠ Step.recordingRequested i0 ∧ e.step ≠ Step.finishCurrent r0
      ∧ (e.step ≠ Step.restored → r0.read e.song = some forced))
    ∧ List.Chain' (fun a b : Event W =>
        b.se.numStemsExported ≠ a.se.numStemsExported →
          ∃ r, r ≠ r0 ∧ b.step = Step.finishCurrent r) log

/-- The indices with which `startCurrentStemExport` was entered, in the order of the
trace. -/
def startedIndices (log : List (Event W)) : List Nat :=
  log.filterMap (fun e =>
    match e.step with
    | Step.startCurrent k => some k
    | _ => none)

/-- The file numbers with which `setWavFileNameForStemExport` was called, in the order
of the trace. -/
def requestedFileNumbers (log : List (Event W)) : List Nat :=
  log.filterMap (fun e =>
    match e.step with
    | Step.fileNameRequested n => some n
    | _ => none)

/-- What a trace entry at the entry of `startCurrentStemExport` shows of the loop-end
marker: the stored sample count is the loop length of the clip at that index, taken from
`song`, times the time per internal tick at that moment, as an `int32_t`. -/
def MarkerOfClipLength (E : World W) (song : Song) (e : Event W) : Prop :=
  ∀ idx : Nat, e.step = Step.startCurrent idx →
    ∃ clip : Clip, song.sessionClips[idx]? = some clip
      ∧ e.se.loopEndPointInSamplesForAudioFile
        = toInt32 (clip.loopLength * (E.getTimePerInternalTick e.world : Int))

/-- A trace entry of a wait round at which `processStarted` is false: the run has been
cancelled by the time of that round. -/
def cancelledInWait (e : Event W) : Bool :=
  decide (e.step = Step.yielded) && !e.se.processStarted

/-- The trace from the first wait round that sees the cancellation on (empty if there
is none). -/
def afterCancel (log : List (Event W)) : List (Event W) :=
  log.dropWhile (fun e => !cancelledInWait e)

/-- During the wait for the target behind `r`: the target exists, and either no wait
round has seen a cancellation, or `processStarted` is false and the trace since the first
such round consists of wait rounds only. -/
def WaitInv (r : MuteRef) (t : Sys W) : Prop :=
  (r.read t.song).isSome
    ∧ (afterCancel t.log = []
      ∨ (t.se.processStarted = false
        ∧ ∃ y ys, afterCancel t.log = y :: ys ∧ ∀ y1 ∈ ys, y1.step = Step.yielded))

/-- After the body for the target at index `k`, reached through `mk k`: either no wait round has seen
a cancellation, or the trace since the first such round consists of wait rounds followed
by the finish of that target, which shows the flag written back by
`finishCurrentStemExport`; and that target is the last one started. -/
def CancelTail (ty : StemExportType) (mk : Nat → MuteRef) (log : List (Event W)) : Prop :=
  afterCancel log = []
    ∨ ∃ y ys e k, afterCancel log = y :: (ys ++ [e])
        ∧ (∀ y1 ∈ ys, y1.step = Step.yielded)
        ∧ e.step = Step.finishCurrent (mk k)
        ∧ (mk k).read e.song = some (!startFlag ty)
        ∧ (startedIndices log).getLast? = some k

/-! ## Folder and file paths -/

/-- Error codes (`Error`); the source names `NONE` and `FOLDER_DOESNT_EXIST`, the other
two stand for what `initSD` and the string operations can report. -/
inductive Error
  | NONE
  | FOLDER_DOESNT_EXIST
  | INSUFFICIENT_RAM
  | SD_CARD
deriving DecidableEq, Repr

/-- Results of the FAT driver (`FRESULT`); the source names `FR_OK` and `FR_EXIST`, the
other two stand for the remaining results. -/
inductive FRESULT
  | FR_OK
  | FR_EXIST
  | FR_DISK_ERR
  | FR_DENIED
deriving DecidableEq, Repr

/-- The storage the path functions talk to, over an arbitrary state `D`. -/
structure Storage (D : Type) where
  /-- `storageManager.initSD()` -/
  initSD : D → Error × D
  /-- `f_mkdir(path)` -/
  f_mkdir : String → D → FRESULT × D

/-- What the path functions read and write: the `stemExport` object, the entry of
`audioFileManager.highestUsedAudioRecordingNumber` for the folder in question, the
storage, how many string operations still succeed (`none`: all of them), and a ghost
list of the paths passed to `f_mkdir` with the result of each request, oldest first. -/
structure PathState (D : Type) where
  se : StemExport
  highestUsedAudioRecordingNumber : Int
  disk : D
  stringOpsLeft : Option Nat
  mkdirRequests : List (String × FRESULT)

variable {D : Type}

/-- One operation of the `String` class that can fail (`set`, `concatenate`,
`concatenateInt`): whether it succeeds, and the state afterwards. -/
def PathState.stringOp (st : PathState D) : Bool × PathState D :=
  match st.stringOpsLeft with
  | none => (true, st)
  | some 0 => (false, st)
  | some (n + 1) => (true, { st with stringOpsLeft := some n })

/-- Modelled from the spec: `String::concatenateInt(number, minNumDigits)` for a signed
number, which is not part of the sources.  A number from 0 on is written in decimal,
zero-padded to `minNumDigits`; the spec says nothing of negative numbers, which the model
writes with a minus sign in front. -/
def concatenateInt (number : Int) (minNumDigits : Nat) : String :=
  if 0 ≤ number then intToStringPadded number.toNat minNumDigits
  else "-" ++ intToStringPadded (-number).toNat minNumDigits

/-- `f_mkdir(path)` on the storage of a path state, with the request recorded. -/
def PathState.mkdir (S : Storage D) (path : String) (st : PathState D) :
    FRESULT × PathState D :=
  ((S.f_mkdir path st.disk).1,
    { st with disk := (S.f_mkdir path st.disk).2
              mkdirRequests := st.mkdirRequests ++ [(path, (S.f_mkdir path st.disk).1)] })

/-- How far a path function got: it returned an error code with the content of
`filePath`, or it is still in the `while (true)` loop after the attempts looked at. -/
inductive PathResult (D : Type)
  | returned (error : Error) (filePath : String) (st : PathState D)
  | searching (st : PathState D)

/-- How far the `while (true)` loop of `getUnusedStemRecordingFolderPath` got: it left
through `break` with this `tempPathForSearch`, it returned an error, or it is still
looping. -/
inductive SearchResult (D : Type)
  | found (tempPathForSearch : String) (st : PathState D)
  | failed (error : Error) (st : PathState D)
  | searching (st : PathState D)

/-- The `while (true)` loop of `getUnusedStemRecordingFolderPath`; `fuel` bounds the
number of attempts looked at. -/
def folderSearch (S : Storage D) (tempPath : String) :
    Nat → String → PathState D → SearchResult D
  | 0, _, st => SearchResult.searching st
  | fuel + 1, tempPathForSearch, st =>
    let m := st.mkdir S tempPathForSearch
    if m.1 = FRESULT.FR_OK then SearchResult.found tempPathForSearch m.2
    else
      let st1 : PathState D :=
        { m.2 with se := { m.2.se with
            highestUsedStemFolderNumber := m.2.se.highestUsedStemFolderNumber + 1 } }
      let o1 := st1.stringOp
      if !o1.1 then SearchResult.failed Error.INSUFFICIENT_RAM o1.2
      else
        let o2 := o1.2.stringOp
        if !o2.1 then SearchResult.failed Error.INSUFFICIENT_RAM o2.2
        else
          let o3 := o2.2.stringOp
          if !o3.1 then SearchResult.failed Error.INSUFFICIENT_RAM o3.2
          else
            folderSearch S tempPath fuel
              (tempPath ++ "-" ++ concatenateInt o3.2.se.highestUsedStemFolderNumber 5) o3.2

/-- The end of `getUnusedStemRecordingFolderPath`, from "save current song name as last
song name exported" on, with `filePath` already set. -/
def saveLastSongName (songNameToSave : String) (filePath : String) (st : PathState D) :
    PathResult D :=
  let o := st.stringOp
  if !o.1 then PathResult.returned Error.INSUFFICIENT_RAM filePath o.2
  else
    PathResult.returned Error.NONE filePath
      { o.2 with se := { o.2.se with lastSongNameForStemExport := songNameToSave } }

/-- The part of `getUnusedStemRecordingFolderPath` between "did we just export this
song?" and "save current song name as last song name exported": `tempPath` holds the
base folder, `"/"` and the name, and `songNameToCompare` is compared with
`lastSongNameForStemExport`. -/
def folderPathOfSongName (S : Storage D) (fuel : Nat) (tempPath : String) (name : String)
    (songNameToCompare : String) (filePath : String) (st : PathState D) : PathResult D :=
  if songNameToCompare ≠ st.se.lastSongNameForStemExport then
    let o5 := st.stringOp
    if !o5.1 then PathResult.returned Error.INSUFFICIENT_RAM filePath o5.2
    else
      let st5 : PathState D :=
        { o5.2 with se := { o5.2.se with highestUsedStemFolderNumber := -1 } }
      match folderSearch S tempPath fuel tempPath st5 with
      | SearchResult.searching st6 => PathResult.searching st6
      | SearchResult.failed error st6 => PathResult.returned error filePath st6
      | SearchResult.found tempPathForSearch st6 =>
        let o6 := st6.stringOp
        if !o6.1 then PathResult.returned Error.INSUFFICIENT_RAM filePath o6.2
        else saveLastSongName name tempPathForSearch o6.2
  else if st.se.highestUsedStemFolderNumber ≠ -1 then
    let o5 := st.stringOp
    if !o5.1 then PathResult.returned Error.INSUFFICIENT_RAM filePath o5.2
    else
      let o6 := o5.2.stringOp
      if !o6.1 then PathResult.returned Error.INSUFFICIENT_RAM filePath o6.2
      else
        let o7 := o6.2.stringOp
        if !o7.1 then PathResult.returned Error.INSUFFICIENT_RAM filePath o7.2
        else
          saveLastSongName name
            (tempPath ++ "-" ++ concatenateInt st.se.highestUsedStemFolderNumber 5) o7.2
  else
    let o7 := st.stringOp
    if !o7.1 then PathResult.returned Error.INSUFFICIENT_RAM filePath o7.2
    else saveLastSongName name tempPath o7.2

/-- `StemExport::getUnusedStemRecordingFolderPath`.  `folderName` is the entry of
`audioRecordingFolderNames` for the folder, `songName` is `currentSong->name`, and
`filePath` is the content of `*filePath` on entry. -/
def getUnusedStemRecordingFolderPath (S : Storage D) (fuel : Nat) (folderName : String)
    (songName : String) (filePath : String) (st : PathState D) : PathResult D :=
  let i := S.initSD st.disk
  let st0 : PathState D := { st with disk := i.2 }
  if i.1 ≠ Error.NONE then PathResult.returned i.1 filePath st0
  else
    let o1 := st0.stringOp
    if !o1.1 then PathResult.returned Error.INSUFFICIENT_RAM filePath o1.2
    else
      let m := o1.2.mkdir S folderName
      if m.1 ≠ FRESULT.FR_OK ∧ m.1 ≠ FRESULT.FR_EXIST then
        PathResult.returned Error.FOLDER_DOESNT_EXIST filePath m.2
      else
        let o2 := m.2.stringOp
        if !o2.1 then PathResult.returned Error.INSUFFICIENT_RAM filePath o2.2
        else
          let name : String := if songName = "" then "UNSAVED" else songName
          let o3 := o2.2.stringOp
          let o4 := o3.2.stringOp
          let songNameToCompare : String := if o4.1 then name else ""
          if !o3.1 then PathResult.returned Error.INSUFFICIENT_RAM filePath o4.2
          else
            folderPathOfSongName S fuel (folderName ++ "/" ++ name) name songNameToCompare
              filePath o4.2

/-- `StemExport::getUnusedStemRecordingFilePath`, with the same parameters. -/
def getUnusedStemRecordingFilePath (S : Storage D) (fuel : Nat) (folderName : String)
    (songName : String) (filePath : String) (st : PathState D) : PathResult D :=
  let i := S.initSD st.disk
  let st0 : PathState D := { st with disk := i.2 }
  if i.1 ≠ Error.NONE then PathResult.returned i.1 filePath st0
  else
    match getUnusedStemRecordingFolderPath S fuel folderName songName filePath st0 with
    | PathResult.searching st1 => PathResult.searching st1
    | PathResult.returned error filePath1 st1 =>
      if error ≠ Error.NONE then PathResult.returned error filePath1 st1
      else if st1.se.wavFileNameForStemExportSet then
        let st2 : PathState D :=
          { st1 with se := { st1.se with wavFileNameForStemExportSet := false } }
        let o1 := st2.stringOp
        if !o1.1 then PathResult.returned Error.INSUFFICIENT_RAM filePath1 o1.2
        else
          PathResult.returned Error.NONE
            (filePath1 ++ st1.se.wavFileNameForStemExport) o1.2
      else
        let o1 := st1.stringOp
        if !o1.1 then PathResult.returned Error.INSUFFICIENT_RAM filePath1 o1.2
        else
          let st2 : PathState D :=
            { o1.2 with
                highestUsedAudioRecordingNumber := o1.2.highestUsedAudioRecordingNumber + 1 }
          let o2 := st2.stringOp
          if !o2.1 then PathResult.returned Error.INSUFFICIENT_RAM (filePath1 ++ "/REC") o2.2
          else
            let o3 := o2.2.stringOp
            if !o3.1 then
              PathResult.returned Error.INSUFFICIENT_RAM
                (filePath1 ++ "/REC" ++ concatenateInt st2.highestUsedAudioRecordingNumber 5)
                o3.2
            else
              PathResult.returned Error.NONE
                (filePath1 ++ "/REC" ++ concatenateInt st2.highestUsedAudioRecordingNumber 5
                  ++ ".WAV") o3.2

/-- Modelled from the spec: a storage on which `createDirectoryIfAbsent` only ever
answers "created" or "already exists".  The state is the list of the directories that
exist; `initSD` succeeds. -/
def dirStorage : Storage (List String) where
  initSD dirs := (Error.NONE, dirs)
  f_mkdir path dirs :=
    if path ∈ dirs then (FRESULT.FR_EXIST, dirs) else (FRESULT.FR_OK, dirs ++ [path])

/-- A storage that holds the folder `folderName` and refuses to create anything:
`f_mkdir` answers `FR_EXIST` for `folderName` and `FR_DENIED` for every other path. -/
def deniedStorage (folderName : String) : Storage Unit where
  initSD u := (Error.NONE, u)
  f_mkdir path u := if path = folderName then (FRESULT.FR_EXIST, u) else (FRESULT.FR_DENIED, u)

/-- A path state around a `stemExport` object and a storage state, with the fallback
counter at `-1`, no failing string operation and no `f_mkdir` request so far. -/
def PathState.start (se : StemExport) (disk : D) : PathState D :=
  { se := se, highestUsedAudioRecordingNumber := -1, disk := disk, stringOpsLeft := none,
    mkdirRequests := [] }

/-! ## The whole export process -/

/-- `StemExport::finishStemExportProcess`; of its effects only the two on the
`stemExport` object are modelled, the rest is display and scroll position. -/
def finishStemExportProcess (_stemExportType : StemExportType) (_elementsProcessed : Nat)
    (s : Sys W) : Sys W :=
  { s with se := { s.se with
      highestUsedStemFolderNumber := s.se.highestUsedStemFolderNumber + 1
      processStarted := false } }

/-- The collaborators of `startStemExportProcess`: those of the loops, the record
button, and the assignment `playbackHandler.recording = RecordingMode::OFF` (with
`setLedStates`), after which `recording` reads `OFF`. -/
structure Controls (W : Type) extends World W where
  /-- `playbackHandler.recordButtonPressed()` -/
  recordButtonPressed : W → W
  /-- `playbackHandler.recording = RecordingMode::OFF; playbackHandler.setLedStates()` -/
  setRecordingOff : W → W
  /-- reading back what was assigned -/
  recording_setRecordingOff : ∀ w, recording (setRecordingOff w) = RecordingMode.OFF

/-- The state of the whole process: the state of the loops and the entry of
`audioFileManager.highestUsedAudioRecordingNumber` for the `STEMS` folder. -/
structure Machine (W : Type) where
  sys : Sys W
  highestUsedAudioRecordingNumber : Int

/-- `StemExport::startStemExportProcess`; it returns the final state unless a wait of
the export loop is still suspended after `fuel` rounds. -/
def startStemExportProcess (C : Controls W) (fuel : Nat) (stemExportType : StemExportType)
    (m : Machine W) : Progress W (Machine W) :=
  let s0 : Sys W :=
    { m.sys with
        se := { m.sys.se with currentStemExportType := stemExportType, processStarted := true }
        world := C.recordButtonPressed m.sys.world }
  let m0 : Machine W := { sys := s0, highestUsedAudioRecordingNumber := -1 }
  let r :=
    match stemExportType with
    | StemExportType.CLIP => exportClipStems C.toWorld fuel stemExportType m0.sys
    | StemExportType.TRACK => exportInstrumentStems C.toWorld fuel stemExportType m0.sys
  match r with
  | Progress.suspended s1 => Progress.suspended s1
  | Progress.returned (elementsProcessed, s1) =>
    let s2 :=
      if s1.se.processStarted then finishStemExportProcess stemExportType elementsProcessed s1
      else s1
    let s3 : Sys W :=
      if C.recording s2.world ≠ RecordingMode.OFF then
        { s2 with world := C.setRecordingOff s2.world }
      else s2
    Progress.returned { m0 with sys := s3 }

/-- The collaborators of the examples with a record button that does nothing. -/
def rigControls : Controls Rig :=
  { rigWorld with
    recordButtonPressed := fun r => r
    setRecordingOff := fun r => r
    recording_setRecordingOff := fun _ => rfl }

/-! ## Auxiliary definitions used in the statements about paths and isolation -/

/-- The name `getUnusedStemRecordingFolderPath` uses for the song: `"UNSAVED"` for an
empty name. -/
def projectName (songName : String) : String :=
  if songName = "" then "UNSAVED" else songName

/-- The candidate path for a folder number: `tempPath` itself for `-1`, and otherwise
`tempPath`, `"-"` and the number as `concatenateInt(number, 5)` writes it. -/
def folderCandidate (tempPath : String) (number : Int) : String :=
  if number = -1 then tempPath else tempPath ++ "-" ++ concatenateInt number 5

/-- The value read back from a string of decimal digits. -/
def digitsValue : List Char → Nat
  | [] => 0
  | c :: cs => (c.toNat - 48) * 10 ^ cs.length + digitsValue cs

/-- The state a path function has reached. -/
def PathResult.state : PathResult D → PathState D
  | PathResult.returned _ _ st => st
  | PathResult.searching st => st

/-- The path a call returned with `Error::NONE`. -/
def PathResult.path : PathResult D → Option String
  | PathResult.returned Error.NONE filePath _ => some filePath
  | _ => none

/-- The path state of the examples after the folder of "Song A" has been resolved on a
card that holds the base folder only: the folder "Song A" exists, the folder number is
`-1` and the last song name is "Song A". -/
def demoResolved : PathState (List String) :=
  (getUnusedStemRecordingFolderPath dirStorage 5 "SAMPLES/STEMS" "Song A" ""
    (PathState.start StemExport.new ["SAMPLES/STEMS"])).state

/-- The state the search loop has reached. -/
def SearchResult.state : SearchResult D → PathState D
  | SearchResult.found _ st => st
  | SearchResult.failed _ st => st
  | SearchResult.searching st => st

/-- The target being exported at the end of a trace: the index of the last
`muteStateWritten` entry, unless a `finishCurrent` entry follows it. -/
def currentTarget (log : List (Event W)) : Option Nat :=
  log.foldl (fun cur e =>
    match e.step with
    | Step.muteStateWritten k => some k
    | Step.finishCurrent _ => none
    | _ => cur) none

/-- Solo isolation of a trace, for the targets `mk 0`, `mk 1`, … of a run of type `ty`:
at every entry other than the restore step, a target whose flag stands at the value
`startCurrentStemExport` writes (unmuted, active) is the target being exported at that
entry, and it is marked for export. -/
def SoloIsolated (mk : Nat → MuteRef) (ty : StemExportType) (log : List (Event W)) : Prop :=
  ∀ (pre : List (Event W)) (e : Event W) (post : List (Event W)),
    log = pre ++ e :: post → e.step ≠ Step.restored →
    ∀ i : Nat, (mk i).read e.song = some (startFlag ty) →
      currentTarget (pre ++ [e]) = some i ∧ (mk i).exportStem e.song = some true

/-- The invariant between two targets: the trace is isolated, every entry and the
current song agree with the song `P` up to the live flags, no target is being exported
and no flag stands at the value `startCurrentStemExport` writes. -/
def SoloIdle (mk : Nat → MuteRef) (ty : StemExportType) (P : Song) (s : Sys W) : Prop :=
  SoloIsolated mk ty s.log
    ∧ (∀ e ∈ s.log, e.song.eraseMutes = P.eraseMutes)
    ∧ s.song.eraseMutes = P.eraseMutes
    ∧ currentTarget s.log = none
    ∧ ∀ i : Nat, (mk i).read s.song ≠ some (startFlag ty)

/-- The invariant while target `k` is exported: as `SoloIdle`, but `k` is the target
being exported, it is marked for export, and only its flag can stand at the value
`startCurrentStemExport` writes. -/
def SoloBusy (mk : Nat → MuteRef) (ty : StemExportType) (P : Song) (k : Nat)
    (s : Sys W) : Prop :=
  SoloIsolated mk ty s.log
    ∧ (∀ e ∈ s.log, e.song.eraseMutes = P.eraseMutes)
    ∧ s.song.eraseMutes = P.eraseMutes
    ∧ currentTarget s.log = some k
    ∧ (mk k).exportStem s.song = some true
    ∧ ∀ i : Nat, (mk i).read s.song = some (startFlag ty) → i = k

/-- Collaborators that count the `endRecordingSoon` requests they receive: the state is
paired with the number of requests so far, and everything else is as in `E`. -/
def countingWorld (E : World W) : World (W × Nat) where
  isEitherClockActive p := E.isEitherClockActive p.1
  recording p := E.recording p.1
  recordingSource p := E.recordingSource p.1
  approxRMSLevel p := E.approxRMSLevel p.1
  getTimePerInternalTick p := E.getTimePerInternalTick p.1
  lastSwungTickActioned p := E.lastSwungTickActioned p.1
  getNumSwungTicksInSinceLastActionedSwungTick p :=
    E.getNumSwungTicksInSinceLastActionedSwungTick p.1
  stringOpsBeforeFailure p := E.stringOpsBeforeFailure p.1
  playButtonPressed p := (E.playButtonPressed p.1, p.2)
  beginOutputRecording b p := (E.beginOutputRecording b p.1, p.2)
  endRecordingSoon p := (E.endRecordingSoon p.1, p.2 + 1)
  endPlayback p := (E.endPlayback p.1, p.2)
  runOtherTasks p := (E.runOtherTasks p.1, p.2)
  pollsLoopEnd p := E.pollsLoopEnd p.1
  cancelRequested p := E.cancelRequested p.1

/-- The invariant of a wait in which `checkForSilence` requests the end of the capture
at most once: the number of requests `c` has grown by at most one since the wait for the
target began at `c0`, and not at all while `stopOutputRecordingAtSilence` is still set. -/
def SilenceInv (c : W → Nat) (c0 : Nat) (s : Sys W) : Prop :=
  c s.world ≤ c0 + 1 ∧ (s.se.stopOutputRecordingAtSilence = true → c s.world = c0)

/-- The trace has grown from `base` by entries none of which is the restore step. -/
def NoRestoreSince (base : List (Event W)) (s : Sys W) : Prop :=
  ∃ new : List (Event W), s.log = base ++ new ∧ ∀ e ∈ new, e.step ≠ Step.restored

/-- The path state of the examples after a run of "Song A" has completed:
`demoResolved` with the folder number advanced by `finishStemExportProcess`. -/
def demoCompleted : PathState (List String) :=
  { demoResolved with
    se := (finishStemExportProcess StemExportType.TRACK 3
      (Sys.start demoResolved.se demoSong rigIdle)).se }

/-- A scan of a trace for `highestUsedStemFolderNumber`: the number shown by the last
entry (`h` for the empty trace), and how many entries show another number than the
entry before them (than `h`, for the first entry). -/
def folderScan (h : Int) (log : List (Event W)) : Int × Nat :=
  log.foldl (fun acc e =>
    (e.se.highestUsedStemFolderNumber,
      if e.se.highestUsedStemFolderNumber = acc.1 then acc.2 else acc.2 + 1)) (h, 0)

/-- Every entry of the trace shows the folder number of the entry before it (of `h`, for
the first entry), or that number plus one; and it shows it plus one only if it is the
entry of a round of a wait and shows `processStarted` cleared. -/
def FolderSteps (h : Int) (log : List (Event W)) : Prop :=
  ∀ (pre : List (Event W)) (e : Event W) (post : List (Event W)),
    log = pre ++ e :: post →
    e.se.highestUsedStemFolderNumber = (folderScan h pre).1
    ∨ (e.se.highestUsedStemFolderNumber = (folderScan h pre).1 + 1
      ∧ e.step = Step.yielded ∧ e.se.processStarted = false)

/-- A step that leaves the trace, the folder number, `processStarted` and the last song
name alone. -/
def FolderQuiet (s t : Sys W) : Prop :=
  t.log = s.log
    ∧ t.se.highestUsedStemFolderNumber = s.se.highestUsedStemFolderNumber
    ∧ t.se.processStarted = s.se.processStarted
    ∧ t.se.lastSongNameForStemExport = s.se.lastSongNameForStemExport

/-- A step that leaves the trace and the last song name alone, advances the folder
number by one and clears `processStarted`: what a call of `stopStemExportProcess` does. -/
def FolderMoved (s t : Sys W) : Prop :=
  t.log = s.log
    ∧ t.se.highestUsedStemFolderNumber = s.se.highestUsedStemFolderNumber + 1
    ∧ t.se.processStarted = false
    ∧ t.se.lastSongNameForStemExport = s.se.lastSongNameForStemExport

/-- The invariant of a run that began with the folder number `h`, the last song name
`name` and the trace `base`: the entries added since satisfy `FolderSteps`, the last of
them shows the current folder number, that number is `h` plus the count of the scan, the
count is zero while `processStarted` is set and at least one once it is cleared, the
last song name is unchanged, and the count is zero exactly when every one of the entries
shows `processStarted` set. -/
def FolderInv (h : Int) (name : String) (base : List (Event W)) (s : Sys W) : Prop :=
  ∃ new : List (Event W), s.log = base ++ new
    ∧ FolderSteps h new
    ∧ (folderScan h new).1 = s.se.highestUsedStemFolderNumber
    ∧ s.se.highestUsedStemFolderNumber = h + (folderScan h new).2
    ∧ (s.se.processStarted = true → (folderScan h new).2 = 0)
    ∧ (s.se.processStarted = false → 1 ≤ (folderScan h new).2)
    ∧ s.se.lastSongNameForStemExport = name
    ∧ ((folderScan h new).2 = 0 → ∀ e ∈ new, e.se.processStarted = true)
    ∧ (1 ≤ (folderScan h new).2 → ∃ e ∈ new, e.se.processStarted = false)

/-- The collaborators of the examples with a level meter that reads 20 on both channels
as long as the rig has rounds left, and silence afterwards. -/
def loudControls : Controls Rig :=
  { rigControls with
    approxRMSLevel := fun r => if 0 < r.remaining then (20, 20) else (0, 0) }

/-! # Theorems -/

/-! ## Index loops over a list -/

theorem foldl_keeps {σ ι : Type} (P : σ → Prop) (step : σ → ι → σ)
    (h : ∀ s i, P s → P (step s i)) (l : List ι) (s : σ) (hs : P s) :
    P (l.foldl step s) := by
  induction l generalizing s with
  | nil => simpa using hs
  | cons a l ih => exact ih _ (h s a hs)

theorem foldl_range_getElem? {σ α : Type} (get : σ → List α) (step : σ → Nat → σ) (f : α → α)
    (hstep : ∀ s i, get (step s i) = setAt f (get s) i)
    (s : σ) (k i : Nat) :
    (get ((List.range k).foldl step s))[i]? =
      if i < k then ((get s)[i]?).map f else (get s)[i]? := by
  induction k generalizing i with
  | zero => simp
  | succ k ih =>
    rw [List.range_succ, List.foldl_append, List.foldl_cons, List.foldl_nil, hstep]
    unfold setAt
    have hk := ih k
    simp only [lt_irrefl, if_false] at hk
    rw [hk]
    cases hget : (get s)[k]? with
    | none =>
      simp only
      rw [ih i]
      by_cases hik : i < k
      · simp [hik, Nat.lt_succ_of_lt hik]
      · by_cases hik2 : i = k
        · subst hik2; simp [hget]
        · have : ¬ i < k + 1 := by omega
          simp [hik, this]
    | some a =>
      simp only
      rw [List.getElem?_set]
      by_cases hik2 : k = i
      · subst hik2
        have hlt : k < (get ((List.range k).foldl step s)).length := by
          have := hk
          rw [hget] at this
          exact (List.getElem?_eq_some_iff.mp this).1
        simp [hlt, hget]
      · rw [if_neg hik2, ih i]
        by_cases hik : i < k
        · simp [hik, Nat.lt_succ_of_lt hik]
        · have : ¬ i < k + 1 := by omega
          simp [hik, this]

theorem foldl_range_eq_map {σ α : Type} (get : σ → List α) (step : σ → Nat → σ) (f : α → α)
    (hstep : ∀ s i, get (step s i) = setAt f (get s) i)
    (s : σ) :
    get ((List.range (get s).length).foldl step s) = (get s).map f := by
  apply List.ext_getElem?
  intro i
  rw [foldl_range_getElem? get step f hstep]
  by_cases hi : i < (get s).length
  · simp [hi]
  · have : (get s)[i]? = none := by simp; omega
    simp [hi, this]

/-! ## What preparing and restoring do to the targets -/

theorem Sys.eq_of_fields (a b : Sys W) (h1 : a.se = b.se) (h2 : a.song.name = b.song.name)
    (h3 : a.song.outputs = b.song.outputs) (h4 : a.song.sessionClips = b.song.sessionClips)
    (h5 : a.world = b.world) (h6 : a.log = b.log) : a = b := by
  obtain ⟨ase, asong, aw, al⟩ := a
  obtain ⟨bse, bsong, bw, bl⟩ := b
  obtain ⟨an, ao, ac⟩ := asong
  obtain ⟨bn, bo, bc⟩ := bsong
  simp only at h1 h2 h3 h4 h5 h6
  subst h1 h2 h3 h4 h5 h6
  rfl

theorem disarmInstrumentStep_outputs (s : Sys W) (i : Nat) :
    (disarmInstrumentStep s i).song.outputs = setAt disarmOutput s.song.outputs i := by
  unfold disarmInstrumentStep setAt
  cases s.song.outputs[i]? <;> rfl

theorem disarmInstrumentStep_se (s : Sys W) (i : Nat) :
    (disarmInstrumentStep s i).se =
      { s.se with totalNumStemsToExport := s.se.totalNumStemsToExport
          + (List.countP outputEligible (s.song.outputs[i]?).toList : Nat) } := by
  unfold disarmInstrumentStep
  cases h : s.song.outputs[i]? with
  | none => simp
  | some o =>
    by_cases he : outputEligible o = true
    · simp [he]
    · simp [he]

theorem disarmInstrumentStep_frame (s : Sys W) (i : Nat) :
    (disarmInstrumentStep s i).song.name = s.song.name
      ∧ (disarmInstrumentStep s i).song.sessionClips = s.song.sessionClips
      ∧ (disarmInstrumentStep s i).world = s.world
      ∧ (disarmInstrumentStep s i).log = s.log := by
  unfold disarmInstrumentStep
  cases s.song.outputs[i]? <;> simp

theorem disarmInstrument_fold_se (s : Sys W) (k : Nat) :
    ((List.range k).foldl disarmInstrumentStep s).se =
      { s.se with totalNumStemsToExport := s.se.totalNumStemsToExport
          + (List.countP outputEligible (s.song.outputs.take k) : Nat) } := by
  induction k with
  | zero => simp
  | succ k ih =>
    rw [List.range_succ, List.foldl_append, List.foldl_cons, List.foldl_nil,
      disarmInstrumentStep_se, ih]
    have hk := foldl_range_getElem? (fun t : Sys W => t.song.outputs) disarmInstrumentStep
      disarmOutput disarmInstrumentStep_outputs s k k
    simp only [lt_irrefl, if_false] at hk
    rw [hk, List.take_succ, List.countP_append]
    simp [add_assoc]

theorem disarmAllInstrumentsForStemExport_eq (s : Sys W) :
    disarmAllInstrumentsForStemExport s =
      (s.song.outputs.length, Sys.emit Step.prepared
        { se := { s.se with numStemsExported := 0
                            totalNumStemsToExport := List.countP outputEligible s.song.outputs }
          song := { s.song with outputs := s.song.outputs.map disarmOutput }
          world := s.world
          log := s.log }) := by
  unfold disarmAllInstrumentsForStemExport
  simp only
  congr 2
  have hf := foldl_keeps
    (fun t : Sys W => t.song.name = s.song.name ∧ t.song.sessionClips = s.song.sessionClips
      ∧ t.world = s.world ∧ t.log = s.log) disarmInstrumentStep
    (fun t i ht => by
      obtain ⟨h1, h2, h3, h4⟩ := disarmInstrumentStep_frame t i
      exact ⟨h1.trans ht.1, h2.trans ht.2.1, h3.trans ht.2.2.1, h4.trans ht.2.2.2⟩)
    (List.range s.song.outputs.length)
    { s with se := { s.se with numStemsExported := 0, totalNumStemsToExport := 0 } }
    ⟨rfl, rfl, rfl, rfl⟩
  apply Sys.eq_of_fields
  · rw [disarmInstrument_fold_se]
    simp
  · exact hf.1
  · exact foldl_range_eq_map (fun t : Sys W => t.song.outputs) disarmInstrumentStep
      disarmOutput disarmInstrumentStep_outputs
      { s with se := { s.se with numStemsExported := 0, totalNumStemsToExport := 0 } }
  · exact hf.2.1
  · exact hf.2.2.1
  · exact hf.2.2.2

theorem restoreInstrumentStep_outputs (s : Sys W) (i : Nat) :
    (restoreInstrumentStep s i).song.outputs = setAt restoreOutput s.song.outputs i := by
  unfold restoreInstrumentStep setAt
  cases s.song.outputs[i]? <;> rfl

theorem restoreInstrumentStep_frame (s : Sys W) (i : Nat) :
    (restoreInstrumentStep s i).se = s.se
      ∧ (restoreInstrumentStep s i).song.name = s.song.name
      ∧ (restoreInstrumentStep s i).song.sessionClips = s.song.sessionClips
      ∧ (restoreInstrumentStep s i).world = s.world
      ∧ (restoreInstrumentStep s i).log = s.log := by
  unfold restoreInstrumentStep
  cases s.song.outputs[i]? <;> simp

theorem restoreAllInstrumentMutes_eq (s : Sys W) :
    restoreAllInstrumentMutes s.song.outputs.length s =
      Sys.emit Step.restored
        { s with song := { s.song with outputs := s.song.outputs.map restoreOutput } } := by
  unfold restoreAllInstrumentMutes
  congr 1
  have hf := foldl_keeps
    (fun t : Sys W => t.se = s.se ∧ t.song.name = s.song.name
      ∧ t.song.sessionClips = s.song.sessionClips ∧ t.world = s.world ∧ t.log = s.log)
    restoreInstrumentStep
    (fun t i ht => by
      obtain ⟨h0, h1, h2, h3, h4⟩ := restoreInstrumentStep_frame t i
      exact ⟨h0.trans ht.1, h1.trans ht.2.1, h2.trans ht.2.2.1, h3.trans ht.2.2.2.1,
        h4.trans ht.2.2.2.2⟩)
    (List.range s.song.outputs.length) s ⟨rfl, rfl, rfl, rfl, rfl⟩
  apply Sys.eq_of_fields
  · exact hf.1
  · exact hf.2.1
  · exact foldl_range_eq_map (fun t : Sys W => t.song.outputs) restoreInstrumentStep
      restoreOutput restoreInstrumentStep_outputs s
  · exact hf.2.2.1
  · exact hf.2.2.2.1
  · exact hf.2.2.2.2

theorem disarmClipStep_clips (s : Sys W) (i : Nat) :
    (disarmClipStep s i).song.sessionClips = setAt disarmClip s.song.sessionClips i := by
  unfold disarmClipStep setAt
  cases s.song.sessionClips[i]? <;> rfl

theorem disarmClipStep_se (s : Sys W) (i : Nat) :
    (disarmClipStep s i).se =
      { s.se with totalNumStemsToExport := s.se.totalNumStemsToExport
          + (List.countP clipEligible (s.song.sessionClips[i]?).toList : Nat) } := by
  unfold disarmClipStep
  cases h : s.song.sessionClips[i]? with
  | none => simp
  | some o =>
    by_cases he : clipEligible o = true
    · simp [he]
    · simp [he]

theorem disarmClipStep_frame (s : Sys W) (i : Nat) :
    (disarmClipStep s i).song.name = s.song.name
      ∧ (disarmClipStep s i).song.outputs = s.song.outputs
      ∧ (disarmClipStep s i).world = s.world
      ∧ (disarmClipStep s i).log = s.log := by
  unfold disarmClipStep
  cases s.song.sessionClips[i]? <;> simp

theorem disarmClip_fold_se (s : Sys W) (k : Nat) :
    ((List.range k).foldl disarmClipStep s).se =
      { s.se with totalNumStemsToExport := s.se.totalNumStemsToExport
          + (List.countP clipEligible (s.song.sessionClips.take k) : Nat) } := by
  induction k with
  | zero => simp
  | succ k ih =>
    rw [List.range_succ, List.foldl_append, List.foldl_cons, List.foldl_nil,
      disarmClipStep_se, ih]
    have hk := foldl_range_getElem? (fun t : Sys W => t.song.sessionClips) disarmClipStep
      disarmClip disarmClipStep_clips s k k
    simp only [lt_irrefl, if_false] at hk
    rw [hk, List.take_succ, List.countP_append]
    simp [add_assoc]

theorem disarmAllClipsForStemExport_eq (s : Sys W) :
    disarmAllClipsForStemExport s =
      (s.song.sessionClips.length, Sys.emit Step.prepared
        { se := { s.se with numStemsExported := 0
                            totalNumStemsToExport := List.countP clipEligible s.song.sessionClips }
          song := { s.song with sessionClips := s.song.sessionClips.map disarmClip }
          world := s.world
          log := s.log }) := by
  unfold disarmAllClipsForStemExport
  simp only
  congr 2
  have hf := foldl_keeps
    (fun t : Sys W => t.song.name = s.song.name ∧ t.song.outputs = s.song.outputs
      ∧ t.world = s.world ∧ t.log = s.log) disarmClipStep
    (fun t i ht => by
      obtain ⟨h1, h2, h3, h4⟩ := disarmClipStep_frame t i
      exact ⟨h1.trans ht.1, h2.trans ht.2.1, h3.trans ht.2.2.1, h4.trans ht.2.2.2⟩)
    (List.range s.song.sessionClips.length)
    { s with se := { s.se with numStemsExported := 0, totalNumStemsToExport := 0 } }
    ⟨rfl, rfl, rfl, rfl⟩
  apply Sys.eq_of_fields
  · rw [disarmClip_fold_se]
    simp
  · exact hf.1
  · exact hf.2.1
  · exact foldl_range_eq_map (fun t : Sys W => t.song.sessionClips) disarmClipStep
      disarmClip disarmClipStep_clips
      { s with se := { s.se with numStemsExported := 0, totalNumStemsToExport := 0 } }
  · exact hf.2.2.1
  · exact hf.2.2.2

theorem restoreClipStep_clips (s : Sys W) (i : Nat) :
    (restoreClipStep s i).song.sessionClips = setAt restoreClip s.song.sessionClips i := by
  unfold restoreClipStep setAt
  cases s.song.sessionClips[i]? <;> rfl

theorem restoreClipStep_frame (s : Sys W) (i : Nat) :
    (restoreClipStep s i).se = s.se
      ∧ (restoreClipStep s i).song.name = s.song.name
      ∧ (restoreClipStep s i).song.outputs = s.song.outputs
      ∧ (restoreClipStep s i).world = s.world
      ∧ (restoreClipStep s i).log = s.log := by
  unfold restoreClipStep
  cases s.song.sessionClips[i]? <;> simp

theorem restoreAllClipMutes_eq (s : Sys W) :
    restoreAllClipMutes s.song.sessionClips.length s =
      Sys.emit Step.restored
        { s with song := { s.song with sessionClips := s.song.sessionClips.map restoreClip } } := by
  unfold restoreAllClipMutes
  congr 1
  have hf := foldl_keeps
    (fun t : Sys W => t.se = s.se ∧ t.song.name = s.song.name
      ∧ t.song.outputs = s.song.outputs ∧ t.world = s.world ∧ t.log = s.log)
    restoreClipStep
    (fun t i ht => by
      obtain ⟨h0, h1, h2, h3, h4⟩ := restoreClipStep_frame t i
      exact ⟨h0.trans ht.1, h1.trans ht.2.1, h2.trans ht.2.2.1, h3.trans ht.2.2.2.1,
        h4.trans ht.2.2.2.2⟩)
    (List.range s.song.sessionClips.length) s ⟨rfl, rfl, rfl, rfl, rfl⟩
  apply Sys.eq_of_fields
  · exact hf.1
  · exact hf.2.1
  · exact hf.2.2.1
  · exact foldl_range_eq_map (fun t : Sys W => t.song.sessionClips) restoreClipStep
      restoreClip restoreClipStep_clips s
  · exact hf.2.2.2.1
  · exact hf.2.2.2.2

/-! ## Proof rules for the wait and the loops -/

theorem yieldUntil_rule (E : World W) (P : Sys W → Prop)
    (hround : ∀ t, P t → P (yieldRound E t).2) (fuel : Nat) (s : Sys W) (hs : P s) :
    (∀ s1, yieldUntil E fuel s = Progress.returned s1 → P s1)
      ∧ (∀ s1, yieldUntil E fuel s = Progress.suspended s1 → P s1) := by
  induction fuel generalizing s with
  | zero =>
    constructor
    · intro s1 h
      simp [yieldUntil] at h
    · intro s1 h
      simp only [yieldUntil, Progress.suspended.injEq] at h
      exact h ▸ hs
  | succ fuel ih =>
    by_cases hc : (yieldRound E s).1 = true
    · constructor
      · intro s1 h
        simp only [yieldUntil, hc, if_true, Progress.returned.injEq] at h
        exact h ▸ hround s hs
      · intro s1 h
        simp [yieldUntil, hc] at h
    · have ih2 := ih (yieldRound E s).2 (hround s hs)
      constructor
      · intro s1 h
        simp only [yieldUntil, hc] at h
        exact ih2.1 s1 h
      · intro s1 h
        simp only [yieldUntil, hc] at h
        exact ih2.2 s1 h

theorem exportTarget_rule (E : World W) (fuel : Nat) (ty : StemExportType) (output : Output)
    (r : MuteRef) (k : Nat) (exportStem : Bool) (s : Sys W)
    (Mid : Sys W → Prop) (Q : Bool → Sys W → Prop)
    (hskip : exportStem = false → Q false (Sys.emit (Step.startCurrent k) s))
    (hstart : exportStem = true → Mid (startCurrentStemExport E ty output r k true s).2)
    (hround : ∀ t, Mid t → Mid (yieldRound E t).2)
    (hfin : ∀ t, Mid t →
      Q (!(finishCurrentStemExport ty r t).se.processStarted) (finishCurrentStemExport ty r t)) :
    (∀ b s1, exportTarget E fuel ty output r k exportStem s = Progress.returned (b, s1) → Q b s1)
      ∧ (∀ s1, exportTarget E fuel ty output r k exportStem s = Progress.suspended s1 → Mid s1) := by
  cases exportStem with
  | false =>
    constructor
    · intro b s1 h
      simp only [exportTarget, startCurrentStemExport, Bool.not_false, if_true,
        Progress.returned.injEq, Prod.mk.injEq] at h
      obtain ⟨hb, hs1⟩ := h
      subst hb hs1
      exact hskip rfl
    · intro s1 h
      simp [exportTarget, startCurrentStemExport] at h
  | true =>
    have hy := yieldUntil_rule E Mid hround fuel _ (hstart rfl)
    have h1 : (startCurrentStemExport E ty output r k true s).1 = true := by
      simp [startCurrentStemExport]
    constructor
    · intro b s1 h
      unfold exportTarget at h
      simp only [h1, Bool.not_true] at h
      cases hyu : yieldUntil E fuel (startCurrentStemExport E ty output r k true s).2 with
      | suspended s2 => simp [hyu] at h
      | returned s2 =>
        simp only [hyu, Bool.false_eq_true, if_false, Progress.returned.injEq,
          Prod.mk.injEq] at h
        obtain ⟨hb, hs1⟩ := h
        subst hb hs1
        exact hfin s2 (hy.1 s2 hyu)
    · intro s1 h
      unfold exportTarget at h
      simp only [h1, Bool.not_true] at h
      cases hyu : yieldUntil E fuel (startCurrentStemExport E ty output r k true s).2 with
      | suspended s2 =>
        simp only [hyu, Bool.false_eq_true, if_false, Progress.suspended.injEq] at h
        exact h ▸ hy.2 s2 hyu
      | returned s2 => simp [hyu] at h

theorem descLoop_rule (body : Nat → Sys W → Progress W (Bool × Sys W))
    (Inv : Nat → Sys W → Prop) (Post Susp : Sys W → Prop)
    (hsusp : ∀ k s s1, Inv (k + 1) s → body k s = Progress.suspended s1 → Susp s1)
    (hbreak : ∀ k s s1, Inv (k + 1) s → body k s = Progress.returned (true, s1) → Post s1)
    (hcont : ∀ k s s1, Inv (k + 1) s → body k s = Progress.returned (false, s1) → Inv k s1)
    (h0 : ∀ s, Inv 0 s → Post s) (n : Nat) (s : Sys W) (hs : Inv n s) :
    (∀ s1, descLoop body n s = Progress.returned s1 → Post s1)
      ∧ (∀ s1, descLoop body n s = Progress.suspended s1 → Susp s1) := by
  induction n generalizing s with
  | zero =>
    constructor
    · intro s1 h
      simp only [descLoop, Progress.returned.injEq] at h
      exact h ▸ h0 s hs
    · intro s1 h
      simp [descLoop] at h
  | succ k ih =>
    cases hb : body k s with
    | suspended s2 =>
      constructor
      · intro s1 h
        simp [descLoop, hb] at h
      · intro s1 h
        simp only [descLoop, hb, Progress.suspended.injEq] at h
        exact h ▸ hsusp k s s2 hs hb
    | returned p =>
      obtain ⟨b, s2⟩ := p
      cases b with
      | true =>
        constructor
        · intro s1 h
          simp only [descLoop, hb, Progress.returned.injEq] at h
          exact h ▸ hbreak k s s2 hs hb
        · intro s1 h
          simp [descLoop, hb] at h
      | false =>
        have ih2 := ih s2 (hcont k s s2 hs hb)
        constructor
        · intro s1 h
          simp only [descLoop, hb] at h
          exact ih2.1 s1 h
        · intro s1 h
          simp only [descLoop, hb] at h
          exact ih2.2 s1 h

/-! ## What the loops leave untouched -/

theorem map_set_of_same {α β : Type} (f : α → β) (l : List α) (i : Nat) (a b : α)
    (h : l[i]? = some a) (hf : f b = f a) : (l.set i b).map f = l.map f := by
  apply List.ext_getElem?
  intro j
  rw [List.getElem?_map, List.getElem?_map, List.getElem?_set]
  by_cases hij : i = j
  · subst hij
    have hlt : i < l.length := (List.getElem?_eq_some_iff.mp h).1
    simp [hlt, h, hf]
  · simp [hij]

theorem MuteRef.write_eraseMutes (r : MuteRef) (b : Bool) (song : Song) :
    (r.write b song).eraseMutes = song.eraseMutes := by
  cases r with
  | output idx =>
    cases h : song.outputs[idx]? with
    | none => simp only [MuteRef.write, h]
    | some o =>
      simp only [MuteRef.write, h, Song.eraseMutes]
      rw [map_set_of_same eraseOutput song.outputs idx o
        { o with mutedInArrangementMode := b } h rfl]
  | clip idx =>
    cases h : song.sessionClips[idx]? with
    | none => simp only [MuteRef.write, h]
    | some c =>
      simp only [MuteRef.write, h, Song.eraseMutes]
      rw [map_set_of_same eraseClip song.sessionClips idx c
        { c with activeIfNoSolo := b } h rfl]

theorem Sys.emit_song (st : Step) (s : Sys W) : (Sys.emit st s).song = s.song := rfl

theorem Sys.emit_se (st : Step) (s : Sys W) : (Sys.emit st s).se = s.se := rfl

theorem Sys.emit_world (st : Step) (s : Sys W) : (Sys.emit st s).world = s.world := rfl

theorem Sys.emit_log (st : Step) (s : Sys W) :
    (Sys.emit st s).log
      = s.log ++ [{ step := st, se := s.se, song := s.song, world := s.world }] := rfl

theorem setWavFileNameForStemExport_song (E : World W) (ty : StemExportType) (o : Output)
    (n : Nat) (s : Sys W) : (setWavFileNameForStemExport E ty o n s).song = s.song := rfl

theorem startOutputRecording_song (E : World W) (s : Sys W) :
    (startOutputRecordingUntilLoopEndAndSilence E s).song = s.song := by
  unfold startOutputRecordingUntilLoopEndAndSilence
  simp only
  split
  · split <;> rfl
  · rfl

theorem startCurrentStemExport_eraseMutes (E : World W) (ty : StemExportType) (o : Output)
    (r : MuteRef) (k : Nat) (ex : Bool) (s : Sys W) :
    (startCurrentStemExport E ty o r k ex s).2.song.eraseMutes = s.song.eraseMutes := by
  unfold startCurrentStemExport
  cases ex with
  | false => rfl
  | true =>
    simp only [Bool.not_true, Bool.false_eq_true, if_false, Sys.emit_song,
      startOutputRecording_song, setWavFileNameForStemExport_song]
    cases ty <;> simp only [MuteRef.write_eraseMutes, Sys.emit_song]

theorem finishCurrentStemExport_eraseMutes (ty : StemExportType) (r : MuteRef) (s : Sys W) :
    (finishCurrentStemExport ty r s).song.eraseMutes = s.song.eraseMutes := by
  unfold finishCurrentStemExport
  cases ty <;> simp only [Sys.emit_song, MuteRef.write_eraseMutes]

theorem stopStemExportProcess_song (E : World W) (s : Sys W) :
    (stopStemExportProcess E s).song = s.song := rfl

theorem checkForLoopEnd_song (E : World W) (s : Sys W) :
    (checkForLoopEnd E s).2.song = s.song := by
  unfold checkForLoopEnd
  split
  · simp only
    split <;> rfl
  · rfl

theorem checkForSilence_song (E : World W) (s : Sys W) :
    (checkForSilence E s).song = s.song := by
  unfold checkForSilence
  split
  · split <;> rfl
  · rfl

theorem schedulerRound_song (E : World W) (s : Sys W) :
    (schedulerRound E s).song = s.song := by
  unfold schedulerRound
  simp only
  split <;> split <;> simp only [stopStemExportProcess_song, checkForLoopEnd_song]

theorem yieldRound_song (E : World W) (s : Sys W) : (yieldRound E s).2.song = s.song := by
  unfold yieldRound exportWaitCondition
  simp only [Sys.emit_song]
  split
  · rw [checkForSilence_song, schedulerRound_song]
  · rw [schedulerRound_song]

theorem exportTarget_eraseMutes (E : World W) (fuel : Nat) (ty : StemExportType)
    (o : Output) (r : MuteRef) (k : Nat) (ex : Bool) (s : Sys W) :
    (∀ b s1, exportTarget E fuel ty o r k ex s = Progress.returned (b, s1) →
        s1.song.eraseMutes = s.song.eraseMutes)
      ∧ (∀ s1, exportTarget E fuel ty o r k ex s = Progress.suspended s1 →
        s1.song.eraseMutes = s.song.eraseMutes) :=
  exportTarget_rule E fuel ty o r k ex s
    (fun t => t.song.eraseMutes = s.song.eraseMutes)
    (fun _ t => t.song.eraseMutes = s.song.eraseMutes)
    (fun _ => rfl)
    (fun _ => startCurrentStemExport_eraseMutes E ty o r k true s)
    (fun t ht => (congrArg Song.eraseMutes (yieldRound_song E t)).trans ht)
    (fun t ht => (finishCurrentStemExport_eraseMutes ty r t).trans ht)

theorem exportInstrumentBody_eraseMutes (E : World W) (fuel : Nat) (ty : StemExportType)
    (k : Nat) (s : Sys W) :
    (∀ b s1, exportInstrumentBody E fuel ty k s = Progress.returned (b, s1) →
        s1.song.eraseMutes = s.song.eraseMutes)
      ∧ (∀ s1, exportInstrumentBody E fuel ty k s = Progress.suspended s1 →
        s1.song.eraseMutes = s.song.eraseMutes) := by
  unfold exportInstrumentBody
  cases s.song.outputs[k]? with
  | none =>
    constructor
    · intro b s1 h
      simp only [Progress.returned.injEq, Prod.mk.injEq] at h
      rw [← h.2]
    · intro s1 h
      simp at h
  | some o => exact exportTarget_eraseMutes E fuel ty o (MuteRef.output k) k o.exportStem s

theorem exportClipBody_eraseMutes (E : World W) (fuel : Nat) (ty : StemExportType)
    (k : Nat) (s : Sys W) :
    (∀ b s1, exportClipBody E fuel ty k s = Progress.returned (b, s1) →
        s1.song.eraseMutes = s.song.eraseMutes)
      ∧ (∀ s1, exportClipBody E fuel ty k s = Progress.suspended s1 →
        s1.song.eraseMutes = s.song.eraseMutes) := by
  unfold exportClipBody
  cases s.song.sessionClips[k]? with
  | none =>
    constructor
    · intro b s1 h
      simp only [Progress.returned.injEq, Prod.mk.injEq] at h
      rw [← h.2]
    · intro s1 h
      simp at h
  | some c =>
    exact exportTarget_eraseMutes E fuel ty c.output (MuteRef.clip k) k c.exportStem _

theorem descLoop_eraseMutes (body : Nat → Sys W → Progress W (Bool × Sys W))
    (hbody : ∀ k s,
      (∀ b s1, body k s = Progress.returned (b, s1) → s1.song.eraseMutes = s.song.eraseMutes)
        ∧ (∀ s1, body k s = Progress.suspended s1 → s1.song.eraseMutes = s.song.eraseMutes))
    (n : Nat) (s : Sys W) :
    (∀ s1, descLoop body n s = Progress.returned s1 → s1.song.eraseMutes = s.song.eraseMutes)
      ∧ (∀ s1, descLoop body n s = Progress.suspended s1 →
        s1.song.eraseMutes = s.song.eraseMutes) :=
  descLoop_rule body (fun _ t => t.song.eraseMutes = s.song.eraseMutes)
    (fun t => t.song.eraseMutes = s.song.eraseMutes)
    (fun t => t.song.eraseMutes = s.song.eraseMutes)
    (fun k t t1 ht hb => ((hbody k t).2 t1 hb).trans ht)
    (fun k t t1 ht hb => ((hbody k t).1 true t1 hb).trans ht)
    (fun k t t1 ht hb => ((hbody k t).1 false t1 hb).trans ht)
    (fun _ ht => ht) n s rfl

/-! ## The targets after a run -/

theorem map_restore_of_erase {l1 l2 : List Output}
    (h : l1.map eraseOutput = l2.map eraseOutput) :
    l1.map restoreOutput = l2.map restoreOutput := by
  have hr : ∀ l : List Output, l.map restoreOutput = (l.map eraseOutput).map restoreOutput := by
    intro l
    rw [List.map_map]
    rfl
  rw [hr l1, hr l2, h]

theorem map_restoreClip_of_erase {l1 l2 : List Clip}
    (h : l1.map eraseClip = l2.map eraseClip) :
    l1.map restoreClip = l2.map restoreClip := by
  have hr : ∀ l : List Clip, l.map restoreClip = (l.map eraseClip).map restoreClip := by
    intro l
    rw [List.map_map]
    rfl
  rw [hr l1, hr l2, h]

theorem exportInstrumentStems_outputs (E : World W) (fuel : Nat) (ty : StemExportType)
    (s : Sys W) (n : Nat) (s1 : Sys W)
    (h : exportInstrumentStems E fuel ty s = Progress.returned (n, s1)) :
    n = s.song.outputs.length
      ∧ s1.song.outputs = s.song.outputs.map (fun o => restoreOutput (disarmOutput o)) := by
  unfold exportInstrumentStems at h
  rw [disarmAllInstrumentsForStemExport_eq] at h
  simp only at h
  cases hd : descLoop (exportInstrumentBody E fuel ty) s.song.outputs.length
      (Sys.emit Step.prepared
        { se := { s.se with numStemsExported := 0
                            totalNumStemsToExport := List.countP outputEligible s.song.outputs }
          song := { s.song with outputs := s.song.outputs.map disarmOutput }
          world := s.world
          log := s.log }) with
  | suspended s2 => simp [hd] at h
  | returned s2 =>
    simp only [hd, Progress.returned.injEq, Prod.mk.injEq] at h
    obtain ⟨hn, hs1⟩ := h
    have he := (descLoop_eraseMutes _ (exportInstrumentBody_eraseMutes E fuel ty) _ _).1 s2 hd
    have ho : s2.song.outputs.map eraseOutput
        = (s.song.outputs.map disarmOutput).map eraseOutput := congrArg Song.outputs he
    have hlen : s.song.outputs.length = s2.song.outputs.length := by
      have := congrArg List.length ho
      simpa using this.symm
    refine ⟨hn.symm, ?_⟩
    rw [← hs1, hlen, restoreAllInstrumentMutes_eq]
    simp only [Sys.emit_song]
    rw [map_restore_of_erase ho, List.map_map]
    rfl

theorem exportClipStems_clips (E : World W) (fuel : Nat) (ty : StemExportType)
    (s : Sys W) (n : Nat) (s1 : Sys W)
    (h : exportClipStems E fuel ty s = Progress.returned (n, s1)) :
    n = s.song.sessionClips.length
      ∧ s1.song.sessionClips = s.song.sessionClips.map (fun c => restoreClip (disarmClip c)) := by
  unfold exportClipStems at h
  rw [disarmAllClipsForStemExport_eq] at h
  simp only at h
  cases hd : descLoop (exportClipBody E fuel ty) s.song.sessionClips.length
      (Sys.emit Step.prepared
        { se := { s.se with numStemsExported := 0
                            totalNumStemsToExport := List.countP clipEligible s.song.sessionClips }
          song := { s.song with sessionClips := s.song.sessionClips.map disarmClip }
          world := s.world
          log := s.log }) with
  | suspended s2 => simp [hd] at h
  | returned s2 =>
    simp only [hd, Progress.returned.injEq, Prod.mk.injEq] at h
    obtain ⟨hn, hs1⟩ := h
    have he := (descLoop_eraseMutes _ (exportClipBody_eraseMutes E fuel ty) _ _).1 s2 hd
    have ho : s2.song.sessionClips.map eraseClip
        = (s.song.sessionClips.map disarmClip).map eraseClip := congrArg Song.sessionClips he
    have hlen : s.song.sessionClips.length = s2.song.sessionClips.length := by
      have := congrArg List.length ho
      simpa using this.symm
    refine ⟨hn.symm, ?_⟩
    rw [← hs1, hlen, restoreAllClipMutes_eq]
    simp only [Sys.emit_song]
    rw [map_restoreClip_of_erase ho, List.map_map]
    rfl

/-- C1. Mute restoration on every exit path.  Whatever the collaborators do and
whenever cancellation arrives (the state `s` is arbitrary, so also before the first
target), once `exportInstrumentStems` has returned every output's
`mutedInArrangementMode` is what it was when the call started, and once
`exportClipStems` has returned every clip's `activeIfNoSolo` is what it was when the call
started. -/
theorem mute_flags_restored_on_return (E : World W) (fuel : Nat) (ty : StemExportType)
    (s : Sys W) :
    (∀ n s1, exportInstrumentStems E fuel ty s = Progress.returned (n, s1) →
        s1.song.outputs.map (fun o => o.mutedInArrangementMode)
          = s.song.outputs.map (fun o => o.mutedInArrangementMode))
      ∧ (∀ n s1, exportClipStems E fuel ty s = Progress.returned (n, s1) →
        s1.song.sessionClips.map (fun c => c.activeIfNoSolo)
          = s.song.sessionClips.map (fun c => c.activeIfNoSolo)) := by
  constructor
  · intro n s1 h
    rw [(exportInstrumentStems_outputs E fuel ty s n s1 h).2, List.map_map]
    rfl
  · intro n s1 h
    rw [(exportClipStems_clips E fuel ty s n s1 h).2, List.map_map]
    rfl

/-- Worked example for C1: on the demo song, a track run cancelled during its first wait
and a clip run that is never cancelled both return, with the mute flags as before. -/
theorem mute_flags_restored_on_return_witness :
    (∃ r, exportInstrumentStems rigWorld 10 StemExportType.TRACK
          (demoStart StemExportType.TRACK { rigIdle with cancelIn := some 1 })
          = Progress.returned r
        ∧ r.2.song.outputs.map (fun o => o.mutedInArrangementMode) = [false, false, true])
      ∧ (∃ r, exportClipStems rigWorld 10 StemExportType.CLIP
          (demoStart StemExportType.CLIP rigIdle) = Progress.returned r
        ∧ r.2.song.sessionClips.map (fun c => c.activeIfNoSolo) = [true, false, true]) :=
  ⟨⟨_, rfl, (mute_flags_restored_on_return rigWorld 10 StemExportType.TRACK
      (demoStart StemExportType.TRACK { rigIdle with cancelIn := some 1 })).1 _ _ rfl⟩,
   ⟨_, rfl, (mute_flags_restored_on_return rigWorld 10 StemExportType.CLIP
      (demoStart StemExportType.CLIP rigIdle)).2 _ _ rfl⟩⟩

/-- C2, counterexample.  On the demo song the output "Bass" is armed for recording and
every clip is armed and soloing before the run; after a completed run of either kind
those flags are off, so they do not equal their values before the run. -/
theorem arm_and_solo_flags_not_restored :
    (∃ r, exportInstrumentStems rigWorld 10 StemExportType.TRACK
          (demoStart StemExportType.TRACK rigIdle) = Progress.returned r
        ∧ demoSong.outputs.map (fun o => o.armedForRecording) = [true, false, false]
        ∧ r.2.song.outputs.map (fun o => o.armedForRecording) = [false, false, false])
      ∧ (∃ r, exportClipStems rigWorld 10 StemExportType.CLIP
          (demoStart StemExportType.CLIP rigIdle) = Progress.returned r
        ∧ demoSong.sessionClips.map (fun c => (c.armState, c.soloingInSessionMode))
            = [(ArmState.ON_NORMAL, true), (ArmState.ON_NORMAL, true), (ArmState.ON_NORMAL, true)]
        ∧ r.2.song.sessionClips.map (fun c => (c.armState, c.soloingInSessionMode))
            = [(ArmState.OFF, false), (ArmState.OFF, false), (ArmState.OFF, false)]) :=
  ⟨⟨_, rfl, rfl, rfl⟩, ⟨_, rfl, rfl, rfl⟩⟩

/-- C2, as amended.  After a run of either kind has returned, every target's mute flag
equals its value before the run, and its arm and solo flags are off (outputs:
`armedForRecording`, `recordingInArrangement`, `soloingInArrangementMode` are false; clips:
`armState` is `OFF`, `armedForRecording` and `soloingInSessionMode` are false), whatever they
were before. -/
theorem mute_restored_arm_and_solo_cleared (E : World W) (fuel : Nat) (ty : StemExportType)
    (s : Sys W) :
    (∀ n s1, exportInstrumentStems E fuel ty s = Progress.returned (n, s1) →
        s1.song.outputs.length = s.song.outputs.length
          ∧ ∀ (i : Nat) (o o1 : Output), s.song.outputs[i]? = some o → s1.song.outputs[i]? = some o1 →
            o1.mutedInArrangementMode = o.mutedInArrangementMode
              ∧ o1.armedForRecording = false ∧ o1.recordingInArrangement = false
              ∧ o1.soloingInArrangementMode = false)
      ∧ (∀ n s1, exportClipStems E fuel ty s = Progress.returned (n, s1) →
        s1.song.sessionClips.length = s.song.sessionClips.length
          ∧ ∀ (i : Nat) (c c1 : Clip), s.song.sessionClips[i]? = some c → s1.song.sessionClips[i]? = some c1 →
            c1.activeIfNoSolo = c.activeIfNoSolo
              ∧ c1.armState = ArmState.OFF ∧ c1.armedForRecording = false
              ∧ c1.soloingInSessionMode = false) := by
  constructor
  · intro n s1 h
    have ho := (exportInstrumentStems_outputs E fuel ty s n s1 h).2
    refine ⟨by rw [ho, List.length_map], ?_⟩
    intro i o o1 hi hi1
    rw [ho, List.getElem?_map, hi] at hi1
    simp only [Option.map_some', Option.some.injEq] at hi1
    subst hi1
    exact ⟨rfl, rfl, rfl, rfl⟩
  · intro n s1 h
    have ho := (exportClipStems_clips E fuel ty s n s1 h).2
    refine ⟨by rw [ho, List.length_map], ?_⟩
    intro i c c1 hi hi1
    rw [ho, List.getElem?_map, hi] at hi1
    simp only [Option.map_some', Option.some.injEq] at hi1
    subst hi1
    exact ⟨rfl, rfl, rfl, rfl⟩

/-- Worked example for the amended C2: the output "Bass" after a track run cancelled
during its wait, and the first clip after a completed clip run. -/
theorem mute_restored_arm_and_solo_cleared_witness :
    (∃ r o1, exportInstrumentStems rigWorld 10 StemExportType.TRACK
          (demoStart StemExportType.TRACK { rigIdle with cancelIn := some 1 })
          = Progress.returned r
        ∧ r.2.song.outputs[0]? = some o1
        ∧ o1.mutedInArrangementMode = false ∧ o1.armedForRecording = false
        ∧ o1.recordingInArrangement = false ∧ o1.soloingInArrangementMode = false)
      ∧ (∃ r c1, exportClipStems rigWorld 10 StemExportType.CLIP
          (demoStart StemExportType.CLIP rigIdle) = Progress.returned r
        ∧ r.2.song.sessionClips[0]? = some c1
        ∧ c1.activeIfNoSolo = true ∧ c1.armState = ArmState.OFF
        ∧ c1.armedForRecording = false ∧ c1.soloingInSessionMode = false) :=
  ⟨⟨_, _, rfl, rfl,
      ((mute_restored_arm_and_solo_cleared rigWorld 10 StemExportType.TRACK
        (demoStart StemExportType.TRACK { rigIdle with cancelIn := some 1 })).1 _ _ rfl).2
        0 _ _ rfl rfl⟩,
   ⟨_, _, rfl, rfl,
      ((mute_restored_arm_and_solo_cleared rigWorld 10 StemExportType.CLIP
        (demoStart StemExportType.CLIP rigIdle)).2 _ _ rfl).2 0 _ _ rfl rfl⟩⟩

/-! ## Eligibility -/

theorem outputEligible_iff (o : Output) :
    outputEligible o = true ↔
      (o.mutedInArrangementMode = false ∧ o.isEmpty = false
        ∧ o.type ≠ OutputType.MIDI_OUT ∧ o.type ≠ OutputType.CV) := by
  unfold outputEligible
  simp [and_assoc]

theorem clipEligible_iff (c : Clip) :
    clipEligible c = true ↔
      (c.isEmpty = false ∧ c.output.type ≠ OutputType.MIDI_OUT
        ∧ c.output.type ≠ OutputType.CV) := by
  unfold clipEligible
  simp [and_assoc]

/-- C6. Eligibility rule and total.  After `disarmAllInstrumentsForStemExport` an
output's `exportStem` is true exactly if, before the call, it was not muted in
arrangement, is not empty and is of a type other than `MIDI_OUT` and `CV`; after
`disarmAllClipsForStemExport` a clip's `exportStem` is true exactly if the clip is not
empty and its output is of a type other than `MIDI_OUT` and `CV`.  In both cases
`totalNumStemsToExport` is the number of targets whose `exportStem` is true and
`numStemsExported` is 0. -/
theorem eligibility_rule_and_total (s : Sys W) :
    ((disarmAllInstrumentsForStemExport s).2.song.outputs.length = s.song.outputs.length
      ∧ (∀ (i : Nat) (o o1 : Output), s.song.outputs[i]? = some o →
          (disarmAllInstrumentsForStemExport s).2.song.outputs[i]? = some o1 →
          (o1.exportStem = true ↔
            (o.mutedInArrangementMode = false ∧ o.isEmpty = false
              ∧ o.type ≠ OutputType.MIDI_OUT ∧ o.type ≠ OutputType.CV)))
      ∧ (disarmAllInstrumentsForStemExport s).2.se.totalNumStemsToExport
          = ((disarmAllInstrumentsForStemExport s).2.song.outputs.countP
              (fun o => o.exportStem) : Nat)
      ∧ (disarmAllInstrumentsForStemExport s).2.se.numStemsExported = 0)
    ∧ ((disarmAllClipsForStemExport s).2.song.sessionClips.length = s.song.sessionClips.length
      ∧ (∀ (i : Nat) (c c1 : Clip), s.song.sessionClips[i]? = some c →
          (disarmAllClipsForStemExport s).2.song.sessionClips[i]? = some c1 →
          (c1.exportStem = true ↔
            (c.isEmpty = false ∧ c.output.type ≠ OutputType.MIDI_OUT
              ∧ c.output.type ≠ OutputType.CV)))
      ∧ (disarmAllClipsForStemExport s).2.se.totalNumStemsToExport
          = ((disarmAllClipsForStemExport s).2.song.sessionClips.countP
              (fun c => c.exportStem) : Nat)
      ∧ (disarmAllClipsForStemExport s).2.se.numStemsExported = 0) := by
  rw [disarmAllInstrumentsForStemExport_eq, disarmAllClipsForStemExport_eq]
  simp only [Sys.emit_song, Sys.emit_se, List.length_map, true_and]
  refine ⟨⟨?_, ?_, trivial⟩, ⟨?_, ?_, trivial⟩⟩
  · intro i o o1 hi hi1
    rw [List.getElem?_map, hi] at hi1
    simp only [Option.map_some', Option.some.injEq] at hi1
    subst hi1
    exact outputEligible_iff o
  · rw [List.countP_map]
    rfl
  · intro i c c1 hi hi1
    rw [List.getElem?_map, hi] at hi1
    simp only [Option.map_some', Option.some.injEq] at hi1
    subst hi1
    exact clipEligible_iff c
  · rw [List.countP_map]
    rfl

/-- Worked example for C6 on the demo song: of the outputs only "Bass" is eligible
(the MIDI track and the muted kit are not), so the total is 1; the rule is shown at
"Bass" (output 0) and at the clip on the MIDI track (clip 1). -/
theorem eligibility_rule_and_total_witness :
    (((disarmAllInstrumentsForStemExport (demoStart StemExportType.TRACK rigIdle)).2.song.outputs.map
          (fun o => o.exportStem) = [true, false, false])
      ∧ (disarmAllInstrumentsForStemExport
          (demoStart StemExportType.TRACK rigIdle)).2.se.totalNumStemsToExport = 1)
    ∧ (∃ o1 : Output,
        (disarmAllInstrumentsForStemExport
          (demoStart StemExportType.TRACK rigIdle)).2.song.outputs[0]? = some o1
        ∧ (o1.exportStem = true
          ↔ (false = false ∧ false = false ∧ OutputType.SYNTH ≠ OutputType.MIDI_OUT
            ∧ OutputType.SYNTH ≠ OutputType.CV)))
    ∧ (∃ c1 : Clip,
        (disarmAllClipsForStemExport
          (demoStart StemExportType.CLIP rigIdle)).2.song.sessionClips[1]? = some c1
        ∧ (c1.exportStem = true
          ↔ (false = false ∧ OutputType.MIDI_OUT ≠ OutputType.MIDI_OUT
            ∧ OutputType.MIDI_OUT ≠ OutputType.CV))) :=
  ⟨⟨rfl, rfl⟩,
   ⟨_, rfl,
    (eligibility_rule_and_total (demoStart StemExportType.TRACK rigIdle)).1.2.1 0 _ _ rfl rfl⟩,
   ⟨_, rfl,
    (eligibility_rule_and_total (demoStart StemExportType.CLIP rigIdle)).2.2.1 1 _ _ rfl rfl⟩⟩

/-! ## Loop-stop tick -/

theorem noteRow_fold (clip : Clip) (se : StemExport) (k : Nat)
    (hse : se.loopLengthToStopStemExport = clip.loopLength) :
    clip.loopLength
        ≤ ((List.range k).foldl (noteRowStep clip) se).loopLengthToStopStemExport
      ∧ (∀ (i : Nat) (row : NoteRow), i < k → clip.noteRows[i]? = some row →
          row.hasNoNotes = false →
          row.loopLengthIfIndependent
            ≤ ((List.range k).foldl (noteRowStep clip) se).loopLengthToStopStemExport)
      ∧ (((List.range k).foldl (noteRowStep clip) se).loopLengthToStopStemExport
            = clip.loopLength
          ∨ ∃ (i : Nat) (row : NoteRow), i < k ∧ clip.noteRows[i]? = some row
              ∧ row.hasNoNotes = false
              ∧ row.loopLengthIfIndependent
                = ((List.range k).foldl (noteRowStep clip) se).loopLengthToStopStemExport) := by
  induction k with
  | zero =>
    simp only [List.range_zero, List.foldl_nil, hse, le_refl, true_and]
    exact ⟨fun i row hi => absurd hi (Nat.not_lt_zero i), Or.inl trivial⟩
  | succ k ih =>
    rw [List.range_succ, List.foldl_append, List.foldl_cons, List.foldl_nil]
    obtain ⟨h1, h2, h3⟩ := ih
    generalize (List.range k).foldl (noteRowStep clip) se = acc at h1 h2 h3 ⊢
    unfold noteRowStep
    cases hrow : clip.noteRows[k]? with
    | none =>
      simp only
      refine ⟨h1, ?_, ?_⟩
      · intro i row hi hget hnotes
        by_cases hik : i = k
        · subst hik
          rw [hrow] at hget
          cases hget
        · exact h2 i row (by omega) hget hnotes
      · rcases h3 with h3 | ⟨i, row, hi, hget, hnotes, hlen⟩
        · exact Or.inl h3
        · exact Or.inr ⟨i, row, by omega, hget, hnotes, hlen⟩
    | some thisNoteRow =>
      simp only
      by_cases hc : (decide (thisNoteRow.loopLengthIfIndependent > acc.loopLengthToStopStemExport)
          && !thisNoteRow.hasNoNotes) = true
      · rw [if_pos hc]
        simp only [Bool.and_eq_true, decide_eq_true_eq, Bool.not_eq_true'] at hc
        refine ⟨by simp only; omega, ?_, ?_⟩
        · intro i row hi hget hnotes
          by_cases hik : i = k
          · subst hik
            rw [hrow] at hget
            cases hget
            exact le_refl _
          · have := h2 i row (by omega) hget hnotes
            simp only
            omega
        · exact Or.inr ⟨k, thisNoteRow, by omega, hrow, hc.2, rfl⟩
      · rw [if_neg hc]
        simp only [Bool.and_eq_true, decide_eq_true_eq, Bool.not_eq_true', not_and] at hc
        refine ⟨h1, ?_, ?_⟩
        · intro i row hi hget hnotes
          by_cases hik : i = k
          · subst hik
            rw [hrow] at hget
            cases hget
            by_contra hlt
            have := hc (by omega)
            rw [hnotes] at this
            exact this rfl
          · exact h2 i row (by omega) hget hnotes
        · rcases h3 with h3 | ⟨i, row, hi, hget, hnotes, hlen⟩
          · exact Or.inl h3
          · exact Or.inr ⟨i, row, by omega, hget, hnotes, hlen⟩

/-- C9. Loop-stop tick.  After `getLoopLengthOfLongestNotEmptyNoteRow`, for an instrument
clip `loopLengthToStopStemExport` is the maximum of the clip's loop length and the
independent loop lengths of the note rows that have notes: it is at least each of them
and equal to one of them (rows without notes play no part).  For any other clip it is
the clip's loop length. -/
theorem loop_stop_tick_is_longest_not_empty (clip : Clip) (se : StemExport) :
    (clip.type = ClipType.INSTRUMENT →
      clip.loopLength
          ≤ (getLoopLengthOfLongestNotEmptyNoteRow clip se).loopLengthToStopStemExport
        ∧ (∀ row ∈ clip.noteRows, row.hasNoNotes = false →
            row.loopLengthIfIndependent
              ≤ (getLoopLengthOfLongestNotEmptyNoteRow clip se).loopLengthToStopStemExport)
        ∧ ((getLoopLengthOfLongestNotEmptyNoteRow clip se).loopLengthToStopStemExport
              = clip.loopLength
            ∨ ∃ row ∈ clip.noteRows, row.hasNoNotes = false
                ∧ row.loopLengthIfIndependent
                  = (getLoopLengthOfLongestNotEmptyNoteRow clip se).loopLengthToStopStemExport))
      ∧ (clip.type ≠ ClipType.INSTRUMENT →
        (getLoopLengthOfLongestNotEmptyNoteRow clip se).loopLengthToStopStemExport
          = clip.loopLength) := by
  constructor
  · intro ht
    unfold getLoopLengthOfLongestNotEmptyNoteRow
    simp only [ht, if_true]
    obtain ⟨h1, h2, h3⟩ := noteRow_fold clip
      { se with loopLengthToStopStemExport := clip.loopLength } clip.noteRows.length rfl
    refine ⟨h1, ?_, ?_⟩
    · intro row hrow hnotes
      obtain ⟨i, hi, hget⟩ := List.getElem_of_mem hrow
      exact h2 i row hi (by rw [List.getElem?_eq_getElem hi, hget]) hnotes
    · rcases h3 with h3 | ⟨i, row, hi, hget, hnotes, hlen⟩
      · exact Or.inl h3
      · exact Or.inr ⟨row, List.getElem?_mem hget, hnotes, hlen⟩
  · intro ht
    unfold getLoopLengthOfLongestNotEmptyNoteRow
    simp only [ht, if_false]

/-- Worked example for C9: clip loop length 96 with note rows 48 (no notes), 192 and 64
(both with notes) gives 192. -/
theorem loop_stop_tick_is_longest_not_empty_witness :
    (getLoopLengthOfLongestNotEmptyNoteRow
        (demoClip (demoOutput "Bass" OutputType.SYNTH false false true) 96
          [⟨48, true⟩, ⟨192, false⟩, ⟨64, false⟩] false true)
        StemExport.new).loopLengthToStopStemExport = 192
      ∧ (∀ row ∈ [(⟨48, true⟩ : NoteRow), ⟨192, false⟩, ⟨64, false⟩], row.hasNoNotes = false →
          row.loopLengthIfIndependent
            ≤ (getLoopLengthOfLongestNotEmptyNoteRow
                (demoClip (demoOutput "Bass" OutputType.SYNTH false false true) 96
                  [⟨48, true⟩, ⟨192, false⟩, ⟨64, false⟩] false true)
                StemExport.new).loopLengthToStopStemExport) :=
  ⟨rfl, ((loop_stop_tick_is_longest_not_empty
      (demoClip (demoOutput "Bass" OutputType.SYNTH false false true) 96
        [⟨48, true⟩, ⟨192, false⟩, ⟨64, false⟩] false true) StemExport.new).1 rfl).2.1⟩

/-! ## The steps between trace entries -/

theorem Quiet.refl (s : Sys W) : Quiet s s := ⟨rfl, rfl, rfl, rfl, fun h => h⟩

theorem Quiet.trans {s t u : Sys W} (h1 : Quiet s t) (h2 : Quiet t u) : Quiet s u :=
  ⟨h2.1.trans h1.1, h2.2.1.trans h1.2.1, h2.2.2.1.trans h1.2.2.1,
    h2.2.2.2.1.trans h1.2.2.2.1, fun h => h1.2.2.2.2 (h2.2.2.2.2 h)⟩

theorem quiet_startOutputRecording (E : World W) (s : Sys W) :
    Quiet s (startOutputRecordingUntilLoopEndAndSilence E s) := by
  unfold startOutputRecordingUntilLoopEndAndSilence
  simp only
  split
  · split
    · exact ⟨rfl, rfl, rfl, rfl, fun h => h⟩
    · exact ⟨rfl, rfl, rfl, rfl, fun h => h⟩
  · exact ⟨rfl, rfl, rfl, rfl, fun h => h⟩

theorem quiet_stopStemExportProcess (E : World W) (s : Sys W) :
    Quiet s (stopStemExportProcess E s) :=
  ⟨rfl, rfl, rfl, rfl, fun h => by simp [stopStemExportProcess] at h⟩

theorem quiet_checkForLoopEnd (E : World W) (s : Sys W) : Quiet s (checkForLoopEnd E s).2 := by
  unfold checkForLoopEnd
  split
  · simp only
    split
    · exact ⟨rfl, rfl, rfl, rfl, fun h => h⟩
    · exact Quiet.refl s
  · exact Quiet.refl s

theorem quiet_checkForSilence (E : World W) (s : Sys W) : Quiet s (checkForSilence E s) := by
  unfold checkForSilence
  split
  · split
    · exact ⟨rfl, rfl, rfl, rfl, fun h => h⟩
    · exact Quiet.refl s
  · exact Quiet.refl s

theorem quiet_schedulerRound (E : World W) (s : Sys W) : Quiet s (schedulerRound E s) := by
  have h1 : Quiet s { s with world := E.runOtherTasks s.world } :=
    ⟨rfl, rfl, rfl, rfl, fun h => h⟩
  unfold schedulerRound
  simp only
  split
  · split
    · exact (h1.trans (quiet_checkForLoopEnd E _)).trans (quiet_stopStemExportProcess E _)
    · exact h1.trans (quiet_checkForLoopEnd E _)
  · split
    · exact h1.trans (quiet_stopStemExportProcess E _)
    · exact h1

theorem quiet_exportWaitCondition (E : World W) (s : Sys W) :
    Quiet s (exportWaitCondition E s).2 := by
  unfold exportWaitCondition
  simp only
  split
  · exact quiet_checkForSilence E s
  · exact Quiet.refl s

/-- One resumption of the wait is a quiet step followed by a `yielded` entry. -/
theorem yieldRound_eq (E : World W) (s : Sys W) :
    ∃ t, Quiet s t ∧ (yieldRound E s).2 = Sys.emit Step.yielded t :=
  ⟨(exportWaitCondition E (schedulerRound E s)).2,
    (quiet_schedulerRound E s).trans (quiet_exportWaitCondition E _), rfl⟩

/-- `setWavFileNameForStemExport` is a quiet step followed by a `fileNameRequested`
entry. -/
theorem setWavFileNameForStemExport_eq (E : World W) (ty : StemExportType) (o : Output)
    (n : Nat) (s : Sys W) :
    ∃ t, Quiet s t ∧ setWavFileNameForStemExport E ty o n s
      = Sys.emit (Step.fileNameRequested n) t := by
  unfold setWavFileNameForStemExport
  simp only
  refine ⟨_, ?_, rfl⟩
  refine ⟨rfl, rfl, ?_, ?_, ?_⟩
  · simp only
    split <;> split <;> rfl
  · simp only
    split <;> split <;> rfl
  · simp only
    split <;> split <;> exact fun h => h

/-- `startCurrentStemExport` for a target that is not exported: one trace entry. -/
theorem startCurrentStemExport_skip (E : World W) (ty : StemExportType) (o : Output)
    (r : MuteRef) (k : Nat) (s : Sys W) :
    startCurrentStemExport E ty o r k false s = (false, Sys.emit (Step.startCurrent k) s) :=
  rfl

/-- `startCurrentStemExport` for an exported target, entry by entry: the `startCurrent`
entry, the write through `muteState`, the `muteStateWritten` entry, a quiet step, the
`fileNameRequested` entry, a quiet step, the `recordingRequested` entry. -/
theorem startCurrentStemExport_eq (E : World W) (ty : StemExportType) (o : Output)
    (r : MuteRef) (k : Nat) (s : Sys W) :
    ∃ t2 t3 : Sys W,
      Quiet (Sys.emit (Step.muteStateWritten k)
        { Sys.emit (Step.startCurrent k) s with song := r.write (startFlag ty) s.song }) t2
      ∧ Quiet (Sys.emit (Step.fileNameRequested k) t2) t3
      ∧ (startCurrentStemExport E ty o r k true s).2
          = Sys.emit (Step.recordingRequested k) t3 := by
  obtain ⟨t2, hq2, he2⟩ := setWavFileNameForStemExport_eq E ty o k
    (Sys.emit (Step.muteStateWritten k)
      { Sys.emit (Step.startCurrent k) s with song := r.write (startFlag ty) s.song })
  refine ⟨t2, startOutputRecordingUntilLoopEndAndSilence E (Sys.emit (Step.fileNameRequested k) t2),
    hq2, quiet_startOutputRecording E _, ?_⟩
  rw [← he2]
  cases ty <;> rfl

/-- `finishCurrentStemExport`: the write through `muteState`, the increment, and the
`finishCurrent` entry. -/
theorem finishCurrentStemExport_eq (ty : StemExportType) (r : MuteRef) (s : Sys W) :
    finishCurrentStemExport ty r s
      = Sys.emit (Step.finishCurrent r)
          { s with song := r.write (!startFlag ty) s.song
                   se := { s.se with numStemsExported := s.se.numStemsExported + 1 } } := by
  cases ty <;> rfl

/-! ## The counter -/

theorem CounterInv.congr {d : Int} {s t : Sys W} (h : CounterInv d s) (hlog : t.log = s.log)
    (hnum : t.se.numStemsExported = s.se.numStemsExported)
    (htot : t.se.totalNumStemsToExport = s.se.totalNumStemsToExport) : CounterInv d t := by
  unfold CounterInv at h ⊢
  rw [hlog, hnum, htot]
  exact h

theorem CounterInv.ctrQuiet {d : Int} {s t : Sys W} (h : CounterInv d s) (hq : Quiet s t) :
    CounterInv d t :=
  h.congr hq.1 hq.2.2.1 hq.2.2.2.1

theorem CounterInv.weaken {d : Int} {s : Sys W} (h : CounterInv (d + 1) s) (hd : 0 ≤ d) :
    CounterInv d s := by
  obtain ⟨h1, h2, h3, h4, _, h6⟩ := h
  exact ⟨h1, h2, h3, h4, hd, by omega⟩

theorem CounterInv.zero {d : Int} {s : Sys W} (h : CounterInv d s) : CounterInv 0 s := by
  obtain ⟨h1, h2, h3, h4, h5, h6⟩ := h
  exact ⟨h1, h2, h3, h4, le_refl 0, by omega⟩

theorem CounterInv.ctrEmit {d : Int} {s : Sys W} (h : CounterInv d s) (st : Step) :
    CounterInv d (Sys.emit st s) := by
  obtain ⟨h1, h2, h3, h4, h5, h6⟩ := h
  refine ⟨?_, ?_, ?_, h4, h5, h6⟩
  · intro e he
    rw [Sys.emit_log, List.mem_append, List.mem_singleton] at he
    rcases he with he | he
    · exact h1 e he
    · subst he
      exact ⟨h4, by simp only; omega⟩
  · rw [Sys.emit_log, List.chain'_append]
    refine ⟨h2, List.chain'_singleton _, ?_⟩
    intro x hx y hy
    simp only [List.head?_cons, Option.mem_def, Option.some.injEq] at hy
    subst hy
    exact Or.inl (h3 x hx).symm
  · intro e he
    rw [Sys.emit_log, List.getLast?_concat] at he
    simp only [Option.mem_def, Option.some.injEq] at he
    subst he
    rfl

theorem CounterInv.ctrFinish {d : Int} {s : Sys W} (h : CounterInv (d + 1) s) (hd : 0 ≤ d)
    (ty : StemExportType) (r : MuteRef) : CounterInv d (finishCurrentStemExport ty r s) := by
  rw [finishCurrentStemExport_eq]
  obtain ⟨h1, h2, h3, h4, h5, h6⟩ := h
  refine ⟨?_, ?_, ?_, ?_, hd, ?_⟩
  · intro e he
    rw [Sys.emit_log, List.mem_append, List.mem_singleton] at he
    rcases he with he | he
    · exact h1 e he
    · subst he
      simp only
      constructor <;> omega
  · rw [Sys.emit_log, List.chain'_append]
    refine ⟨h2, List.chain'_singleton _, ?_⟩
    intro x hx y hy
    simp only [List.head?_cons, Option.mem_def, Option.some.injEq] at hy
    subst hy
    simp only
    right
    rw [h3 x hx]
  · intro e he
    rw [Sys.emit_log, List.getLast?_concat] at he
    simp only [Option.mem_def, Option.some.injEq] at he
    subst he
    rfl
  · simp only [Sys.emit_se]
    omega
  · simp only [Sys.emit_se]
    omega

theorem CounterInv.ctrStart {d : Int} {s : Sys W} (h : CounterInv d s) (E : World W)
    (ty : StemExportType) (o : Output) (r : MuteRef) (k : Nat) :
    CounterInv d (startCurrentStemExport E ty o r k true s).2 := by
  obtain ⟨t2, t3, hq2, hq3, he⟩ := startCurrentStemExport_eq E ty o r k s
  rw [he]
  have h0 : CounterInv d
      { Sys.emit (Step.startCurrent k) s with song := r.write (startFlag ty) s.song } :=
    (h.ctrEmit (Step.startCurrent k)).congr rfl rfl rfl
  exact ((((h0.ctrEmit _).ctrQuiet hq2).ctrEmit _).ctrQuiet hq3).ctrEmit _

theorem CounterInv.ctrYieldRound {d : Int} {s : Sys W} (h : CounterInv d s) (E : World W) :
    CounterInv d (yieldRound E s).2 := by
  obtain ⟨t, hq, he⟩ := yieldRound_eq E s
  rw [he]
  exact (h.ctrQuiet hq).ctrEmit _

theorem exportTarget_counter (E : World W) (fuel : Nat) (ty : StemExportType) (o : Output)
    (r : MuteRef) (k : Nat) (ex : Bool) (s : Sys W) (d : Int) (hd : 0 ≤ d)
    (h : CounterInv (d + (if ex = true then 1 else 0)) s) :
    (∀ b s1, exportTarget E fuel ty o r k ex s = Progress.returned (b, s1) → CounterInv d s1)
      ∧ (∀ s1, exportTarget E fuel ty o r k ex s = Progress.suspended s1 →
          CounterInv 0 s1) := by
  have hr := exportTarget_rule E fuel ty o r k ex s
    (fun t => CounterInv (d + 1) t) (fun _ t => CounterInv d t)
    (fun hex => by
      rw [hex] at h
      simp only [Bool.false_eq_true, if_false, add_zero] at h
      exact h.ctrEmit _)
    (fun hex => by
      rw [hex] at h
      simp only [if_true] at h
      exact h.ctrStart E ty o r k)
    (fun t ht => ht.ctrYieldRound E)
    (fun t ht => ht.ctrFinish hd ty r)
  exact ⟨hr.1, fun s1 hs1 => (hr.2 s1 hs1).zero⟩

theorem countP_exportStem_take_of_erase {l1 l2 : List Output}
    (h : l1.map eraseOutput = l2.map eraseOutput) (k : Nat) :
    List.countP (fun o => o.exportStem) (l1.take k)
      = List.countP (fun o => o.exportStem) (l2.take k) := by
  have hc : ∀ l : List Output, List.countP (fun o => o.exportStem) (l.take k)
      = List.countP (fun o => o.exportStem) ((l.map eraseOutput).take k) := by
    intro l
    rw [← List.map_take, List.countP_map]
    rfl
  rw [hc l1, hc l2, h]

theorem countP_clip_exportStem_take_of_erase {l1 l2 : List Clip}
    (h : l1.map eraseClip = l2.map eraseClip) (k : Nat) :
    List.countP (fun c => c.exportStem) (l1.take k)
      = List.countP (fun c => c.exportStem) (l2.take k) := by
  have hc : ∀ l : List Clip, List.countP (fun c => c.exportStem) (l.take k)
      = List.countP (fun c => c.exportStem) ((l.map eraseClip).take k) := by
    intro l
    rw [← List.map_take, List.countP_map]
    rfl
  rw [hc l1, hc l2, h]

theorem restoreAllInstrumentMutes_frame (n : Nat) (s : Sys W) :
    ∃ t : Sys W, t.se = s.se ∧ t.world = s.world ∧ t.log = s.log
      ∧ restoreAllInstrumentMutes n s = Sys.emit Step.restored t := by
  have hf := foldl_keeps
    (fun t : Sys W => t.se = s.se ∧ t.world = s.world ∧ t.log = s.log)
    restoreInstrumentStep
    (fun t i ht => by
      obtain ⟨h0, _, _, h3, h4⟩ := restoreInstrumentStep_frame t i
      exact ⟨h0.trans ht.1, h3.trans ht.2.1, h4.trans ht.2.2⟩)
    (List.range n) s ⟨rfl, rfl, rfl⟩
  exact ⟨_, hf.1, hf.2.1, hf.2.2, rfl⟩

theorem restoreAllClipMutes_frame (n : Nat) (s : Sys W) :
    ∃ t : Sys W, t.se = s.se ∧ t.world = s.world ∧ t.log = s.log
      ∧ restoreAllClipMutes n s = Sys.emit Step.restored t := by
  have hf := foldl_keeps
    (fun t : Sys W => t.se = s.se ∧ t.world = s.world ∧ t.log = s.log)
    restoreClipStep
    (fun t i ht => by
      obtain ⟨h0, _, _, h3, h4⟩ := restoreClipStep_frame t i
      exact ⟨h0.trans ht.1, h3.trans ht.2.1, h4.trans ht.2.2⟩)
    (List.range n) s ⟨rfl, rfl, rfl⟩
  exact ⟨_, hf.1, hf.2.1, hf.2.2, rfl⟩

theorem getLoopLengthOfLongestNotEmptyNoteRow_eq (clip : Clip) (se : StemExport) :
    ∃ x : Int, getLoopLengthOfLongestNotEmptyNoteRow clip se
      = { se with loopLengthToStopStemExport := x } := by
  unfold getLoopLengthOfLongestNotEmptyNoteRow
  simp only
  split
  · exact foldl_keeps
      (fun acc : StemExport => ∃ x : Int, acc = { se with loopLengthToStopStemExport := x })
      (noteRowStep clip)
      (fun acc i hacc => by
        obtain ⟨x, hx⟩ := hacc
        unfold noteRowStep
        cases clip.noteRows[i]? with
        | none => exact ⟨x, hx⟩
        | some row =>
          simp only
          split
          · exact ⟨row.loopLengthIfIndependent, by rw [hx]⟩
          · exact ⟨x, hx⟩)
      (List.range clip.noteRows.length) _ ⟨clip.loopLength, rfl⟩
  · exact ⟨clip.loopLength, rfl⟩

/-- What `exportClipStems` does before `startCurrentStemExport` is a quiet step. -/
theorem quiet_clipPrelude (E : World W) (clip : Clip) (s : Sys W) :
    Quiet s (getLoopEndPointInSamplesForAudioFile E clip.loopLength
      { s with se := getLoopLengthOfLongestNotEmptyNoteRow clip s.se }) := by
  obtain ⟨x, hx⟩ := getLoopLengthOfLongestNotEmptyNoteRow_eq clip s.se
  unfold getLoopEndPointInSamplesForAudioFile
  rw [hx]
  exact ⟨rfl, rfl, rfl, rfl, fun h => h⟩

theorem exportInstrumentBody_counter (E : World W) (fuel : Nat) (ty : StemExportType)
    (k : Nat) (s : Sys W)
    (h : CounterInv
      (List.countP (fun o => o.exportStem) (s.song.outputs.take (k + 1)) : Nat) s) :
    (∀ b s1, exportInstrumentBody E fuel ty k s = Progress.returned (b, s1) →
        CounterInv (List.countP (fun o => o.exportStem) (s1.song.outputs.take k) : Nat) s1)
      ∧ (∀ s1, exportInstrumentBody E fuel ty k s = Progress.suspended s1 →
        CounterInv 0 s1) := by
  have hem := exportInstrumentBody_eraseMutes E fuel ty k s
  rw [List.take_succ, List.countP_append] at h
  unfold exportInstrumentBody at hem ⊢
  cases hk : s.song.outputs[k]? with
  | none =>
    rw [hk] at h
    simp only [Option.toList_none, List.countP_nil, add_zero] at h
    constructor
    · intro b s1 hb
      simp only [Progress.returned.injEq, Prod.mk.injEq] at hb
      rw [← hb.2]
      exact h
    · intro s1 hb
      simp at hb
  | some o =>
    rw [hk] at h hem
    simp only at hem ⊢
    have h2 : CounterInv
        ((List.countP (fun o => o.exportStem) (s.song.outputs.take k) : Nat)
          + (if o.exportStem = true then 1 else 0)) s := by
      cases hex : o.exportStem <;> simpa [hex] using h
    have hr := exportTarget_counter E fuel ty o (MuteRef.output k) k o.exportStem s _
      (Int.natCast_nonneg _) h2
    refine ⟨?_, hr.2⟩
    intro b s1 hb
    have he := congrArg Song.outputs (hem.1 b s1 hb)
    rw [countP_exportStem_take_of_erase he k]
    exact hr.1 b s1 hb

theorem exportClipBody_counter (E : World W) (fuel : Nat) (ty : StemExportType)
    (k : Nat) (s : Sys W)
    (h : CounterInv
      (List.countP (fun c => c.exportStem) (s.song.sessionClips.take (k + 1)) : Nat) s) :
    (∀ b s1, exportClipBody E fuel ty k s = Progress.returned (b, s1) →
        CounterInv (List.countP (fun c => c.exportStem) (s1.song.sessionClips.take k) : Nat) s1)
      ∧ (∀ s1, exportClipBody E fuel ty k s = Progress.suspended s1 →
        CounterInv 0 s1) := by
  have hem := exportClipBody_eraseMutes E fuel ty k s
  rw [List.take_succ, List.countP_append] at h
  unfold exportClipBody at hem ⊢
  cases hk : s.song.sessionClips[k]? with
  | none =>
    rw [hk] at h
    simp only [Option.toList_none, List.countP_nil, add_zero] at h
    constructor
    · intro b s1 hb
      simp only [Progress.returned.injEq, Prod.mk.injEq] at hb
      rw [← hb.2]
      exact h
    · intro s1 hb
      simp at hb
  | some c =>
    rw [hk] at h hem
    simp only at hem ⊢
    have h2 : CounterInv
        ((List.countP (fun c => c.exportStem) (s.song.sessionClips.take k) : Nat)
          + (if c.exportStem = true then 1 else 0))
        (getLoopEndPointInSamplesForAudioFile E c.loopLength
          { s with se := getLoopLengthOfLongestNotEmptyNoteRow c s.se }) := by
      have h3 : CounterInv
          ((List.countP (fun c => c.exportStem) (s.song.sessionClips.take k) : Nat)
            + (if c.exportStem = true then 1 else 0)) s := by
        cases hex : c.exportStem <;> simpa [hex] using h
      exact h3.ctrQuiet (quiet_clipPrelude E c s)
    have hr := exportTarget_counter E fuel ty c.output (MuteRef.clip k) k c.exportStem _ _
      (Int.natCast_nonneg _) h2
    refine ⟨?_, hr.2⟩
    intro b s1 hb
    have he := congrArg Song.sessionClips (hem.1 b s1 hb)
    rw [countP_clip_exportStem_take_of_erase he k]
    exact hr.1 b s1 hb


theorem exportInstrumentStems_counter (E : World W) (fuel : Nat) (ty : StemExportType)
    (se : StemExport) (song : Song) (w : W) :
    CounterInv 0 (exportInstrumentStems E fuel ty (Sys.start se song w)).state := by
  unfold exportInstrumentStems
  rw [disarmAllInstrumentsForStemExport_eq]
  simp only
  have hbase : CounterInv
      (List.countP (fun o => o.exportStem)
        ((song.outputs.map disarmOutput).take song.outputs.length) : Nat)
      ({ se := { se with numStemsExported := 0
                         totalNumStemsToExport := List.countP outputEligible song.outputs }
         song := { song with outputs := song.outputs.map disarmOutput }
         world := w
         log := [] } : Sys W) := by
    refine ⟨?_, List.chain'_nil, ?_, le_refl 0, Int.natCast_nonneg _, ?_⟩
    · intro e he
      cases he
    · intro e he
      cases he
    · have hlen : song.outputs.length = (song.outputs.map disarmOutput).length := by
        rw [List.length_map]
      rw [hlen, List.take_length, List.countP_map]
      simp only [zero_add]
      exact le_of_eq rfl
  have hloop := descLoop_rule (exportInstrumentBody E fuel ty)
    (fun k t => CounterInv
      (List.countP (fun o => o.exportStem) (t.song.outputs.take k) : Nat) t)
    (fun t => CounterInv 0 t) (fun t => CounterInv 0 t)
    (fun k t t1 ht hb => (exportInstrumentBody_counter E fuel ty k t ht).2 t1 hb)
    (fun k t t1 ht hb => ((exportInstrumentBody_counter E fuel ty k t ht).1 true t1 hb).zero)
    (fun k t t1 ht hb => (exportInstrumentBody_counter E fuel ty k t ht).1 false t1 hb)
    (fun t ht => ht.zero) song.outputs.length _ (hbase.ctrEmit Step.prepared)
  simp only [Sys.start] at hloop ⊢
  cases hd : descLoop (exportInstrumentBody E fuel ty) song.outputs.length
      (Sys.emit Step.prepared
        { se := { se with numStemsExported := 0
                          totalNumStemsToExport := List.countP outputEligible song.outputs }
          song := { song with outputs := song.outputs.map disarmOutput }
          world := w
          log := [] }) with
  | suspended s1 => exact hloop.2 s1 hd
  | returned s1 =>
    simp only [Progress.state]
    obtain ⟨t, hse, _, hlog, heq⟩ := restoreAllInstrumentMutes_frame song.outputs.length s1
    rw [heq]
    exact ((hloop.1 s1 hd).congr hlog (by rw [hse]) (by rw [hse])).ctrEmit _

theorem exportClipStems_counter (E : World W) (fuel : Nat) (ty : StemExportType)
    (se : StemExport) (song : Song) (w : W) :
    CounterInv 0 (exportClipStems E fuel ty (Sys.start se song w)).state := by
  unfold exportClipStems
  rw [disarmAllClipsForStemExport_eq]
  simp only
  have hbase : CounterInv
      (List.countP (fun c => c.exportStem)
        ((song.sessionClips.map disarmClip).take song.sessionClips.length) : Nat)
      ({ se := { se with numStemsExported := 0
                         totalNumStemsToExport := List.countP clipEligible song.sessionClips }
         song := { song with sessionClips := song.sessionClips.map disarmClip }
         world := w
         log := [] } : Sys W) := by
    refine ⟨?_, List.chain'_nil, ?_, le_refl 0, Int.natCast_nonneg _, ?_⟩
    · intro e he
      cases he
    · intro e he
      cases he
    · have hlen : song.sessionClips.length = (song.sessionClips.map disarmClip).length := by
        rw [List.length_map]
      rw [hlen, List.take_length, List.countP_map]
      simp only [zero_add]
      exact le_of_eq rfl
  have hloop := descLoop_rule (exportClipBody E fuel ty)
    (fun k t => CounterInv
      (List.countP (fun c => c.exportStem) (t.song.sessionClips.take k) : Nat) t)
    (fun t => CounterInv 0 t) (fun t => CounterInv 0 t)
    (fun k t t1 ht hb => (exportClipBody_counter E fuel ty k t ht).2 t1 hb)
    (fun k t t1 ht hb => ((exportClipBody_counter E fuel ty k t ht).1 true t1 hb).zero)
    (fun k t t1 ht hb => (exportClipBody_counter E fuel ty k t ht).1 false t1 hb)
    (fun t ht => ht.zero) song.sessionClips.length _ (hbase.ctrEmit Step.prepared)
  simp only [Sys.start] at hloop ⊢
  cases hd : descLoop (exportClipBody E fuel ty) song.sessionClips.length
      (Sys.emit Step.prepared
        { se := { se with numStemsExported := 0
                          totalNumStemsToExport := List.countP clipEligible song.sessionClips }
          song := { song with sessionClips := song.sessionClips.map disarmClip }
          world := w
          log := [] }) with
  | suspended s1 => exact hloop.2 s1 hd
  | returned s1 =>
    simp only [Progress.state]
    obtain ⟨t, hse, _, hlog, heq⟩ := restoreAllClipMutes_frame song.sessionClips.length s1
    rw [heq]
    exact ((hloop.1 s1 hd).congr hlog (by rw [hse]) (by rw [hse])).ctrEmit _

/-- C3. Counter bound and monotonicity.  Take any run of either export loop, with any
collaborators, any cancellation and any number of scheduler rounds granted, returned or
still waiting.  At every point of its trace `0 ≤ numStemsExported ≤ totalNumStemsToExport`,
and from each point to the next `numStemsExported` is unchanged or larger by exactly 1. -/
theorem counter_bounded_and_stepwise (E : World W) (fuel : Nat) (ty : StemExportType)
    (se : StemExport) (song : Song) (w : W) :
    ((∀ e ∈ (exportInstrumentStems E fuel ty (Sys.start se song w)).state.log,
          0 ≤ e.se.numStemsExported ∧ e.se.numStemsExported ≤ e.se.totalNumStemsToExport)
        ∧ List.Chain' (fun a b : Event W =>
            b.se.numStemsExported = a.se.numStemsExported
              ∨ b.se.numStemsExported = a.se.numStemsExported + 1)
          (exportInstrumentStems E fuel ty (Sys.start se song w)).state.log)
      ∧ ((∀ e ∈ (exportClipStems E fuel ty (Sys.start se song w)).state.log,
          0 ≤ e.se.numStemsExported ∧ e.se.numStemsExported ≤ e.se.totalNumStemsToExport)
        ∧ List.Chain' (fun a b : Event W =>
            b.se.numStemsExported = a.se.numStemsExported
              ∨ b.se.numStemsExported = a.se.numStemsExported + 1)
          (exportClipStems E fuel ty (Sys.start se song w)).state.log) :=
  ⟨⟨(exportInstrumentStems_counter E fuel ty se song w).1,
      (exportInstrumentStems_counter E fuel ty se song w).2.1⟩,
    ⟨(exportClipStems_counter E fuel ty se song w).1,
      (exportClipStems_counter E fuel ty se song w).2.1⟩⟩

/-- Worked example for C3: the counter along the trace of the demo clip run, and the
bound at its entries as given by the theorem. -/
theorem counter_bounded_and_stepwise_witness :
    (exportClipStems rigWorld 10 StemExportType.CLIP
        (demoStart StemExportType.CLIP rigIdle)).state.log.map
          (fun e => (e.se.numStemsExported, e.se.totalNumStemsToExport))
        = [(0, 2), (0, 2), (0, 2), (0, 2), (0, 2), (0, 2), (0, 2), (0, 2), (1, 2), (1, 2),
           (1, 2), (1, 2), (1, 2), (1, 2), (1, 2), (1, 2), (1, 2), (2, 2), (2, 2)]
      ∧ ∀ e ∈ (exportClipStems rigWorld 10 StemExportType.CLIP
          (demoStart StemExportType.CLIP rigIdle)).state.log,
          0 ≤ e.se.numStemsExported ∧ e.se.numStemsExported ≤ e.se.totalNumStemsToExport :=
  ⟨rfl, (counter_bounded_and_stepwise rigWorld 10 StemExportType.CLIP
      { StemExport.new with processStarted := true
                            currentStemExportType := StemExportType.CLIP }
      demoSong rigIdle).2.1⟩

/-! ## Which targets are counted -/

theorem startCurrentStemExport_num (E : World W) (ty : StemExportType) (o : Output)
    (r : MuteRef) (k : Nat) (s : Sys W) :
    (startCurrentStemExport E ty o r k true s).2.se.numStemsExported
      = s.se.numStemsExported := by
  obtain ⟨t2, t3, hq2, hq3, he⟩ := startCurrentStemExport_eq E ty o r k s
  rw [he, Sys.emit_se, hq3.2.2.1, Sys.emit_se, hq2.2.2.1]
  rfl

theorem yieldRound_num (E : World W) (s : Sys W) :
    (yieldRound E s).2.se.numStemsExported = s.se.numStemsExported := by
  obtain ⟨t, hq, he⟩ := yieldRound_eq E s
  rw [he, Sys.emit_se, hq.2.2.1]

theorem exportTarget_num (E : World W) (fuel : Nat) (ty : StemExportType) (o : Output)
    (r : MuteRef) (k : Nat) (ex : Bool) (s : Sys W) :
    ∀ b s1, exportTarget E fuel ty o r k ex s = Progress.returned (b, s1) →
      s1.se.numStemsExported = s.se.numStemsExported + (if ex = true then 1 else 0) :=
  (exportTarget_rule E fuel ty o r k ex s
    (fun t => ex = true ∧ t.se.numStemsExported = s.se.numStemsExported)
    (fun _ t => t.se.numStemsExported
      = s.se.numStemsExported + (if ex = true then 1 else 0))
    (fun hex => by simp [hex, Sys.emit_se])
    (fun hex => ⟨hex, startCurrentStemExport_num E ty o r k s⟩)
    (fun t ht => ⟨ht.1, (yieldRound_num E t).trans ht.2⟩)
    (fun t ht => by
      rw [finishCurrentStemExport_eq]
      simp only [Sys.emit_se, ht.1, if_true]
      rw [ht.2])).1

/-- C4, counterexample.  On the demo song "Bass" is the one eligible output.  Whether the
transport does not start or the capture engine does not accept the recording,
`stopOutputRecordingAtSilence` is never set and `recordingSource` stays `NONE` along the
whole run, and yet the run ends with `numStemsExported` equal to 1: the target was
counted, not skipped. -/
theorem rejected_capture_is_counted :
    (∃ r, exportInstrumentStems rigWorld 10 StemExportType.TRACK
          (demoStart StemExportType.TRACK { rigIdle with accepts := false })
          = Progress.returned r
        ∧ r.2.log.all (fun e => !e.se.stopOutputRecordingAtSilence
            && decide (rigWorld.recordingSource e.world = 0)) = true
        ∧ r.2.song.outputs.map (fun o => o.exportStem) = [true, false, false]
        ∧ r.2.se.totalNumStemsToExport = 1
        ∧ r.2.se.numStemsExported = 1)
      ∧ (∃ r, exportInstrumentStems rigWorld 10 StemExportType.TRACK
          (demoStart StemExportType.TRACK { rigIdle with starts := false })
          = Progress.returned r
        ∧ r.2.log.all (fun e => !e.se.stopOutputRecordingAtSilence
            && !rigWorld.isEitherClockActive e.world
            && decide (rigWorld.recordingSource e.world = 0)) = true
        ∧ r.2.se.numStemsExported = 1) :=
  ⟨⟨_, rfl, rfl, rfl, rfl, rfl⟩, ⟨_, rfl, rfl, rfl⟩⟩

/-- C4, as amended.  A rejected capture is not a skip: the only targets skipped are those
whose `exportStem` is false.  `startCurrentStemExport` reports `started` exactly for the
targets whose `exportStem` is true, whatever the transport and the capture engine
answer, and once the body of either loop has run for a target, `numStemsExported` has
grown by exactly 1 if its `exportStem` is true and is unchanged otherwise. -/
theorem started_target_is_counted (E : World W) (fuel : Nat) (ty : StemExportType)
    (k : Nat) (s : Sys W) :
    (∀ (o : Output) (r : MuteRef) (ex : Bool),
        (startCurrentStemExport E ty o r k ex s).1 = ex)
      ∧ (∀ (o : Output) (b : Bool) (s1 : Sys W), s.song.outputs[k]? = some o →
          exportInstrumentBody E fuel ty k s = Progress.returned (b, s1) →
          s1.se.numStemsExported
            = s.se.numStemsExported + (if o.exportStem = true then 1 else 0))
      ∧ (∀ (c : Clip) (b : Bool) (s1 : Sys W), s.song.sessionClips[k]? = some c →
          exportClipBody E fuel ty k s = Progress.returned (b, s1) →
          s1.se.numStemsExported
            = s.se.numStemsExported + (if c.exportStem = true then 1 else 0)) := by
  refine ⟨?_, ?_, ?_⟩
  · intro o r ex
    cases ex <;> rfl
  · intro o b s1 hk hb
    unfold exportInstrumentBody at hb
    rw [hk] at hb
    exact exportTarget_num E fuel ty o (MuteRef.output k) k o.exportStem s b s1 hb
  · intro c b s1 hk hb
    unfold exportClipBody at hb
    rw [hk] at hb
    rw [exportTarget_num E fuel ty c.output (MuteRef.clip k) k c.exportStem _ b s1 hb,
      (quiet_clipPrelude E c s).2.2.1]

/-- Worked example for the amended C4: the body of the track loop for "Bass" on a rig
whose capture engine rejects the recording. -/
theorem started_target_is_counted_witness :
    ∃ b s1, exportInstrumentBody rigWorld 10 StemExportType.TRACK 0
          (disarmAllInstrumentsForStemExport
            (demoStart StemExportType.TRACK { rigIdle with accepts := false })).2
          = Progress.returned (b, s1)
      ∧ s1.se.numStemsExported = 0 + (if true = true then 1 else 0) :=
  ⟨_, _, rfl, (started_target_is_counted rigWorld 10 StemExportType.TRACK 0
      (disarmAllInstrumentsForStemExport
        (demoStart StemExportType.TRACK { rigIdle with accepts := false })).2).2.1
      _ _ _ rfl rfl⟩

/-! ## Targets that are not exported -/

theorem MuteRef.exportStem_write (r0 r : MuteRef) (b : Bool) (song : Song) :
    r0.exportStem (r.write b song) = r0.exportStem song := by
  cases r with
  | output idx =>
    cases h : song.outputs[idx]? with
    | none => simp only [MuteRef.write, h]
    | some o =>
      cases r0 with
      | output i0 =>
        simp only [MuteRef.write, h, MuteRef.exportStem, List.getElem?_set]
        by_cases hi : idx = i0
        · subst hi
          have hlt : idx < song.outputs.length := (List.getElem?_eq_some_iff.mp h).1
          simp [hlt, h]
        · simp [hi]
      | clip i0 => simp only [MuteRef.write, h, MuteRef.exportStem]
  | clip idx =>
    cases h : song.sessionClips[idx]? with
    | none => simp only [MuteRef.write, h]
    | some c =>
      cases r0 with
      | output i0 => simp only [MuteRef.write, h, MuteRef.exportStem]
      | clip i0 =>
        simp only [MuteRef.write, h, MuteRef.exportStem, List.getElem?_set]
        by_cases hi : idx = i0
        · subst hi
          have hlt : idx < song.sessionClips.length := (List.getElem?_eq_some_iff.mp h).1
          simp [hlt, h]
        · simp [hi]

theorem MuteRef.read_write_ne (r0 r : MuteRef) (hne : r ≠ r0) (b : Bool) (song : Song) :
    r0.read (r.write b song) = r0.read song := by
  cases r with
  | output idx =>
    cases h : song.outputs[idx]? with
    | none => simp only [MuteRef.write, h]
    | some o =>
      cases r0 with
      | output i0 =>
        have hi : idx ≠ i0 := fun hi => hne (by rw [hi])
        simp [MuteRef.write, h, MuteRef.read, List.getElem?_set, hi]
      | clip i0 => simp only [MuteRef.write, h, MuteRef.read]
  | clip idx =>
    cases h : song.sessionClips[idx]? with
    | none => simp only [MuteRef.write, h]
    | some c =>
      cases r0 with
      | output i0 => simp only [MuteRef.write, h, MuteRef.read]
      | clip i0 =>
        have hi : idx ≠ i0 := fun hi => hne (by rw [hi])
        simp [MuteRef.write, h, MuteRef.read, List.getElem?_set, hi]

theorem EligInv.eligQuiet {r0 : MuteRef} {i0 : Nat} {forced : Bool} {s t : Sys W}
    (h : EligInv r0 i0 forced s) (hq : Quiet s t) : EligInv r0 i0 forced t := by
  unfold EligInv at h ⊢
  rw [hq.1, hq.2.1, hq.2.2.1]
  exact h

theorem EligInv.write {r0 : MuteRef} {i0 : Nat} {forced : Bool} {s : Sys W}
    (h : EligInv r0 i0 forced s) (r : MuteRef) (hne : r ≠ r0) (b : Bool) :
    EligInv r0 i0 forced { s with song := r.write b s.song } := by
  obtain ⟨h1, h2, h3, h4, h5⟩ := h
  refine ⟨h1, h2, h3, ?_, ?_⟩
  · simp only
    rw [MuteRef.read_write_ne r0 r hne]
    exact h4
  · simp only
    rw [MuteRef.exportStem_write]
    exact h5

theorem EligInv.eligEmit {r0 : MuteRef} {i0 : Nat} {forced : Bool} {s : Sys W}
    (h : EligInv r0 i0 forced s) (st : Step)
    (hst : st ≠ Step.muteStateWritten i0 ∧ st ≠ Step.fileNameRequested i0
      ∧ st ≠ Step.recordingRequested i0 ∧ st ≠ Step.finishCurrent r0 ∧ st ≠ Step.restored) :
    EligInv r0 i0 forced (Sys.emit st s) := by
  obtain ⟨h1, h2, h3, h4, h5⟩ := h
  refine ⟨?_, ?_, ?_, h4, h5⟩
  · intro e he
    rw [Sys.emit_log, List.mem_append, List.mem_singleton] at he
    rcases he with he | he
    · exact h1 e he
    · subst he
      exact ⟨hst.1, hst.2.1, hst.2.2.1, hst.2.2.2.1, hst.2.2.2.2, h4⟩
  · rw [Sys.emit_log, List.chain'_append]
    refine ⟨h2, List.chain'_singleton _, ?_⟩
    intro x hx y hy
    simp only [List.head?_cons, Option.mem_def, Option.some.injEq] at hy
    subst hy
    intro hne
    exact absurd (h3 x hx).symm hne
  · intro e he
    rw [Sys.emit_log, List.getLast?_concat] at he
    simp only [Option.mem_def, Option.some.injEq] at he
    subst he
    rfl

theorem EligInv.eligFinish {r0 : MuteRef} {i0 : Nat} {forced : Bool} {s : Sys W}
    (h : EligInv r0 i0 forced s) (ty : StemExportType) (r : MuteRef) (hne : r ≠ r0) :
    EligInv r0 i0 forced (finishCurrentStemExport ty r s) := by
  rw [finishCurrentStemExport_eq]
  obtain ⟨h1, h2, h3, h4, h5⟩ := h
  have h4w : r0.read (r.write (!startFlag ty) s.song) = some forced := by
    rw [MuteRef.read_write_ne r0 r hne]
    exact h4
  refine ⟨?_, ?_, ?_, h4w, ?_⟩
  · intro e he
    rw [Sys.emit_log, List.mem_append, List.mem_singleton] at he
    rcases he with he | he
    · exact h1 e he
    · subst he
      refine ⟨by simp, by simp, by simp, ?_, by simp, h4w⟩
      simp only [ne_eq, Step.finishCurrent.injEq]
      exact hne
  · rw [Sys.emit_log, List.chain'_append]
    refine ⟨h2, List.chain'_singleton _, ?_⟩
    intro x hx y hy
    simp only [List.head?_cons, Option.mem_def, Option.some.injEq] at hy
    subst hy
    intro _
    exact ⟨r, hne, rfl⟩
  · intro e he
    rw [Sys.emit_log, List.getLast?_concat] at he
    simp only [Option.mem_def, Option.some.injEq] at he
    subst he
    rfl
  · simp only [Sys.emit_song]
    rw [MuteRef.exportStem_write]
    exact h5

theorem EligInv.eligStart {r0 : MuteRef} {i0 : Nat} {forced : Bool} {s : Sys W}
    (h : EligInv r0 i0 forced s) (E : World W) (ty : StemExportType) (o : Output)
    (r : MuteRef) (k : Nat) (hne : r ≠ r0) (hk : k ≠ i0) :
    EligInv r0 i0 forced (startCurrentStemExport E ty o r k true s).2 := by
  obtain ⟨t2, t3, hq2, hq3, he⟩ := startCurrentStemExport_eq E ty o r k s
  rw [he]
  have h0 := (h.eligEmit (Step.startCurrent k) (by simp)).write r hne (startFlag ty)
  have h1 := (h0.eligEmit (Step.muteStateWritten k) (by simp [hk])).eligQuiet hq2
  have h2 := (h1.eligEmit (Step.fileNameRequested k) (by simp [hk])).eligQuiet hq3
  exact h2.eligEmit (Step.recordingRequested k) (by simp [hk])

theorem EligInv.eligYieldRound {r0 : MuteRef} {i0 : Nat} {forced : Bool} {s : Sys W}
    (h : EligInv r0 i0 forced s) (E : World W) :
    EligInv r0 i0 forced (yieldRound E s).2 := by
  obtain ⟨t, hq, he⟩ := yieldRound_eq E s
  rw [he]
  exact (h.eligQuiet hq).eligEmit Step.yielded (by simp)

theorem exportTarget_elig (E : World W) (fuel : Nat) (ty : StemExportType) (o : Output)
    (r : MuteRef) (k : Nat) (ex : Bool) (s : Sys W) (r0 : MuteRef) (i0 : Nat)
    (forced : Bool) (hne : ex = true → r ≠ r0 ∧ k ≠ i0) (h : EligInv r0 i0 forced s) :
    (∀ b s1, exportTarget E fuel ty o r k ex s = Progress.returned (b, s1) →
        EligInv r0 i0 forced s1)
      ∧ (∀ s1, exportTarget E fuel ty o r k ex s = Progress.suspended s1 →
        EligInv r0 i0 forced s1) := by
  have hr := exportTarget_rule E fuel ty o r k ex s
    (fun t => ex = true ∧ EligInv r0 i0 forced t) (fun _ t => EligInv r0 i0 forced t)
    (fun _ => h.eligEmit (Step.startCurrent k) (by simp))
    (fun hex => ⟨hex, h.eligStart E ty o r k (hne hex).1 (hne hex).2⟩)
    (fun t ht => ⟨ht.1, ht.2.eligYieldRound E⟩)
    (fun t ht => ht.2.eligFinish ty r (hne ht.1).1)
  exact ⟨hr.1, fun s1 hs1 => (hr.2 s1 hs1).2⟩

theorem EligInv.neverStarted {r0 : MuteRef} {i0 : Nat} {forced : Bool} {s : Sys W}
    (h : EligInv r0 i0 forced s) : NeverStarted r0 i0 forced s.log :=
  ⟨fun e he => ⟨(h.1 e he).1, (h.1 e he).2.1, (h.1 e he).2.2.1, (h.1 e he).2.2.2.1,
    fun _ => (h.1 e he).2.2.2.2.2⟩, h.2.1⟩

theorem EligInv.restored {r0 : MuteRef} {i0 : Nat} {forced : Bool} {s t : Sys W}
    (h : EligInv r0 i0 forced s) (hlog : t.log = s.log) (hse : t.se = s.se) :
    NeverStarted r0 i0 forced (Sys.emit Step.restored t).log := by
  obtain ⟨h1, h2, h3, _, _⟩ := h
  constructor
  · intro e he
    rw [Sys.emit_log, hlog, List.mem_append, List.mem_singleton] at he
    rcases he with he | he
    · exact ⟨(h1 e he).1, (h1 e he).2.1, (h1 e he).2.2.1, (h1 e he).2.2.2.1,
        fun _ => (h1 e he).2.2.2.2.2⟩
    · subst he
      exact ⟨by simp, by simp, by simp, by simp, fun hne => absurd rfl hne⟩
  · rw [Sys.emit_log, hlog, List.chain'_append]
    refine ⟨h2, List.chain'_singleton _, ?_⟩
    intro x hx y hy
    simp only [List.head?_cons, Option.mem_def, Option.some.injEq] at hy
    subst hy
    intro hne
    simp only [hse] at hne
    exact absurd (h3 x hx).symm hne

theorem exportInstrumentBody_elig (E : World W) (fuel : Nat) (ty : StemExportType)
    (k : Nat) (s : Sys W) (i0 : Nat) (forced : Bool)
    (h : EligInv (MuteRef.output i0) i0 forced s) :
    (∀ b s1, exportInstrumentBody E fuel ty k s = Progress.returned (b, s1) →
        EligInv (MuteRef.output i0) i0 forced s1)
      ∧ (∀ s1, exportInstrumentBody E fuel ty k s = Progress.suspended s1 →
        EligInv (MuteRef.output i0) i0 forced s1) := by
  unfold exportInstrumentBody
  cases hk : s.song.outputs[k]? with
  | none =>
    constructor
    · intro b s1 hb
      simp only [Progress.returned.injEq, Prod.mk.injEq] at hb
      rw [← hb.2]
      exact h
    · intro s1 hb
      simp at hb
  | some o =>
    refine exportTarget_elig E fuel ty o (MuteRef.output k) k o.exportStem s
      (MuteRef.output i0) i0 forced ?_ h
    intro hex
    have hki : k ≠ i0 := by
      intro hki
      have h5 := h.2.2.2.2
      rw [← hki] at h5
      simp only [MuteRef.exportStem, hk, Option.map_some', Option.some.injEq] at h5
      rw [hex] at h5
      cases h5
    exact ⟨fun he => hki (MuteRef.output.inj he), hki⟩

theorem exportClipBody_elig (E : World W) (fuel : Nat) (ty : StemExportType)
    (k : Nat) (s : Sys W) (i0 : Nat) (forced : Bool)
    (h : EligInv (MuteRef.clip i0) i0 forced s) :
    (∀ b s1, exportClipBody E fuel ty k s = Progress.returned (b, s1) →
        EligInv (MuteRef.clip i0) i0 forced s1)
      ∧ (∀ s1, exportClipBody E fuel ty k s = Progress.suspended s1 →
        EligInv (MuteRef.clip i0) i0 forced s1) := by
  unfold exportClipBody
  cases hk : s.song.sessionClips[k]? with
  | none =>
    constructor
    · intro b s1 hb
      simp only [Progress.returned.injEq, Prod.mk.injEq] at hb
      rw [← hb.2]
      exact h
    · intro s1 hb
      simp at hb
  | some c =>
    refine exportTarget_elig E fuel ty c.output (MuteRef.clip k) k c.exportStem _
      (MuteRef.clip i0) i0 forced ?_ (h.eligQuiet (quiet_clipPrelude E c s))
    intro hex
    have hki : k ≠ i0 := by
      intro hki
      have h5 := h.2.2.2.2
      rw [← hki] at h5
      simp only [MuteRef.exportStem, hk, Option.map_some', Option.some.injEq] at h5
      rw [hex] at h5
      cases h5
    exact ⟨fun he => hki (MuteRef.clip.inj he), hki⟩

theorem exportInstrumentStems_neverStarted (E : World W) (fuel : Nat) (ty : StemExportType)
    (se : StemExport) (song : Song) (w : W) (i : Nat) (o : Output)
    (hi : song.outputs[i]? = some o) (ho : outputEligible o = false) :
    NeverStarted (MuteRef.output i) i true
      (exportInstrumentStems E fuel ty (Sys.start se song w)).state.log := by
  unfold exportInstrumentStems
  rw [disarmAllInstrumentsForStemExport_eq]
  simp only
  have hbase : EligInv (MuteRef.output i) i true
      ({ se := { se with numStemsExported := 0
                         totalNumStemsToExport := List.countP outputEligible song.outputs }
         song := { song with outputs := song.outputs.map disarmOutput }
         world := w
         log := [] } : Sys W) := by
    refine ⟨?_, List.chain'_nil, ?_, ?_, ?_⟩
    · intro e he
      cases he
    · intro e he
      cases he
    · simp [MuteRef.read, hi, disarmOutput]
    · simp [MuteRef.exportStem, hi, disarmOutput, ho]
  have hloop := descLoop_rule (exportInstrumentBody E fuel ty)
    (fun _ t => EligInv (MuteRef.output i) i true t)
    (fun t => EligInv (MuteRef.output i) i true t)
    (fun t => EligInv (MuteRef.output i) i true t)
    (fun k t t1 ht hb => (exportInstrumentBody_elig E fuel ty k t i true ht).2 t1 hb)
    (fun k t t1 ht hb => (exportInstrumentBody_elig E fuel ty k t i true ht).1 true t1 hb)
    (fun k t t1 ht hb => (exportInstrumentBody_elig E fuel ty k t i true ht).1 false t1 hb)
    (fun t ht => ht) song.outputs.length _ (hbase.eligEmit Step.prepared (by simp))
  simp only [Sys.start] at hloop ⊢
  cases hd : descLoop (exportInstrumentBody E fuel ty) song.outputs.length
      (Sys.emit Step.prepared
        { se := { se with numStemsExported := 0
                          totalNumStemsToExport := List.countP outputEligible song.outputs }
          song := { song with outputs := song.outputs.map disarmOutput }
          world := w
          log := [] }) with
  | suspended s1 => exact (hloop.2 s1 hd).neverStarted
  | returned s1 =>
    simp only [Progress.state]
    obtain ⟨t, hse, _, hlog, heq⟩ := restoreAllInstrumentMutes_frame song.outputs.length s1
    rw [heq]
    exact (hloop.1 s1 hd).restored hlog hse

theorem exportClipStems_neverStarted (E : World W) (fuel : Nat) (ty : StemExportType)
    (se : StemExport) (song : Song) (w : W) (i : Nat) (c : Clip)
    (hi : song.sessionClips[i]? = some c) (hc : clipEligible c = false) :
    NeverStarted (MuteRef.clip i) i false
      (exportClipStems E fuel ty (Sys.start se song w)).state.log := by
  unfold exportClipStems
  rw [disarmAllClipsForStemExport_eq]
  simp only
  have hbase : EligInv (MuteRef.clip i) i false
      ({ se := { se with numStemsExported := 0
                         totalNumStemsToExport := List.countP clipEligible song.sessionClips }
         song := { song with sessionClips := song.sessionClips.map disarmClip }
         world := w
         log := [] } : Sys W) := by
    refine ⟨?_, List.chain'_nil, ?_, ?_, ?_⟩
    · intro e he
      cases he
    · intro e he
      cases he
    · simp [MuteRef.read, hi, disarmClip]
    · simp [MuteRef.exportStem, hi, disarmClip, hc]
  have hloop := descLoop_rule (exportClipBody E fuel ty)
    (fun _ t => EligInv (MuteRef.clip i) i false t)
    (fun t => EligInv (MuteRef.clip i) i false t)
    (fun t => EligInv (MuteRef.clip i) i false t)
    (fun k t t1 ht hb => (exportClipBody_elig E fuel ty k t i false ht).2 t1 hb)
    (fun k t t1 ht hb => (exportClipBody_elig E fuel ty k t i false ht).1 true t1 hb)
    (fun k t t1 ht hb => (exportClipBody_elig E fuel ty k t i false ht).1 false t1 hb)
    (fun t ht => ht) song.sessionClips.length _ (hbase.eligEmit Step.prepared (by simp))
  simp only [Sys.start] at hloop ⊢
  cases hd : descLoop (exportClipBody E fuel ty) song.sessionClips.length
      (Sys.emit Step.prepared
        { se := { se with numStemsExported := 0
                          totalNumStemsToExport := List.countP clipEligible song.sessionClips }
          song := { song with sessionClips := song.sessionClips.map disarmClip }
          world := w
          log := [] }) with
  | suspended s1 => exact (hloop.2 s1 hd).neverStarted
  | returned s1 =>
    simp only [Progress.state]
    obtain ⟨t, hse, _, hlog, heq⟩ := restoreAllClipMutes_frame song.sessionClips.length s1
    rw [heq]
    exact (hloop.1 s1 hd).restored hlog hse

/-- C5. Eligibility exactness.  In every run of `exportInstrumentStems`, an output that
is empty, or of type `MIDI_OUT` or `CV`, or was muted in arrangement before the run, is
never started: the trace has no write through its mute flag, no file name with its index,
no capture request and no finish for it, its `mutedInArrangementMode` is true at every
point from prepare until restore, and `numStemsExported` only ever changes at the finish
of another target.  The same holds in every run of `exportClipStems` for a clip that is
empty or whose output is of type `MIDI_OUT` or `CV`, with `activeIfNoSolo` false. -/
theorem ineligible_target_never_started (E : World W) (fuel : Nat) (ty : StemExportType)
    (se : StemExport) (song : Song) (w : W) (i : Nat) :
    (∀ o : Output, song.outputs[i]? = some o →
        (o.isEmpty = true ∨ o.type = OutputType.MIDI_OUT ∨ o.type = OutputType.CV
          ∨ o.mutedInArrangementMode = true) →
        NeverStarted (MuteRef.output i) i true
          (exportInstrumentStems E fuel ty (Sys.start se song w)).state.log)
      ∧ (∀ c : Clip, song.sessionClips[i]? = some c →
        (c.isEmpty = true ∨ c.output.type = OutputType.MIDI_OUT
          ∨ c.output.type = OutputType.CV) →
        NeverStarted (MuteRef.clip i) i false
          (exportClipStems E fuel ty (Sys.start se song w)).state.log) := by
  constructor
  · intro o hi ho
    refine exportInstrumentStems_neverStarted E fuel ty se song w i o hi ?_
    cases hel : outputEligible o with
    | false => rfl
    | true =>
      obtain ⟨h1, h2, h3, h4⟩ := (outputEligible_iff o).mp hel
      rcases ho with ho | ho | ho | ho
      · rw [h2] at ho
        cases ho
      · exact absurd ho h3
      · exact absurd ho h4
      · rw [h1] at ho
        cases ho
  · intro c hi hc
    refine exportClipStems_neverStarted E fuel ty se song w i c hi ?_
    cases hel : clipEligible c with
    | false => rfl
    | true =>
      obtain ⟨h1, h2, h3⟩ := (clipEligible_iff c).mp hel
      rcases hc with hc | hc | hc
      · rw [h1] at hc
        cases hc
      · exact absurd hc h2
      · exact absurd hc h3

/-- Worked example for C5 on the demo song: the muted kit (output 2) in a track run and
the clip on the MIDI track (clip 1) in a clip run. -/
theorem ineligible_target_never_started_witness :
    NeverStarted (MuteRef.output 2) 2 true
        (exportInstrumentStems rigWorld 10 StemExportType.TRACK
          (demoStart StemExportType.TRACK rigIdle)).state.log
      ∧ NeverStarted (MuteRef.clip 1) 1 false
        (exportClipStems rigWorld 10 StemExportType.CLIP
          (demoStart StemExportType.CLIP rigIdle)).state.log :=
  ⟨(ineligible_target_never_started rigWorld 10 StemExportType.TRACK
      { StemExport.new with processStarted := true
                            currentStemExportType := StemExportType.TRACK }
      demoSong rigIdle 2).1 _ rfl (Or.inr (Or.inr (Or.inr rfl))),
   (ineligible_target_never_started rigWorld 10 StemExportType.CLIP
      { StemExport.new with processStarted := true
                            currentStemExportType := StemExportType.CLIP }
      demoSong rigIdle 1).2 _ rfl (Or.inr (Or.inl rfl))⟩

/-! ## Order of the visits -/

theorem startedIndices_emit (st : Step) (s : Sys W) :
    startedIndices (Sys.emit st s).log
      = startedIndices s.log ++
        (match st with
          | Step.startCurrent k => [k]
          | _ => []) := by
  unfold startedIndices
  rw [Sys.emit_log, List.filterMap_append]
  cases st <;> rfl

theorem requestedFileNumbers_emit (st : Step) (s : Sys W) :
    requestedFileNumbers (Sys.emit st s).log
      = requestedFileNumbers s.log ++
        (match st with
          | Step.fileNameRequested n => [n]
          | _ => []) := by
  unfold requestedFileNumbers
  rw [Sys.emit_log, List.filterMap_append]
  cases st <;> rfl

theorem startCurrentStemExport_indices (E : World W) (ty : StemExportType) (o : Output)
    (r : MuteRef) (k : Nat) (s : Sys W) :
    startedIndices (startCurrentStemExport E ty o r k true s).2.log
        = startedIndices s.log ++ [k]
      ∧ requestedFileNumbers (startCurrentStemExport E ty o r k true s).2.log
        = requestedFileNumbers s.log ++ [k] := by
  obtain ⟨t2, t3, hq2, hq3, he⟩ := startCurrentStemExport_eq E ty o r k s
  rw [he]
  constructor
  · rw [startedIndices_emit, hq3.1, startedIndices_emit, hq2.1, startedIndices_emit]
    simp only [List.append_nil]
    exact startedIndices_emit (Step.startCurrent k) s
  · rw [requestedFileNumbers_emit, hq3.1, requestedFileNumbers_emit, hq2.1,
      requestedFileNumbers_emit]
    simp only [List.append_nil]
    have := requestedFileNumbers_emit (Step.startCurrent k) s
    simp only [List.append_nil] at this
    show requestedFileNumbers (Sys.emit (Step.startCurrent k) s).log ++ [k] = _
    rw [this]

theorem yieldRound_indices (E : World W) (s : Sys W) :
    startedIndices (yieldRound E s).2.log = startedIndices s.log
      ∧ requestedFileNumbers (yieldRound E s).2.log = requestedFileNumbers s.log := by
  obtain ⟨t, hq, he⟩ := yieldRound_eq E s
  rw [he, startedIndices_emit, requestedFileNumbers_emit, hq.1]
  simp

theorem finishCurrentStemExport_indices (ty : StemExportType) (r : MuteRef) (s : Sys W) :
    startedIndices (finishCurrentStemExport ty r s).log = startedIndices s.log
      ∧ requestedFileNumbers (finishCurrentStemExport ty r s).log
        = requestedFileNumbers s.log := by
  rw [finishCurrentStemExport_eq, startedIndices_emit, requestedFileNumbers_emit]
  simp

theorem exportTarget_indices (E : World W) (fuel : Nat) (ty : StemExportType) (o : Output)
    (r : MuteRef) (k : Nat) (ex : Bool) (s : Sys W) :
    ∀ b s1, exportTarget E fuel ty o r k ex s = Progress.returned (b, s1) →
      startedIndices s1.log = startedIndices s.log ++ [k]
        ∧ requestedFileNumbers s1.log
          = requestedFileNumbers s.log ++ (if ex = true then [k] else [])
        ∧ (b = true → s1.se.processStarted = false) :=
  (exportTarget_rule E fuel ty o r k ex s
    (fun t => ex = true ∧ startedIndices t.log = startedIndices s.log ++ [k]
      ∧ requestedFileNumbers t.log = requestedFileNumbers s.log ++ [k])
    (fun b t => startedIndices t.log = startedIndices s.log ++ [k]
      ∧ requestedFileNumbers t.log
        = requestedFileNumbers s.log ++ (if ex = true then [k] else [])
      ∧ (b = true → t.se.processStarted = false))
    (fun hex => by
      beta_reduce
      rw [startedIndices_emit, requestedFileNumbers_emit]
      simp [hex])
    (fun hex => ⟨hex, startCurrentStemExport_indices E ty o r k s⟩)
    (fun t ht => ⟨ht.1, (yieldRound_indices E t).1.trans ht.2.1,
      (yieldRound_indices E t).2.trans ht.2.2⟩)
    (fun t ht => by
      beta_reduce
      refine ⟨(finishCurrentStemExport_indices ty r t).1.trans ht.2.1, ?_, ?_⟩
      · rw [(finishCurrentStemExport_indices ty r t).2, ht.2.2, ht.1]
        rfl
      · intro hb
        simpa using hb)).1

theorem map_exportStem_of_erase {l1 l2 : List Output}
    (h : l1.map eraseOutput = l2.map eraseOutput) :
    l1.map (fun o => o.exportStem) = l2.map (fun o => o.exportStem) := by
  have hc : ∀ l : List Output,
      l.map (fun o => o.exportStem) = (l.map eraseOutput).map (fun o => o.exportStem) := by
    intro l
    rw [List.map_map]
    rfl
  rw [hc l1, hc l2, h]

theorem map_clip_exportStem_of_erase {l1 l2 : List Clip}
    (h : l1.map eraseClip = l2.map eraseClip) :
    l1.map (fun c => c.exportStem) = l2.map (fun c => c.exportStem) := by
  have hc : ∀ l : List Clip,
      l.map (fun c => c.exportStem) = (l.map eraseClip).map (fun c => c.exportStem) := by
    intro l
    rw [List.map_map]
    rfl
  rw [hc l1, hc l2, h]

theorem reverse_range_succ (k : Nat) :
    (List.range (k + 1)).reverse = k :: (List.range k).reverse := by
  rw [List.range_succ, List.reverse_append]
  rfl

/-- The bookkeeping shared by both loops: with `F` the `exportStem` flags of the
targets, one more visit (at index `k`, with a file name exactly if `F` says so) takes the
visit-order invariant from `k + 1` to `k`. -/
theorem visit_step (F : List Bool) (k : Nat) (ex : Bool) (hF : F[k]? = some ex)
    (vis nam vis1 nam1 : List Nat)
    (hv : vis ++ (List.range (k + 1)).reverse = (List.range F.length).reverse)
    (hn : nam ++ (List.range (k + 1)).reverse.filter (fun i => F.getD i false)
      = (List.range F.length).reverse.filter (fun i => F.getD i false))
    (hv1 : vis1 = vis ++ [k]) (hn1 : nam1 = nam ++ (if ex = true then [k] else [])) :
    vis1 ++ (List.range k).reverse = (List.range F.length).reverse
      ∧ nam1 ++ (List.range k).reverse.filter (fun i => F.getD i false)
        = (List.range F.length).reverse.filter (fun i => F.getD i false) := by
  rw [reverse_range_succ] at hv hn
  constructor
  · rw [hv1, ← hv]
    simp
  · rw [hn1, ← hn]
    cases ex <;> simp [List.filter_cons, hF]

theorem exportInstrumentBody_indices (E : World W) (fuel : Nat) (ty : StemExportType)
    (k : Nat) (s : Sys W) (F : List Bool)
    (hF : s.song.outputs.map (fun o => o.exportStem) = F) (hk : k < F.length)
    (hv : startedIndices s.log ++ (List.range (k + 1)).reverse = (List.range F.length).reverse)
    (hn : requestedFileNumbers s.log
        ++ (List.range (k + 1)).reverse.filter (fun i => F.getD i false)
      = (List.range F.length).reverse.filter (fun i => F.getD i false)) :
    ∀ b s1, exportInstrumentBody E fuel ty k s = Progress.returned (b, s1) →
      s1.song.outputs.map (fun o => o.exportStem) = F
        ∧ startedIndices s1.log ++ (List.range k).reverse = (List.range F.length).reverse
        ∧ requestedFileNumbers s1.log
            ++ (List.range k).reverse.filter (fun i => F.getD i false)
          = (List.range F.length).reverse.filter (fun i => F.getD i false)
        ∧ (b = true → s1.se.processStarted = false) := by
  intro b s1 hb
  have hem := (exportInstrumentBody_eraseMutes E fuel ty k s).1 b s1 hb
  have hF1 : s1.song.outputs.map (fun o => o.exportStem) = F :=
    (map_exportStem_of_erase (congrArg Song.outputs hem)).trans hF
  unfold exportInstrumentBody at hb
  cases hlook : s.song.outputs[k]? with
  | none =>
    have hlen : k < s.song.outputs.length := by
      have := congrArg List.length hF
      rw [List.length_map] at this
      omega
    rw [List.getElem?_eq_getElem hlen] at hlook
    cases hlook
  | some o =>
    rw [hlook] at hb
    simp only at hb
    obtain ⟨h1, h2, h3⟩ := exportTarget_indices E fuel ty o (MuteRef.output k) k
      o.exportStem s b s1 hb
    have hFk : F[k]? = some o.exportStem := by
      rw [← hF, List.getElem?_map, hlook]
      rfl
    obtain ⟨g1, g2⟩ := visit_step F k o.exportStem hFk _ _ _ _ hv hn h1 h2
    exact ⟨hF1, g1, g2, h3⟩

theorem exportClipBody_indices (E : World W) (fuel : Nat) (ty : StemExportType)
    (k : Nat) (s : Sys W) (F : List Bool)
    (hF : s.song.sessionClips.map (fun c => c.exportStem) = F) (hk : k < F.length)
    (hv : startedIndices s.log ++ (List.range (k + 1)).reverse = (List.range F.length).reverse)
    (hn : requestedFileNumbers s.log
        ++ (List.range (k + 1)).reverse.filter (fun i => F.getD i false)
      = (List.range F.length).reverse.filter (fun i => F.getD i false)) :
    ∀ b s1, exportClipBody E fuel ty k s = Progress.returned (b, s1) →
      s1.song.sessionClips.map (fun c => c.exportStem) = F
        ∧ startedIndices s1.log ++ (List.range k).reverse = (List.range F.length).reverse
        ∧ requestedFileNumbers s1.log
            ++ (List.range k).reverse.filter (fun i => F.getD i false)
          = (List.range F.length).reverse.filter (fun i => F.getD i false)
        ∧ (b = true → s1.se.processStarted = false) := by
  intro b s1 hb
  have hem := (exportClipBody_eraseMutes E fuel ty k s).1 b s1 hb
  have hF1 : s1.song.sessionClips.map (fun c => c.exportStem) = F :=
    (map_clip_exportStem_of_erase (congrArg Song.sessionClips hem)).trans hF
  unfold exportClipBody at hb
  cases hlook : s.song.sessionClips[k]? with
  | none =>
    have hlen : k < s.song.sessionClips.length := by
      have := congrArg List.length hF
      rw [List.length_map] at this
      omega
    rw [List.getElem?_eq_getElem hlen] at hlook
    cases hlook
  | some c =>
    rw [hlook] at hb
    simp only at hb
    obtain ⟨h1, h2, h3⟩ := exportTarget_indices E fuel ty c.output (MuteRef.clip k) k
      c.exportStem _ b s1 hb
    rw [(quiet_clipPrelude E c s).1] at h1 h2
    have hFk : F[k]? = some c.exportStem := by
      rw [← hF, List.getElem?_map, hlook]
      rfl
    obtain ⟨g1, g2⟩ := visit_step F k c.exportStem hFk _ _ _ _ hv hn h1 h2
    exact ⟨hF1, g1, g2, h3⟩

theorem exportInstrumentStems_indices (E : World W) (fuel : Nat) (ty : StemExportType)
    (se : StemExport) (song : Song) (w : W) (n : Nat) (s1 : Sys W)
    (h : exportInstrumentStems E fuel ty (Sys.start se song w) = Progress.returned (n, s1))
    (hps : s1.se.processStarted = true) :
    startedIndices s1.log = (List.range song.outputs.length).reverse
      ∧ requestedFileNumbers s1.log
        = (List.range song.outputs.length).reverse.filter
            (fun i => (song.outputs.map outputEligible).getD i false) := by
  unfold exportInstrumentStems at h
  rw [disarmAllInstrumentsForStemExport_eq] at h
  simp only [Sys.start] at h
  have hlen : (song.outputs.map outputEligible).length = song.outputs.length :=
    List.length_map _ _
  have hloop := descLoop_rule (exportInstrumentBody E fuel ty)
    (fun k t => k ≤ (song.outputs.map outputEligible).length
      ∧ t.song.outputs.map (fun o => o.exportStem) = song.outputs.map outputEligible
      ∧ startedIndices t.log ++ (List.range k).reverse
        = (List.range (song.outputs.map outputEligible).length).reverse
      ∧ requestedFileNumbers t.log ++ (List.range k).reverse.filter
            (fun i => (song.outputs.map outputEligible).getD i false)
        = (List.range (song.outputs.map outputEligible).length).reverse.filter
            (fun i => (song.outputs.map outputEligible).getD i false))
    (fun t => t.se.processStarted = true →
      startedIndices t.log = (List.range (song.outputs.map outputEligible).length).reverse
      ∧ requestedFileNumbers t.log
        = (List.range (song.outputs.map outputEligible).length).reverse.filter
            (fun i => (song.outputs.map outputEligible).getD i false))
    (fun _ => True)
    (fun _ _ _ _ _ => trivial)
    (fun k t t1 ht hb hp => by
      have := (exportInstrumentBody_indices E fuel ty k t _ ht.2.1 (by omega) ht.2.2.1
        ht.2.2.2 true t1 hb).2.2.2 rfl
      rw [this] at hp
      cases hp)
    (fun k t t1 ht hb => by
      obtain ⟨g1, g2, g3, _⟩ := exportInstrumentBody_indices E fuel ty k t _ ht.2.1
        (by omega) ht.2.2.1 ht.2.2.2 false t1 hb
      exact ⟨by omega, g1, g2, g3⟩)
    (fun t ht _ => by
      have h3 := ht.2.2.1
      have h4 := ht.2.2.2
      simp only [List.range_zero, List.reverse_nil, List.append_nil, List.filter_nil] at h3 h4
      exact ⟨h3, h4⟩)
    song.outputs.length
    (Sys.emit Step.prepared
      { se := { se with numStemsExported := 0
                        totalNumStemsToExport := List.countP outputEligible song.outputs }
        song := { song with outputs := song.outputs.map disarmOutput }
        world := w
        log := [] })
    (by
      refine ⟨by rw [hlen], ?_, ?_, ?_⟩
      · simp only [Sys.emit_song, List.map_map]
        rfl
      · rw [hlen]
        rfl
      · rw [hlen]
        rfl)
  cases hd : descLoop (exportInstrumentBody E fuel ty) song.outputs.length
      (Sys.emit Step.prepared
        { se := { se with numStemsExported := 0
                          totalNumStemsToExport := List.countP outputEligible song.outputs }
          song := { song with outputs := song.outputs.map disarmOutput }
          world := w
          log := [] }) with
  | suspended s2 => simp [hd] at h
  | returned s2 =>
    simp only [hd, Progress.returned.injEq, Prod.mk.injEq] at h
    obtain ⟨t, hse, _, hlog, heq⟩ := restoreAllInstrumentMutes_frame song.outputs.length s2
    rw [heq] at h
    rw [← h.2, startedIndices_emit, requestedFileNumbers_emit, hlog]
    simp only [List.append_nil]
    rw [← h.2, Sys.emit_se, hse] at hps
    have := hloop.1 s2 hd hps
    rw [hlen] at this
    exact this

theorem exportClipStems_indices (E : World W) (fuel : Nat) (ty : StemExportType)
    (se : StemExport) (song : Song) (w : W) (n : Nat) (s1 : Sys W)
    (h : exportClipStems E fuel ty (Sys.start se song w) = Progress.returned (n, s1))
    (hps : s1.se.processStarted = true) :
    startedIndices s1.log = (List.range song.sessionClips.length).reverse
      ∧ requestedFileNumbers s1.log
        = (List.range song.sessionClips.length).reverse.filter
            (fun i => (song.sessionClips.map clipEligible).getD i false) := by
  unfold exportClipStems at h
  rw [disarmAllClipsForStemExport_eq] at h
  simp only [Sys.start] at h
  have hlen : (song.sessionClips.map clipEligible).length = song.sessionClips.length :=
    List.length_map _ _
  have hloop := descLoop_rule (exportClipBody E fuel ty)
    (fun k t => k ≤ (song.sessionClips.map clipEligible).length
      ∧ t.song.sessionClips.map (fun c => c.exportStem) = song.sessionClips.map clipEligible
      ∧ startedIndices t.log ++ (List.range k).reverse
        = (List.range (song.sessionClips.map clipEligible).length).reverse
      ∧ requestedFileNumbers t.log ++ (List.range k).reverse.filter
            (fun i => (song.sessionClips.map clipEligible).getD i false)
        = (List.range (song.sessionClips.map clipEligible).length).reverse.filter
            (fun i => (song.sessionClips.map clipEligible).getD i false))
    (fun t => t.se.processStarted = true →
      startedIndices t.log = (List.range (song.sessionClips.map clipEligible).length).reverse
      ∧ requestedFileNumbers t.log
        = (List.range (song.sessionClips.map clipEligible).length).reverse.filter
            (fun i => (song.sessionClips.map clipEligible).getD i false))
    (fun _ => True)
    (fun _ _ _ _ _ => trivial)
    (fun k t t1 ht hb hp => by
      have := (exportClipBody_indices E fuel ty k t _ ht.2.1 (by omega) ht.2.2.1
        ht.2.2.2 true t1 hb).2.2.2 rfl
      rw [this] at hp
      cases hp)
    (fun k t t1 ht hb => by
      obtain ⟨g1, g2, g3, _⟩ := exportClipBody_indices E fuel ty k t _ ht.2.1
        (by omega) ht.2.2.1 ht.2.2.2 false t1 hb
      exact ⟨by omega, g1, g2, g3⟩)
    (fun t ht _ => by
      have h3 := ht.2.2.1
      have h4 := ht.2.2.2
      simp only [List.range_zero, List.reverse_nil, List.append_nil, List.filter_nil] at h3 h4
      exact ⟨h3, h4⟩)
    song.sessionClips.length
    (Sys.emit Step.prepared
      { se := { se with numStemsExported := 0
                        totalNumStemsToExport := List.countP clipEligible song.sessionClips }
        song := { song with sessionClips := song.sessionClips.map disarmClip }
        world := w
        log := [] })
    (by
      refine ⟨by rw [hlen], ?_, ?_, ?_⟩
      · simp only [Sys.emit_song, List.map_map]
        rfl
      · rw [hlen]
        rfl
      · rw [hlen]
        rfl)
  cases hd : descLoop (exportClipBody E fuel ty) song.sessionClips.length
      (Sys.emit Step.prepared
        { se := { se with numStemsExported := 0
                          totalNumStemsToExport := List.countP clipEligible song.sessionClips }
          song := { song with sessionClips := song.sessionClips.map disarmClip }
          world := w
          log := [] }) with
  | suspended s2 => simp [hd] at h
  | returned s2 =>
    simp only [hd, Progress.returned.injEq, Prod.mk.injEq] at h
    obtain ⟨t, hse, _, hlog, heq⟩ := restoreAllClipMutes_frame song.sessionClips.length s2
    rw [heq] at h
    rw [← h.2, startedIndices_emit, requestedFileNumbers_emit, hlog]
    simp only [List.append_nil]
    rw [← h.2, Sys.emit_se, hse] at hps
    have := hloop.1 s2 hd hps
    rw [hlen] at this
    exact this

/-- C8. Visit order is the reverse of natural order.  In a run of either loop over `n`
targets that returns without having been cancelled (`processStarted` still true), the
indices passed to `startCurrentStemExport` are exactly `n-1, n-2, ..., 0`, and the file
numbers passed to `setWavFileNameForStemExport` are the natural indices of the eligible
targets, in that same descending order. -/
theorem visit_order_is_reverse (E : World W) (fuel : Nat) (ty : StemExportType)
    (se : StemExport) (song : Song) (w : W) :
    (∀ n s1, exportInstrumentStems E fuel ty (Sys.start se song w) = Progress.returned (n, s1) →
        s1.se.processStarted = true →
        startedIndices s1.log = (List.range song.outputs.length).reverse
          ∧ requestedFileNumbers s1.log
            = (List.range song.outputs.length).reverse.filter
                (fun i => (song.outputs.map outputEligible).getD i false))
      ∧ (∀ n s1, exportClipStems E fuel ty (Sys.start se song w) = Progress.returned (n, s1) →
        s1.se.processStarted = true →
        startedIndices s1.log = (List.range song.sessionClips.length).reverse
          ∧ requestedFileNumbers s1.log
            = (List.range song.sessionClips.length).reverse.filter
                (fun i => (song.sessionClips.map clipEligible).getD i false)) :=
  ⟨fun n s1 h hps => exportInstrumentStems_indices E fuel ty se song w n s1 h hps,
   fun n s1 h hps => exportClipStems_indices E fuel ty se song w n s1 h hps⟩

/-- Worked example for C8: the demo song has targets at natural indices 0, 1, 2; both
runs visit 2, 1, 0, and the clip run names its two stems 2 and 0. -/
theorem visit_order_is_reverse_witness :
    (∃ r, exportInstrumentStems rigWorld 10 StemExportType.TRACK
          (demoStart StemExportType.TRACK rigIdle) = Progress.returned r
        ∧ startedIndices r.2.log = [2, 1, 0] ∧ requestedFileNumbers r.2.log = [0])
      ∧ (∃ r, exportClipStems rigWorld 10 StemExportType.CLIP
          (demoStart StemExportType.CLIP rigIdle) = Progress.returned r
        ∧ startedIndices r.2.log = [2, 1, 0] ∧ requestedFileNumbers r.2.log = [2, 0]) :=
  ⟨⟨_, rfl, (visit_order_is_reverse rigWorld 10 StemExportType.TRACK
      { StemExport.new with processStarted := true
                            currentStemExportType := StemExportType.TRACK }
      demoSong rigIdle).1 _ _ rfl rfl⟩,
   ⟨_, rfl, (visit_order_is_reverse rigWorld 10 StemExportType.CLIP
      { StemExport.new with processStarted := true
                            currentStemExportType := StemExportType.CLIP }
      demoSong rigIdle).2 _ _ rfl rfl⟩⟩

/-! ## The loop-end marker -/

theorem toInt32_of_range (x : Int) (h1 : -(2 : Int) ^ 31 ≤ x) (h2 : x < (2 : Int) ^ 31) :
    toInt32 x = x := by
  unfold toInt32
  rw [Int.emod_eq_of_lt (by omega) (by omega)]
  omega

theorem marker_emit (E : World W) (song : Song) (s : Sys W) (st : Step)
    (h : ∀ e ∈ s.log, MarkerOfClipLength E song e)
    (hst : MarkerOfClipLength E song { step := st, se := s.se, song := s.song, world := s.world }) :
    ∀ e ∈ (Sys.emit st s).log, MarkerOfClipLength E song e := by
  intro e he
  rw [Sys.emit_log, List.mem_append, List.mem_singleton] at he
  rcases he with he | he
  · exact h e he
  · subst he
    exact hst

theorem marker_of_other_step (E : World W) (song : Song) (e : Event W)
    (h : ∀ idx, e.step ≠ Step.startCurrent idx) : MarkerOfClipLength E song e :=
  fun idx hidx => absurd hidx (h idx)

theorem marker_start (E : World W) (song : Song) (ty : StemExportType) (o : Output)
    (r : MuteRef) (k : Nat) (s : Sys W)
    (h : ∀ e ∈ (Sys.emit (Step.startCurrent k) s).log, MarkerOfClipLength E song e) :
    ∀ e ∈ (startCurrentStemExport E ty o r k true s).2.log, MarkerOfClipLength E song e := by
  obtain ⟨t2, t3, hq2, hq3, he⟩ := startCurrentStemExport_eq E ty o r k s
  rw [he]
  refine marker_emit E song t3 _ ?_ (marker_of_other_step E song _ (by simp))
  rw [hq3.1]
  refine marker_emit E song t2 _ ?_ (marker_of_other_step E song _ (by simp))
  rw [hq2.1]
  exact marker_emit E song _ _ h (marker_of_other_step E song _ (by simp))

theorem marker_yieldRound (E : World W) (song : Song) (s : Sys W)
    (h : ∀ e ∈ s.log, MarkerOfClipLength E song e) :
    ∀ e ∈ (yieldRound E s).2.log, MarkerOfClipLength E song e := by
  obtain ⟨t, hq, he⟩ := yieldRound_eq E s
  rw [he]
  refine marker_emit E song t _ ?_ (marker_of_other_step E song _ (by simp))
  rw [hq.1]
  exact h

theorem marker_finish (E : World W) (song : Song) (ty : StemExportType) (r : MuteRef)
    (s : Sys W) (h : ∀ e ∈ s.log, MarkerOfClipLength E song e) :
    ∀ e ∈ (finishCurrentStemExport ty r s).log, MarkerOfClipLength E song e := by
  rw [finishCurrentStemExport_eq]
  exact marker_emit E song _ _ h (marker_of_other_step E song _ (by simp))

theorem exportTarget_marker (E : World W) (fuel : Nat) (ty : StemExportType) (o : Output)
    (r : MuteRef) (k : Nat) (ex : Bool) (s : Sys W) (song : Song)
    (h : ∀ e ∈ (Sys.emit (Step.startCurrent k) s).log, MarkerOfClipLength E song e) :
    (∀ b s1, exportTarget E fuel ty o r k ex s = Progress.returned (b, s1) →
        ∀ e ∈ s1.log, MarkerOfClipLength E song e)
      ∧ (∀ s1, exportTarget E fuel ty o r k ex s = Progress.suspended s1 →
        ∀ e ∈ s1.log, MarkerOfClipLength E song e) :=
  exportTarget_rule E fuel ty o r k ex s
    (fun t => ∀ e ∈ t.log, MarkerOfClipLength E song e)
    (fun _ t => ∀ e ∈ t.log, MarkerOfClipLength E song e)
    (fun _ => h)
    (fun _ => marker_start E song ty o r k s h)
    (fun t ht => marker_yieldRound E song t ht)
    (fun t ht => marker_finish E song ty r t ht)

theorem exportClipBody_marker (E : World W) (fuel : Nat) (ty : StemExportType)
    (k : Nat) (s : Sys W) (song : Song)
    (hs : s.song.sessionClips.map (fun c => c.loopLength)
      = song.sessionClips.map (fun c => c.loopLength))
    (h : ∀ e ∈ s.log, MarkerOfClipLength E song e) :
    (∀ b s1, exportClipBody E fuel ty k s = Progress.returned (b, s1) →
        ∀ e ∈ s1.log, MarkerOfClipLength E song e)
      ∧ (∀ s1, exportClipBody E fuel ty k s = Progress.suspended s1 →
        ∀ e ∈ s1.log, MarkerOfClipLength E song e) := by
  unfold exportClipBody
  cases hk : s.song.sessionClips[k]? with
  | none =>
    constructor
    · intro b s1 hb
      simp only [Progress.returned.injEq, Prod.mk.injEq] at hb
      rw [← hb.2]
      exact h
    · intro s1 hb
      simp at hb
  | some c =>
    refine exportTarget_marker E fuel ty c.output (MuteRef.clip k) k c.exportStem _ song ?_
    refine marker_emit E song _ _ ?_ ?_
    · rw [(quiet_clipPrelude E c s).1]
      exact h
    · intro idx hidx
      simp only [Step.startCurrent.injEq] at hidx
      subst hidx
      have hl := congrArg (fun l => l[k]?) hs
      simp only [List.getElem?_map, hk, Option.map_some'] at hl
      cases hk0 : song.sessionClips[k]? with
      | none =>
        rw [hk0] at hl
        cases hl
      | some c0 =>
        rw [hk0] at hl
        simp only [Option.map_some', Option.some.injEq] at hl
        refine ⟨c0, rfl, ?_⟩
        obtain ⟨x, hx⟩ := getLoopLengthOfLongestNotEmptyNoteRow_eq c s.se
        simp only [getLoopEndPointInSamplesForAudioFile, hx, hl]

theorem map_loopLength_of_erase {l1 l2 : List Clip}
    (h : l1.map eraseClip = l2.map eraseClip) :
    l1.map (fun c => c.loopLength) = l2.map (fun c => c.loopLength) := by
  have hc : ∀ l : List Clip,
      l.map (fun c => c.loopLength) = (l.map eraseClip).map (fun c => c.loopLength) := by
    intro l
    rw [List.map_map]
    rfl
  rw [hc l1, hc l2, h]

theorem exportClipStems_marker (E : World W) (fuel : Nat) (ty : StemExportType)
    (se : StemExport) (song : Song) (w : W) :
    ∀ e ∈ (exportClipStems E fuel ty (Sys.start se song w)).state.log,
      MarkerOfClipLength E song e := by
  unfold exportClipStems
  rw [disarmAllClipsForStemExport_eq]
  simp only [Sys.start]
  have hloop := descLoop_rule (exportClipBody E fuel ty)
    (fun _ t => t.song.sessionClips.map (fun c => c.loopLength)
        = song.sessionClips.map (fun c => c.loopLength)
      ∧ ∀ e ∈ t.log, MarkerOfClipLength E song e)
    (fun t => ∀ e ∈ t.log, MarkerOfClipLength E song e)
    (fun t => ∀ e ∈ t.log, MarkerOfClipLength E song e)
    (fun k t t1 ht hb => (exportClipBody_marker E fuel ty k t song ht.1 ht.2).2 t1 hb)
    (fun k t t1 ht hb => (exportClipBody_marker E fuel ty k t song ht.1 ht.2).1 true t1 hb)
    (fun k t t1 ht hb =>
      ⟨(map_loopLength_of_erase (congrArg Song.sessionClips
          ((exportClipBody_eraseMutes E fuel ty k t).1 false t1 hb))).trans ht.1,
        (exportClipBody_marker E fuel ty k t song ht.1 ht.2).1 false t1 hb⟩)
    (fun t ht => ht.2)
    song.sessionClips.length
    (Sys.emit Step.prepared
      { se := { se with numStemsExported := 0
                        totalNumStemsToExport := List.countP clipEligible song.sessionClips }
        song := { song with sessionClips := song.sessionClips.map disarmClip }
        world := w
        log := [] })
    (by
      constructor
      · simp only [Sys.emit_song, List.map_map]
        rfl
      · refine marker_emit E song _ _ ?_ (marker_of_other_step E song _ (by simp))
        intro e he
        cases he)
  cases hd : descLoop (exportClipBody E fuel ty) song.sessionClips.length
      (Sys.emit Step.prepared
        { se := { se with numStemsExported := 0
                          totalNumStemsToExport := List.countP clipEligible song.sessionClips }
          song := { song with sessionClips := song.sessionClips.map disarmClip }
          world := w
          log := [] }) with
  | suspended s1 => exact hloop.2 s1 hd
  | returned s1 =>
    simp only [Progress.state]
    obtain ⟨t, _, _, hlog, heq⟩ := restoreAllClipMutes_frame song.sessionClips.length s1
    rw [heq]
    refine marker_emit E song t _ ?_ (marker_of_other_step E song _ (by simp))
    rw [hlog]
    exact hloop.1 s1 hd

/-- C10, counterexample.  The first demo clip has loop length 96 and a note row with
notes of independent length 192, and the time per internal tick is 459.  When the clip
run has processed it, the loop-stop tick is 192 but the stored loop end point is
44064 = 96 * 459, not 192 * 459 = 88128. -/
theorem loop_end_marker_is_not_stop_tick :
    ∃ r, exportClipStems rigWorld 10 StemExportType.CLIP
          (demoStart StemExportType.CLIP rigIdle) = Progress.returned r
      ∧ r.2.se.loopLengthToStopStemExport = 192
      ∧ rigWorld.getTimePerInternalTick r.2.world = 459
      ∧ r.2.se.loopEndPointInSamplesForAudioFile = 44064
      ∧ r.2.se.loopEndPointInSamplesForAudioFile
        ≠ r.2.se.loopLengthToStopStemExport * (rigWorld.getTimePerInternalTick r.2.world : Int) :=
  ⟨_, rfl, rfl, rfl, rfl, by decide⟩

/-- C10, as amended.  In every run of `exportClipStems`, at the entry of
`startCurrentStemExport` for the clip at index `idx` the value stored in
`loopEndPointInSamplesForAudioFile` is that clip's own `loopLength` (not the loop-stop
tick `loopLengthToStopStemExport`) multiplied by the current time per internal tick, in
32-bit arithmetic; it is the exact product whenever that fits an `int32_t`. -/
theorem loop_end_marker_is_clip_length (E : World W) (fuel : Nat) (ty : StemExportType)
    (se : StemExport) (song : Song) (w : W) :
    ∀ e ∈ (exportClipStems E fuel ty (Sys.start se song w)).state.log,
      ∀ idx : Nat, e.step = Step.startCurrent idx →
        ∃ clip : Clip, song.sessionClips[idx]? = some clip
          ∧ e.se.loopEndPointInSamplesForAudioFile
            = toInt32 (clip.loopLength * (E.getTimePerInternalTick e.world : Int))
          ∧ (-(2 : Int) ^ 31 ≤ clip.loopLength * (E.getTimePerInternalTick e.world : Int)
              ∧ clip.loopLength * (E.getTimePerInternalTick e.world : Int) < (2 : Int) ^ 31 →
            e.se.loopEndPointInSamplesForAudioFile
              = clip.loopLength * (E.getTimePerInternalTick e.world : Int)) := by
  intro e he idx hidx
  obtain ⟨clip, hclip, hval⟩ := exportClipStems_marker E fuel ty se song w e he idx hidx
  refine ⟨clip, hclip, hval, ?_⟩
  intro hr
  rw [hval, toInt32_of_range _ hr.1 hr.2]

/-- Worked example for the amended C10: the entry for the first demo clip (index 0) in
the trace of the clip run shows 96 * 459 = 44064, the exact product. -/
theorem loop_end_marker_is_clip_length_witness :
    ∃ e, (exportClipStems rigWorld 10 StemExportType.CLIP
          (demoStart StemExportType.CLIP rigIdle)).state.log[10]? = some e
      ∧ e.step = Step.startCurrent 0
      ∧ e.se.loopEndPointInSamplesForAudioFile = 44064
      ∧ ∃ clip : Clip, demoSong.sessionClips[0]? = some clip
          ∧ clip.loopLength = 96
          ∧ e.se.loopEndPointInSamplesForAudioFile
            = clip.loopLength * (rigWorld.getTimePerInternalTick e.world : Int) := by
  refine ⟨_, rfl, rfl, rfl, ?_⟩
  obtain ⟨clip, h1, _, h3⟩ := loop_end_marker_is_clip_length rigWorld 10 StemExportType.CLIP
    { StemExport.new with processStarted := true
                          currentStemExportType := StemExportType.CLIP }
    demoSong rigIdle _ (@List.getElem?_mem _ _ 10 _ rfl) 0 rfl
  have hc : clip.loopLength = 96 := by
    have h0 : demoSong.sessionClips[0]? = some
        (demoClip (demoOutput "Bass" OutputType.SYNTH false false true) 96
          [⟨48, true⟩, ⟨192, false⟩, ⟨64, false⟩] false true) := rfl
    rw [h0] at h1
    cases h1
    rfl
  refine ⟨clip, h1, hc, h3 ?_⟩
  rw [hc]
  exact ⟨by decide, by decide⟩

/-! ## Cancellation -/

theorem afterCancel_append_nil (l1 l2 : List (Event W)) (h : afterCancel l1 = []) :
    afterCancel (l1 ++ l2) = afterCancel l2 := by
  unfold afterCancel at h ⊢
  rw [List.dropWhile_append, h]
  rfl

theorem afterCancel_append_cons (l1 l2 : List (Event W)) (y : Event W) (ys : List (Event W))
    (h : afterCancel l1 = y :: ys) : afterCancel (l1 ++ l2) = y :: (ys ++ l2) := by
  unfold afterCancel at h ⊢
  rw [List.dropWhile_append, h]
  rfl

theorem afterCancel_singleton (e : Event W) :
    afterCancel [e] = if cancelledInWait e = true then [e] else [] := by
  unfold afterCancel
  cases h : cancelledInWait e <;> simp [List.dropWhile_cons, h]

theorem afterCancel_emit_other (st : Step) (hst : st ≠ Step.yielded) (s : Sys W)
    (h : afterCancel s.log = []) : afterCancel (Sys.emit st s).log = [] := by
  rw [Sys.emit_log, afterCancel_append_nil _ _ h, afterCancel_singleton]
  simp [cancelledInWait, hst]

theorem MuteRef.read_write_same (r : MuteRef) (b : Bool) (song : Song)
    (h : (r.read song).isSome = true) : r.read (r.write b song) = some b := by
  cases r with
  | output idx =>
    cases hk : song.outputs[idx]? with
    | none => simp [MuteRef.read, hk] at h
    | some o =>
      have hlt : idx < song.outputs.length := (List.getElem?_eq_some_iff.mp hk).1
      simp [MuteRef.write, hk, MuteRef.read, List.getElem?_set, hlt]
  | clip idx =>
    cases hk : song.sessionClips[idx]? with
    | none => simp [MuteRef.read, hk] at h
    | some c =>
      have hlt : idx < song.sessionClips.length := (List.getElem?_eq_some_iff.mp hk).1
      simp [MuteRef.write, hk, MuteRef.read, List.getElem?_set, hlt]

theorem WaitInv.waitStart (E : World W) (ty : StemExportType) (o : Output) (r : MuteRef)
    (k : Nat) (s : Sys W) (hr : (r.read s.song).isSome = true)
    (h : afterCancel s.log = []) :
    WaitInv r (startCurrentStemExport E ty o r k true s).2 := by
  obtain ⟨t2, t3, hq2, hq3, he⟩ := startCurrentStemExport_eq E ty o r k s
  rw [he]
  constructor
  · rw [Sys.emit_song, hq3.2.1, Sys.emit_song, hq2.2.1, Sys.emit_song]
    simp only
    rw [MuteRef.read_write_same r _ s.song hr]
    rfl
  · left
    refine afterCancel_emit_other _ (by simp) t3 ?_
    rw [hq3.1]
    refine afterCancel_emit_other _ (by simp) t2 ?_
    rw [hq2.1]
    refine afterCancel_emit_other _ (by simp) _ ?_
    exact afterCancel_emit_other _ (by simp) s h

theorem WaitInv.waitYieldRound (E : World W) (r : MuteRef) (s : Sys W) (h : WaitInv r s) :
    WaitInv r (yieldRound E s).2 := by
  obtain ⟨t, hq, he⟩ := yieldRound_eq E s
  rw [he]
  obtain ⟨h1, h2⟩ := h
  constructor
  · rw [Sys.emit_song, hq.2.1]
    exact h1
  · rw [Sys.emit_log, hq.1]
    rcases h2 with h2 | ⟨hps, y, ys, hy, hys⟩
    · rw [afterCancel_append_nil _ _ h2, afterCancel_singleton]
      cases hp : t.se.processStarted with
      | true =>
        left
        simp [cancelledInWait, hp]
      | false =>
        right
        refine ⟨hp, { step := Step.yielded, se := t.se, song := t.song, world := t.world }, [],
          ?_, fun y1 hy1 => by cases hy1⟩
        simp [cancelledInWait, hp]
    · right
      have hpt : t.se.processStarted = false := by
        cases hp : t.se.processStarted with
        | false => rfl
        | true =>
          rw [hq.2.2.2.2 hp] at hps
          cases hps
      refine ⟨hpt, y, ys ++ [_], afterCancel_append_cons _ _ y ys hy, ?_⟩
      intro y1 hy1
      rw [List.mem_append, List.mem_singleton] at hy1
      rcases hy1 with hy1 | hy1
      · exact hys y1 hy1
      · rw [hy1]

theorem WaitInv.waitFinish (ty : StemExportType) (mk : Nat → MuteRef) (k : Nat) (t : Sys W)
    (hlast : (startedIndices t.log).getLast? = some k) (h : WaitInv (mk k) t) :
    ((!(finishCurrentStemExport ty (mk k) t).se.processStarted) = false →
        afterCancel (finishCurrentStemExport ty (mk k) t).log = [])
      ∧ CancelTail ty mk (finishCurrentStemExport ty (mk k) t).log := by
  obtain ⟨h1, h2⟩ := h
  have hread : (mk k).read ((mk k).write (!startFlag ty) t.song) = some (!startFlag ty) :=
    MuteRef.read_write_same (mk k) _ t.song h1
  rw [finishCurrentStemExport_eq]
  rcases h2 with h2 | ⟨hps, y, ys, hy, hys⟩
  · have hnil := afterCancel_emit_other (Step.finishCurrent (mk k)) (by simp)
      { t with song := (mk k).write (!startFlag ty) t.song
               se := { t.se with numStemsExported := t.se.numStemsExported + 1 } } h2
    exact ⟨fun _ => hnil, Or.inl hnil⟩
  · constructor
    · intro hb
      simp only [Sys.emit_se, hps] at hb
      cases hb
    · right
      refine ⟨y, ys,
        { step := Step.finishCurrent (mk k)
          se := { t.se with numStemsExported := t.se.numStemsExported + 1 }
          song := (mk k).write (!startFlag ty) t.song
          world := t.world }, k, ?_, hys, rfl, ?_, ?_⟩
      · rw [Sys.emit_log]
        exact afterCancel_append_cons _ _ y ys hy
      · exact hread
      · rw [startedIndices_emit]
        simpa using hlast

theorem exportTarget_cancel (E : World W) (fuel : Nat) (ty : StemExportType) (o : Output)
    (mk : Nat → MuteRef) (k : Nat) (ex : Bool) (s : Sys W)
    (hex : ex = true → ((mk k).read s.song).isSome = true) (h : afterCancel s.log = []) :
    ∀ b s1, exportTarget E fuel ty o (mk k) k ex s = Progress.returned (b, s1) →
      (b = false → afterCancel s1.log = []) ∧ CancelTail ty mk s1.log :=
  (exportTarget_rule E fuel ty o (mk k) k ex s
    (fun t => WaitInv (mk k) t ∧ (startedIndices t.log).getLast? = some k)
    (fun b t => (b = false → afterCancel t.log = []) ∧ CancelTail ty mk t.log)
    (fun _ =>
      ⟨fun _ => afterCancel_emit_other _ (by simp) s h,
        Or.inl (afterCancel_emit_other _ (by simp) s h)⟩)
    (fun hx => ⟨WaitInv.waitStart E ty o (mk k) k s (hex hx) h, by
      rw [(startCurrentStemExport_indices E ty o (mk k) k s).1, List.getLast?_concat]⟩)
    (fun t ht => ⟨WaitInv.waitYieldRound E (mk k) t ht.1, by
      rw [(yieldRound_indices E t).1]
      exact ht.2⟩)
    (fun t ht => WaitInv.waitFinish ty mk k t ht.2 ht.1)).1

theorem exportInstrumentBody_cancel (E : World W) (fuel : Nat) (ty : StemExportType)
    (k : Nat) (s : Sys W) (h : afterCancel s.log = []) :
    ∀ b s1, exportInstrumentBody E fuel ty k s = Progress.returned (b, s1) →
      (b = false → afterCancel s1.log = []) ∧ CancelTail ty MuteRef.output s1.log := by
  intro b s1 hb
  unfold exportInstrumentBody at hb
  cases hk : s.song.outputs[k]? with
  | none =>
    rw [hk] at hb
    simp only [Progress.returned.injEq, Prod.mk.injEq] at hb
    rw [← hb.2]
    exact ⟨fun _ => h, Or.inl h⟩
  | some o =>
    rw [hk] at hb
    exact exportTarget_cancel E fuel ty o MuteRef.output k o.exportStem s
      (fun _ => by simp [MuteRef.read, hk]) h b s1 hb

theorem exportClipBody_cancel (E : World W) (fuel : Nat) (ty : StemExportType)
    (k : Nat) (s : Sys W) (h : afterCancel s.log = []) :
    ∀ b s1, exportClipBody E fuel ty k s = Progress.returned (b, s1) →
      (b = false → afterCancel s1.log = []) ∧ CancelTail ty MuteRef.clip s1.log := by
  intro b s1 hb
  unfold exportClipBody at hb
  cases hk : s.song.sessionClips[k]? with
  | none =>
    rw [hk] at hb
    simp only [Progress.returned.injEq, Prod.mk.injEq] at hb
    rw [← hb.2]
    exact ⟨fun _ => h, Or.inl h⟩
  | some c =>
    rw [hk] at hb
    refine exportTarget_cancel E fuel ty c.output MuteRef.clip k c.exportStem _
      (fun _ => ?_) ?_ b s1 hb
    · rw [(quiet_clipPrelude E c s).2.1]
      simp [MuteRef.read, hk]
    · rw [(quiet_clipPrelude E c s).1]
      exact h

/-- What is left of a run once a wait round has seen the cancellation: further wait
rounds, the finish of the target being processed, and the restore step. -/
theorem cancelTail_restored (ty : StemExportType) (mk : Nat → MuteRef) (s t : Sys W)
    (hlog : t.log = s.log) (h : CancelTail ty mk s.log) :
    ∀ y post, afterCancel (Sys.emit Step.restored t).log = y :: post →
      ∃ ys e er i, post = ys ++ [e, er]
        ∧ (∀ y1 ∈ ys, y1.step = Step.yielded)
        ∧ (startedIndices (Sys.emit Step.restored t).log).getLast? = some i
        ∧ e.step = Step.finishCurrent (mk i)
        ∧ (mk i).read e.song = some (!startFlag ty)
        ∧ er.step = Step.restored := by
  intro y post hy
  rcases h with h | ⟨y0, ys, e, k, h0, hys, he, hread, hlast⟩
  · rw [Sys.emit_log, hlog, afterCancel_append_nil _ _ h, afterCancel_singleton] at hy
    simp [cancelledInWait] at hy
  · rw [Sys.emit_log, hlog, afterCancel_append_cons _ _ y0 (ys ++ [e]) h0] at hy
    simp only [List.cons.injEq] at hy
    refine ⟨ys, e, { step := Step.restored, se := t.se, song := t.song, world := t.world },
      k, ?_, hys, ?_, he, hread, rfl⟩
    · rw [← hy.2]
      simp
    · rw [startedIndices_emit, hlog]
      simpa using hlast

theorem exportInstrumentStems_cancel (E : World W) (fuel : Nat) (ty : StemExportType)
    (se : StemExport) (song : Song) (w : W) (n : Nat) (s1 : Sys W)
    (h : exportInstrumentStems E fuel ty (Sys.start se song w) = Progress.returned (n, s1)) :
    ∀ y post, afterCancel s1.log = y :: post →
      ∃ ys e er i, post = ys ++ [e, er]
        ∧ (∀ y1 ∈ ys, y1.step = Step.yielded)
        ∧ (startedIndices s1.log).getLast? = some i
        ∧ e.step = Step.finishCurrent (MuteRef.output i)
        ∧ (MuteRef.output i).read e.song = some (!startFlag ty)
        ∧ er.step = Step.restored := by
  unfold exportInstrumentStems at h
  have hloop := descLoop_rule (exportInstrumentBody E fuel ty)
    (fun _ t => afterCancel t.log = [])
    (fun t => CancelTail ty MuteRef.output t.log) (fun _ => True)
    (fun _ _ _ _ _ => trivial)
    (fun k t t1 ht hb => (exportInstrumentBody_cancel E fuel ty k t ht true t1 hb).2)
    (fun k t t1 ht hb => (exportInstrumentBody_cancel E fuel ty k t ht false t1 hb).1 rfl)
    (fun t ht => Or.inl ht)
    (disarmAllInstrumentsForStemExport (Sys.start se song w)).1
    (disarmAllInstrumentsForStemExport (Sys.start se song w)).2
    (by
      rw [disarmAllInstrumentsForStemExport_eq]
      exact afterCancel_emit_other _ (by simp) _ rfl)
  cases hd : descLoop (exportInstrumentBody E fuel ty)
      (disarmAllInstrumentsForStemExport (Sys.start se song w)).1
      (disarmAllInstrumentsForStemExport (Sys.start se song w)).2 with
  | suspended s2 => simp [hd] at h
  | returned s2 =>
    simp only [hd, Progress.returned.injEq, Prod.mk.injEq] at h
    obtain ⟨t, _, _, hlog, heq⟩ := restoreAllInstrumentMutes_frame
      (disarmAllInstrumentsForStemExport (Sys.start se song w)).1 s2
    rw [heq] at h
    rw [← h.2]
    exact cancelTail_restored ty MuteRef.output s2 t hlog (hloop.1 s2 hd)

theorem exportClipStems_cancel (E : World W) (fuel : Nat) (ty : StemExportType)
    (se : StemExport) (song : Song) (w : W) (n : Nat) (s1 : Sys W)
    (h : exportClipStems E fuel ty (Sys.start se song w) = Progress.returned (n, s1)) :
    ∀ y post, afterCancel s1.log = y :: post →
      ∃ ys e er i, post = ys ++ [e, er]
        ∧ (∀ y1 ∈ ys, y1.step = Step.yielded)
        ∧ (startedIndices s1.log).getLast? = some i
        ∧ e.step = Step.finishCurrent (MuteRef.clip i)
        ∧ (MuteRef.clip i).read e.song = some (!startFlag ty)
        ∧ er.step = Step.restored := by
  unfold exportClipStems at h
  have hloop := descLoop_rule (exportClipBody E fuel ty)
    (fun _ t => afterCancel t.log = [])
    (fun t => CancelTail ty MuteRef.clip t.log) (fun _ => True)
    (fun _ _ _ _ _ => trivial)
    (fun k t t1 ht hb => (exportClipBody_cancel E fuel ty k t ht true t1 hb).2)
    (fun k t t1 ht hb => (exportClipBody_cancel E fuel ty k t ht false t1 hb).1 rfl)
    (fun t ht => Or.inl ht)
    (disarmAllClipsForStemExport (Sys.start se song w)).1
    (disarmAllClipsForStemExport (Sys.start se song w)).2
    (by
      rw [disarmAllClipsForStemExport_eq]
      exact afterCancel_emit_other _ (by simp) _ rfl)
  cases hd : descLoop (exportClipBody E fuel ty)
      (disarmAllClipsForStemExport (Sys.start se song w)).1
      (disarmAllClipsForStemExport (Sys.start se song w)).2 with
  | suspended s2 => simp [hd] at h
  | returned s2 =>
    simp only [hd, Progress.returned.injEq, Prod.mk.injEq] at h
    obtain ⟨t, _, _, hlog, heq⟩ := restoreAllClipMutes_frame
      (disarmAllClipsForStemExport (Sys.start se song w)).1 s2
    rw [heq] at h
    rw [← h.2]
    exact cancelTail_restored ty MuteRef.clip s2 t hlog (hloop.1 s2 hd)

/-- C7. Cancellation stops iteration.  Take a run of `exportInstrumentStems` (as a track
export) or of `exportClipStems` (as a clip export) that has returned, and suppose some
round of a cooperative wait saw `processStarted` false; let `y` be the first trace entry
of such a round.  Then all that follows `y` in the trace is: further rounds of that same
wait, the finish of the target `i` being processed (the last one started), at which that
target is muted again (`mutedInArrangementMode` true, resp. `activeIfNoSolo` false), and
the restore step.  No other target is started, unmuted, named or captured after `y`. -/
theorem cancellation_stops_iteration (E : World W) (fuel : Nat) (se : StemExport)
    (song : Song) (w : W) :
    (∀ n s1, exportInstrumentStems E fuel StemExportType.TRACK (Sys.start se song w)
          = Progress.returned (n, s1) →
        ∀ y post, afterCancel s1.log = y :: post →
          ∃ ys e er i, post = ys ++ [e, er]
            ∧ (∀ y1 ∈ ys, y1.step = Step.yielded)
            ∧ (startedIndices s1.log).getLast? = some i
            ∧ e.step = Step.finishCurrent (MuteRef.output i)
            ∧ (MuteRef.output i).read e.song = some true
            ∧ er.step = Step.restored)
      ∧ (∀ n s1, exportClipStems E fuel StemExportType.CLIP (Sys.start se song w)
          = Progress.returned (n, s1) →
        ∀ y post, afterCancel s1.log = y :: post →
          ∃ ys e er i, post = ys ++ [e, er]
            ∧ (∀ y1 ∈ ys, y1.step = Step.yielded)
            ∧ (startedIndices s1.log).getLast? = some i
            ∧ e.step = Step.finishCurrent (MuteRef.clip i)
            ∧ (MuteRef.clip i).read e.song = some false
            ∧ er.step = Step.restored) :=
  ⟨fun n s1 h => exportInstrumentStems_cancel E fuel StemExportType.TRACK se song w n s1 h,
   fun n s1 h => exportClipStems_cancel E fuel StemExportType.CLIP se song w n s1 h⟩

/-- Worked example for C7: the demo track run cancelled in the first round of the wait
for "Bass" (index 0), and the demo clip run cancelled in the second round of the wait for
the clip at index 2, which leaves the clips at indices 1 and 0 unvisited. -/
theorem cancellation_stops_iteration_witness :
    (∃ r y post, exportInstrumentStems rigWorld 10 StemExportType.TRACK
          (demoStart StemExportType.TRACK { rigIdle with cancelIn := some 1 })
          = Progress.returned r
        ∧ afterCancel r.2.log = y :: post
        ∧ post.map (fun e => e.step)
          = [Step.finishCurrent (MuteRef.output 0), Step.restored]
        ∧ ∃ ys e er i, post = ys ++ [e, er]
            ∧ (∀ y1 ∈ ys, y1.step = Step.yielded)
            ∧ (startedIndices r.2.log).getLast? = some i
            ∧ e.step = Step.finishCurrent (MuteRef.output i)
            ∧ (MuteRef.output i).read e.song = some true
            ∧ er.step = Step.restored)
      ∧ (∃ r y post, exportClipStems rigWorld 10 StemExportType.CLIP
          (demoStart StemExportType.CLIP { rigIdle with cancelIn := some 2 })
          = Progress.returned r
        ∧ afterCancel r.2.log = y :: post
        ∧ startedIndices r.2.log = [2]
        ∧ ∃ ys e er i, post = ys ++ [e, er]
            ∧ (∀ y1 ∈ ys, y1.step = Step.yielded)
            ∧ (startedIndices r.2.log).getLast? = some i
            ∧ e.step = Step.finishCurrent (MuteRef.clip i)
            ∧ (MuteRef.clip i).read e.song = some false
            ∧ er.step = Step.restored) :=
  ⟨⟨_, _, _, rfl, rfl, rfl,
      (cancellation_stops_iteration rigWorld 10
        { StemExport.new with processStarted := true
                              currentStemExportType := StemExportType.TRACK }
        demoSong { rigIdle with cancelIn := some 1 }).1 _ _ rfl _ _ rfl⟩,
   ⟨_, _, _, rfl, rfl, rfl,
      (cancellation_stops_iteration rigWorld 10
        { StemExport.new with processStarted := true
                              currentStemExportType := StemExportType.CLIP }
        demoSong { rigIdle with cancelIn := some 2 }).2 _ _ rfl _ _ rfl⟩⟩

/-! ## File name of a stem -/

theorem intToStringPadded_eq (n m : Nat) :
    intToStringPadded n m
      = String.mk (List.replicate (m - (Nat.repr n).length) '0') ++ Nat.repr n := by
  unfold intToStringPadded
  simp only [Nat.repr, List.asString, String.length]
  rfl

theorem join_eight (a b c d e f g h : String) :
    String.join [a, b, c, d, e, f, g, h] = a ++ b ++ c ++ d ++ e ++ f ++ g ++ h := by
  simp [String.join]

theorem setWavFileNameForStemExport_name (E : World W) (ty : StemExportType) (o : Output)
    (n : Nat) (s : Sys W) (typeTag : String)
    (hok : ∀ b : Nat, E.stringOpsBeforeFailure s.world = some b → 8 ≤ b)
    (ht : outputTypeTag o.type = some typeTag) :
    (setWavFileNameForStemExport E ty o n s).se.wavFileNameForStemExport
        = "/" ++ typeTag ++ "_" ++ stemExportTypeTag ty ++ o.name ++ "_"
            ++ intToStringPadded n 5 ++ ".WAV"
      ∧ (setWavFileNameForStemExport E ty o n s).se.wavFileNameForStemExportSet = true := by
  unfold setWavFileNameForStemExport
  cases hb : E.stringOpsBeforeFailure s.world with
  | none => simp [ht, join_eight, Sys.emit_se]
  | some b =>
    have h8 := hok b hb
    have hm : min b 8 = 8 := by omega
    simp [ht, join_eight, hm, Sys.emit_se]

/-- C11: for an output of type AUDIO, SYNTH or KIT, either export type and every index
`n`, when none of the eight string operations fails, `setWavFileNameForStemExport` sets
the file name to "/", the type tag, "_", the mode tag, "_", the output's name, "_", `n`
in decimal padded with zeros on the left to at least five digits, and ".WAV", and sets
`wavFileNameForStemExportSet`. -/
theorem stem_file_name_format (E : World W) (ty : StemExportType) (o : Output) (n : Nat)
    (s : Sys W)
    (hok : ∀ b : Nat, E.stringOpsBeforeFailure s.world = some b → 8 ≤ b)
    (ht : o.type = OutputType.AUDIO ∨ o.type = OutputType.SYNTH ∨ o.type = OutputType.KIT) :
    ∃ typeTag modeTag : String,
      (o.type = OutputType.AUDIO → typeTag = "AUDIO")
      ∧ (o.type = OutputType.SYNTH → typeTag = "SYNTH")
      ∧ (o.type = OutputType.KIT → typeTag = "KIT")
      ∧ (ty = StemExportType.CLIP → modeTag = "CLIP")
      ∧ (ty = StemExportType.TRACK → modeTag = "TRACK")
      ∧ (setWavFileNameForStemExport E ty o n s).se.wavFileNameForStemExport
          = "/" ++ typeTag ++ "_" ++ modeTag ++ "_" ++ o.name ++ "_"
              ++ String.mk (List.replicate (5 - (Nat.repr n).length) '0') ++ Nat.repr n
              ++ ".WAV"
      ∧ (setWavFileNameForStemExport E ty o n s).se.wavFileNameForStemExportSet = true := by
  have hmode : ∃ modeTag : String, (ty = StemExportType.CLIP → modeTag = "CLIP")
      ∧ (ty = StemExportType.TRACK → modeTag = "TRACK")
      ∧ stemExportTypeTag ty = modeTag ++ "_" := by
    cases ty
    · exact ⟨"CLIP", fun _ => rfl, fun h => (by cases h), rfl⟩
    · exact ⟨"TRACK", fun h => (by cases h), fun _ => rfl, rfl⟩
  obtain ⟨modeTag, hc, htr, hm⟩ := hmode
  have htag : ∃ typeTag : String, (o.type = OutputType.AUDIO → typeTag = "AUDIO")
      ∧ (o.type = OutputType.SYNTH → typeTag = "SYNTH")
      ∧ (o.type = OutputType.KIT → typeTag = "KIT")
      ∧ outputTypeTag o.type = some typeTag := by
    rcases ht with h | h | h
    · exact ⟨"AUDIO", by simp [h, outputTypeTag]⟩
    · exact ⟨"SYNTH", by simp [h, outputTypeTag]⟩
    · exact ⟨"KIT", by simp [h, outputTypeTag]⟩
  obtain ⟨typeTag, h1, h2, h3, h4⟩ := htag
  obtain ⟨hname, hset⟩ := setWavFileNameForStemExport_name E ty o n s typeTag hok h4
  refine ⟨typeTag, modeTag, h1, h2, h3, hc, htr, ?_, hset⟩
  rw [hname, hm, intToStringPadded_eq]
  simp only [String.append_assoc]

/-- The example of C11: "Bass", a synth, exported by clip at index 3 on the idle rig. -/
theorem stem_file_name_format_witness :
    (setWavFileNameForStemExport rigWorld StemExportType.CLIP
        (demoOutput "Bass" OutputType.SYNTH false false true) 3
        (demoStart StemExportType.CLIP rigIdle)).se.wavFileNameForStemExport
      = "/SYNTH_CLIP_Bass_00003.WAV"
    ∧ ∃ typeTag modeTag : String,
      (OutputType.SYNTH = OutputType.AUDIO → typeTag = "AUDIO")
      ∧ (OutputType.SYNTH = OutputType.SYNTH → typeTag = "SYNTH")
      ∧ (OutputType.SYNTH = OutputType.KIT → typeTag = "KIT")
      ∧ (StemExportType.CLIP = StemExportType.CLIP → modeTag = "CLIP")
      ∧ (StemExportType.CLIP = StemExportType.TRACK → modeTag = "TRACK")
      ∧ (setWavFileNameForStemExport rigWorld StemExportType.CLIP
          (demoOutput "Bass" OutputType.SYNTH false false true) 3
          (demoStart StemExportType.CLIP rigIdle)).se.wavFileNameForStemExport
          = "/" ++ typeTag ++ "_" ++ modeTag ++ "_" ++ "Bass" ++ "_"
              ++ String.mk (List.replicate (5 - (Nat.repr 3).length) '0') ++ Nat.repr 3
              ++ ".WAV"
      ∧ (setWavFileNameForStemExport rigWorld StemExportType.CLIP
          (demoOutput "Bass" OutputType.SYNTH false false true) 3
          (demoStart StemExportType.CLIP rigIdle)).se.wavFileNameForStemExportSet = true :=
  ⟨by decide,
    stem_file_name_format rigWorld StemExportType.CLIP
      (demoOutput "Bass" OutputType.SYNTH false false true) 3
      (demoStart StemExportType.CLIP rigIdle) (fun b hb => by cases hb) (Or.inr (Or.inl rfl))⟩

/-! ## What the prepare step does to every target -/

/-- C20, as stated, fails in its last clause: the prepare step keeps no record of the
arm and solo flags.  The example song and the same song with every arm and solo flag
cleared beforehand are different songs, yet they are prepared to the very same state,
for outputs and for clips alike. -/
theorem prepare_snapshot_forgets_arm_and_solo :
    (demoSong.outputs.map (fun o => o.armedForRecording) = [true, false, false]
      ∧ demoSong.sessionClips.map (fun c => (c.armState, c.soloingInSessionMode))
          = [(ArmState.ON_NORMAL, true), (ArmState.ON_NORMAL, true), (ArmState.ON_NORMAL, true)])
    ∧ (disarmAllInstrumentsForStemExport (demoStart StemExportType.TRACK rigIdle)).2
        = (disarmAllInstrumentsForStemExport
            (Sys.start (demoStart StemExportType.TRACK rigIdle).se
              { demoSong with
                  outputs := demoSong.outputs.map (fun o => { o with armedForRecording := false }) }
              rigIdle)).2
    ∧ (disarmAllClipsForStemExport (demoStart StemExportType.CLIP rigIdle)).2
        = (disarmAllClipsForStemExport
            (Sys.start (demoStart StemExportType.CLIP rigIdle).se
              { demoSong with
                  sessionClips := demoSong.sessionClips.map
                    (fun c => { c with armState := ArmState.OFF, soloingInSessionMode := false }) }
              rigIdle)).2 := by
  refine ⟨⟨rfl, rfl⟩, ?_, ?_⟩
  · rfl
  · rfl

/-- C20, amended: after `disarmAllInstrumentsForStemExport` every output, eligible or
not, has `mutedInArrangementModeBeforeStemExport` equal to its prior mute flag, is muted,
and has its arm, recording and solo flags cleared; after `disarmAllClipsForStemExport`
every clip has `activeIfNoSoloBeforeStemExport` equal to its prior `activeIfNoSolo`, is
inactive, has arm state OFF and its arm and solo flags cleared.  The snapshot records the
pre-export mute flag only: whatever the arm and solo flags were beforehand, the prepared
targets are the same. -/
theorem prepare_forces_flags_and_snapshots_mute_only (s : Sys W) :
    ((disarmAllInstrumentsForStemExport s).2.song.outputs.length = s.song.outputs.length
      ∧ (∀ (i : Nat) (o o1 : Output), s.song.outputs[i]? = some o →
          (disarmAllInstrumentsForStemExport s).2.song.outputs[i]? = some o1 →
          o1.mutedInArrangementModeBeforeStemExport = o.mutedInArrangementMode
          ∧ o1.mutedInArrangementMode = true ∧ o1.armedForRecording = false
          ∧ o1.recordingInArrangement = false ∧ o1.soloingInArrangementMode = false)
      ∧ ∀ armed recording soloing : Output → Bool,
          (disarmAllInstrumentsForStemExport
            { s with song := { s.song with outputs := s.song.outputs.map (fun o =>
                { o with armedForRecording := armed o, recordingInArrangement := recording o,
                         soloingInArrangementMode := soloing o }) } }).2.song.outputs
            = (disarmAllInstrumentsForStemExport s).2.song.outputs)
    ∧ ((disarmAllClipsForStemExport s).2.song.sessionClips.length = s.song.sessionClips.length
      ∧ (∀ (i : Nat) (c c1 : Clip), s.song.sessionClips[i]? = some c →
          (disarmAllClipsForStemExport s).2.song.sessionClips[i]? = some c1 →
          c1.activeIfNoSoloBeforeStemExport = c.activeIfNoSolo
          ∧ c1.activeIfNoSolo = false ∧ c1.armState = ArmState.OFF
          ∧ c1.armedForRecording = false ∧ c1.soloingInSessionMode = false)
      ∧ ∀ (armState : Clip → ArmState) (armed soloing : Clip → Bool),
          (disarmAllClipsForStemExport
            { s with song := { s.song with sessionClips := s.song.sessionClips.map (fun c =>
                { c with armState := armState c, armedForRecording := armed c,
                         soloingInSessionMode := soloing c }) } }).2.song.sessionClips
            = (disarmAllClipsForStemExport s).2.song.sessionClips) := by
  refine ⟨⟨?_, ?_, ?_⟩, ?_, ?_, ?_⟩
  · rw [disarmAllInstrumentsForStemExport_eq]; simp [Sys.emit_song]
  · intro i o o1 ho ho1
    rw [disarmAllInstrumentsForStemExport_eq] at ho1
    simp only [Sys.emit_song, List.getElem?_map, ho, Option.map_some', Option.some.injEq] at ho1
    subst ho1
    exact ⟨rfl, rfl, rfl, rfl, rfl⟩
  · intro a r so
    rw [disarmAllInstrumentsForStemExport_eq, disarmAllInstrumentsForStemExport_eq]
    simp only [Sys.emit_song, List.map_map]
    rfl
  · rw [disarmAllClipsForStemExport_eq]; simp [Sys.emit_song]
  · intro i c c1 hc hc1
    rw [disarmAllClipsForStemExport_eq] at hc1
    simp only [Sys.emit_song, List.getElem?_map, hc, Option.map_some', Option.some.injEq] at hc1
    subst hc1
    exact ⟨rfl, rfl, rfl, rfl, rfl⟩
  · intro a r so
    rw [disarmAllClipsForStemExport_eq, disarmAllClipsForStemExport_eq]
    simp only [Sys.emit_song, List.map_map]
    rfl

/-- The amended C20 on the example song: three outputs stay three outputs, and "Bass",
unmuted and armed beforehand, is muted and disarmed with its mute flag remembered. -/
theorem prepare_forces_flags_and_snapshots_mute_only_witness :
    (disarmAllInstrumentsForStemExport (demoStart StemExportType.TRACK rigIdle)).2.song.outputs.length
        = 3
    ∧ ∀ o1 : Output,
        (disarmAllInstrumentsForStemExport
          (demoStart StemExportType.TRACK rigIdle)).2.song.outputs[0]? = some o1 →
        o1.mutedInArrangementModeBeforeStemExport = false
          ∧ o1.mutedInArrangementMode = true ∧ o1.armedForRecording = false
          ∧ o1.recordingInArrangement = false ∧ o1.soloingInArrangementMode = false :=
  ⟨(prepare_forces_flags_and_snapshots_mute_only (demoStart StemExportType.TRACK rigIdle)).1.1,
    fun o1 h =>
      (prepare_forces_flags_and_snapshots_mute_only
        (demoStart StemExportType.TRACK rigIdle)).1.2.1 0 _ o1 rfl h⟩

/-! ## Decimal digits can be read back -/

theorem digitChar_toNat (k : Nat) (hk : k < 10) : (Nat.digitChar k).toNat - 48 = k := by
  interval_cases k <;> rfl

theorem digitsValue_toDigitsCore :
    ∀ (fuel n : Nat) (ds : List Char), n < fuel →
      digitsValue (Nat.toDigitsCore 10 fuel n ds) = n * 10 ^ ds.length + digitsValue ds := by
  intro fuel
  induction fuel with
  | zero => intro n ds h; omega
  | succ fuel ih =>
    intro n ds h
    unfold Nat.toDigitsCore
    simp only
    split
    · rename_i h0
      have hn : n % 10 = n := by omega
      have hlt : n < 10 := by omega
      rw [hn]
      simp only [digitsValue, digitChar_toNat n hlt]
    · rename_i h0
      have hlt : n / 10 < fuel := by omega
      rw [ih (n / 10) _ hlt]
      simp only [digitsValue, digitChar_toNat _ (Nat.mod_lt n (by decide)), List.length_cons,
        pow_succ]
      have hsplit : n * 10 ^ ds.length = (10 * (n / 10) + n % 10) * 10 ^ ds.length := by
        rw [Nat.div_add_mod]
      rw [hsplit]
      ring

theorem digitsValue_toDigits (n : Nat) : digitsValue (Nat.toDigits 10 n) = n := by
  unfold Nat.toDigits
  rw [digitsValue_toDigitsCore (n + 1) n [] (by omega)]
  simp [digitsValue]

theorem digitsValue_zeros (k : Nat) (ds : List Char) :
    digitsValue (List.replicate k '0' ++ ds) = digitsValue ds := by
  induction k with
  | zero => rfl
  | succ k ih =>
    rw [List.replicate_succ, List.cons_append, digitsValue, ih]
    simp

theorem intToStringPadded_injective (m a b : Nat)
    (h : intToStringPadded a m = intToStringPadded b m) : a = b := by
  unfold intToStringPadded at h
  have h1 := congrArg (fun t : String => digitsValue t.data) h
  simp only at h1
  rw [digitsValue_zeros, digitsValue_zeros, digitsValue_toDigits, digitsValue_toDigits] at h1
  exact h1

theorem string_append_left_cancel (a b c : String) (h : a ++ b = a ++ c) : b = c := by
  have h1 := congrArg String.data h
  simp only [String.data_append, List.append_cancel_left_eq] at h1
  exact String.ext h1

theorem intToStringPadded_ne_empty (a m : Nat) : "-" ++ intToStringPadded a m ≠ "" := by
  intro h
  have h1 := congrArg String.length h
  simp [String.length_append] at h1
  have : ("-" : String).length = 1 := rfl
  omega

theorem folderCandidate_injective (tempPath : String) (a b : Int) (ha : -1 ≤ a) (hb : -1 ≤ b)
    (h : folderCandidate tempPath a = folderCandidate tempPath b) : a = b := by
  unfold folderCandidate at h
  by_cases ha1 : a = -1 <;> by_cases hb1 : b = -1
  · omega
  · exfalso
    simp only [ha1, hb1, if_true, if_false] at h
    have h2 : tempPath ++ "" = tempPath ++ ("-" ++ concatenateInt b 5) := by
      rw [String.append_empty, ← String.append_assoc]; exact h
    have h3 := string_append_left_cancel _ _ _ h2
    have hb0 : 0 ≤ b := by omega
    simp only [concatenateInt, hb0, if_true] at h3
    exact intToStringPadded_ne_empty _ _ h3.symm
  · exfalso
    simp only [ha1, hb1, if_true, if_false] at h
    have h2 : tempPath ++ ("-" ++ concatenateInt a 5) = tempPath ++ "" := by
      rw [String.append_empty, ← String.append_assoc]; exact h
    have h3 := string_append_left_cancel _ _ _ h2
    have ha0 : 0 ≤ a := by omega
    simp only [concatenateInt, ha0, if_true] at h3
    exact intToStringPadded_ne_empty _ _ h3
  · simp only [ha1, hb1, if_false] at h
    have h2 : tempPath ++ ("-" ++ concatenateInt a 5) = tempPath ++ ("-" ++ concatenateInt b 5) := by
      rw [← String.append_assoc, ← String.append_assoc]; exact h
    have h3 := string_append_left_cancel _ _ _ (string_append_left_cancel _ _ _ h2)
    have ha0 : 0 ≤ a := by omega
    have hb0 : 0 ≤ b := by omega
    simp only [concatenateInt, ha0, hb0, if_true] at h3
    have h4 := intToStringPadded_injective 5 _ _ h3
    omega

/-! ## The path functions: what a string operation and a request leave alone -/

@[simp] theorem PathState.stringOp_se (st : PathState D) : st.stringOp.2.se = st.se := by
  unfold PathState.stringOp; split <;> rfl

@[simp] theorem PathState.stringOp_disk (st : PathState D) : st.stringOp.2.disk = st.disk := by
  unfold PathState.stringOp; split <;> rfl

@[simp] theorem PathState.stringOp_mkdirRequests (st : PathState D) :
    st.stringOp.2.mkdirRequests = st.mkdirRequests := by
  unfold PathState.stringOp; split <;> rfl

@[simp] theorem PathState.stringOp_recordingNumber (st : PathState D) :
    st.stringOp.2.highestUsedAudioRecordingNumber = st.highestUsedAudioRecordingNumber := by
  unfold PathState.stringOp; split <;> rfl

theorem PathState.stringOp_none (st : PathState D) (h : st.stringOpsLeft = none) :
    st.stringOp = (true, st) := by
  unfold PathState.stringOp; rw [h]

@[simp] theorem PathState.mkdir_result (S : Storage D) (path : String) (st : PathState D) :
    (st.mkdir S path).1 = (S.f_mkdir path st.disk).1 := rfl

@[simp] theorem PathState.mkdir_se (S : Storage D) (path : String) (st : PathState D) :
    (st.mkdir S path).2.se = st.se := rfl

@[simp] theorem PathState.mkdir_disk (S : Storage D) (path : String) (st : PathState D) :
    (st.mkdir S path).2.disk = (S.f_mkdir path st.disk).2 := rfl

@[simp] theorem PathState.mkdir_mkdirRequests (S : Storage D) (path : String)
    (st : PathState D) :
    (st.mkdir S path).2.mkdirRequests
      = st.mkdirRequests ++ [(path, (S.f_mkdir path st.disk).1)] := rfl

@[simp] theorem PathState.mkdir_recordingNumber (S : Storage D) (path : String)
    (st : PathState D) :
    (st.mkdir S path).2.highestUsedAudioRecordingNumber
      = st.highestUsedAudioRecordingNumber := rfl

@[simp] theorem PathState.mkdir_stringOpsLeft (S : Storage D) (path : String)
    (st : PathState D) :
    (st.mkdir S path).2.stringOpsLeft = st.stringOpsLeft := rfl

theorem folderCandidate_succ (tempPath : String) (n : Int) (hn : -1 ≤ n) :
    folderCandidate tempPath (n + 1) = tempPath ++ "-" ++ concatenateInt (n + 1) 5 := by
  unfold folderCandidate
  have : n + 1 ≠ -1 := by omega
  simp [this]

/-- What the search loop has done when it leaves through `break`: its last request was
for the path it leaves with and was answered `FR_OK`, every request before was answered
otherwise, and the path is the candidate of the folder number it leaves behind. -/
theorem folderSearch_found (S : Storage D) (tempPath : String) :
    ∀ (fuel : Nat) (cur : String) (st : PathState D) (p : String) (st6 : PathState D),
      folderSearch S tempPath fuel cur st = SearchResult.found p st6 →
      -1 ≤ st.se.highestUsedStemFolderNumber →
      cur = folderCandidate tempPath st.se.highestUsedStemFolderNumber →
      ∃ reqs : List (String × FRESULT),
        st6.mkdirRequests = st.mkdirRequests ++ reqs ++ [(p, FRESULT.FR_OK)]
        ∧ (∀ q ∈ reqs, q.2 ≠ FRESULT.FR_OK)
        ∧ st.se.highestUsedStemFolderNumber ≤ st6.se.highestUsedStemFolderNumber
        ∧ p = folderCandidate tempPath st6.se.highestUsedStemFolderNumber
        ∧ st6.se = { st.se with
            highestUsedStemFolderNumber := st6.se.highestUsedStemFolderNumber }
        ∧ st6.highestUsedAudioRecordingNumber = st.highestUsedAudioRecordingNumber := by
  intro fuel
  induction fuel with
  | zero => intro cur st p st6 h; simp [folderSearch] at h
  | succ fuel ih =>
    intro cur st p st6 h hge hcur
    unfold folderSearch at h
    simp only at h
    split at h
    · rename_i hok
      simp only [SearchResult.found.injEq] at h
      obtain ⟨h1, h2⟩ := h
      subst h1 h2
      refine ⟨[], ?_, ?_, ?_, ?_, ?_, ?_⟩
      · simp only [PathState.mkdir_mkdirRequests, List.append_nil]
        rw [← PathState.mkdir_result, hok]
      · intro q hq; cases hq
      · simp
      · simpa using hcur
      · simp
      · simp
    · rename_i hnok
      split at h
      · cases h
      · split at h
        · cases h
        · split at h
          · cases h
          · obtain ⟨reqs, h1, h2, h3, h4, h5, h6⟩ := ih _ _ p st6 h
              (by simp; omega)
              (by simp; exact (folderCandidate_succ tempPath _ hge).symm)
            simp only [PathState.stringOp_se, PathState.stringOp_mkdirRequests,
              PathState.stringOp_recordingNumber, PathState.mkdir_se,
              PathState.mkdir_mkdirRequests, PathState.mkdir_recordingNumber] at h1 h3 h5 h6
            refine ⟨(cur, (S.f_mkdir cur st.disk).1) :: reqs, ?_, ?_, ?_, h4, ?_, h6⟩
            · rw [h1]; simp
            · intro q hq
              rcases List.mem_cons.mp hq with hq | hq
              · subst hq; simpa using hnok
              · exact h2 q hq
            · omega
            · rw [h5]

theorem PathState.stringOp_fails_again (st : PathState D) (h : st.stringOp.1 = false) :
    st.stringOp.2.stringOp.1 = false := by
  cases hs : st.stringOpsLeft with
  | none => simp [PathState.stringOp, hs] at h
  | some n =>
    cases n with
    | zero => simp [PathState.stringOp, hs]
    | succ n => simp [PathState.stringOp, hs] at h

theorem saveLastSongName_returned (name filePath : String) (st : PathState D) (p : String)
    (st1 : PathState D)
    (h : saveLastSongName name filePath st = PathResult.returned Error.NONE p st1) :
    p = filePath ∧ st1.se = { st.se with lastSongNameForStemExport := name }
      ∧ st1.highestUsedAudioRecordingNumber = st.highestUsedAudioRecordingNumber
      ∧ st1.mkdirRequests = st.mkdirRequests ∧ st1.disk = st.disk := by
  unfold saveLastSongName at h
  simp only at h
  split at h
  · cases h
  · simp only [PathResult.returned.injEq, true_and] at h
    obtain ⟨h1, h2⟩ := h
    subst h1 h2
    simp

theorem folderSearch_failed (S : Storage D) (tempPath : String) :
    ∀ (fuel : Nat) (cur : String) (st : PathState D) (e : Error) (st6 : PathState D),
      folderSearch S tempPath fuel cur st = SearchResult.failed e st6 →
      e = Error.INSUFFICIENT_RAM := by
  intro fuel
  induction fuel with
  | zero => intro cur st e st6 h; simp [folderSearch] at h
  | succ fuel ih =>
    intro cur st e st6 h
    unfold folderSearch at h
    dsimp only at h
    split at h
    · cases h
    · split at h
      · simp only [SearchResult.failed.injEq] at h; exact h.1.symm
      · split at h
        · simp only [SearchResult.failed.injEq] at h; exact h.1.symm
        · split at h
          · simp only [SearchResult.failed.injEq] at h; exact h.1.symm
          · exact ih _ _ e st6 h

theorem folderCandidate_of_ne (tempPath : String) (n : Int) (hn : n ≠ -1) :
    folderCandidate tempPath n = tempPath ++ "-" ++ concatenateInt n 5 := by
  unfold folderCandidate; simp [hn]

theorem folderCandidate_neg_one (tempPath : String) : folderCandidate tempPath (-1) = tempPath := by
  unfold folderCandidate; simp

theorem folderPathOfSongName_returned (S : Storage D) (fuel : Nat)
    (tempPath name cmp filePath : String) (st : PathState D) (p : String) (st1 : PathState D)
    (h : folderPathOfSongName S fuel tempPath name cmp filePath st
      = PathResult.returned Error.NONE p st1) :
    st.stringOp.1 = true
    ∧ st1.se = { st.se with
        highestUsedStemFolderNumber := st1.se.highestUsedStemFolderNumber
        lastSongNameForStemExport := name }
    ∧ st1.highestUsedAudioRecordingNumber = st.highestUsedAudioRecordingNumber
    ∧ p = folderCandidate tempPath st1.se.highestUsedStemFolderNumber
    ∧ ((cmp ≠ st.se.lastSongNameForStemExport
        ∧ -1 ≤ st1.se.highestUsedStemFolderNumber
        ∧ ∃ reqs : List (String × FRESULT),
            st1.mkdirRequests = st.mkdirRequests ++ reqs ++ [(p, FRESULT.FR_OK)]
            ∧ ∀ q ∈ reqs, q.2 ≠ FRESULT.FR_OK)
      ∨ (cmp = st.se.lastSongNameForStemExport
        ∧ st1.se.highestUsedStemFolderNumber = st.se.highestUsedStemFolderNumber
        ∧ st1.mkdirRequests = st.mkdirRequests
        ∧ st1.disk = st.disk)) := by
  unfold folderPathOfSongName at h
  dsimp only at h
  split at h
  · rename_i hne
    split at h
    · cases h
    rename_i ho5
    split at h
    · cases h
    · rename_i e st6 hfs
      have he := folderSearch_failed S tempPath fuel tempPath _ e st6 hfs
      subst he
      cases h
    · rename_i q st6 hfs
      split at h
      · cases h
      obtain ⟨reqs, h1, h2, h3, h4, h5, h6⟩ := folderSearch_found S tempPath fuel tempPath _ q st6
        hfs (by simp) (by simp [folderCandidate_neg_one])
      obtain ⟨g1, g2, g3, g4, g5⟩ := saveLastSongName_returned _ _ _ _ _ h
      simp only [PathState.stringOp_se, PathState.stringOp_mkdirRequests,
        PathState.stringOp_recordingNumber, PathState.stringOp_disk] at g2 g3 g4 g5 h1 h3 h5 h6
      subst g1
      refine ⟨by simpa using ho5, ?_, by rw [g3, h6], ?_, Or.inl ⟨hne, ?_, reqs, ?_, h2⟩⟩
      · rw [g2, h5]
      · rw [g2]; exact h4
      · rw [g2]; exact h3
      · rw [g4, h1]
  · rename_i heq
    have heq1 : cmp = st.se.lastSongNameForStemExport := by
      by_contra hc; exact heq hc
    split at h
    · rename_i hnum
      split at h
      · cases h
      rename_i ho5
      split at h
      · cases h
      split at h
      · cases h
      obtain ⟨g1, g2, g3, g4, g5⟩ := saveLastSongName_returned _ _ _ _ _ h
      simp only [PathState.stringOp_se, PathState.stringOp_mkdirRequests,
        PathState.stringOp_recordingNumber, PathState.stringOp_disk] at g2 g3 g4 g5
      refine ⟨by simpa using ho5, ?_, g3, ?_, Or.inr ⟨heq1, ?_, g4, g5⟩⟩
      · rw [g2]
      · rw [g1, g2]; exact (folderCandidate_of_ne _ _ hnum).symm
      · rw [g2]
    · rename_i hnum
      have hnum1 : st.se.highestUsedStemFolderNumber = -1 := by
        by_contra hc; exact hnum hc
      split at h
      · cases h
      rename_i ho7
      obtain ⟨g1, g2, g3, g4, g5⟩ := saveLastSongName_returned _ _ _ _ _ h
      simp only [PathState.stringOp_se, PathState.stringOp_mkdirRequests,
        PathState.stringOp_recordingNumber, PathState.stringOp_disk] at g2 g3 g4 g5
      refine ⟨by simpa using ho7, ?_, g3, ?_, Or.inr ⟨heq1, ?_, g4, g5⟩⟩
      · rw [g2]
      · rw [g1, g2]; simp only [hnum1, folderCandidate_neg_one]
      · rw [g2]

/-- What a call of `getUnusedStemRecordingFolderPath` that returns `Error::NONE` has
done.  The SD card was initialised and the request for the base folder was answered
`FR_OK` or `FR_EXIST`; the path is the candidate of the folder number the call leaves
behind and the last song name is the name used.  Either the name differed from the last
song name, the folder number is at least `-1` and the last request, for the returned
path, was answered `FR_OK` after requests answered otherwise; or the name was the last
song name, the folder number is unchanged and the base folder was the only request. -/
theorem getUnusedStemRecordingFolderPath_returned (S : Storage D) (fuel : Nat)
    (folderName songName filePath : String) (st : PathState D) (p : String)
    (st1 : PathState D)
    (h : getUnusedStemRecordingFolderPath S fuel folderName songName filePath st
      = PathResult.returned Error.NONE p st1) :
    (S.initSD st.disk).1 = Error.NONE
    ∧ st1.se = { st.se with
        highestUsedStemFolderNumber := st1.se.highestUsedStemFolderNumber
        lastSongNameForStemExport := projectName songName }
    ∧ st1.highestUsedAudioRecordingNumber = st.highestUsedAudioRecordingNumber
    ∧ p = folderCandidate (folderName ++ "/" ++ projectName songName)
        st1.se.highestUsedStemFolderNumber
    ∧ ∃ r : FRESULT, (r = FRESULT.FR_OK ∨ r = FRESULT.FR_EXIST)
      ∧ r = (S.f_mkdir folderName (S.initSD st.disk).2).1
      ∧ ((projectName songName ≠ st.se.lastSongNameForStemExport
          ∧ -1 ≤ st1.se.highestUsedStemFolderNumber
          ∧ ∃ reqs : List (String × FRESULT),
              st1.mkdirRequests
                = st.mkdirRequests ++ [(folderName, r)] ++ reqs ++ [(p, FRESULT.FR_OK)]
              ∧ ∀ q ∈ reqs, q.2 ≠ FRESULT.FR_OK)
        ∨ (projectName songName = st.se.lastSongNameForStemExport
          ∧ st1.se.highestUsedStemFolderNumber = st.se.highestUsedStemFolderNumber
          ∧ st1.mkdirRequests = st.mkdirRequests ++ [(folderName, r)]
          ∧ st1.disk = (S.f_mkdir folderName (S.initSD st.disk).2).2)) := by
  unfold getUnusedStemRecordingFolderPath at h
  dsimp only at h
  have hname : (if songName = "" then "UNSAVED" else songName) = projectName songName := rfl
  rw [hname] at h
  split at h
  · rename_i hi
    simp only [PathResult.returned.injEq] at h
    exact absurd h.1 hi
  rename_i hi
  have hi0 : (S.initSD st.disk).1 = Error.NONE := by
    by_contra hc; exact hi hc
  split at h
  · cases h
  split at h
  · cases h
  rename_i ho1 hm
  split at h
  · cases h
  rename_i ho2
  split at h
  · cases h
  rename_i ho3
  obtain ⟨g0, g1, g2, g3, g4⟩ := folderPathOfSongName_returned _ _ _ _ _ _ _ _ _ h
  have ho4 : (PathState.stringOp (PathState.stringOp (PathState.stringOp
      (PathState.mkdir S folderName (PathState.stringOp
        { st with disk := (S.initSD st.disk).2 }).2).2).2).2).1 = true := by
    cases hb : (PathState.stringOp (PathState.stringOp (PathState.stringOp
      (PathState.mkdir S folderName (PathState.stringOp
        { st with disk := (S.initSD st.disk).2 }).2).2).2).2).1 with
    | true => rfl
    | false =>
      have := PathState.stringOp_fails_again _ hb
      rw [this] at g0; cases g0
  simp only [ho4, if_true] at g4
  simp only [PathState.stringOp_se, PathState.stringOp_mkdirRequests,
    PathState.stringOp_recordingNumber, PathState.stringOp_disk, PathState.mkdir_se,
    PathState.mkdir_mkdirRequests, PathState.mkdir_recordingNumber, PathState.mkdir_disk,
    PathState.mkdir_result] at g1 g2 g4 hm
  have hr : (S.f_mkdir folderName (S.initSD st.disk).2).1 = FRESULT.FR_OK
      ∨ (S.f_mkdir folderName (S.initSD st.disk).2).1 = FRESULT.FR_EXIST := by
    by_contra hc
    push_neg at hc
    exact hm hc
  refine ⟨hi0, g1, g2, g3, _, hr, rfl, ?_⟩
  rcases g4 with ⟨k1, k2, reqs, k3, k4⟩ | ⟨k1, k2, k3, k4⟩
  · exact Or.inl ⟨k1, k2, reqs, k3, k4⟩
  · exact Or.inr ⟨k1, k2, k3, k4⟩

/-! ## Resolving the folder of a name again -/

theorem saveLastSongName_returns (name filePath : String) (st : PathState D) :
    ∃ (e : Error) (p : String) (st1 : PathState D),
      saveLastSongName name filePath st = PathResult.returned e p st1 := by
  unfold saveLastSongName
  dsimp only
  split
  · exact ⟨_, _, _, rfl⟩
  · exact ⟨_, _, _, rfl⟩

theorem folderPathOfSongName_returns (S : Storage D) (fuel : Nat)
    (tempPath name cmp filePath : String) (st : PathState D)
    (hc : cmp = st.se.lastSongNameForStemExport ∨ st.stringOp.1 = false) :
    ∃ (e : Error) (p : String) (st1 : PathState D),
      folderPathOfSongName S fuel tempPath name cmp filePath st
        = PathResult.returned e p st1 := by
  unfold folderPathOfSongName
  dsimp only
  split
  · rename_i hne
    rcases hc with hc | hc
    · exact absurd hc hne
    · simp only [hc, Bool.not_false, if_true]
      exact ⟨_, _, _, rfl⟩
  · split
    · split
      · exact ⟨_, _, _, rfl⟩
      · split
        · exact ⟨_, _, _, rfl⟩
        · split
          · exact ⟨_, _, _, rfl⟩
          · exact saveLastSongName_returns _ _ _
    · split
      · exact ⟨_, _, _, rfl⟩
      · exact saveLastSongName_returns _ _ _

/-- With the name equal to the last song name the call returns whatever the fuel: it
never enters the search loop. -/
theorem getUnusedStemRecordingFolderPath_returns (S : Storage D) (fuel : Nat)
    (folderName songName filePath : String) (st : PathState D)
    (hlast : st.se.lastSongNameForStemExport = projectName songName) :
    ∃ (e : Error) (p : String) (st1 : PathState D),
      getUnusedStemRecordingFolderPath S fuel folderName songName filePath st
        = PathResult.returned e p st1 := by
  unfold getUnusedStemRecordingFolderPath
  dsimp only
  have hname : (if songName = "" then "UNSAVED" else songName) = projectName songName := rfl
  rw [hname]
  split
  · exact ⟨_, _, _, rfl⟩
  split
  · exact ⟨_, _, _, rfl⟩
  split
  · exact ⟨_, _, _, rfl⟩
  split
  · exact ⟨_, _, _, rfl⟩
  split
  · exact ⟨_, _, _, rfl⟩
  apply folderPathOfSongName_returns
  cases hb : (PathState.stringOp (PathState.stringOp (PathState.stringOp
      (PathState.mkdir S folderName (PathState.stringOp
        { st with disk := (S.initSD st.disk).2 }).2).2).2).2).1 with
  | true =>
    left
    simp only [if_true, PathState.stringOp_se, PathState.mkdir_se]
    exact hlast.symm
  | false =>
    right
    exact PathState.stringOp_fails_again _ hb

/-- A call that finds the name equal to the last song name and returns `Error::NONE`
returns the candidate of the folder number it found, leaves that number alone and makes
no request but the one for the base folder. -/
theorem getUnusedStemRecordingFolderPath_again (S : Storage D) (fuel : Nat)
    (folderName songName filePath : String) (st : PathState D) (p : String)
    (st1 : PathState D)
    (hlast : st.se.lastSongNameForStemExport = projectName songName)
    (h : getUnusedStemRecordingFolderPath S fuel folderName songName filePath st
      = PathResult.returned Error.NONE p st1) :
    p = folderCandidate (folderName ++ "/" ++ projectName songName)
        st.se.highestUsedStemFolderNumber
    ∧ st1.se = st.se
    ∧ ∃ r : FRESULT, (r = FRESULT.FR_OK ∨ r = FRESULT.FR_EXIST)
        ∧ st1.mkdirRequests = st.mkdirRequests ++ [(folderName, r)] := by
  obtain ⟨_, g1, _, g3, r, hr, _, g4⟩ :=
    getUnusedStemRecordingFolderPath_returned S fuel folderName songName filePath st p st1 h
  rcases g4 with ⟨k1, _⟩ | ⟨_, k2, k3, _⟩
  · exact absurd hlast.symm k1
  · refine ⟨by rw [g3, k2], ?_, r, hr, k3⟩
    rw [g1, k2, ← hlast]

/-- C12: after a call of `getUnusedStemRecordingFolderPath` that returned `Error::NONE`,
a second call with the same song name and nothing in between returns, whatever its fuel,
and if it returns `Error::NONE` it returns the same path, namely the base folder, "/" and
the name, followed by "-" and the folder number in five digits only when that number is
not `-1`; its only `f_mkdir` request is the one for the base folder, and it leaves the
`stemExport` object as it was. -/
theorem repeated_name_resolves_to_same_folder (S : Storage D) (fuel fuel2 : Nat)
    (folderName songName filePath filePath2 : String) (st st1 : PathState D) (p1 : String)
    (h1 : getUnusedStemRecordingFolderPath S fuel folderName songName filePath st
      = PathResult.returned Error.NONE p1 st1) :
    (∃ (e : Error) (p2 : String) (st2 : PathState D),
      getUnusedStemRecordingFolderPath S fuel2 folderName songName filePath2 st1
        = PathResult.returned e p2 st2)
    ∧ ∀ (p2 : String) (st2 : PathState D),
        getUnusedStemRecordingFolderPath S fuel2 folderName songName filePath2 st1
          = PathResult.returned Error.NONE p2 st2 →
        p2 = p1
        ∧ p2 = (if st1.se.highestUsedStemFolderNumber = -1
                then folderName ++ "/" ++ projectName songName
                else folderName ++ "/" ++ projectName songName ++ "-"
                  ++ concatenateInt st1.se.highestUsedStemFolderNumber 5)
        ∧ (∃ r : FRESULT, st2.mkdirRequests = st1.mkdirRequests ++ [(folderName, r)])
        ∧ st2.se = st1.se := by
  obtain ⟨_, g1, _, g3, _⟩ :=
    getUnusedStemRecordingFolderPath_returned S fuel folderName songName filePath st p1 st1 h1
  have hlast : st1.se.lastSongNameForStemExport = projectName songName := by rw [g1]
  refine ⟨getUnusedStemRecordingFolderPath_returns S fuel2 folderName songName filePath2 st1
    hlast, ?_⟩
  intro p2 st2 h2
  obtain ⟨k1, k2, r, _, k3⟩ :=
    getUnusedStemRecordingFolderPath_again S fuel2 folderName songName filePath2 st1 p2 st2
      hlast h2
  exact ⟨by rw [k1, g3], k1, ⟨r, k3⟩, k2⟩

/-- The example of C12: "Song A" is resolved on a card that already holds a folder of
that name, which creates "Song A-00000"; the second call returns the same path and asks
for the base folder only. -/
theorem repeated_name_resolves_to_same_folder_witness :
    getUnusedStemRecordingFolderPath dirStorage 0 "SAMPLES/STEMS" "Song A" ""
        (getUnusedStemRecordingFolderPath dirStorage 5 "SAMPLES/STEMS" "Song A" ""
          (PathState.start StemExport.new ["SAMPLES/STEMS", "SAMPLES/STEMS/Song A"])).state
      = PathResult.returned Error.NONE "SAMPLES/STEMS/Song A-00000"
          (getUnusedStemRecordingFolderPath dirStorage 0 "SAMPLES/STEMS" "Song A" ""
            (getUnusedStemRecordingFolderPath dirStorage 5 "SAMPLES/STEMS" "Song A" ""
              (PathState.start StemExport.new
                ["SAMPLES/STEMS", "SAMPLES/STEMS/Song A"])).state).state
    ∧ "SAMPLES/STEMS/Song A-00000" = "SAMPLES/STEMS/Song A-00000"
    ∧ (getUnusedStemRecordingFolderPath dirStorage 0 "SAMPLES/STEMS" "Song A" ""
        (getUnusedStemRecordingFolderPath dirStorage 5 "SAMPLES/STEMS" "Song A" ""
          (PathState.start StemExport.new
            ["SAMPLES/STEMS", "SAMPLES/STEMS/Song A"])).state).state.mkdirRequests
      = [("SAMPLES/STEMS", FRESULT.FR_EXIST), ("SAMPLES/STEMS/Song A", FRESULT.FR_EXIST),
         ("SAMPLES/STEMS/Song A-00000", FRESULT.FR_OK), ("SAMPLES/STEMS", FRESULT.FR_EXIST)] :=
  ⟨rfl,
    ((repeated_name_resolves_to_same_folder dirStorage 5 0 "SAMPLES/STEMS" "Song A" "" ""
      (PathState.start StemExport.new ["SAMPLES/STEMS", "SAMPLES/STEMS/Song A"]) _
      "SAMPLES/STEMS/Song A-00000" rfl).2 _ _ rfl).1,
    rfl⟩

/-! ## The folder of the next export -/

/-- After a call that returned `Error::NONE`, a call for the same name on a `stemExport`
object whose folder number has been advanced by one returns a different path: the
candidate of the advanced number. -/
theorem next_folder_differs (S : Storage D) (fuel fuel2 : Nat)
    (folderName songName filePath filePath2 : String) (st st1 stN st2 : PathState D)
    (p1 p2 : String)
    (hge : -1 ≤ st.se.highestUsedStemFolderNumber)
    (h1 : getUnusedStemRecordingFolderPath S fuel folderName songName filePath st
      = PathResult.returned Error.NONE p1 st1)
    (hn : stN.se.highestUsedStemFolderNumber = st1.se.highestUsedStemFolderNumber + 1)
    (hl : stN.se.lastSongNameForStemExport = st1.se.lastSongNameForStemExport)
    (h2 : getUnusedStemRecordingFolderPath S fuel2 folderName songName filePath2 stN
      = PathResult.returned Error.NONE p2 st2) :
    p2 ≠ p1
    ∧ p2 = folderCandidate (folderName ++ "/" ++ projectName songName)
        (st1.se.highestUsedStemFolderNumber + 1) := by
  obtain ⟨_, g1, _, g3, r, _, _, g4⟩ :=
    getUnusedStemRecordingFolderPath_returned S fuel folderName songName filePath st p1 st1 h1
  have hlast : st1.se.lastSongNameForStemExport = projectName songName := by rw [g1]
  have hge1 : -1 ≤ st1.se.highestUsedStemFolderNumber := by
    rcases g4 with ⟨_, k2, _⟩ | ⟨_, k2, _⟩
    · exact k2
    · rw [k2]; exact hge
  obtain ⟨k1, _, _⟩ :=
    getUnusedStemRecordingFolderPath_again S fuel2 folderName songName filePath2 stN p2 st2
      (hl.trans hlast) h2
  rw [hn] at k1
  refine ⟨?_, k1⟩
  intro heq
  rw [k1, g3] at heq
  have := folderCandidate_injective _ _ _ (by omega) hge1 heq
  omega

/-- C15, as stated, fails.  On a card that holds "Song A-00000" from earlier days, "Song A"
is resolved (the folder "Song A" is created), the run completes, and the next resolution
returns "Song A-00000": a folder that existed beforehand, that no earlier resolution
returned, and for which no request was made at all. -/
theorem existing_folder_accepted_after_completed_run :
    (getUnusedStemRecordingFolderPath dirStorage 5 "SAMPLES/STEMS" "Song A" ""
        (PathState.start StemExport.new
          ["SAMPLES/STEMS", "SAMPLES/STEMS/Song A-00000"])).path
      = some "SAMPLES/STEMS/Song A"
    ∧ (getUnusedStemRecordingFolderPath dirStorage 5 "SAMPLES/STEMS" "Song A" ""
        { (getUnusedStemRecordingFolderPath dirStorage 5 "SAMPLES/STEMS" "Song A" ""
            (PathState.start StemExport.new
              ["SAMPLES/STEMS", "SAMPLES/STEMS/Song A-00000"])).state with
          se := (finishStemExportProcess StemExportType.TRACK 3
            (Sys.start (getUnusedStemRecordingFolderPath dirStorage 5 "SAMPLES/STEMS"
              "Song A" "" (PathState.start StemExport.new
                ["SAMPLES/STEMS", "SAMPLES/STEMS/Song A-00000"])).state.se
              demoSong rigIdle)).se }).path
      = some "SAMPLES/STEMS/Song A-00000"
    ∧ (getUnusedStemRecordingFolderPath dirStorage 5 "SAMPLES/STEMS" "Song A" ""
        { (getUnusedStemRecordingFolderPath dirStorage 5 "SAMPLES/STEMS" "Song A" ""
            (PathState.start StemExport.new
              ["SAMPLES/STEMS", "SAMPLES/STEMS/Song A-00000"])).state with
          se := (finishStemExportProcess StemExportType.TRACK 3
            (Sys.start (getUnusedStemRecordingFolderPath dirStorage 5 "SAMPLES/STEMS"
              "Song A" "" (PathState.start StemExport.new
                ["SAMPLES/STEMS", "SAMPLES/STEMS/Song A-00000"])).state.se
              demoSong rigIdle)).se }).state.mkdirRequests
      = [("SAMPLES/STEMS", FRESULT.FR_EXIST), ("SAMPLES/STEMS/Song A", FRESULT.FR_OK),
         ("SAMPLES/STEMS", FRESULT.FR_EXIST)]
    ∧ "SAMPLES/STEMS/Song A-00000"
        ∈ ["SAMPLES/STEMS", "SAMPLES/STEMS/Song A-00000"] := by
  refine ⟨rfl, rfl, rfl, ?_⟩
  decide

/-- C15, amended: a path that `getUnusedStemRecordingFolderPath` returns with
`Error::NONE` for a name other than the last song name is the path of the last request
of the call, which was answered `FR_OK`, every earlier candidate of the call having been
answered otherwise; a path returned for the last song name is the base folder, "/" and
the name with the suffix of the folder number as it stands, and the call made no request
but the one for the base folder. -/
theorem accepted_folder_created_or_cached (S : Storage D) (fuel : Nat)
    (folderName songName filePath : String) (st : PathState D) (p : String)
    (st1 : PathState D)
    (h : getUnusedStemRecordingFolderPath S fuel folderName songName filePath st
      = PathResult.returned Error.NONE p st1) :
    (projectName songName ≠ st.se.lastSongNameForStemExport
      ∧ ∃ (r : FRESULT) (reqs : List (String × FRESULT)),
          st1.mkdirRequests
            = st.mkdirRequests ++ [(folderName, r)] ++ reqs ++ [(p, FRESULT.FR_OK)]
          ∧ ∀ q ∈ reqs, q.2 ≠ FRESULT.FR_OK)
    ∨ (projectName songName = st.se.lastSongNameForStemExport
      ∧ p = (if st.se.highestUsedStemFolderNumber = -1
              then folderName ++ "/" ++ projectName songName
              else folderName ++ "/" ++ projectName songName ++ "-"
                ++ concatenateInt st.se.highestUsedStemFolderNumber 5)
      ∧ ∃ r : FRESULT, st1.mkdirRequests = st.mkdirRequests ++ [(folderName, r)]) := by
  obtain ⟨_, _, _, g3, r, _, _, g4⟩ :=
    getUnusedStemRecordingFolderPath_returned S fuel folderName songName filePath st p st1 h
  rcases g4 with ⟨k1, _, reqs, k3, k4⟩ | ⟨k1, k2, k3, _⟩
  · exact Or.inl ⟨k1, r, reqs, k3, k4⟩
  · refine Or.inr ⟨k1, ?_, r, k3⟩
    rw [g3, k2]; rfl

/-- The amended C15 on a card that holds "Song A": the call creates "Song A-00000" after
the request for "Song A" was answered `FR_EXIST`. -/
theorem accepted_folder_created_or_cached_witness :
    ("Song A" ≠ ""
      ∧ ∃ (r : FRESULT) (reqs : List (String × FRESULT)),
          [("SAMPLES/STEMS", FRESULT.FR_EXIST), ("SAMPLES/STEMS/Song A", FRESULT.FR_EXIST),
            ("SAMPLES/STEMS/Song A-00000", FRESULT.FR_OK)]
            = [] ++ [("SAMPLES/STEMS", r)] ++ reqs
                ++ [("SAMPLES/STEMS/Song A-00000", FRESULT.FR_OK)]
          ∧ ∀ q ∈ reqs, q.2 ≠ FRESULT.FR_OK)
    ∨ ("Song A" = ""
      ∧ "SAMPLES/STEMS/Song A-00000" = (if (-1 : Int) = -1
              then "SAMPLES/STEMS" ++ "/" ++ "Song A"
              else "SAMPLES/STEMS" ++ "/" ++ "Song A" ++ "-" ++ concatenateInt (-1) 5)
      ∧ ∃ r : FRESULT,
          [("SAMPLES/STEMS", FRESULT.FR_EXIST), ("SAMPLES/STEMS/Song A", FRESULT.FR_EXIST),
            ("SAMPLES/STEMS/Song A-00000", FRESULT.FR_OK)]
            = [] ++ [("SAMPLES/STEMS", r)]) :=
  accepted_folder_created_or_cached dirStorage 5 "SAMPLES/STEMS" "Song A" ""
    (PathState.start StemExport.new ["SAMPLES/STEMS", "SAMPLES/STEMS/Song A"])
    "SAMPLES/STEMS/Song A-00000"
    (getUnusedStemRecordingFolderPath dirStorage 5 "SAMPLES/STEMS" "Song A" ""
      (PathState.start StemExport.new ["SAMPLES/STEMS", "SAMPLES/STEMS/Song A"])).state
    rfl

/-! ## The folder number after a cancelled and after a completed run -/

/-- C16, as stated, fails.  The demo clip run cancelled in the wait for its first clip
(index 2) returns with the folder number advanced from `-1` to `0`; and where a
resolution of "Song A" returned the folder "Song A", the resolution after
`stopStemExportProcess` returns "Song A-00000". -/
theorem cancelled_run_advances_folder_counter :
    (demoStart StemExportType.CLIP { rigIdle with cancelIn := some 2 }).se.highestUsedStemFolderNumber
        = -1
    ∧ (∃ m1 : Machine Rig,
        startStemExportProcess rigControls 10 StemExportType.CLIP
            { sys := demoStart StemExportType.CLIP { rigIdle with cancelIn := some 2 },
              highestUsedAudioRecordingNumber := -1 }
          = Progress.returned m1
        ∧ startedIndices m1.sys.log = [2]
        ∧ m1.sys.se.highestUsedStemFolderNumber = 0)
    ∧ (getUnusedStemRecordingFolderPath dirStorage 5 "SAMPLES/STEMS" "Song A" ""
        (PathState.start StemExport.new ["SAMPLES/STEMS"])).path
        = some "SAMPLES/STEMS/Song A"
    ∧ (getUnusedStemRecordingFolderPath dirStorage 5 "SAMPLES/STEMS" "Song A" ""
        { demoResolved with
          se := (stopStemExportProcess rigWorld
            (Sys.start demoResolved.se demoSong rigIdle)).se }).path
        = some "SAMPLES/STEMS/Song A-00000" :=
  ⟨rfl, ⟨_, rfl, rfl, rfl⟩, rfl, rfl⟩

/-- C17: `finishStemExportProcess` leaves `highestUsedStemFolderNumber` one above its
value before the call (and clears `processStarted`).  So where a resolution of the name
during the run returned a path and the run ends with the folder number and last song
name that resolution left, the next resolution of the same name returns, whatever its
fuel, and if it returns `Error::NONE` it returns a different path: the name with the
suffix of the advanced number. -/
theorem completion_advances_folder_counter (s : Sys W) (ty : StemExportType) (n : Nat)
    (S : Storage D) (fuel fuel2 : Nat) (folderName songName filePath filePath2 : String)
    (st st1 stN : PathState D) (p1 : String)
    (hge : -1 ≤ st.se.highestUsedStemFolderNumber)
    (h1 : getUnusedStemRecordingFolderPath S fuel folderName songName filePath st
      = PathResult.returned Error.NONE p1 st1)
    (hs : s.se.highestUsedStemFolderNumber = st1.se.highestUsedStemFolderNumber
      ∧ s.se.lastSongNameForStemExport = st1.se.lastSongNameForStemExport)
    (hN : stN.se = (finishStemExportProcess ty n s).se) :
    (finishStemExportProcess ty n s).se.highestUsedStemFolderNumber
        = s.se.highestUsedStemFolderNumber + 1
    ∧ (finishStemExportProcess ty n s).se.processStarted = false
    ∧ (∃ (e : Error) (p2 : String) (st2 : PathState D),
        getUnusedStemRecordingFolderPath S fuel2 folderName songName filePath2 stN
          = PathResult.returned e p2 st2)
    ∧ ∀ (p2 : String) (st2 : PathState D),
        getUnusedStemRecordingFolderPath S fuel2 folderName songName filePath2 stN
          = PathResult.returned Error.NONE p2 st2 →
        p2 ≠ p1
        ∧ p2 = folderName ++ "/" ++ projectName songName ++ "-"
            ++ concatenateInt (s.se.highestUsedStemFolderNumber + 1) 5 := by
  have hnum : (finishStemExportProcess ty n s).se.highestUsedStemFolderNumber
      = s.se.highestUsedStemFolderNumber + 1 := rfl
  have hlast : (finishStemExportProcess ty n s).se.lastSongNameForStemExport
      = s.se.lastSongNameForStemExport := rfl
  obtain ⟨_, g1, _, _, _, _, _, g4⟩ :=
    getUnusedStemRecordingFolderPath_returned S fuel folderName songName filePath st p1 st1 h1
  have hl1 : st1.se.lastSongNameForStemExport = projectName songName := by rw [g1]
  have hge1 : -1 ≤ st1.se.highestUsedStemFolderNumber := by
    rcases g4 with ⟨_, k2, _⟩ | ⟨_, k2, _⟩
    · exact k2
    · rw [k2]; exact hge
  refine ⟨hnum, rfl, ?_, ?_⟩
  · apply getUnusedStemRecordingFolderPath_returns
    rw [hN, hlast, hs.2, hl1]
  · intro p2 st2 h2
    obtain ⟨k1, k2⟩ := next_folder_differs S fuel fuel2 folderName songName filePath filePath2
      st st1 stN st2 p1 p2 hge h1 (by rw [hN, hnum, hs.1]) (by rw [hN, hlast, hs.2]) h2
    refine ⟨k1, ?_⟩
    rw [k2, hs.1, folderCandidate_succ _ _ hge1]

/-- The example of C17: after "Song A" was resolved to the folder "Song A" and the run
completed, the folder number is `0` and the next resolution returns "Song A-00000". -/
theorem completion_advances_folder_counter_witness :
    (finishStemExportProcess StemExportType.TRACK 3
        (Sys.start demoResolved.se demoSong rigIdle)).se.highestUsedStemFolderNumber = 0
    ∧ getUnusedStemRecordingFolderPath dirStorage 0 "SAMPLES/STEMS" "Song A" ""
          { demoResolved with
            se := (finishStemExportProcess StemExportType.TRACK 3
              (Sys.start demoResolved.se demoSong rigIdle)).se }
        = PathResult.returned Error.NONE "SAMPLES/STEMS/Song A-00000"
            (getUnusedStemRecordingFolderPath dirStorage 0 "SAMPLES/STEMS" "Song A" ""
              { demoResolved with
                se := (finishStemExportProcess StemExportType.TRACK 3
                  (Sys.start demoResolved.se demoSong rigIdle)).se }).state
    ∧ "SAMPLES/STEMS/Song A-00000" ≠ "SAMPLES/STEMS/Song A" :=
  ⟨(completion_advances_folder_counter (Sys.start demoResolved.se demoSong rigIdle)
      StemExportType.TRACK 3 dirStorage 5 0 "SAMPLES/STEMS" "Song A" "" ""
      (PathState.start StemExport.new ["SAMPLES/STEMS"]) demoResolved
      { demoResolved with
        se := (finishStemExportProcess StemExportType.TRACK 3
          (Sys.start demoResolved.se demoSong rigIdle)).se }
      "SAMPLES/STEMS/Song A" (by decide) rfl ⟨rfl, rfl⟩ rfl).1,
    rfl,
    ((completion_advances_folder_counter (Sys.start demoResolved.se demoSong rigIdle)
      StemExportType.TRACK 3 dirStorage 5 0 "SAMPLES/STEMS" "Song A" "" ""
      (PathState.start StemExport.new ["SAMPLES/STEMS"]) demoResolved
      { demoResolved with
        se := (finishStemExportProcess StemExportType.TRACK 3
          (Sys.start demoResolved.se demoSong rigIdle)).se }
      "SAMPLES/STEMS/Song A" (by decide) rfl ⟨rfl, rfl⟩ rfl).2.2.2 _ _ rfl).1⟩

/-! ## Resolving a fresh name when no string operation fails -/

theorem folderSearch_none_succ (S : Storage D) (tempPath : String) (fuel : Nat) (cur : String)
    (st : PathState D) (h0 : st.stringOpsLeft = none) :
    folderSearch S tempPath (fuel + 1) cur st
      = if (S.f_mkdir cur st.disk).1 = FRESULT.FR_OK then
          SearchResult.found cur (st.mkdir S cur).2
        else
          folderSearch S tempPath fuel
            (tempPath ++ "-" ++ concatenateInt (st.se.highestUsedStemFolderNumber + 1) 5)
            { (st.mkdir S cur).2 with se := { st.se with
                highestUsedStemFolderNumber := st.se.highestUsedStemFolderNumber + 1 } } := by
  rw [folderSearch]
  simp [PathState.stringOp_none, h0]

theorem getUnusedStemRecordingFolderPath_noFail (S : Storage D) (fuel : Nat)
    (folderName songName filePath : String) (st : PathState D)
    (h0 : st.stringOpsLeft = none) (hi : (S.initSD st.disk).1 = Error.NONE)
    (hm : (S.f_mkdir folderName (S.initSD st.disk).2).1 = FRESULT.FR_OK
      ∨ (S.f_mkdir folderName (S.initSD st.disk).2).1 = FRESULT.FR_EXIST) :
    getUnusedStemRecordingFolderPath S fuel folderName songName filePath st
      = folderPathOfSongName S fuel (folderName ++ "/" ++ projectName songName)
          (projectName songName) (projectName songName) filePath
          (PathState.mkdir S folderName { st with disk := (S.initSD st.disk).2 }).2 := by
  have a0 : ({ st with disk := (S.initSD st.disk).2 } : PathState D).stringOpsLeft = none := h0
  have a1 : (PathState.mkdir S folderName
      { st with disk := (S.initSD st.disk).2 }).2.stringOpsLeft = none := h0
  have hm1 : ¬ ((S.f_mkdir folderName (S.initSD st.disk).2).1 ≠ FRESULT.FR_OK
      ∧ (S.f_mkdir folderName (S.initSD st.disk).2).1 ≠ FRESULT.FR_EXIST) := by
    rintro ⟨h1, h2⟩
    rcases hm with h | h
    · exact h1 h
    · exact h2 h
  unfold getUnusedStemRecordingFolderPath
  simp [PathState.stringOp_none, h0, hi, hm1]
  rfl

theorem folderCandidate_ne_base (folderName name : String) (j : Int) :
    folderCandidate (folderName ++ "/" ++ name) j ≠ folderName := by
  intro h
  have h1 := congrArg String.length h
  have h2 : ("/" : String).length = 1 := rfl
  unfold folderCandidate at h1
  split at h1
  · simp only [String.length_append, h2] at h1; omega
  · simp only [String.length_append, h2] at h1; omega

/-- The search loop on a storage that keeps a list of directories: with the candidates
of the next `n` folder numbers present and the one after them absent, more than `n`
attempts find that one and create it. -/
theorem folderSearch_dirStorage (tempPath : String) :
    ∀ (n : Nat) (j : Int) (st : PathState (List String)) (fuel : Nat),
      st.stringOpsLeft = none → -1 ≤ j → st.se.highestUsedStemFolderNumber = j →
      (∀ i : Nat, i < n → folderCandidate tempPath (j + i) ∈ st.disk) →
      folderCandidate tempPath (j + n) ∉ st.disk → n < fuel →
      ∃ st1 : PathState (List String),
        folderSearch dirStorage tempPath fuel (folderCandidate tempPath j) st
          = SearchResult.found (folderCandidate tempPath (j + n)) st1
        ∧ st1.disk = st.disk ++ [folderCandidate tempPath (j + n)]
        ∧ st1.se = { st.se with highestUsedStemFolderNumber := j + n }
        ∧ st1.stringOpsLeft = none
        ∧ st1.highestUsedAudioRecordingNumber = st.highestUsedAudioRecordingNumber := by
  intro n
  induction n with
  | zero =>
    intro j st fuel h0 hj hnum _ hfree hfuel
    obtain ⟨f, rfl⟩ : ∃ f, fuel = f + 1 := ⟨fuel - 1, by omega⟩
    simp only [Nat.cast_zero, add_zero] at hfree ⊢
    rw [folderSearch_none_succ _ _ _ _ _ h0]
    have hok : (dirStorage.f_mkdir (folderCandidate tempPath j) st.disk)
        = (FRESULT.FR_OK, st.disk ++ [folderCandidate tempPath j]) := by
      simp [dirStorage, hfree]
    simp only [hok, if_true]
    refine ⟨_, rfl, ?_, ?_, h0, rfl⟩
    · simp [hok]
    · simp only [PathState.mkdir_se]
      rw [← hnum]
  | succ n ih =>
    intro j st fuel h0 hj hnum hex hfree hfuel
    obtain ⟨f, rfl⟩ : ∃ f, fuel = f + 1 := ⟨fuel - 1, by omega⟩
    rw [folderSearch_none_succ _ _ _ _ _ h0]
    have hin : folderCandidate tempPath j ∈ st.disk := by
      have := hex 0 (by omega)
      simpa using this
    have hexist : (dirStorage.f_mkdir (folderCandidate tempPath j) st.disk)
        = (FRESULT.FR_EXIST, st.disk) := by
      simp [dirStorage, hin]
    have hne : ¬ ((FRESULT.FR_EXIST) = FRESULT.FR_OK) := by decide
    simp only [hexist, hne, if_false]
    rw [hnum, ← folderCandidate_succ tempPath j hj]
    have hcast : j + ((n + 1 : Nat) : Int) = (j + 1) + (n : Int) := by push_cast; ring
    obtain ⟨st1, g1, g2, g3, g4, g5⟩ := ih (j + 1)
      { (PathState.mkdir dirStorage (folderCandidate tempPath j) st).2 with
          se := { st.se with highestUsedStemFolderNumber := j + 1 } } f
      h0 (by omega) rfl
      (by
        intro i hi
        have := hex (i + 1) (by omega)
        have hc : j + ((i + 1 : Nat) : Int) = j + 1 + (i : Int) := by push_cast; ring
        rw [hc] at this
        simpa [hexist] using this)
      (by
        rw [hcast] at hfree
        simpa [hexist] using hfree)
      (by omega)
    rw [hcast]
    refine ⟨st1, g1, ?_, ?_, g4, ?_⟩
    · rw [g2]; simp [hexist]
    · rw [g3]
    · rw [g5]; rfl

theorem folderCandidate_natCast (tempPath : String) (k : Nat) :
    folderCandidate tempPath (k : Int) = tempPath ++ "-" ++ intToStringPadded k 5 := by
  have h1 : ((k : Int) ≠ -1) := by omega
  have h2 : (0 : Int) ≤ (k : Int) := by omega
  simp [folderCandidate, h1, concatenateInt, h2]

theorem folderPathOfSongName_fresh (S : Storage D) (fuel : Nat)
    (tempPath name cmp filePath : String) (st : PathState D) (q : String) (st6 : PathState D)
    (h0 : st.stringOpsLeft = none) (hne : cmp ≠ st.se.lastSongNameForStemExport)
    (hs : folderSearch S tempPath fuel tempPath
      { st with se := { st.se with highestUsedStemFolderNumber := -1 } }
        = SearchResult.found q st6)
    (h6 : st6.stringOpsLeft = none) :
    folderPathOfSongName S fuel tempPath name cmp filePath st
      = PathResult.returned Error.NONE q
          { st6 with se := { st6.se with lastSongNameForStemExport := name } } := by
  unfold folderPathOfSongName
  rw [if_pos hne]
  dsimp only at hs ⊢
  rw [PathState.stringOp_none st h0]
  dsimp only
  rw [hs]
  dsimp only
  rw [PathState.stringOp_none st6 h6]
  dsimp only [saveLastSongName]
  rw [PathState.stringOp_none st6 h6]
  rfl

theorem getUnusedStemRecordingFolderPath_dirStorage (folderName songName filePath : String)
    (st : PathState (List String)) (fuel n : Nat)
    (h0 : st.stringOpsLeft = none)
    (hne : projectName songName ≠ st.se.lastSongNameForStemExport)
    (hex : ∀ i : Nat, i < n →
      folderCandidate (folderName ++ "/" ++ projectName songName) (-1 + i) ∈ st.disk)
    (hfree : folderCandidate (folderName ++ "/" ++ projectName songName) (-1 + n) ∉ st.disk)
    (hfuel : n < fuel) :
    ∃ st1 : PathState (List String),
      getUnusedStemRecordingFolderPath dirStorage fuel folderName songName filePath st
        = PathResult.returned Error.NONE
            (folderCandidate (folderName ++ "/" ++ projectName songName) (-1 + n)) st1
      ∧ st1.disk = (if folderName ∈ st.disk then st.disk else st.disk ++ [folderName])
          ++ [folderCandidate (folderName ++ "/" ++ projectName songName) (-1 + n)]
      ∧ st1.se = { st.se with
          highestUsedStemFolderNumber := -1 + n
          lastSongNameForStemExport := projectName songName } := by
  have hdisk : (dirStorage.f_mkdir folderName st.disk)
      = (if folderName ∈ st.disk then FRESULT.FR_EXIST else FRESULT.FR_OK,
         if folderName ∈ st.disk then st.disk else st.disk ++ [folderName]) := by
    by_cases hb : folderName ∈ st.disk <;> simp [dirStorage, hb]
  have hmem : ∀ q : String, q ≠ folderName →
      (q ∈ (if folderName ∈ st.disk then st.disk else st.disk ++ [folderName]) ↔ q ∈ st.disk) := by
    intro q hq
    by_cases hb : folderName ∈ st.disk <;> simp [hb, hq]
  rw [getUnusedStemRecordingFolderPath_noFail dirStorage fuel folderName songName filePath st h0
    rfl (by
      show (dirStorage.f_mkdir folderName st.disk).1 = FRESULT.FR_OK
        ∨ (dirStorage.f_mkdir folderName st.disk).1 = FRESULT.FR_EXIST
      rw [hdisk]
      by_cases hb : folderName ∈ st.disk <;> simp [hb])]
  obtain ⟨st6, g1, g2, g3, g4, g5⟩ := folderSearch_dirStorage
    (folderName ++ "/" ++ projectName songName) n (-1)
    { (PathState.mkdir dirStorage folderName
        { st with disk := (dirStorage.initSD st.disk).2 }).2 with
      se := { st.se with highestUsedStemFolderNumber := -1 } } fuel
    h0 (le_refl _) rfl
    (by
      intro i hi
      show _ ∈ (dirStorage.f_mkdir folderName st.disk).2
      rw [hdisk]
      exact (hmem _ (folderCandidate_ne_base _ _ _)).mpr (hex i hi))
    (by
      show _ ∉ (dirStorage.f_mkdir folderName st.disk).2
      rw [hdisk]
      exact fun hc => hfree ((hmem _ (folderCandidate_ne_base _ _ _)).mp hc))
    hfuel
  rw [folderCandidate_neg_one] at g1
  refine ⟨{ st6 with se := { st6.se with lastSongNameForStemExport := projectName songName } },
    ?_, ?_, ?_⟩
  · exact folderPathOfSongName_fresh dirStorage fuel _ _ _ filePath _ _ st6 h0 hne g1 g4
  · show st6.disk = _
    rw [g2]
    show (dirStorage.f_mkdir folderName st.disk).2 ++ _ = _
    rw [hdisk]
  · show { st6.se with lastSongNameForStemExport := projectName songName } = _
    rw [g3]

/-- C13: on a storage whose `f_mkdir` only ever answers `FR_OK` (created) or `FR_EXIST`,
with no string operation failing, a name (or "UNSAVED" for the empty name) that differs
from `lastSongNameForStemExport` is resolved to the first free candidate.  If the folder
of the name does not exist the call returns it and leaves the folder number at `-1`;
otherwise, with the folders of the suffixes below `k` present and the one of `k` absent,
and more than `k + 1` attempts looked at, it returns the name with "-" and `k` padded to
five digits and leaves the folder number at `k`.  Besides the base folder exactly the
returned directory is created, and `lastSongNameForStemExport` becomes the name. -/
theorem fresh_name_picks_first_free_candidate (folderName songName filePath : String)
    (st : PathState (List String)) (fuel : Nat)
    (h0 : st.stringOpsLeft = none)
    (hne : projectName songName ≠ st.se.lastSongNameForStemExport) :
    (folderName ++ "/" ++ projectName songName ∉ st.disk → 0 < fuel →
      ∃ st1 : PathState (List String),
        getUnusedStemRecordingFolderPath dirStorage fuel folderName songName filePath st
          = PathResult.returned Error.NONE (folderName ++ "/" ++ projectName songName) st1
        ∧ st1.disk = (if folderName ∈ st.disk then st.disk else st.disk ++ [folderName])
            ++ [folderName ++ "/" ++ projectName songName]
        ∧ st1.se = { st.se with
            highestUsedStemFolderNumber := -1
            lastSongNameForStemExport := projectName songName })
    ∧ ∀ k : Nat, folderName ++ "/" ++ projectName songName ∈ st.disk →
        (∀ j : Nat, j < k →
          folderName ++ "/" ++ projectName songName ++ "-" ++ intToStringPadded j 5 ∈ st.disk) →
        folderName ++ "/" ++ projectName songName ++ "-" ++ intToStringPadded k 5 ∉ st.disk →
        k + 1 < fuel →
        ∃ st1 : PathState (List String),
          getUnusedStemRecordingFolderPath dirStorage fuel folderName songName filePath st
            = PathResult.returned Error.NONE
                (folderName ++ "/" ++ projectName songName ++ "-" ++ intToStringPadded k 5) st1
          ∧ st1.disk = (if folderName ∈ st.disk then st.disk else st.disk ++ [folderName])
              ++ [folderName ++ "/" ++ projectName songName ++ "-" ++ intToStringPadded k 5]
          ∧ st1.se = { st.se with
              highestUsedStemFolderNumber := k
              lastSongNameForStemExport := projectName songName } := by
  constructor
  · intro hfree hfuel
    have h := getUnusedStemRecordingFolderPath_dirStorage folderName songName filePath st fuel 0
      h0 hne (fun i hi => absurd hi (Nat.not_lt_zero i))
      (by simpa [folderCandidate_neg_one] using hfree) hfuel
    simpa [folderCandidate_neg_one] using h
  · intro k hbase hex hfree hfuel
    have hc : ∀ i : Nat, (-1 : Int) + ((i + 1 : Nat) : Int) = (i : Int) := by
      intro i; push_cast; ring
    have h := getUnusedStemRecordingFolderPath_dirStorage folderName songName filePath st fuel
      (k + 1) h0 hne
      (by
        intro i hi
        cases i with
        | zero => simpa [folderCandidate_neg_one] using hbase
        | succ i =>
          rw [hc, folderCandidate_natCast]
          exact hex i (by omega))
      (by rw [hc, folderCandidate_natCast]; exact hfree) hfuel
    rw [hc, folderCandidate_natCast] at h
    exact h

/-- The example of C13: with "Song A" and "Song A-00000" on the card, "Song A" is
resolved to "Song A-00001", which is created, and the folder number is left at `1`. -/
theorem fresh_name_picks_first_free_candidate_witness :
    ∃ st1 : PathState (List String),
      getUnusedStemRecordingFolderPath dirStorage 3 "SAMPLES/STEMS" "Song A" ""
          (PathState.start StemExport.new
            ["SAMPLES/STEMS", "SAMPLES/STEMS/Song A", "SAMPLES/STEMS/Song A-00000"])
        = PathResult.returned Error.NONE "SAMPLES/STEMS/Song A-00001" st1
      ∧ st1.disk = ["SAMPLES/STEMS", "SAMPLES/STEMS/Song A", "SAMPLES/STEMS/Song A-00000",
          "SAMPLES/STEMS/Song A-00001"]
      ∧ st1.se = { StemExport.new with
          highestUsedStemFolderNumber := 1
          lastSongNameForStemExport := "Song A" } :=
  (fresh_name_picks_first_free_candidate "SAMPLES/STEMS" "Song A" ""
    (PathState.start StemExport.new
      ["SAMPLES/STEMS", "SAMPLES/STEMS/Song A", "SAMPLES/STEMS/Song A-00000"]) 3
    rfl (by decide)).2 1 (by decide)
    (by
      intro j hj
      have hj0 : j = 0 := by omega
      subst hj0
      decide)
    (by decide) (by decide)

/-! ## A storage that refuses to create folders -/

/-- On a storage whose `f_mkdir` never answers `FR_OK` the search loop does not end:
after any number of attempts it is still looping, with one request made and the folder
number advanced once per attempt. -/
theorem folderSearch_never_found (S : Storage D) (tempPath : String)
    (hno : ∀ (p : String) (d : D), (S.f_mkdir p d).1 ≠ FRESULT.FR_OK) :
    ∀ (fuel : Nat) (cur : String) (st : PathState D), st.stringOpsLeft = none →
      ∃ st1 : PathState D,
        folderSearch S tempPath fuel cur st = SearchResult.searching st1
        ∧ st1.se.highestUsedStemFolderNumber = st.se.highestUsedStemFolderNumber + fuel
        ∧ st1.mkdirRequests.length = st.mkdirRequests.length + fuel
        ∧ (∀ q ∈ st1.mkdirRequests, q ∈ st.mkdirRequests ∨ q.2 ≠ FRESULT.FR_OK) := by
  intro fuel
  induction fuel with
  | zero =>
    intro cur st _
    exact ⟨st, rfl, by simp, by simp, fun q hq => Or.inl hq⟩
  | succ fuel ih =>
    intro cur st h0
    rw [folderSearch_none_succ S tempPath fuel cur st h0, if_neg (hno _ _)]
    obtain ⟨st1, g1, g2, g3, g4⟩ := ih
      (tempPath ++ "-" ++ concatenateInt (st.se.highestUsedStemFolderNumber + 1) 5)
      { (st.mkdir S cur).2 with se := { st.se with
          highestUsedStemFolderNumber := st.se.highestUsedStemFolderNumber + 1 } } h0
    refine ⟨st1, g1, ?_, ?_, ?_⟩
    · rw [g2]; push_cast; ring
    · rw [g3]; simp; omega
    · intro q hq
      rcases g4 q hq with h | h
      · simp only [PathState.mkdir_mkdirRequests, List.mem_append, List.mem_singleton] at h
        rcases h with h | h
        · exact Or.inl h
        · right; rw [h]; exact hno _ _
      · exact Or.inr h

theorem folderPathOfSongName_searching (S : Storage D) (fuel : Nat)
    (tempPath name cmp filePath : String) (st : PathState D) (st6 : PathState D)
    (h0 : st.stringOpsLeft = none) (hne : cmp ≠ st.se.lastSongNameForStemExport)
    (hs : folderSearch S tempPath fuel tempPath
      { st with se := { st.se with highestUsedStemFolderNumber := -1 } }
        = SearchResult.searching st6) :
    folderPathOfSongName S fuel tempPath name cmp filePath st = PathResult.searching st6 := by
  unfold folderPathOfSongName
  rw [if_pos hne]
  dsimp only at hs ⊢
  rw [PathState.stringOp_none st h0]
  dsimp only
  rw [hs]
  rfl

/-- C14 fails on the code: on a storage that holds the base folder and answers every
other `f_mkdir` with `FR_DENIED`, the resolution of "Song A" is still in its search loop
after any number of attempts, each of them a further request with the next suffix; it
never returns an error. -/
theorem creation_failure_is_retried_forever :
    (∀ fuel : Nat, ∃ st1 : PathState Unit,
      getUnusedStemRecordingFolderPath (deniedStorage "SAMPLES/STEMS") fuel "SAMPLES/STEMS"
          "Song A" "" (PathState.start StemExport.new ())
        = PathResult.searching st1
      ∧ st1.se.highestUsedStemFolderNumber = -1 + fuel
      ∧ st1.mkdirRequests.length = 1 + fuel)
    ∧ (getUnusedStemRecordingFolderPath (deniedStorage "SAMPLES/STEMS") 3 "SAMPLES/STEMS"
          "Song A" "" (PathState.start StemExport.new ())).state.mkdirRequests
        = [("SAMPLES/STEMS", FRESULT.FR_EXIST), ("SAMPLES/STEMS/Song A", FRESULT.FR_DENIED),
           ("SAMPLES/STEMS/Song A-00000", FRESULT.FR_DENIED),
           ("SAMPLES/STEMS/Song A-00001", FRESULT.FR_DENIED)] := by
  refine ⟨?_, rfl⟩
  intro fuel
  have hno : ∀ (p : String) (d : Unit),
      ((deniedStorage "SAMPLES/STEMS").f_mkdir p d).1 ≠ FRESULT.FR_OK := by
    intro p d
    unfold deniedStorage
    dsimp only
    split <;> simp
  obtain ⟨st1, g1, g2, g3, _⟩ := folderSearch_never_found (deniedStorage "SAMPLES/STEMS")
    ("SAMPLES/STEMS" ++ "/" ++ projectName "Song A") hno fuel
    ("SAMPLES/STEMS" ++ "/" ++ projectName "Song A")
    { (PathState.mkdir (deniedStorage "SAMPLES/STEMS") "SAMPLES/STEMS"
        { PathState.start StemExport.new () with
          disk := ((deniedStorage "SAMPLES/STEMS").initSD ()).2 }).2 with
      se := { StemExport.new with highestUsedStemFolderNumber := -1 } } rfl
  refine ⟨st1, ?_, g2, ?_⟩
  · rw [getUnusedStemRecordingFolderPath_noFail (deniedStorage "SAMPLES/STEMS") fuel
      "SAMPLES/STEMS" "Song A" "" (PathState.start StemExport.new ()) rfl rfl (Or.inr rfl)]
    exact folderPathOfSongName_searching (deniedStorage "SAMPLES/STEMS") fuel _ _ _ "" _ st1
      rfl (by decide) g1
  · rw [g3]; rfl

/-! ## The counter of the fallback file name -/

theorem folderSearch_recordingNumber (S : Storage D) (tempPath : String) :
    ∀ (fuel : Nat) (cur : String) (st : PathState D),
      (folderSearch S tempPath fuel cur st).state.highestUsedAudioRecordingNumber
        = st.highestUsedAudioRecordingNumber := by
  intro fuel
  induction fuel with
  | zero => intro cur st; rfl
  | succ fuel ih =>
    intro cur st
    unfold folderSearch
    dsimp only
    split
    · rfl
    · split
      · simp [SearchResult.state]
      · split
        · simp [SearchResult.state]
        · split
          · simp [SearchResult.state]
          · rw [ih]; simp

theorem saveLastSongName_recordingNumber (name filePath : String) (st : PathState D) :
    (saveLastSongName name filePath st).state.highestUsedAudioRecordingNumber
      = st.highestUsedAudioRecordingNumber := by
  unfold saveLastSongName
  dsimp only
  split <;> simp [PathResult.state]

theorem folderPathOfSongName_recordingNumber (S : Storage D) (fuel : Nat)
    (tempPath name cmp filePath : String) (st : PathState D) :
    (folderPathOfSongName S fuel tempPath name cmp filePath st).state.highestUsedAudioRecordingNumber
      = st.highestUsedAudioRecordingNumber := by
  unfold folderPathOfSongName
  dsimp only
  split
  · split
    · simp [PathResult.state]
    · have hs := folderSearch_recordingNumber S tempPath fuel tempPath
        { st.stringOp.2 with se := { st.stringOp.2.se with highestUsedStemFolderNumber := -1 } }
      dsimp only at hs
      split
      · rename_i st6 heq
        rw [heq] at hs
        simpa [PathResult.state, SearchResult.state] using hs
      · rename_i e st6 heq
        rw [heq] at hs
        simpa [PathResult.state, SearchResult.state] using hs
      · rename_i q st6 heq
        rw [heq] at hs
        simp only [SearchResult.state] at hs
        split
        · simpa [PathResult.state] using hs
        · rw [saveLastSongName_recordingNumber]; simpa using hs
  · split
    · split
      · simp [PathResult.state]
      · split
        · simp [PathResult.state]
        · split
          · simp [PathResult.state]
          · rw [saveLastSongName_recordingNumber]; simp
    · split
      · simp [PathResult.state]
      · rw [saveLastSongName_recordingNumber]; simp

/-- In every outcome `getUnusedStemRecordingFolderPath` leaves the counter of the
fallback file name alone. -/
theorem getUnusedStemRecordingFolderPath_recordingNumber (S : Storage D) (fuel : Nat)
    (folderName songName filePath : String) (st : PathState D) :
    (getUnusedStemRecordingFolderPath S fuel folderName songName filePath
        st).state.highestUsedAudioRecordingNumber
      = st.highestUsedAudioRecordingNumber := by
  unfold getUnusedStemRecordingFolderPath
  dsimp only
  split
  · rfl
  split
  · simp [PathResult.state]
  split
  · simp [PathResult.state]
  split
  · simp [PathResult.state]
  split
  · simp [PathResult.state]
  rw [folderPathOfSongName_recordingNumber]
  simp

theorem getUnusedStemRecordingFilePath_recordingNumber (S : Storage D) (fuel : Nat)
    (folderName songName filePath : String) (st : PathState D) :
    (getUnusedStemRecordingFilePath S fuel folderName songName filePath
        st).state.highestUsedAudioRecordingNumber = st.highestUsedAudioRecordingNumber
    ∨ (getUnusedStemRecordingFilePath S fuel folderName songName filePath
        st).state.highestUsedAudioRecordingNumber = st.highestUsedAudioRecordingNumber + 1 := by
  have hf := getUnusedStemRecordingFolderPath_recordingNumber S fuel folderName songName
    filePath { st with disk := (S.initSD st.disk).2 }
  unfold getUnusedStemRecordingFilePath
  dsimp only at hf ⊢
  split
  · left; rfl
  split
  · rename_i st1 heq
    rw [heq] at hf
    left; exact hf
  · rename_i e p1 st1 heq
    rw [heq] at hf
    simp only [PathResult.state] at hf
    split
    · left; exact hf
    split
    · split
      · left; simpa [PathResult.state] using hf
      · left; simpa [PathResult.state] using hf
    · split
      · left; simpa [PathResult.state] using hf
      · split
        · right; simp [PathResult.state, hf]
        · split
          · right; simp [PathResult.state, hf]
          · right; simp [PathResult.state, hf]

theorem getUnusedStemRecordingFilePath_fallback (S : Storage D) (fuel : Nat)
    (folderName songName filePath : String) (st : PathState D) (p : String)
    (st1 : PathState D)
    (hflag : st.se.wavFileNameForStemExportSet = false)
    (h : getUnusedStemRecordingFilePath S fuel folderName songName filePath st
      = PathResult.returned Error.NONE p st1) :
    st1.highestUsedAudioRecordingNumber = st.highestUsedAudioRecordingNumber + 1
    ∧ st1.se.wavFileNameForStemExportSet = false
    ∧ ∃ (folder : String) (st0 : PathState D),
        getUnusedStemRecordingFolderPath S fuel folderName songName filePath
            { st with disk := (S.initSD st.disk).2 }
          = PathResult.returned Error.NONE folder st0
        ∧ p = folder ++ "/REC"
            ++ concatenateInt (st.highestUsedAudioRecordingNumber + 1) 5 ++ ".WAV" := by
  unfold getUnusedStemRecordingFilePath at h
  dsimp only at h
  split at h
  · rename_i hi
    simp only [PathResult.returned.injEq] at h
    exact absurd h.1 hi
  split at h
  · cases h
  rename_i e p1 st0 heq
  split at h
  · rename_i he
    simp only [PathResult.returned.injEq] at h
    exact absurd h.1 he
  rename_i he
  have he0 : e = Error.NONE := by
    by_contra hc; exact he hc
  subst he0
  obtain ⟨_, g1, g2, _⟩ := getUnusedStemRecordingFolderPath_returned S fuel folderName
    songName filePath _ p1 st0 heq
  have hflag0 : st0.se.wavFileNameForStemExportSet = false := by
    rw [g1]; exact hflag
  rw [hflag0] at h
  simp only [Bool.false_eq_true, if_false] at h
  split at h
  · cases h
  split at h
  · cases h
  split at h
  · cases h
  simp only [PathResult.returned.injEq, true_and] at h
  obtain ⟨h1, h2⟩ := h
  subst h1 h2
  simp only [PathState.stringOp_recordingNumber, PathState.stringOp_se] at g2 ⊢
  refine ⟨by rw [g2], hflag0, p1, st0, heq, ?_⟩
  rw [g2]

/-- C18, as stated, fails.  A run started with the counter at `7` returns with the
counter at `-1`; and the first file of a run gets the fallback name "REC00000.WAV", the
counter standing at `0`, then a run (of a song without outputs) is started and the next
file gets a fallback name with the same number. -/
theorem fallback_counter_reset_by_start :
    (∃ m1 : Machine Rig,
      startStemExportProcess rigControls 10 StemExportType.TRACK
          { sys := demoStart StemExportType.TRACK rigIdle, highestUsedAudioRecordingNumber := 7 }
        = Progress.returned m1
      ∧ m1.highestUsedAudioRecordingNumber = -1)
    ∧ (getUnusedStemRecordingFilePath dirStorage 5 "SAMPLES/STEMS" "Song A" ""
        (PathState.start StemExport.new ["SAMPLES/STEMS"])).path
        = some "SAMPLES/STEMS/Song A/REC00000.WAV"
    ∧ (getUnusedStemRecordingFilePath dirStorage 5 "SAMPLES/STEMS" "Song A" ""
        (PathState.start StemExport.new ["SAMPLES/STEMS"])).state.highestUsedAudioRecordingNumber
        = 0
    ∧ ∃ m1 : Machine Rig,
      startStemExportProcess rigControls 10 StemExportType.TRACK
          { sys := Sys.start (getUnusedStemRecordingFilePath dirStorage 5 "SAMPLES/STEMS"
              "Song A" "" (PathState.start StemExport.new ["SAMPLES/STEMS"])).state.se
              { name := "Song A", outputs := [], sessionClips := [] } rigIdle,
            highestUsedAudioRecordingNumber :=
              (getUnusedStemRecordingFilePath dirStorage 5 "SAMPLES/STEMS" "Song A" ""
                (PathState.start StemExport.new
                  ["SAMPLES/STEMS"])).state.highestUsedAudioRecordingNumber }
        = Progress.returned m1
      ∧ (getUnusedStemRecordingFilePath dirStorage 5 "SAMPLES/STEMS" "Song A" ""
          { (getUnusedStemRecordingFilePath dirStorage 5 "SAMPLES/STEMS" "Song A" ""
              (PathState.start StemExport.new ["SAMPLES/STEMS"])).state with
            se := m1.sys.se
            highestUsedAudioRecordingNumber := m1.highestUsedAudioRecordingNumber }).path
          = some "SAMPLES/STEMS/Song A-00000/REC00000.WAV" :=
  ⟨⟨_, rfl, rfl⟩, rfl, rfl, ⟨_, rfl, rfl⟩⟩

/-- C18, amended: between two calls of `startStemExportProcess` the counter of the
fallback name only increments.  In every outcome `getUnusedStemRecordingFilePath` leaves
it as it was or one higher, and `getUnusedStemRecordingFolderPath` leaves it as it was; a
fallback name returned is the folder path, "/REC", the incremented counter in five
digits and ".WAV", so two fallback names in a row carry successive numbers.
`startStemExportProcess` sets the counter to `-1`: a run that returns leaves it at
`-1`. -/
theorem fallback_counter_increments_within_a_run (S : Storage D) (fuel fuel2 : Nat)
    (folderName songName filePath filePath2 : String) (st : PathState D)
    (C : Controls W) (fuelRun : Nat) (ty : StemExportType) (m : Machine W) :
    ((getUnusedStemRecordingFilePath S fuel folderName songName filePath
          st).state.highestUsedAudioRecordingNumber = st.highestUsedAudioRecordingNumber
      ∨ (getUnusedStemRecordingFilePath S fuel folderName songName filePath
          st).state.highestUsedAudioRecordingNumber = st.highestUsedAudioRecordingNumber + 1)
    ∧ (getUnusedStemRecordingFolderPath S fuel folderName songName filePath
          st).state.highestUsedAudioRecordingNumber = st.highestUsedAudioRecordingNumber
    ∧ (∀ (p1 : String) (st1 : PathState D),
        st.se.wavFileNameForStemExportSet = false →
        getUnusedStemRecordingFilePath S fuel folderName songName filePath st
          = PathResult.returned Error.NONE p1 st1 →
        st1.highestUsedAudioRecordingNumber = st.highestUsedAudioRecordingNumber + 1
        ∧ (∃ folder : String, p1 = folder ++ "/REC"
            ++ concatenateInt (st.highestUsedAudioRecordingNumber + 1) 5 ++ ".WAV")
        ∧ ∀ (p2 : String) (st2 : PathState D),
            getUnusedStemRecordingFilePath S fuel2 folderName songName filePath2 st1
              = PathResult.returned Error.NONE p2 st2 →
            st2.highestUsedAudioRecordingNumber = st.highestUsedAudioRecordingNumber + 2
            ∧ ∃ folder : String, p2 = folder ++ "/REC"
                ++ concatenateInt (st.highestUsedAudioRecordingNumber + 2) 5 ++ ".WAV")
    ∧ ∀ m1 : Machine W, startStemExportProcess C fuelRun ty m = Progress.returned m1 →
        m1.highestUsedAudioRecordingNumber = -1 := by
  refine ⟨getUnusedStemRecordingFilePath_recordingNumber S fuel folderName songName filePath st,
    getUnusedStemRecordingFolderPath_recordingNumber S fuel folderName songName filePath st,
    ?_, ?_⟩
  · intro p1 st1 hflag h1
    obtain ⟨g1, hflag1, folder, st0, g2, g3⟩ := getUnusedStemRecordingFilePath_fallback S fuel
      folderName songName filePath st p1 st1 hflag h1
    refine ⟨g1, ⟨folder, g3⟩, ?_⟩
    intro p2 st2 h2
    obtain ⟨k1, _, folder2, _, _, k3⟩ := getUnusedStemRecordingFilePath_fallback S fuel2
      folderName songName filePath2 st1 p2 st2 hflag1 h2
    have hsum : st.highestUsedAudioRecordingNumber + 1 + 1
        = st.highestUsedAudioRecordingNumber + 2 := by ring
    rw [g1, hsum] at k1 k3
    exact ⟨k1, folder2, k3⟩
  · intro m1 h
    unfold startStemExportProcess at h
    dsimp only at h
    split at h
    · cases h
    · simp only [Progress.returned.injEq] at h
      rw [← h]

/-- The amended C18 on the examples: the first fallback name on a fresh card carries the
number `0`, and a run started with the counter at `7` leaves it at `-1`. -/
theorem fallback_counter_increments_within_a_run_witness :
    ((getUnusedStemRecordingFilePath dirStorage 5 "SAMPLES/STEMS" "Song A" ""
        (PathState.start StemExport.new ["SAMPLES/STEMS"])).state.highestUsedAudioRecordingNumber
        = -1 + 1
      ∧ ∃ folder : String, "SAMPLES/STEMS/Song A/REC00000.WAV"
          = folder ++ "/REC" ++ concatenateInt (-1 + 1) 5 ++ ".WAV")
    ∧ ∀ m1 : Machine Rig,
        startStemExportProcess rigControls 10 StemExportType.TRACK
            { sys := demoStart StemExportType.TRACK rigIdle,
              highestUsedAudioRecordingNumber := 7 }
          = Progress.returned m1 →
        m1.highestUsedAudioRecordingNumber = -1 :=
  ⟨⟨((fallback_counter_increments_within_a_run dirStorage 5 5 "SAMPLES/STEMS" "Song A" "" ""
        (PathState.start StemExport.new ["SAMPLES/STEMS"]) rigControls 10 StemExportType.TRACK
        { sys := demoStart StemExportType.TRACK rigIdle,
          highestUsedAudioRecordingNumber := 7 }).2.2.1
        "SAMPLES/STEMS/Song A/REC00000.WAV" _ rfl rfl).1,
      ((fallback_counter_increments_within_a_run dirStorage 5 5 "SAMPLES/STEMS" "Song A" "" ""
        (PathState.start StemExport.new ["SAMPLES/STEMS"]) rigControls 10 StemExportType.TRACK
        { sys := demoStart StemExportType.TRACK rigIdle,
          highestUsedAudioRecordingNumber := 7 }).2.2.1
        "SAMPLES/STEMS/Song A/REC00000.WAV" _ rfl rfl).2.1⟩,
    (fallback_counter_increments_within_a_run dirStorage 5 5 "SAMPLES/STEMS" "Song A" "" ""
      (PathState.start StemExport.new ["SAMPLES/STEMS"]) rigControls 10 StemExportType.TRACK
      { sys := demoStart StemExportType.TRACK rigIdle,
        highestUsedAudioRecordingNumber := 7 }).2.2.2⟩

/-! ## Solo isolation -/

theorem currentTarget_snoc (log : List (Event W)) (e : Event W) :
    currentTarget (log ++ [e])
      = match e.step with
        | Step.muteStateWritten k => some k
        | Step.finishCurrent _ => none
        | _ => currentTarget log := by
  simp only [currentTarget, List.foldl_append, List.foldl_cons, List.foldl_nil]

theorem SoloIsolated.nil (mk : Nat → MuteRef) (ty : StemExportType) :
    SoloIsolated mk ty ([] : List (Event W)) := by
  intro pre e post h
  cases pre <;> cases h

theorem SoloIsolated.snoc {mk : Nat → MuteRef} {ty : StemExportType} {log : List (Event W)}
    (h : SoloIsolated mk ty log) (e0 : Event W)
    (h0 : e0.step ≠ Step.restored → ∀ i : Nat, (mk i).read e0.song = some (startFlag ty) →
      currentTarget (log ++ [e0]) = some i ∧ (mk i).exportStem e0.song = some true) :
    SoloIsolated mk ty (log ++ [e0]) := by
  intro pre e post heq hne i hi
  rcases List.eq_nil_or_concat post with hp | ⟨post1, x, hp⟩
  · subst hp
    have h1 := List.append_inj' heq rfl
    obtain ⟨h2, h3⟩ := h1
    simp only [List.cons.injEq, and_true] at h3
    subst h2 h3
    exact h0 hne i hi
  · subst hp
    have heq1 : log ++ [e0] = (pre ++ e :: post1) ++ [x] := by
      rw [heq]; simp
    have h1 := List.append_inj' heq1 rfl
    exact h pre e post1 h1.1 hne i hi

theorem SoloIdle.idleQuiet {mk : Nat → MuteRef} {ty : StemExportType} {P : Song}
    {s t : Sys W} (h : SoloIdle mk ty P s) (hq : Quiet s t) : SoloIdle mk ty P t := by
  unfold SoloIdle at h ⊢
  rw [hq.1, hq.2.1]
  exact h

theorem SoloBusy.busyQuiet {mk : Nat → MuteRef} {ty : StemExportType} {P : Song} {k : Nat}
    {s t : Sys W} (h : SoloBusy mk ty P k s) (hq : Quiet s t) : SoloBusy mk ty P k t := by
  unfold SoloBusy at h ⊢
  rw [hq.1, hq.2.1]
  exact h

theorem SoloIdle.idleEmit {mk : Nat → MuteRef} {ty : StemExportType} {P : Song}
    {s : Sys W} (h : SoloIdle mk ty P s) (st : Step)
    (hst : ∀ k, st ≠ Step.muteStateWritten k) : SoloIdle mk ty P (Sys.emit st s) := by
  obtain ⟨h1, h2, h3, h4, h5⟩ := h
  refine ⟨?_, ?_, h3, ?_, h5⟩
  · rw [Sys.emit_log]
    exact h1.snoc _ (fun _ i hi => absurd hi (h5 i))
  · intro e he
    rw [Sys.emit_log] at he
    rcases List.mem_append.mp he with he | he
    · exact h2 e he
    · simp only [List.mem_singleton] at he
      subst he
      exact h3
  · rw [Sys.emit_log, currentTarget_snoc]
    cases st with
    | muteStateWritten k => exact absurd rfl (hst k)
    | finishCurrent r => rfl
    | prepared => exact h4
    | startCurrent k => exact h4
    | fileNameRequested k => exact h4
    | recordingRequested k => exact h4
    | yielded => exact h4
    | restored => exact h4

theorem SoloBusy.busyEmit {mk : Nat → MuteRef} {ty : StemExportType} {P : Song} {k : Nat}
    {s : Sys W} (h : SoloBusy mk ty P k s) (st : Step)
    (hst : ∀ j, st ≠ Step.muteStateWritten j) (hfin : ∀ r, st ≠ Step.finishCurrent r) :
    SoloBusy mk ty P k (Sys.emit st s) := by
  obtain ⟨h1, h2, h3, h4, h5, h6⟩ := h
  have hcur : currentTarget (s.log ++ [Event.mk st s.se s.song s.world]) = some k := by
    rw [currentTarget_snoc]
    cases st with
    | muteStateWritten j => exact absurd rfl (hst j)
    | finishCurrent r => exact absurd rfl (hfin r)
    | prepared => exact h4
    | startCurrent j => exact h4
    | fileNameRequested j => exact h4
    | recordingRequested j => exact h4
    | yielded => exact h4
    | restored => exact h4
  refine ⟨?_, ?_, h3, ?_, h5, h6⟩
  · rw [Sys.emit_log]
    refine h1.snoc _ (fun _ i hi => ?_)
    have hik := h6 i hi
    subst hik
    exact ⟨hcur, h5⟩
  · intro e he
    rw [Sys.emit_log] at he
    rcases List.mem_append.mp he with he | he
    · exact h2 e he
    · simp only [List.mem_singleton] at he
      subst he
      exact h3
  · rw [Sys.emit_log]; exact hcur

theorem SoloIdle.soloStart {mk : Nat → MuteRef} {ty : StemExportType} {P : Song}
    {s : Sys W} (h : SoloIdle mk ty P s) (hinj : ∀ i j, mk i = mk j → i = j)
    (E : World W) (o : Output) (k : Nat) (hex : (mk k).exportStem s.song = some true) :
    SoloBusy mk ty P k (startCurrentStemExport E ty o (mk k) k true s).2 := by
  obtain ⟨t2, t3, hq2, hq3, heq⟩ := startCurrentStemExport_eq E ty o (mk k) k s
  rw [heq]
  have ha := h.idleEmit (Step.startCurrent k) (fun j hj => by cases hj)
  obtain ⟨a1, a2, a3, a4, a5⟩ := ha
  have hsong : ∀ i : Nat, (mk i).read ((mk k).write (startFlag ty) s.song)
      = some (startFlag ty) → i = k := by
    intro i hi
    by_contra hik
    have hne : mk k ≠ mk i := fun hc => hik (hinj i k hc.symm)
    rw [MuteRef.read_write_ne (mk i) (mk k) hne] at hi
    exact h.2.2.2.2 i hi
  have hexw : (mk k).exportStem ((mk k).write (startFlag ty) s.song) = some true := by
    rw [MuteRef.exportStem_write]; exact hex
  have hcur : currentTarget ((Sys.emit (Step.startCurrent k) s).log
      ++ [Event.mk (Step.muteStateWritten k) s.se
            ((mk k).write (startFlag ty) s.song) s.world]) = some k := by
    rw [currentTarget_snoc]
  have hb : SoloBusy mk ty P k (Sys.emit (Step.muteStateWritten k)
      { Sys.emit (Step.startCurrent k) s with
        song := (mk k).write (startFlag ty) s.song }) := by
    refine ⟨?_, ?_, ?_, hcur, hexw, hsong⟩
    · exact a1.snoc _ (fun _ i hi => by
        have hik := hsong i hi
        subst hik
        exact ⟨hcur, hexw⟩)
    · intro e he
      rcases List.mem_append.mp he with he | he
      · exact a2 e he
      · simp only [List.mem_singleton] at he
        subst he
        exact (MuteRef.write_eraseMutes _ _ _).trans h.2.2.1
    · exact (MuteRef.write_eraseMutes _ _ _).trans h.2.2.1
  exact (((hb.busyQuiet hq2).busyEmit (Step.fileNameRequested k) (fun j hj => by cases hj)
    (fun r hr => by cases hr)).busyQuiet hq3).busyEmit (Step.recordingRequested k)
    (fun j hj => by cases hj) (fun r hr => by cases hr)

theorem SoloBusy.soloYieldRound {mk : Nat → MuteRef} {ty : StemExportType} {P : Song}
    {k : Nat} {s : Sys W} (h : SoloBusy mk ty P k s) (E : World W) :
    SoloBusy mk ty P k (yieldRound E s).2 := by
  obtain ⟨t, hq, heq⟩ := yieldRound_eq E s
  rw [heq]
  exact (h.busyQuiet hq).busyEmit Step.yielded (fun j hj => by cases hj)
    (fun r hr => by cases hr)

theorem startFlag_ne_not (ty : StemExportType) : (!startFlag ty) ≠ startFlag ty := by
  cases ty <;> decide

theorem SoloBusy.soloFinish {mk : Nat → MuteRef} {ty : StemExportType} {P : Song}
    {k : Nat} {s : Sys W} (h : SoloBusy mk ty P k s) (hinj : ∀ i j, mk i = mk j → i = j) :
    SoloIdle mk ty P (finishCurrentStemExport ty (mk k) s) := by
  rw [finishCurrentStemExport_eq]
  obtain ⟨h1, h2, h3, h4, h5, h6⟩ := h
  have hsong : ∀ i : Nat,
      (mk i).read ((mk k).write (!startFlag ty) s.song) ≠ some (startFlag ty) := by
    intro i hi
    by_cases hik : i = k
    · subst hik
      cases hr : (mk i).read s.song with
      | none =>
        have hw : (mk i).write (!startFlag ty) s.song = s.song := by
          cases hm : mk i with
          | output idx =>
            rw [hm] at hr
            simp only [MuteRef.read, Option.map_eq_none'] at hr
            simp only [MuteRef.write, hr]
          | clip idx =>
            rw [hm] at hr
            simp only [MuteRef.read, Option.map_eq_none'] at hr
            simp only [MuteRef.write, hr]
        rw [hw, hr] at hi
        cases hi
      | some b =>
        rw [MuteRef.read_write_same (mk i) _ s.song (by rw [hr]; rfl)] at hi
        exact startFlag_ne_not ty (Option.some.inj hi)
    · have hne : mk k ≠ mk i := fun hc => hik (hinj i k hc.symm)
      rw [MuteRef.read_write_ne (mk i) (mk k) hne] at hi
      exact hik (h6 i hi)
  have hera : ((mk k).write (!startFlag ty) s.song).eraseMutes = P.eraseMutes :=
    (MuteRef.write_eraseMutes _ _ _).trans h3
  refine ⟨?_, ?_, hera, ?_, hsong⟩
  · rw [Sys.emit_log]
    exact h1.snoc _ (fun _ i hi => absurd hi (hsong i))
  · intro e he
    rw [Sys.emit_log] at he
    rcases List.mem_append.mp he with he | he
    · exact h2 e he
    · simp only [List.mem_singleton] at he
      subst he
      exact hera
  · rw [Sys.emit_log, currentTarget_snoc]

theorem exportTarget_solo (E : World W) (fuel : Nat) (ty : StemExportType) (o : Output)
    (mk : Nat → MuteRef) (hinj : ∀ i j, mk i = mk j → i = j) (k : Nat) (ex : Bool)
    (s : Sys W) (P : Song) (hex : (mk k).exportStem s.song = some ex)
    (h : SoloIdle mk ty P s) :
    (∀ b s1, exportTarget E fuel ty o (mk k) k ex s = Progress.returned (b, s1) →
        SoloIdle mk ty P s1)
      ∧ (∀ s1, exportTarget E fuel ty o (mk k) k ex s = Progress.suspended s1 →
        SoloBusy mk ty P k s1) :=
  exportTarget_rule E fuel ty o (mk k) k ex s
    (fun t => SoloBusy mk ty P k t) (fun _ t => SoloIdle mk ty P t)
    (fun _ => h.idleEmit (Step.startCurrent k) (fun j hj => by cases hj))
    (fun hx => h.soloStart hinj E o k (by rw [hex, hx]))
    (fun t ht => ht.soloYieldRound E)
    (fun t ht => ht.soloFinish hinj)

theorem exportInstrumentBody_solo (E : World W) (fuel : Nat) (ty : StemExportType)
    (k : Nat) (s : Sys W) (P : Song) (h : SoloIdle MuteRef.output ty P s) :
    (∀ b s1, exportInstrumentBody E fuel ty k s = Progress.returned (b, s1) →
        SoloIdle MuteRef.output ty P s1)
      ∧ (∀ s1, exportInstrumentBody E fuel ty k s = Progress.suspended s1 →
        SoloBusy MuteRef.output ty P k s1) := by
  unfold exportInstrumentBody
  cases hk : s.song.outputs[k]? with
  | none =>
    constructor
    · intro b s1 hb
      simp only [Progress.returned.injEq, Prod.mk.injEq] at hb
      rw [← hb.2]
      exact h
    · intro s1 hb
      simp at hb
  | some o =>
    exact exportTarget_solo E fuel ty o MuteRef.output (fun i j hij => MuteRef.output.inj hij)
      k o.exportStem s P (by simp [MuteRef.exportStem, hk]) h

theorem exportClipBody_solo (E : World W) (fuel : Nat) (ty : StemExportType)
    (k : Nat) (s : Sys W) (P : Song) (h : SoloIdle MuteRef.clip ty P s) :
    (∀ b s1, exportClipBody E fuel ty k s = Progress.returned (b, s1) →
        SoloIdle MuteRef.clip ty P s1)
      ∧ (∀ s1, exportClipBody E fuel ty k s = Progress.suspended s1 →
        SoloBusy MuteRef.clip ty P k s1) := by
  unfold exportClipBody
  cases hk : s.song.sessionClips[k]? with
  | none =>
    constructor
    · intro b s1 hb
      simp only [Progress.returned.injEq, Prod.mk.injEq] at hb
      rw [← hb.2]
      exact h
    · intro s1 hb
      simp at hb
  | some c =>
    have hq := quiet_clipPrelude E c s
    exact exportTarget_solo E fuel ty c.output MuteRef.clip (fun i j hij => MuteRef.clip.inj hij)
      k c.exportStem _ P (by rw [hq.2.1]; simp [MuteRef.exportStem, hk]) (h.idleQuiet hq)

/-- A run of `exportInstrumentStems` by track, in whatever state it is: its trace is
isolated, and before the restore step every entry shows the prepared song up to the mute
flags. -/
theorem exportInstrumentStems_solo (E : World W) (fuel : Nat) (se : StemExport) (song : Song)
    (w : W) :
    SoloIsolated MuteRef.output StemExportType.TRACK
        (exportInstrumentStems E fuel StemExportType.TRACK (Sys.start se song w)).state.log
    ∧ ∀ e ∈ (exportInstrumentStems E fuel StemExportType.TRACK (Sys.start se song w)).state.log,
        e.step ≠ Step.restored →
        e.song.eraseMutes
          = ({ song with outputs := song.outputs.map disarmOutput } : Song).eraseMutes := by
  unfold exportInstrumentStems
  rw [disarmAllInstrumentsForStemExport_eq]
  simp only
  have hbase : SoloIdle MuteRef.output StemExportType.TRACK
      { song with outputs := song.outputs.map disarmOutput }
      ({ se := { se with numStemsExported := 0
                         totalNumStemsToExport := List.countP outputEligible song.outputs }
         song := { song with outputs := song.outputs.map disarmOutput }
         world := w
         log := [] } : Sys W) := by
    refine ⟨SoloIsolated.nil _ _, ?_, rfl, rfl, ?_⟩
    · intro e he
      cases he
    · intro i hi
      simp only [MuteRef.read, List.getElem?_map, Option.map_map, startFlag] at hi
      cases ho : song.outputs[i]? with
      | none => simp [ho] at hi
      | some o => simp [ho, disarmOutput] at hi
  have hloop := descLoop_rule (exportInstrumentBody E fuel StemExportType.TRACK)
    (fun _ t => SoloIdle MuteRef.output StemExportType.TRACK
      { song with outputs := song.outputs.map disarmOutput } t)
    (fun t => SoloIdle MuteRef.output StemExportType.TRACK
      { song with outputs := song.outputs.map disarmOutput } t)
    (fun t => ∃ k, SoloBusy MuteRef.output StemExportType.TRACK
      { song with outputs := song.outputs.map disarmOutput } k t)
    (fun k t t1 ht hb => ⟨k, (exportInstrumentBody_solo E fuel _ k t _ ht).2 t1 hb⟩)
    (fun k t t1 ht hb => (exportInstrumentBody_solo E fuel _ k t _ ht).1 true t1 hb)
    (fun k t t1 ht hb => (exportInstrumentBody_solo E fuel _ k t _ ht).1 false t1 hb)
    (fun t ht => ht) song.outputs.length _
    (hbase.idleEmit Step.prepared (fun j hj => by cases hj))
  simp only [Sys.start] at hloop ⊢
  cases hd : descLoop (exportInstrumentBody E fuel StemExportType.TRACK) song.outputs.length
      (Sys.emit Step.prepared
        { se := { se with numStemsExported := 0
                          totalNumStemsToExport := List.countP outputEligible song.outputs }
          song := { song with outputs := song.outputs.map disarmOutput }
          world := w
          log := [] }) with
  | suspended s1 =>
    obtain ⟨k, hb⟩ := hloop.2 s1 hd
    exact ⟨hb.1, fun e he _ => hb.2.1 e he⟩
  | returned s1 =>
    simp only [Progress.state]
    obtain ⟨t, _, _, hlog, heq⟩ := restoreAllInstrumentMutes_frame song.outputs.length s1
    have hi := hloop.1 s1 hd
    rw [heq, Sys.emit_log, hlog]
    refine ⟨hi.1.snoc _ (fun hne => absurd rfl hne), ?_⟩
    intro e he hne
    rcases List.mem_append.mp he with he | he
    · exact hi.2.1 e he
    · simp only [List.mem_singleton] at he
      subst he
      exact absurd rfl hne

/-- A run of `exportClipStems` by clip, in whatever state it is: its trace is isolated,
and before the restore step every entry shows the prepared song up to the live flags. -/
theorem exportClipStems_solo (E : World W) (fuel : Nat) (se : StemExport) (song : Song)
    (w : W) :
    SoloIsolated MuteRef.clip StemExportType.CLIP
        (exportClipStems E fuel StemExportType.CLIP (Sys.start se song w)).state.log
    ∧ ∀ e ∈ (exportClipStems E fuel StemExportType.CLIP (Sys.start se song w)).state.log,
        e.step ≠ Step.restored →
        e.song.eraseMutes
          = ({ song with sessionClips := song.sessionClips.map disarmClip } : Song).eraseMutes := by
  unfold exportClipStems
  rw [disarmAllClipsForStemExport_eq]
  simp only
  have hbase : SoloIdle MuteRef.clip StemExportType.CLIP
      { song with sessionClips := song.sessionClips.map disarmClip }
      ({ se := { se with numStemsExported := 0
                         totalNumStemsToExport := List.countP clipEligible song.sessionClips }
         song := { song with sessionClips := song.sessionClips.map disarmClip }
         world := w
         log := [] } : Sys W) := by
    refine ⟨SoloIsolated.nil _ _, ?_, rfl, rfl, ?_⟩
    · intro e he
      cases he
    · intro i hi
      simp only [MuteRef.read, List.getElem?_map, Option.map_map, startFlag] at hi
      cases ho : song.sessionClips[i]? with
      | none => simp [ho] at hi
      | some o => simp [ho, disarmClip] at hi
  have hloop := descLoop_rule (exportClipBody E fuel StemExportType.CLIP)
    (fun _ t => SoloIdle MuteRef.clip StemExportType.CLIP
      { song with sessionClips := song.sessionClips.map disarmClip } t)
    (fun t => SoloIdle MuteRef.clip StemExportType.CLIP
      { song with sessionClips := song.sessionClips.map disarmClip } t)
    (fun t => ∃ k, SoloBusy MuteRef.clip StemExportType.CLIP
      { song with sessionClips := song.sessionClips.map disarmClip } k t)
    (fun k t t1 ht hb => ⟨k, (exportClipBody_solo E fuel _ k t _ ht).2 t1 hb⟩)
    (fun k t t1 ht hb => (exportClipBody_solo E fuel _ k t _ ht).1 true t1 hb)
    (fun k t t1 ht hb => (exportClipBody_solo E fuel _ k t _ ht).1 false t1 hb)
    (fun t ht => ht) song.sessionClips.length _
    (hbase.idleEmit Step.prepared (fun j hj => by cases hj))
  simp only [Sys.start] at hloop ⊢
  cases hd : descLoop (exportClipBody E fuel StemExportType.CLIP) song.sessionClips.length
      (Sys.emit Step.prepared
        { se := { se with numStemsExported := 0
                          totalNumStemsToExport := List.countP clipEligible song.sessionClips }
          song := { song with sessionClips := song.sessionClips.map disarmClip }
          world := w
          log := [] }) with
  | suspended s1 =>
    obtain ⟨k, hb⟩ := hloop.2 s1 hd
    exact ⟨hb.1, fun e he _ => hb.2.1 e he⟩
  | returned s1 =>
    simp only [Progress.state]
    obtain ⟨t, _, _, hlog, heq⟩ := restoreAllClipMutes_frame song.sessionClips.length s1
    have hi := hloop.1 s1 hd
    rw [heq, Sys.emit_log, hlog]
    refine ⟨hi.1.snoc _ (fun hne => absurd rfl hne), ?_⟩
    intro e he hne
    rcases List.mem_append.mp he with he | he
    · exact hi.2.1 e he
    · simp only [List.mem_singleton] at he
      subst he
      exact absurd rfl hne

theorem eligible_of_prepared_output (song : Song) (e : Song) (i : Nat) (o : Output)
    (he : e.eraseMutes
      = ({ song with outputs := song.outputs.map disarmOutput } : Song).eraseMutes)
    (ho : e.outputs[i]? = some o) (hex : o.exportStem = true) :
    ∃ o0 : Output, song.outputs[i]? = some o0 ∧ outputEligible o0 = true := by
  have h1 := congrArg (fun t : Song => t.outputs[i]?) he
  simp only [Song.eraseMutes, List.getElem?_map, ho, Option.map_some', Option.map_map] at h1
  cases h0 : song.outputs[i]? with
  | none => rw [h0] at h1; cases h1
  | some o0 =>
    rw [h0] at h1
    simp only [Option.map_some', Function.comp_apply, Option.some.injEq] at h1
    refine ⟨o0, rfl, ?_⟩
    have h2 := congrArg (fun t : Output => t.exportStem) h1
    simp only [eraseOutput, disarmOutput] at h2
    rw [← h2]; exact hex

theorem eligible_of_prepared_clip (song : Song) (e : Song) (i : Nat) (c : Clip)
    (he : e.eraseMutes
      = ({ song with sessionClips := song.sessionClips.map disarmClip } : Song).eraseMutes)
    (hc : e.sessionClips[i]? = some c) (hex : c.exportStem = true) :
    ∃ c0 : Clip, song.sessionClips[i]? = some c0 ∧ clipEligible c0 = true := by
  have h1 := congrArg (fun t : Song => t.sessionClips[i]?) he
  simp only [Song.eraseMutes, List.getElem?_map, hc, Option.map_some', Option.map_map] at h1
  cases h0 : song.sessionClips[i]? with
  | none => rw [h0] at h1; cases h1
  | some c0 =>
    rw [h0] at h1
    simp only [Option.map_some', Function.comp_apply, Option.some.injEq] at h1
    refine ⟨c0, rfl, ?_⟩
    have h2 := congrArg (fun t : Clip => t.exportStem) h1
    simp only [eraseClip, disarmClip] at h2
    rw [← h2]; exact hex

/-- C19: solo isolation.  At every entry of the trace of a run by track other than the
restore step (the first entry is the end of the prepare step), an output with
`mutedInArrangementMode == false` is the target being exported at that entry (its
`muteStateWritten` entry is the last one and no `finishCurrent` entry has followed), it
is an eligible output of the song, and no other output is unmuted.  The same holds for a
run by clip with `activeIfNoSolo == true`.  The run may have returned or still be
suspended in a wait. -/
theorem solo_isolation_between_prepare_and_restore (E : World W) (fuel : Nat)
    (se : StemExport) (song : Song) (w : W) :
    (∀ (pre : List (Event W)) (e : Event W) (post : List (Event W)),
      (exportInstrumentStems E fuel StemExportType.TRACK (Sys.start se song w)).state.log
        = pre ++ e :: post →
      e.step ≠ Step.restored →
      ∀ (i : Nat) (o : Output), e.song.outputs[i]? = some o →
        o.mutedInArrangementMode = false →
        currentTarget (pre ++ [e]) = some i
        ∧ (∃ o0 : Output, song.outputs[i]? = some o0 ∧ outputEligible o0 = true)
        ∧ ∀ (j : Nat) (o1 : Output), e.song.outputs[j]? = some o1 →
            o1.mutedInArrangementMode = false → j = i)
    ∧ (∀ (pre : List (Event W)) (e : Event W) (post : List (Event W)),
      (exportClipStems E fuel StemExportType.CLIP (Sys.start se song w)).state.log
        = pre ++ e :: post →
      e.step ≠ Step.restored →
      ∀ (i : Nat) (c : Clip), e.song.sessionClips[i]? = some c →
        c.activeIfNoSolo = true →
        currentTarget (pre ++ [e]) = some i
        ∧ (∃ c0 : Clip, song.sessionClips[i]? = some c0 ∧ clipEligible c0 = true)
        ∧ ∀ (j : Nat) (c1 : Clip), e.song.sessionClips[j]? = some c1 →
            c1.activeIfNoSolo = true → j = i) := by
  constructor
  · intro pre e post hlog hne i o ho hm
    obtain ⟨h1, h2⟩ := exportInstrumentStems_solo E fuel se song w
    have hread : ∀ (j : Nat) (o1 : Output), e.song.outputs[j]? = some o1 →
        o1.mutedInArrangementMode = false →
        (MuteRef.output j).read e.song = some (startFlag StemExportType.TRACK) := by
      intro j o1 hj hmj
      simp [MuteRef.read, hj, hmj, startFlag]
    obtain ⟨g1, g2⟩ := h1 pre e post hlog hne i (hread i o ho hm)
    have hex : o.exportStem = true := by
      simpa [MuteRef.exportStem, ho] using g2
    have hmem : e ∈ (exportInstrumentStems E fuel StemExportType.TRACK
        (Sys.start se song w)).state.log := by
      rw [hlog]; simp
    refine ⟨g1, eligible_of_prepared_output song e.song i o (h2 e hmem hne) ho hex, ?_⟩
    intro j o1 hj hmj
    obtain ⟨k1, _⟩ := h1 pre e post hlog hne j (hread j o1 hj hmj)
    rw [g1] at k1
    exact (Option.some.inj k1).symm
  · intro pre e post hlog hne i c hc hm
    obtain ⟨h1, h2⟩ := exportClipStems_solo E fuel se song w
    have hread : ∀ (j : Nat) (c1 : Clip), e.song.sessionClips[j]? = some c1 →
        c1.activeIfNoSolo = true →
        (MuteRef.clip j).read e.song = some (startFlag StemExportType.CLIP) := by
      intro j c1 hj hmj
      simp [MuteRef.read, hj, hmj, startFlag]
    obtain ⟨g1, g2⟩ := h1 pre e post hlog hne i (hread i c hc hm)
    have hex : c.exportStem = true := by
      simpa [MuteRef.exportStem, hc] using g2
    have hmem : e ∈ (exportClipStems E fuel StemExportType.CLIP
        (Sys.start se song w)).state.log := by
      rw [hlog]; simp
    refine ⟨g1, eligible_of_prepared_clip song e.song i c (h2 e hmem hne) hc hex, ?_⟩
    intro j c1 hj hmj
    obtain ⟨k1, _⟩ := h1 pre e post hlog hne j (hread j c1 hj hmj)
    rw [g1] at k1
    exact (Option.some.inj k1).symm

/-- The example of C19: in the demo track run the fifth entry of the trace is the
`muteStateWritten` entry of "Bass" (output 0); it shows "Bass" unmuted and the two other
outputs muted, and "Bass" is the target being exported there. -/
theorem solo_isolation_between_prepare_and_restore_witness :
    ∃ e : Event Rig,
      (exportInstrumentStems rigWorld 10 StemExportType.TRACK
          (Sys.start StemExport.new demoSong rigIdle)).state.log[4]? = some e
      ∧ e.step = Step.muteStateWritten 0
      ∧ e.song.outputs.map (fun o => o.mutedInArrangementMode) = [false, true, true]
      ∧ currentTarget
          ((exportInstrumentStems rigWorld 10 StemExportType.TRACK
            (Sys.start StemExport.new demoSong rigIdle)).state.log.take 4 ++ [e]) = some 0 :=
  ⟨_, rfl, rfl, rfl,
    ((solo_isolation_between_prepare_and_restore rigWorld 10 StemExport.new demoSong
      rigIdle).1
      ((exportInstrumentStems rigWorld 10 StemExportType.TRACK
        (Sys.start StemExport.new demoSong rigIdle)).state.log.take 4) _
      ((exportInstrumentStems rigWorld 10 StemExportType.TRACK
        (Sys.start StemExport.new demoSong rigIdle)).state.log.drop 5)
      rfl (by decide) 0 _ rfl rfl).1⟩

/-! ## Loop-end detection -/

/-- C24: `checkForLoopEnd` returns true if and only if `processStarted` is true, the
export type is not `TRACK`, and the current position (the sum of the two tick values, as
the `int32_t` it is stored in) equals `loopLengthToStopStemExport`; it then has called
`endPlayback` and nothing else.  In every other case, so for a track run, with no run
active and at any other position, before or past the stop tick, it returns false and
leaves the state as it was.  For a sum within the 32-bit range the position is the sum
itself. -/
theorem loop_end_is_exact_tick_match (E : World W) (s : Sys W) :
    ((checkForLoopEnd E s).1 = true ↔
      (s.se.processStarted = true ∧ s.se.currentStemExportType ≠ StemExportType.TRACK
        ∧ toInt32 (E.lastSwungTickActioned s.world
            + E.getNumSwungTicksInSinceLastActionedSwungTick s.world)
          = s.se.loopLengthToStopStemExport))
    ∧ ((checkForLoopEnd E s).1 = true →
        (checkForLoopEnd E s).2 = { s with world := E.endPlayback s.world })
    ∧ ((checkForLoopEnd E s).1 = false → (checkForLoopEnd E s).2 = s)
    ∧ (-(2 : Int) ^ 31 ≤ E.lastSwungTickActioned s.world
            + E.getNumSwungTicksInSinceLastActionedSwungTick s.world →
        E.lastSwungTickActioned s.world
            + E.getNumSwungTicksInSinceLastActionedSwungTick s.world < (2 : Int) ^ 31 →
        toInt32 (E.lastSwungTickActioned s.world
            + E.getNumSwungTicksInSinceLastActionedSwungTick s.world)
          = E.lastSwungTickActioned s.world
            + E.getNumSwungTicksInSinceLastActionedSwungTick s.world) := by
  refine ⟨?_, ?_, ?_, fun h1 h2 => toInt32_of_range _ h1 h2⟩
  · unfold checkForLoopEnd
    by_cases hp : s.se.processStarted = true
    · by_cases ht : s.se.currentStemExportType = StemExportType.TRACK
      · simp [hp, ht]
      · by_cases hpos : toInt32 (E.lastSwungTickActioned s.world
            + E.getNumSwungTicksInSinceLastActionedSwungTick s.world)
          = s.se.loopLengthToStopStemExport
        · simp [hp, ht, hpos]
        · simp [hp, ht, hpos]
    · simp [hp]
  · intro h
    unfold checkForLoopEnd at h ⊢
    by_cases hc : (s.se.processStarted
        && decide (s.se.currentStemExportType ≠ StemExportType.TRACK)) = true
    · by_cases hpos : toInt32 (E.lastSwungTickActioned s.world
          + E.getNumSwungTicksInSinceLastActionedSwungTick s.world)
        = s.se.loopLengthToStopStemExport
      · rw [if_pos hc]; dsimp only; rw [if_pos hpos]
      · rw [if_pos hc] at h; dsimp only at h; rw [if_neg hpos] at h; cases h
    · rw [if_neg hc] at h; cases h
  · intro h
    unfold checkForLoopEnd at h ⊢
    by_cases hc : (s.se.processStarted
        && decide (s.se.currentStemExportType ≠ StemExportType.TRACK)) = true
    · by_cases hpos : toInt32 (E.lastSwungTickActioned s.world
          + E.getNumSwungTicksInSinceLastActionedSwungTick s.world)
        = s.se.loopLengthToStopStemExport
      · rw [if_pos hc] at h; dsimp only at h; rw [if_pos hpos] at h; cases h
      · rw [if_pos hc]; dsimp only; rw [if_neg hpos]
    · rw [if_neg hc]

/-- The example of C24: a clip run with the stop tick at 96.  At position 96 playback is
ended; at position 100, past the stop tick, nothing happens. -/
theorem loop_end_is_exact_tick_match_witness :
    (checkForLoopEnd { rigWorld with lastSwungTickActioned := fun _ => 96 }
        { demoStart StemExportType.CLIP { rigIdle with clock := true } with
          se := { (demoStart StemExportType.CLIP rigIdle).se with
            loopLengthToStopStemExport := 96 } }).1 = true
    ∧ (checkForLoopEnd { rigWorld with lastSwungTickActioned := fun _ => 96 }
        { demoStart StemExportType.CLIP { rigIdle with clock := true } with
          se := { (demoStart StemExportType.CLIP rigIdle).se with
            loopLengthToStopStemExport := 96 } }).2.world.clock = false
    ∧ (checkForLoopEnd { rigWorld with lastSwungTickActioned := fun _ => 100 }
        { demoStart StemExportType.CLIP { rigIdle with clock := true } with
          se := { (demoStart StemExportType.CLIP rigIdle).se with
            loopLengthToStopStemExport := 96 } }).1 = false
    ∧ (checkForLoopEnd { rigWorld with lastSwungTickActioned := fun _ => 100 }
        { demoStart StemExportType.CLIP { rigIdle with clock := true } with
          se := { (demoStart StemExportType.CLIP rigIdle).se with
            loopLengthToStopStemExport := 96 } }).2
        = { demoStart StemExportType.CLIP { rigIdle with clock := true } with
          se := { (demoStart StemExportType.CLIP rigIdle).se with
            loopLengthToStopStemExport := 96 } } :=
  ⟨by decide, by decide, by decide,
    (loop_end_is_exact_tick_match { rigWorld with lastSwungTickActioned := fun _ => 100 }
      { demoStart StemExportType.CLIP { rigIdle with clock := true } with
        se := { (demoStart StemExportType.CLIP rigIdle).se with
          loopLengthToStopStemExport := 96 } }).2.2.1 (by decide)⟩

/-! ## The silence check -/

theorem checkForSilence_cases (E : World W) (s : Sys W) :
    (E.isEitherClockActive s.world = false ∧ E.recording s.world = RecordingMode.OFF
        ∧ max (E.approxRMSLevel s.world).1 (E.approxRMSLevel s.world).2 < 9 →
      checkForSilence E s
        = { s with world := E.endRecordingSoon s.world,
                   se := { s.se with stopOutputRecordingAtSilence := false } })
    ∧ (¬ (E.isEitherClockActive s.world = false ∧ E.recording s.world = RecordingMode.OFF
        ∧ max (E.approxRMSLevel s.world).1 (E.approxRMSLevel s.world).2 < 9) →
      checkForSilence E s = s) := by
  unfold checkForSilence
  constructor
  · rintro ⟨h1, h2, h3⟩
    simp [h1, h2, h3]
  · intro h
    by_cases h1 : E.isEitherClockActive s.world = false
    · by_cases h2 : E.recording s.world = RecordingMode.OFF
      · have h3 : ¬ max (E.approxRMSLevel s.world).1 (E.approxRMSLevel s.world).2 < 9 :=
          fun h3 => h ⟨h1, h2, h3⟩
        simp only [h1, h2, Bool.not_false, decide_True, Bool.and_self, if_true, if_neg h3]
      · simp [h2]
    · simp [h1]

theorem schedulerRound_silence (E : World W) (c : W → Nat)
    (hplay : ∀ w, c (E.playButtonPressed w) = c w)
    (hendPlay : ∀ w, c (E.endPlayback w) = c w)
    (hother : ∀ w, c (E.runOtherTasks w) = c w) (s : Sys W) :
    c (schedulerRound E s).world = c s.world
    ∧ (schedulerRound E s).se.stopOutputRecordingAtSilence
        = s.se.stopOutputRecordingAtSilence := by
  have hloop : ∀ t : Sys W, c (checkForLoopEnd E t).2.world = c t.world
      ∧ (checkForLoopEnd E t).2.se = t.se := by
    intro t
    unfold checkForLoopEnd
    split
    · dsimp only
      split
      · exact ⟨hendPlay _, rfl⟩
      · exact ⟨rfl, rfl⟩
    · exact ⟨rfl, rfl⟩
  have hstop : ∀ t : Sys W, c (stopStemExportProcess E t).world = c t.world
      ∧ (stopStemExportProcess E t).se.stopOutputRecordingAtSilence
          = t.se.stopOutputRecordingAtSilence := by
    intro t
    unfold stopStemExportProcess stopOutputRecordingAndPlayback
    dsimp only
    split
    · exact ⟨hplay _, rfl⟩
    · exact ⟨rfl, rfl⟩
  unfold schedulerRound
  dsimp only
  split
  · split
    · obtain ⟨a1, a2⟩ := hstop (checkForLoopEnd E { s with world := E.runOtherTasks s.world }).2
      obtain ⟨b1, b2⟩ := hloop { s with world := E.runOtherTasks s.world }
      exact ⟨a1.trans (b1.trans (hother _)), a2.trans (by rw [b2])⟩
    · obtain ⟨b1, b2⟩ := hloop { s with world := E.runOtherTasks s.world }
      exact ⟨b1.trans (hother _), by rw [b2]⟩
  · split
    · obtain ⟨a1, a2⟩ := hstop { s with world := E.runOtherTasks s.world }
      exact ⟨a1.trans (hother _), a2⟩
    · exact ⟨hother _, rfl⟩

theorem SilenceInv.silenceCondition {c : W → Nat} {c0 : Nat} {s : Sys W} (E : World W)
    (hend : ∀ w, c (E.endRecordingSoon w) = c w + 1) (h : SilenceInv c c0 s) :
    SilenceInv c c0 (exportWaitCondition E s).2 := by
  unfold exportWaitCondition
  dsimp only
  split
  · rename_i hflag
    by_cases hc : E.isEitherClockActive s.world = false
        ∧ E.recording s.world = RecordingMode.OFF
        ∧ max (E.approxRMSLevel s.world).1 (E.approxRMSLevel s.world).2 < 9
    · rw [(checkForSilence_cases E s).1 hc]
      refine ⟨?_, fun hf => by cases hf⟩
      show c (E.endRecordingSoon s.world) ≤ c0 + 1
      rw [hend, h.2 hflag]
    · rw [(checkForSilence_cases E s).2 hc]
      exact h
  · exact h

theorem SilenceInv.silenceYieldRound {c : W → Nat} {c0 : Nat} {s : Sys W} (E : World W)
    (hend : ∀ w, c (E.endRecordingSoon w) = c w + 1)
    (hplay : ∀ w, c (E.playButtonPressed w) = c w)
    (hendPlay : ∀ w, c (E.endPlayback w) = c w)
    (hother : ∀ w, c (E.runOtherTasks w) = c w) (h : SilenceInv c c0 s) :
    SilenceInv c c0 (yieldRound E s).2 := by
  obtain ⟨a1, a2⟩ := schedulerRound_silence E c hplay hendPlay hother s
  have h1 : SilenceInv c c0 (schedulerRound E s) := by
    unfold SilenceInv
    rw [a1, a2]
    exact h
  exact h1.silenceCondition E hend

theorem startCurrentStemExport_requests (E : World W) (c : W → Nat)
    (hplay : ∀ w, c (E.playButtonPressed w) = c w)
    (hbegin : ∀ b w, c (E.beginOutputRecording b w) = c w)
    (ty : StemExportType) (o : Output) (r : MuteRef) (k : Nat) (s : Sys W) :
    c (startCurrentStemExport E ty o r k true s).2.world = c s.world := by
  have hname : ∀ t : Sys W, (setWavFileNameForStemExport E ty o k t).world = t.world := by
    intro t; rfl
  have hrec : ∀ t : Sys W,
      c (startOutputRecordingUntilLoopEndAndSilence E t).world = c t.world := by
    intro t
    unfold startOutputRecordingUntilLoopEndAndSilence
    dsimp only
    split
    · split
      · exact (hbegin _ _).trans (hplay _)
      · exact (hbegin _ _).trans (hplay _)
    · exact hplay _
  unfold startCurrentStemExport
  simp only [Bool.not_true, Bool.false_eq_true, if_false, Sys.emit_world]
  rw [hrec, hname]
  cases ty <;> rfl

theorem exportTarget_requests (E : World W) (c : W → Nat)
    (hend : ∀ w, c (E.endRecordingSoon w) = c w + 1)
    (hplay : ∀ w, c (E.playButtonPressed w) = c w)
    (hbegin : ∀ b w, c (E.beginOutputRecording b w) = c w)
    (hendPlay : ∀ w, c (E.endPlayback w) = c w)
    (hother : ∀ w, c (E.runOtherTasks w) = c w)
    (fuel : Nat) (ty : StemExportType) (o : Output) (r : MuteRef) (k : Nat) (ex : Bool)
    (s : Sys W) :
    (∀ b s1, exportTarget E fuel ty o r k ex s = Progress.returned (b, s1) →
        c s1.world ≤ c s.world + 1)
      ∧ (∀ s1, exportTarget E fuel ty o r k ex s = Progress.suspended s1 →
        c s1.world ≤ c s.world + 1) := by
  have hr := exportTarget_rule E fuel ty o r k ex s
    (fun t => SilenceInv c (c s.world) t) (fun _ t => c t.world ≤ c s.world + 1)
    (fun _ => Nat.le_succ _)
    (fun _ => by
      have h := startCurrentStemExport_requests E c hplay hbegin ty o r k s
      exact ⟨by rw [h]; exact Nat.le_succ _, fun _ => h⟩)
    (fun t ht => ht.silenceYieldRound E hend hplay hendPlay hother)
    (fun t ht => by
      rw [finishCurrentStemExport_eq]
      exact ht.1)
  exact ⟨hr.1, fun s1 hs1 => (hr.2 s1 hs1).1⟩

/-- C23: `checkForSilence` requests `endRecordingSoon` (once) and clears
`stopOutputRecordingAtSilence` when the transport is inactive, `recording` is `OFF` and
the larger of the two levels is strictly below 9; in every other case it leaves the whole
state as it was.  The wait calls it only while `stopOutputRecordingAtSilence` is set.  So
for any count `c` of the requests (one more per `endRecordingSoon`, untouched by the
other calls and the other tasks), a target, from `startCurrentStemExport` to
`finishCurrentStemExport` or to wherever its wait is suspended, adds at most one request. -/
theorem silence_check_ends_capture_once (E : World W) (s : Sys W) (c : W → Nat)
    (hend : ∀ w, c (E.endRecordingSoon w) = c w + 1)
    (hplay : ∀ w, c (E.playButtonPressed w) = c w)
    (hbegin : ∀ b w, c (E.beginOutputRecording b w) = c w)
    (hendPlay : ∀ w, c (E.endPlayback w) = c w)
    (hother : ∀ w, c (E.runOtherTasks w) = c w) :
    (E.isEitherClockActive s.world = false ∧ E.recording s.world = RecordingMode.OFF
        ∧ max (E.approxRMSLevel s.world).1 (E.approxRMSLevel s.world).2 < 9 →
      checkForSilence E s
          = { s with world := E.endRecordingSoon s.world,
                     se := { s.se with stopOutputRecordingAtSilence := false } }
        ∧ c (checkForSilence E s).world = c s.world + 1)
    ∧ (¬ (E.isEitherClockActive s.world = false ∧ E.recording s.world = RecordingMode.OFF
        ∧ max (E.approxRMSLevel s.world).1 (E.approxRMSLevel s.world).2 < 9) →
      checkForSilence E s = s)
    ∧ (s.se.stopOutputRecordingAtSilence = false → (exportWaitCondition E s).2 = s)
    ∧ (s.se.stopOutputRecordingAtSilence = true →
        (exportWaitCondition E s).2 = checkForSilence E s)
    ∧ ∀ (fuel : Nat) (ty : StemExportType) (o : Output) (r : MuteRef) (k : Nat) (ex : Bool),
        (∀ b s1, exportTarget E fuel ty o r k ex s = Progress.returned (b, s1) →
          c s1.world ≤ c s.world + 1)
        ∧ (∀ s1, exportTarget E fuel ty o r k ex s = Progress.suspended s1 →
          c s1.world ≤ c s.world + 1) := by
  refine ⟨?_, (checkForSilence_cases E s).2, ?_, ?_, ?_⟩
  · intro hc
    have h := (checkForSilence_cases E s).1 hc
    refine ⟨h, ?_⟩
    rw [h]
    exact hend _
  · intro hf
    unfold exportWaitCondition
    simp [hf]
  · intro hf
    unfold exportWaitCondition
    simp [hf]
  · intro fuel ty o r k ex
    exact exportTarget_requests E c hend hplay hbegin hendPlay hother fuel ty o r k ex s

/-- The example of C23, with collaborators that count the requests: exporting "Bass"
from the demo song takes three rounds of the wait and ends with one request. -/
theorem silence_check_ends_capture_once_witness :
    ∃ (b : Bool) (s1 : Sys (Rig × Nat)),
      exportTarget (countingWorld rigWorld) 10 StemExportType.TRACK
          (demoOutput "Bass" OutputType.SYNTH false false true) (MuteRef.output 0) 0 true
          (Sys.start { StemExport.new with processStarted := true,
                                           currentStemExportType := StemExportType.TRACK }
            demoSong (rigIdle, 0))
        = Progress.returned (b, s1)
      ∧ s1.world.2 = 1
      ∧ s1.world.2 ≤ 0 + 1 :=
  ⟨_, _, rfl, rfl,
    ((silence_check_ends_capture_once (countingWorld rigWorld)
      (Sys.start { StemExport.new with processStarted := true,
                                       currentStemExportType := StemExportType.TRACK }
        demoSong (rigIdle, 0))
      (fun p => p.2) (fun _ => rfl) (fun _ => rfl) (fun _ _ => rfl) (fun _ => rfl)
      (fun _ => rfl)).2.2.2.2 10 StemExportType.TRACK
      (demoOutput "Bass" OutputType.SYNTH false false true) (MuteRef.output 0) 0 true).1
      _ _ rfl⟩

/-! ## The file name of a stem is used once -/

theorem PathState.stringOp_of_ne_zero (st : PathState D) (h : st.stringOpsLeft ≠ some 0) :
    st.stringOp.1 = true := by
  unfold PathState.stringOp
  cases hs : st.stringOpsLeft with
  | none => rfl
  | some n =>
    cases n with
    | zero => exact absurd hs h
    | succ n => rfl

/-- The call of `getUnusedStemRecordingFilePath` once the folder is resolved, with the
flag set: the flag is cleared, then the name is appended. -/
theorem getUnusedStemRecordingFilePath_named (S : Storage D) (fuel : Nat)
    (folderName songName filePath : String) (st st0 : PathState D) (folder : String)
    (hi : (S.initSD st.disk).1 = Error.NONE)
    (hfold : getUnusedStemRecordingFolderPath S fuel folderName songName filePath
        { st with disk := (S.initSD st.disk).2 }
      = PathResult.returned Error.NONE folder st0)
    (hflag : st.se.wavFileNameForStemExportSet = true) :
    getUnusedStemRecordingFilePath S fuel folderName songName filePath st
      = if (PathState.stringOp
            { st0 with se := { st0.se with wavFileNameForStemExportSet := false } }).1 then
          PathResult.returned Error.NONE (folder ++ st.se.wavFileNameForStemExport)
            (PathState.stringOp
              { st0 with se := { st0.se with wavFileNameForStemExportSet := false } }).2
        else
          PathResult.returned Error.INSUFFICIENT_RAM folder
            (PathState.stringOp
              { st0 with se := { st0.se with wavFileNameForStemExportSet := false } }).2 := by
  obtain ⟨_, g1, _⟩ := getUnusedStemRecordingFolderPath_returned S fuel folderName
    songName filePath _ folder st0 hfold
  have hflag0 : st0.se.wavFileNameForStemExportSet = true := by
    rw [g1]; exact hflag
  have hname0 : st0.se.wavFileNameForStemExport = st.se.wavFileNameForStemExport := by
    rw [g1]
  unfold getUnusedStemRecordingFilePath
  dsimp only
  rw [if_neg (not_not.mpr hi), hfold]
  dsimp only
  rw [if_neg (by simp), if_pos hflag0, hname0]
  split
  · rename_i hb
    rw [if_neg (by simpa using hb)]
  · rename_i hb
    rw [if_pos (by simpa using hb)]

/-- C25: once `getUnusedStemRecordingFilePath` is past the folder resolution with
`wavFileNameForStemExportSet` set, it leaves the flag cleared and the counter of the
fallback name as it was, in every outcome; it returns the folder path followed by
`wavFileNameForStemExport` (it does return so unless that concatenation fails).  A call
that follows, with no `setWavFileNameForStemExport` in between, returns the same folder
path followed by "/REC", the counter plus one in five digits and ".WAV", leaves the
counter one higher and the flag cleared. -/
theorem stem_name_is_consumed_once (S : Storage D) (fuel fuel2 : Nat)
    (folderName songName filePath filePath2 : String) (st st0 : PathState D)
    (folder : String)
    (hi : (S.initSD st.disk).1 = Error.NONE)
    (hfold : getUnusedStemRecordingFolderPath S fuel folderName songName filePath
        { st with disk := (S.initSD st.disk).2 }
      = PathResult.returned Error.NONE folder st0)
    (hflag : st.se.wavFileNameForStemExportSet = true) :
    (getUnusedStemRecordingFilePath S fuel folderName songName filePath
        st).state.se.wavFileNameForStemExportSet = false
    ∧ (getUnusedStemRecordingFilePath S fuel folderName songName filePath
        st).state.highestUsedAudioRecordingNumber = st.highestUsedAudioRecordingNumber
    ∧ (st0.stringOpsLeft ≠ some 0 →
        ∃ st1 : PathState D,
          getUnusedStemRecordingFilePath S fuel folderName songName filePath st
            = PathResult.returned Error.NONE (folder ++ st.se.wavFileNameForStemExport) st1)
    ∧ ∀ (p : String) (st1 : PathState D),
        getUnusedStemRecordingFilePath S fuel folderName songName filePath st
          = PathResult.returned Error.NONE p st1 →
        p = folder ++ st.se.wavFileNameForStemExport
        ∧ ∀ (p2 : String) (st2 : PathState D),
            getUnusedStemRecordingFilePath S fuel2 folderName songName filePath2 st1
              = PathResult.returned Error.NONE p2 st2 →
            p2 = folder ++ "/REC"
                ++ concatenateInt (st.highestUsedAudioRecordingNumber + 1) 5 ++ ".WAV"
            ∧ st2.highestUsedAudioRecordingNumber = st.highestUsedAudioRecordingNumber + 1
            ∧ st2.se.wavFileNameForStemExportSet = false := by
  have heq := getUnusedStemRecordingFilePath_named S fuel folderName songName filePath st st0
    folder hi hfold hflag
  obtain ⟨_, g1, g2, g3, _⟩ := getUnusedStemRecordingFolderPath_returned S fuel folderName
    songName filePath _ folder st0 hfold
  dsimp only at g2
  have hstate : (getUnusedStemRecordingFilePath S fuel folderName songName filePath st).state
      = (PathState.stringOp
          { st0 with se := { st0.se with wavFileNameForStemExportSet := false } }).2 := by
    rw [heq]
    split <;> rfl
  refine ⟨?_, ?_, ?_, ?_⟩
  · rw [hstate, PathState.stringOp_se]
  · rw [hstate, PathState.stringOp_recordingNumber]
    exact g2
  · intro hne
    have hop : (PathState.stringOp
        { st0 with se := { st0.se with wavFileNameForStemExportSet := false } }).1 = true :=
      PathState.stringOp_of_ne_zero _ hne
    rw [heq, hop]
    exact ⟨_, rfl⟩
  · intro p st1 h1
    rw [heq] at h1
    split at h1
    · simp only [PathResult.returned.injEq, true_and] at h1
      obtain ⟨hp, hst1⟩ := h1
      refine ⟨hp.symm, ?_⟩
      intro p2 st2 h2
      have hse1 : st1.se = { st0.se with wavFileNameForStemExportSet := false } := by
        rw [← hst1, PathState.stringOp_se]
      have hnum1 : st1.highestUsedAudioRecordingNumber = st.highestUsedAudioRecordingNumber := by
        rw [← hst1, PathState.stringOp_recordingNumber]
        exact g2
      have hflag1 : st1.se.wavFileNameForStemExportSet = false := by rw [hse1]
      obtain ⟨k1, k2, folder2, st02, k3, k4⟩ := getUnusedStemRecordingFilePath_fallback S fuel2
        folderName songName filePath2 st1 p2 st2 hflag1 h2
      have hlast : ({ st1 with disk := (S.initSD st1.disk).2 } : PathState D).se.lastSongNameForStemExport
          = projectName songName := by
        show st1.se.lastSongNameForStemExport = projectName songName
        rw [hse1, g1]
      obtain ⟨a1, _, _⟩ := getUnusedStemRecordingFolderPath_again S fuel2 folderName songName
        filePath2 _ folder2 st02 hlast k3
      have hfolder : folder2 = folder := by
        rw [a1, g3]
        show folderCandidate _ st1.se.highestUsedStemFolderNumber = _
        rw [hse1]
      rw [hfolder, hnum1] at k4
      rw [hnum1] at k1
      exact ⟨k4, k1, k2⟩
    · cases h1

/-- The example of C25: with the name of "Bass" set, the first call returns the folder
of "Song A" with that name, and the call after it returns "REC00000.WAV" there. -/
theorem stem_name_is_consumed_once_witness :
    (getUnusedStemRecordingFilePath dirStorage 5 "SAMPLES/STEMS" "Song A" ""
        (PathState.start
          { StemExport.new with wavFileNameForStemExportSet := true,
                                wavFileNameForStemExport := "/SYNTH_TRACK_Bass_00000.WAV" }
          ["SAMPLES/STEMS"])).path
      = some "SAMPLES/STEMS/Song A/SYNTH_TRACK_Bass_00000.WAV"
    ∧ (getUnusedStemRecordingFilePath dirStorage 5 "SAMPLES/STEMS" "Song A" ""
        (getUnusedStemRecordingFilePath dirStorage 5 "SAMPLES/STEMS" "Song A" ""
          (PathState.start
            { StemExport.new with wavFileNameForStemExportSet := true,
                                  wavFileNameForStemExport := "/SYNTH_TRACK_Bass_00000.WAV" }
            ["SAMPLES/STEMS"])).state).path
      = some "SAMPLES/STEMS/Song A/REC00000.WAV"
    ∧ (getUnusedStemRecordingFilePath dirStorage 5 "SAMPLES/STEMS" "Song A" ""
        (PathState.start
          { StemExport.new with wavFileNameForStemExportSet := true,
                                wavFileNameForStemExport := "/SYNTH_TRACK_Bass_00000.WAV" }
          ["SAMPLES/STEMS"])).state.se.wavFileNameForStemExportSet = false :=
  ⟨rfl, rfl,
    (stem_name_is_consumed_once dirStorage 5 5 "SAMPLES/STEMS" "Song A" "" ""
      (PathState.start
        { StemExport.new with wavFileNameForStemExportSet := true,
                              wavFileNameForStemExport := "/SYNTH_TRACK_Bass_00000.WAV" }
        ["SAMPLES/STEMS"])
      (getUnusedStemRecordingFolderPath dirStorage 5 "SAMPLES/STEMS" "Song A" ""
        (PathState.start
          { StemExport.new with wavFileNameForStemExportSet := true,
                                wavFileNameForStemExport := "/SYNTH_TRACK_Bass_00000.WAV" }
          ["SAMPLES/STEMS"])).state
      "SAMPLES/STEMS/Song A" rfl rfl rfl).1⟩

/-! ## The end of a run -/

theorem NoRestoreSince.noRestoreQuiet {base : List (Event W)} {s t : Sys W}
    (h : NoRestoreSince base s) (hq : Quiet s t) : NoRestoreSince base t := by
  unfold NoRestoreSince at h ⊢
  rw [hq.1]
  exact h

theorem NoRestoreSince.noRestoreEmit {base : List (Event W)} {s : Sys W}
    (h : NoRestoreSince base s) (st : Step) (hst : st ≠ Step.restored) :
    NoRestoreSince base (Sys.emit st s) := by
  obtain ⟨new, h1, h2⟩ := h
  refine ⟨new ++ [Event.mk st s.se s.song s.world], ?_, ?_⟩
  · rw [Sys.emit_log, h1, List.append_assoc]
  · intro e he
    rcases List.mem_append.mp he with he | he
    · exact h2 e he
    · simp only [List.mem_singleton] at he
      subst he
      exact hst

theorem exportTarget_noRestore (E : World W) (fuel : Nat) (ty : StemExportType) (o : Output)
    (r : MuteRef) (k : Nat) (ex : Bool) (s : Sys W) (base : List (Event W))
    (h : NoRestoreSince base s) :
    (∀ b s1, exportTarget E fuel ty o r k ex s = Progress.returned (b, s1) →
        NoRestoreSince base s1)
      ∧ (∀ s1, exportTarget E fuel ty o r k ex s = Progress.suspended s1 →
        NoRestoreSince base s1) :=
  exportTarget_rule E fuel ty o r k ex s
    (fun t => NoRestoreSince base t) (fun _ t => NoRestoreSince base t)
    (fun _ => h.noRestoreEmit (Step.startCurrent k) (by simp))
    (fun _ => by
      obtain ⟨t2, t3, hq2, hq3, heq⟩ := startCurrentStemExport_eq E ty o r k s
      rw [heq]
      have h1 : NoRestoreSince base (Sys.emit (Step.muteStateWritten k)
          { Sys.emit (Step.startCurrent k) s with song := r.write (startFlag ty) s.song }) := by
        have h0 := (h.noRestoreEmit (Step.startCurrent k) (by simp))
        have h0' : NoRestoreSince base
            { Sys.emit (Step.startCurrent k) s with song := r.write (startFlag ty) s.song } := h0
        exact h0'.noRestoreEmit (Step.muteStateWritten k) (by simp)
      exact (((h1.noRestoreQuiet hq2).noRestoreEmit (Step.fileNameRequested k)
        (by simp)).noRestoreQuiet hq3).noRestoreEmit (Step.recordingRequested k) (by simp))
    (fun t ht => by
      obtain ⟨t1, hq, heq⟩ := yieldRound_eq E t
      rw [heq]
      exact (ht.noRestoreQuiet hq).noRestoreEmit Step.yielded (by simp))
    (fun t ht => by
      rw [finishCurrentStemExport_eq]
      have h0 : NoRestoreSince base
          { t with song := r.write (!startFlag ty) t.song
                   se := { t.se with numStemsExported := t.se.numStemsExported + 1 } } := ht
      exact h0.noRestoreEmit (Step.finishCurrent r) (by simp))

theorem exportInstrumentBody_noRestore (E : World W) (fuel : Nat) (ty : StemExportType)
    (k : Nat) (s : Sys W) (base : List (Event W)) (h : NoRestoreSince base s) :
    (∀ b s1, exportInstrumentBody E fuel ty k s = Progress.returned (b, s1) →
        NoRestoreSince base s1)
      ∧ (∀ s1, exportInstrumentBody E fuel ty k s = Progress.suspended s1 →
        NoRestoreSince base s1) := by
  unfold exportInstrumentBody
  cases hk : s.song.outputs[k]? with
  | none =>
    constructor
    · intro b s1 hb
      simp only [Progress.returned.injEq, Prod.mk.injEq] at hb
      rw [← hb.2]
      exact h
    · intro s1 hb
      simp at hb
  | some o => exact exportTarget_noRestore E fuel ty o _ k o.exportStem s base h

theorem exportClipBody_noRestore (E : World W) (fuel : Nat) (ty : StemExportType)
    (k : Nat) (s : Sys W) (base : List (Event W)) (h : NoRestoreSince base s) :
    (∀ b s1, exportClipBody E fuel ty k s = Progress.returned (b, s1) →
        NoRestoreSince base s1)
      ∧ (∀ s1, exportClipBody E fuel ty k s = Progress.suspended s1 →
        NoRestoreSince base s1) := by
  unfold exportClipBody
  cases hk : s.song.sessionClips[k]? with
  | none =>
    constructor
    · intro b s1 hb
      simp only [Progress.returned.injEq, Prod.mk.injEq] at hb
      rw [← hb.2]
      exact h
    · intro s1 hb
      simp at hb
  | some c =>
    exact exportTarget_noRestore E fuel ty c.output _ k c.exportStem _ base
      (h.noRestoreQuiet (quiet_clipPrelude E c s))

/-- A run of `exportInstrumentStems` that returns has added entries to the trace of
which the last, and only the last, is the restore step. -/
theorem exportInstrumentStems_restoredOnce (E : World W) (fuel : Nat) (ty : StemExportType)
    (s : Sys W) (n : Nat) (s1 : Sys W)
    (h : exportInstrumentStems E fuel ty s = Progress.returned (n, s1)) :
    ∃ (new : List (Event W)) (e : Event W),
      s1.log = s.log ++ new ++ [e] ∧ e.step = Step.restored
        ∧ ∀ x ∈ new, x.step ≠ Step.restored := by
  unfold exportInstrumentStems at h
  rw [disarmAllInstrumentsForStemExport_eq] at h
  dsimp only at h
  have hbase : NoRestoreSince s.log
      ({ se := { s.se with numStemsExported := 0
                           totalNumStemsToExport := List.countP outputEligible s.song.outputs }
         song := { s.song with outputs := s.song.outputs.map disarmOutput }
         world := s.world
         log := s.log } : Sys W) :=
    ⟨[], by simp, fun e he => by cases he⟩
  have hloop := descLoop_rule (exportInstrumentBody E fuel ty)
    (fun _ t => NoRestoreSince s.log t) (fun t => NoRestoreSince s.log t)
    (fun t => NoRestoreSince s.log t)
    (fun k t t1 ht hb => (exportInstrumentBody_noRestore E fuel ty k t _ ht).2 t1 hb)
    (fun k t t1 ht hb => (exportInstrumentBody_noRestore E fuel ty k t _ ht).1 true t1 hb)
    (fun k t t1 ht hb => (exportInstrumentBody_noRestore E fuel ty k t _ ht).1 false t1 hb)
    (fun t ht => ht) s.song.outputs.length _ (hbase.noRestoreEmit Step.prepared (by simp))
  split at h
  · cases h
  · rename_i s2 hd
    simp only [Progress.returned.injEq, Prod.mk.injEq] at h
    obtain ⟨new, h1, h2⟩ := hloop.1 s2 hd
    obtain ⟨t, _, _, hlog, heq⟩ := restoreAllInstrumentMutes_frame s.song.outputs.length s2
    refine ⟨new, Event.mk Step.restored t.se t.song t.world, ?_, rfl, h2⟩
    rw [← h.2, heq, Sys.emit_log, hlog, h1]

/-- The same for a run of `exportClipStems`. -/
theorem exportClipStems_restoredOnce (E : World W) (fuel : Nat) (ty : StemExportType)
    (s : Sys W) (n : Nat) (s1 : Sys W)
    (h : exportClipStems E fuel ty s = Progress.returned (n, s1)) :
    ∃ (new : List (Event W)) (e : Event W),
      s1.log = s.log ++ new ++ [e] ∧ e.step = Step.restored
        ∧ ∀ x ∈ new, x.step ≠ Step.restored := by
  unfold exportClipStems at h
  rw [disarmAllClipsForStemExport_eq] at h
  dsimp only at h
  have hbase : NoRestoreSince s.log
      ({ se := { s.se with numStemsExported := 0
                           totalNumStemsToExport := List.countP clipEligible s.song.sessionClips }
         song := { s.song with sessionClips := s.song.sessionClips.map disarmClip }
         world := s.world
         log := s.log } : Sys W) :=
    ⟨[], by simp, fun e he => by cases he⟩
  have hloop := descLoop_rule (exportClipBody E fuel ty)
    (fun _ t => NoRestoreSince s.log t) (fun t => NoRestoreSince s.log t)
    (fun t => NoRestoreSince s.log t)
    (fun k t t1 ht hb => (exportClipBody_noRestore E fuel ty k t _ ht).2 t1 hb)
    (fun k t t1 ht hb => (exportClipBody_noRestore E fuel ty k t _ ht).1 true t1 hb)
    (fun k t t1 ht hb => (exportClipBody_noRestore E fuel ty k t _ ht).1 false t1 hb)
    (fun t ht => ht) s.song.sessionClips.length _
    (hbase.noRestoreEmit Step.prepared (by simp))
  split at h
  · cases h
  · rename_i s2 hd
    simp only [Progress.returned.injEq, Prod.mk.injEq] at h
    obtain ⟨new, h1, h2⟩ := hloop.1 s2 hd
    obtain ⟨t, _, _, hlog, heq⟩ := restoreAllClipMutes_frame s.song.sessionClips.length s2
    refine ⟨new, Event.mk Step.restored t.se t.song t.world, ?_, rfl, h2⟩
    rw [← h.2, heq, Sys.emit_log, hlog, h1]

theorem startStemExportProcess_returned (C : Controls W) (fuel : Nat) (ty : StemExportType)
    (m m1 : Machine W) (h : startStemExportProcess C fuel ty m = Progress.returned m1) :
    ∃ (n : Nat) (s1 : Sys W),
      (match ty with
        | StemExportType.CLIP => exportClipStems C.toWorld fuel ty
            { m.sys with
                se := { m.sys.se with currentStemExportType := ty, processStarted := true }
                world := C.recordButtonPressed m.sys.world }
        | StemExportType.TRACK => exportInstrumentStems C.toWorld fuel ty
            { m.sys with
                se := { m.sys.se with currentStemExportType := ty, processStarted := true }
                world := C.recordButtonPressed m.sys.world })
        = Progress.returned (n, s1)
      ∧ m1.sys.log = s1.log
      ∧ m1.sys.se.processStarted = false
      ∧ C.recording m1.sys.world = RecordingMode.OFF := by
  unfold startStemExportProcess at h
  dsimp only at h
  split at h
  · cases h
  · rename_i n s1 hr
    simp only [Progress.returned.injEq] at h
    have hs2 : (if s1.se.processStarted = true then finishStemExportProcess ty n s1
        else s1).se.processStarted = false := by
      by_cases hp : s1.se.processStarted = true
      · rw [if_pos hp]; rfl
      · rw [if_neg hp]; simpa using hp
    have hl2 : (if s1.se.processStarted = true then finishStemExportProcess ty n s1
        else s1).log = s1.log := by
      by_cases hp : s1.se.processStarted = true
      · rw [if_pos hp]; rfl
      · rw [if_neg hp]
    refine ⟨n, s1, hr, ?_, ?_, ?_⟩
    · rw [← h]
      dsimp only
      by_cases hrec : C.recording (if s1.se.processStarted = true
          then finishStemExportProcess ty n s1 else s1).world ≠ RecordingMode.OFF
      · rw [if_pos hrec]; exact hl2
      · rw [if_neg hrec]; exact hl2
    · rw [← h]
      dsimp only
      by_cases hrec : C.recording (if s1.se.processStarted = true
          then finishStemExportProcess ty n s1 else s1).world ≠ RecordingMode.OFF
      · rw [if_pos hrec]; exact hs2
      · rw [if_neg hrec]; exact hs2
    · rw [← h]
      dsimp only
      by_cases hrec : C.recording (if s1.se.processStarted = true
          then finishStemExportProcess ty n s1 else s1).world ≠ RecordingMode.OFF
      · rw [if_pos hrec]; exact C.recording_setRecordingOff _
      · rw [if_neg hrec]; exact not_not.mp hrec

/-- C21: when `startStemExportProcess` returns, for either export type, any song and
any collaborators (so wherever a cancel request arrives), `processStarted` is false and
`playbackHandler.recording` is `OFF`, and the run has added entries to the trace of which
the last one, and no other, is the restore step: `restoreAllClipMutes` respectively
`restoreAllInstrumentMutes` ran exactly once, after every step of every target. -/
theorem run_ends_idle_after_one_restore (C : Controls W) (fuel : Nat) (ty : StemExportType)
    (m m1 : Machine W) (h : startStemExportProcess C fuel ty m = Progress.returned m1) :
    m1.sys.se.processStarted = false
    ∧ C.recording m1.sys.world = RecordingMode.OFF
    ∧ ∃ (new : List (Event W)) (e : Event W),
        m1.sys.log = m.sys.log ++ new ++ [e] ∧ e.step = Step.restored
          ∧ ∀ x ∈ new, x.step ≠ Step.restored := by
  obtain ⟨n, s1, hr, hlog, hp, hrec⟩ := startStemExportProcess_returned C fuel ty m m1 h
  refine ⟨hp, hrec, ?_⟩
  rw [hlog]
  cases ty with
  | CLIP =>
    dsimp only at hr
    have h1 := exportClipStems_restoredOnce C.toWorld fuel _ _ n s1 hr
    exact h1
  | TRACK =>
    dsimp only at hr
    have h1 := exportInstrumentStems_restoredOnce C.toWorld fuel _ _ n s1 hr
    exact h1

/-- The examples of C21: the demo clip run cancelled in the wait for its first clip, and
a track run of a song without outputs, whose trace is the prepare step and the restore
step. -/
theorem run_ends_idle_after_one_restore_witness :
    (∃ m1 : Machine Rig,
      startStemExportProcess rigControls 10 StemExportType.CLIP
          { sys := demoStart StemExportType.CLIP { rigIdle with cancelIn := some 2 },
            highestUsedAudioRecordingNumber := -1 }
        = Progress.returned m1
      ∧ m1.sys.se.processStarted = false
      ∧ rigControls.recording m1.sys.world = RecordingMode.OFF
      ∧ (m1.sys.log.map (fun e => e.step)).count Step.restored = 1
      ∧ ∃ (new : List (Event Rig)) (e : Event Rig),
          m1.sys.log = [] ++ new ++ [e] ∧ e.step = Step.restored
            ∧ ∀ x ∈ new, x.step ≠ Step.restored)
    ∧ ∃ m1 : Machine Rig,
      startStemExportProcess rigControls 0 StemExportType.TRACK
          { sys := Sys.start StemExport.new { name := "", outputs := [], sessionClips := [] }
              rigIdle,
            highestUsedAudioRecordingNumber := -1 }
        = Progress.returned m1
      ∧ m1.sys.log.map (fun e => e.step) = [Step.prepared, Step.restored] :=
  ⟨⟨_, rfl, rfl, rfl, by decide,
      (run_ends_idle_after_one_restore rigControls 10 StemExportType.CLIP
        { sys := demoStart StemExportType.CLIP { rigIdle with cancelIn := some 2 },
          highestUsedAudioRecordingNumber := -1 } _ rfl).2.2⟩,
    ⟨_, rfl, rfl⟩⟩

/-! ## Resolving a name after another name -/

theorem folderPathOfSongName_fresh_inv (S : Storage D) (fuel : Nat)
    (tempPath name cmp filePath : String) (st : PathState D) (p : String) (st1 : PathState D)
    (hne : cmp ≠ st.se.lastSongNameForStemExport)
    (h : folderPathOfSongName S fuel tempPath name cmp filePath st
      = PathResult.returned Error.NONE p st1) :
    ∃ (stm st6 : PathState D),
      stm.se = st.se ∧ stm.disk = st.disk ∧ stm.mkdirRequests = st.mkdirRequests
      ∧ folderSearch S tempPath fuel tempPath
          { stm with se := { stm.se with highestUsedStemFolderNumber := -1 } }
          = SearchResult.found p st6
      ∧ st1.disk = st6.disk ∧ st1.mkdirRequests = st6.mkdirRequests
      ∧ st1.se.highestUsedStemFolderNumber = st6.se.highestUsedStemFolderNumber := by
  unfold folderPathOfSongName at h
  rw [if_pos hne] at h
  dsimp only at h
  split at h
  · cases h
  split at h
  · cases h
  · rename_i e st6 hfs
    have he := folderSearch_failed S tempPath fuel tempPath _ e st6 hfs
    subst he
    cases h
  · rename_i q st6 hfs
    split at h
    · cases h
    obtain ⟨g1, g2, _, g4, g5⟩ := saveLastSongName_returned _ _ _ _ _ h
    simp only [PathState.stringOp_se, PathState.stringOp_mkdirRequests,
      PathState.stringOp_disk] at g2 g4 g5
    subst g1
    refine ⟨st.stringOp.2, st6, by simp, by simp, by simp, hfs, g5, g4, ?_⟩
    rw [g2]

theorem getUnusedStemRecordingFolderPath_fresh_inv (S : Storage D) (fuel : Nat)
    (folderName songName filePath : String) (st : PathState D) (p : String)
    (st1 : PathState D)
    (hne : projectName songName ≠ st.se.lastSongNameForStemExport)
    (h : getUnusedStemRecordingFolderPath S fuel folderName songName filePath st
      = PathResult.returned Error.NONE p st1) :
    ∃ (stm st6 : PathState D),
      stm.se = st.se
      ∧ stm.disk = (S.f_mkdir folderName (S.initSD st.disk).2).2
      ∧ stm.mkdirRequests = st.mkdirRequests
          ++ [(folderName, (S.f_mkdir folderName (S.initSD st.disk).2).1)]
      ∧ folderSearch S (folderName ++ "/" ++ projectName songName) fuel
          (folderName ++ "/" ++ projectName songName)
          { stm with se := { stm.se with highestUsedStemFolderNumber := -1 } }
          = SearchResult.found p st6
      ∧ st1.disk = st6.disk ∧ st1.mkdirRequests = st6.mkdirRequests
      ∧ st1.se.highestUsedStemFolderNumber = st6.se.highestUsedStemFolderNumber := by
  unfold getUnusedStemRecordingFolderPath at h
  dsimp only at h
  have hname : (if songName = "" then "UNSAVED" else songName) = projectName songName := rfl
  rw [hname] at h
  split at h
  · rename_i hi
    simp only [PathResult.returned.injEq] at h
    exact absurd h.1 hi
  split at h
  · cases h
  split at h
  · cases h
  split at h
  · cases h
  split at h
  · cases h
  obtain ⟨g0, _⟩ := folderPathOfSongName_returned _ _ _ _ _ _ _ _ _ h
  have ho4 : (PathState.stringOp (PathState.stringOp (PathState.stringOp
      (PathState.mkdir S folderName (PathState.stringOp
        { st with disk := (S.initSD st.disk).2 }).2).2).2).2).1 = true := by
    cases hb : (PathState.stringOp (PathState.stringOp (PathState.stringOp
      (PathState.mkdir S folderName (PathState.stringOp
        { st with disk := (S.initSD st.disk).2 }).2).2).2).2).1 with
    | true => rfl
    | false =>
      have := PathState.stringOp_fails_again _ hb
      rw [this] at g0; cases g0
  rw [ho4, if_pos rfl] at h
  obtain ⟨stm, st6, k1, k2, k3, k4, k5, k6, k7⟩ := folderPathOfSongName_fresh_inv S fuel _ _ _ _
    _ p st1 (by simpa using hne) h
  simp only [PathState.stringOp_se, PathState.stringOp_mkdirRequests,
    PathState.stringOp_disk, PathState.mkdir_se, PathState.mkdir_mkdirRequests,
    PathState.mkdir_disk] at k1 k2 k3
  exact ⟨stm, st6, k1, k2, k3, k4, k5, k6, k7⟩

/-- What the search loop has done on a storage that keeps a list of directories when it
leaves through `break`: it asked for the candidates of the folder numbers from the one
it started with on, found each of them present, and created the first absent one. -/
theorem folderSearch_dirStorage_found (tempPath : String) :
    ∀ (fuel : Nat) (cur : String) (st : PathState (List String)) (p : String)
      (st6 : PathState (List String)),
      folderSearch dirStorage tempPath fuel cur st = SearchResult.found p st6 →
      -1 ≤ st.se.highestUsedStemFolderNumber →
      cur = folderCandidate tempPath st.se.highestUsedStemFolderNumber →
      ∃ n : Nat,
        st6.se.highestUsedStemFolderNumber = st.se.highestUsedStemFolderNumber + n
        ∧ p = folderCandidate tempPath (st.se.highestUsedStemFolderNumber + n)
        ∧ p ∉ st.disk
        ∧ st6.disk = st.disk ++ [p]
        ∧ (∀ i : Nat, i < n →
            folderCandidate tempPath (st.se.highestUsedStemFolderNumber + i) ∈ st.disk)
        ∧ st6.mkdirRequests = st.mkdirRequests
            ++ (List.range n).map (fun i : Nat =>
                (folderCandidate tempPath (st.se.highestUsedStemFolderNumber + i),
                  FRESULT.FR_EXIST))
            ++ [(p, FRESULT.FR_OK)] := by
  intro fuel
  induction fuel with
  | zero => intro cur st p st6 h; simp [folderSearch] at h
  | succ fuel ih =>
    intro cur st p st6 h hge hcur
    unfold folderSearch at h
    dsimp only at h
    by_cases hin : cur ∈ st.disk
    · have hres : dirStorage.f_mkdir cur st.disk = (FRESULT.FR_EXIST, st.disk) := by
        simp [dirStorage, hin]
      have hm1 : (PathState.mkdir dirStorage cur st).1 = FRESULT.FR_EXIST := by
        rw [PathState.mkdir_result, hres]
      rw [if_neg (by rw [hm1]; decide)] at h
      split at h
      · cases h
      split at h
      · cases h
      split at h
      · cases h
      obtain ⟨n, g1, g2, g3, g4, g5, g6⟩ := ih _ _ p st6 h (by simp; omega)
        (by simp; exact (folderCandidate_succ tempPath _ hge).symm)
      simp only [PathState.stringOp_se, PathState.stringOp_mkdirRequests,
        PathState.stringOp_disk, PathState.mkdir_se, PathState.mkdir_mkdirRequests,
        PathState.mkdir_disk, hres] at g1 g2 g3 g4 g5 g6
      have hc : ∀ i : Nat, st.se.highestUsedStemFolderNumber + 1 + (i : Int)
          = st.se.highestUsedStemFolderNumber + ((i + 1 : Nat) : Int) := by
        intro i; push_cast; ring
      refine ⟨n + 1, ?_, ?_, g3, g4, ?_, ?_⟩
      · rw [g1, hc]
      · rw [g2, hc]
      · intro i hi
        cases i with
        | zero => simpa [← hcur] using hin
        | succ i =>
          have := g5 i (by omega)
          rw [hc] at this
          exact this
      · rw [g6, List.range_succ_eq_map, List.map_cons, List.map_map]
        simp only [Nat.cast_zero, add_zero, ← hcur, List.append_assoc, List.singleton_append,
          List.cons_append, List.nil_append]
        congr 3
        apply List.map_congr_left
        intro i _
        simp only [Function.comp_apply, Nat.succ_eq_add_one]
        rw [hc]
    · have hres : dirStorage.f_mkdir cur st.disk = (FRESULT.FR_OK, st.disk ++ [cur]) := by
        simp [dirStorage, hin]
      have hm1 : (PathState.mkdir dirStorage cur st).1 = FRESULT.FR_OK := by
        rw [PathState.mkdir_result, hres]
      rw [if_pos hm1] at h
      simp only [SearchResult.found.injEq] at h
      obtain ⟨h1, h2⟩ := h
      subst h1 h2
      refine ⟨0, by simp, by simpa using hcur, hin, by simp [hres],
        fun i hi => absurd hi (Nat.not_lt_zero i), by simp [hres]⟩

theorem dirStorage_mkdir_subset (path : String) (dirs : List String) (q : String)
    (hq : q ∈ dirs) : q ∈ (dirStorage.f_mkdir path dirs).2 := by
  unfold dirStorage
  dsimp only
  split
  · exact hq
  · exact List.mem_append_left _ hq

/-- A resolution of a name other than the last song name on a storage that keeps a
list of directories, when it returns `Error::NONE`: after the base folder it asked for
the unsuffixed name and the suffixes from 0 on, found `n` of these candidates present,
and created the next one, which was absent; the card keeps what it held. -/
theorem getUnusedStemRecordingFolderPath_dirStorage_inv (fuel : Nat)
    (folderName songName filePath : String) (st : PathState (List String)) (p : String)
    (st1 : PathState (List String))
    (hne : projectName songName ≠ st.se.lastSongNameForStemExport)
    (h : getUnusedStemRecordingFolderPath dirStorage fuel folderName songName filePath st
      = PathResult.returned Error.NONE p st1) :
    ∃ (n : Nat) (r : FRESULT),
      st1.se.highestUsedStemFolderNumber = -1 + n
      ∧ p = folderCandidate (folderName ++ "/" ++ projectName songName) (-1 + n)
      ∧ p ∉ st.disk
      ∧ p ∈ st1.disk
      ∧ (∀ q ∈ st.disk, q ∈ st1.disk)
      ∧ st1.mkdirRequests = st.mkdirRequests ++ [(folderName, r)]
          ++ (List.range n).map (fun i : Nat =>
              (folderCandidate (folderName ++ "/" ++ projectName songName) (-1 + i),
                FRESULT.FR_EXIST))
          ++ [(p, FRESULT.FR_OK)] := by
  obtain ⟨stm, st6, k1, k2, k3, k4, k5, k6, k7⟩ :=
    getUnusedStemRecordingFolderPath_fresh_inv dirStorage fuel folderName songName filePath st
      p st1 hne h
  obtain ⟨n, g1, g2, g3, g4, _, g6⟩ := folderSearch_dirStorage_found
    (folderName ++ "/" ++ projectName songName) fuel _ _ p st6 k4 (le_refl _)
    (by simp [folderCandidate_neg_one])
  dsimp only at g1 g2 g3 g4 g6
  have hsub : ∀ q ∈ st.disk, q ∈ stm.disk := by
    intro q hq
    rw [k2]
    exact dirStorage_mkdir_subset folderName st.disk q hq
  refine ⟨n, (dirStorage.f_mkdir folderName (dirStorage.initSD st.disk).2).1, ?_, g2, ?_, ?_, ?_,
    ?_⟩
  · rw [k7, g1]
  · exact fun hc => g3 (hsub p hc)
  · rw [k5, g4]; simp
  · intro q hq
    rw [k5, g4]
    exact List.mem_append_left _ (hsub q hq)
  · rw [k6, g6, k3]

/-- C22, as stated, fails in its last clause.  "Song A" is resolved and its run
completes; the next run resolves "Song A" to "Song A-00000" from the cached number,
without creating it; then "Song B" is resolved, then "Song A" again: the third
resolution probes "Song A", finds it present, creates "Song A-00000" and returns it,
the very path the first resolution of this run of three returned. -/
theorem third_resolution_can_return_first_path :
    (getUnusedStemRecordingFolderPath dirStorage 5 "SAMPLES/STEMS" "Song A" ""
        demoCompleted).path = some "SAMPLES/STEMS/Song A-00000"
    ∧ (getUnusedStemRecordingFolderPath dirStorage 5 "SAMPLES/STEMS" "Song B" ""
        (getUnusedStemRecordingFolderPath dirStorage 5 "SAMPLES/STEMS" "Song A" ""
          demoCompleted).state).path = some "SAMPLES/STEMS/Song B"
    ∧ (getUnusedStemRecordingFolderPath dirStorage 5 "SAMPLES/STEMS" "Song A" ""
        (getUnusedStemRecordingFolderPath dirStorage 5 "SAMPLES/STEMS" "Song B" ""
          (getUnusedStemRecordingFolderPath dirStorage 5 "SAMPLES/STEMS" "Song A" ""
            demoCompleted).state).state).path = some "SAMPLES/STEMS/Song A-00000"
    ∧ (getUnusedStemRecordingFolderPath dirStorage 5 "SAMPLES/STEMS" "Song A" ""
        (getUnusedStemRecordingFolderPath dirStorage 5 "SAMPLES/STEMS" "Song B" ""
          (getUnusedStemRecordingFolderPath dirStorage 5 "SAMPLES/STEMS" "Song A" ""
            demoCompleted).state).state).state.mkdirRequests.drop 5
        = [("SAMPLES/STEMS", FRESULT.FR_EXIST), ("SAMPLES/STEMS/Song A", FRESULT.FR_EXIST),
           ("SAMPLES/STEMS/Song A-00000", FRESULT.FR_OK)] :=
  ⟨rfl, rfl, rfl, rfl⟩

/-- C22, amended: on a storage that keeps its directories, with "Song A", "Song B" and
"Song A" resolved in a row, all three returning `Error::NONE` (the names differing as
the code compares them, with "UNSAVED" standing for the empty name): the third
resolution probes again.  After the base folder it asks for the unsuffixed name and then
for the suffixes from 0 on, finds `n` candidates present and creates the next one, which
did not exist, leaving the folder number at `n - 1`.  Its path differs from the path of
the first resolution whenever that path names a directory on the card, as it does when
the first resolution was itself one of a name other than the last song name. -/
theorem third_resolution_probes_again (fuel1 fuel2 fuel3 : Nat)
    (folderName songA songB filePath1 filePath2 filePath3 : String)
    (st st1 st2 st3 : PathState (List String)) (p1 p2 p3 : String)
    (hAB : projectName songA ≠ projectName songB)
    (h1 : getUnusedStemRecordingFolderPath dirStorage fuel1 folderName songA filePath1 st
      = PathResult.returned Error.NONE p1 st1)
    (h2 : getUnusedStemRecordingFolderPath dirStorage fuel2 folderName songB filePath2 st1
      = PathResult.returned Error.NONE p2 st2)
    (h3 : getUnusedStemRecordingFolderPath dirStorage fuel3 folderName songA filePath3 st2
      = PathResult.returned Error.NONE p3 st3) :
    (∃ (n : Nat) (r : FRESULT),
      st3.mkdirRequests = st2.mkdirRequests ++ [(folderName, r)]
          ++ (List.range n).map (fun i : Nat =>
              (folderCandidate (folderName ++ "/" ++ projectName songA) (-1 + i),
                FRESULT.FR_EXIST))
          ++ [(p3, FRESULT.FR_OK)]
      ∧ p3 = folderCandidate (folderName ++ "/" ++ projectName songA) (-1 + n)
      ∧ st3.se.highestUsedStemFolderNumber = -1 + n)
    ∧ p3 ∉ st2.disk ∧ p3 ∈ st3.disk
    ∧ (p1 ∈ st2.disk → p3 ≠ p1)
    ∧ (projectName songA ≠ st.se.lastSongNameForStemExport → p3 ≠ p1) := by
  obtain ⟨_, a1, _⟩ := getUnusedStemRecordingFolderPath_returned dirStorage fuel1 folderName
    songA filePath1 st p1 st1 h1
  obtain ⟨_, b1, _⟩ := getUnusedStemRecordingFolderPath_returned dirStorage fuel2 folderName
    songB filePath2 st1 p2 st2 h2
  have hl1 : st1.se.lastSongNameForStemExport = projectName songA := by rw [a1]
  have hl2 : st2.se.lastSongNameForStemExport = projectName songB := by rw [b1]
  obtain ⟨_, _, _, _, _, _, hsub2, _⟩ := getUnusedStemRecordingFolderPath_dirStorage_inv fuel2
    folderName songB filePath2 st1 p2 st2 (by rw [hl1]; exact hAB.symm) h2
  obtain ⟨n, r, c1, c2, c3, c4, _, c6⟩ := getUnusedStemRecordingFolderPath_dirStorage_inv fuel3
    folderName songA filePath3 st2 p3 st3 (by rw [hl2]; exact hAB) h3
  refine ⟨⟨n, r, c6, c2, c1⟩, c3, c4, ?_, ?_⟩
  · intro hp1 heq
    rw [heq] at c3
    exact c3 hp1
  · intro hne heq
    obtain ⟨_, _, _, _, _, d4, _, _⟩ := getUnusedStemRecordingFolderPath_dirStorage_inv fuel1
      folderName songA filePath1 st p1 st1 hne h1
    rw [heq] at c3
    exact c3 (hsub2 p1 d4)

/-- The amended C22 on a fresh card: "Song A", "Song B" and "Song A" again give the
folders "Song A", "Song B" and "Song A-00000". -/
theorem third_resolution_probes_again_witness :
    (getUnusedStemRecordingFolderPath dirStorage 5 "SAMPLES/STEMS" "Song A" ""
        (getUnusedStemRecordingFolderPath dirStorage 5 "SAMPLES/STEMS" "Song B" ""
          demoResolved).state).path = some "SAMPLES/STEMS/Song A-00000"
    ∧ "SAMPLES/STEMS/Song A-00000" ≠ "SAMPLES/STEMS/Song A" :=
  ⟨rfl,
    (third_resolution_probes_again 5 5 5 "SAMPLES/STEMS" "Song A" "Song B" "" "" ""
      (PathState.start StemExport.new ["SAMPLES/STEMS"]) demoResolved
      (getUnusedStemRecordingFolderPath dirStorage 5 "SAMPLES/STEMS" "Song B" ""
        demoResolved).state
      (getUnusedStemRecordingFolderPath dirStorage 5 "SAMPLES/STEMS" "Song A" ""
        (getUnusedStemRecordingFolderPath dirStorage 5 "SAMPLES/STEMS" "Song B" ""
          demoResolved).state).state
      "SAMPLES/STEMS/Song A" "SAMPLES/STEMS/Song B" "SAMPLES/STEMS/Song A-00000"
      (by decide) rfl rfl rfl).2.2.2.2 (by decide)⟩

/-! ## The folder number along a run -/

theorem folderScan_snoc (h : Int) (log : List (Event W)) (e : Event W) :
    folderScan h (log ++ [e])
      = (e.se.highestUsedStemFolderNumber,
          if e.se.highestUsedStemFolderNumber = (folderScan h log).1
          then (folderScan h log).2 else (folderScan h log).2 + 1) := by
  simp only [folderScan, List.foldl_append, List.foldl_cons, List.foldl_nil]

theorem FolderSteps.stepsNil (h : Int) : FolderSteps h ([] : List (Event W)) := by
  intro pre e post heq
  cases pre <;> cases heq

theorem FolderSteps.stepsSnoc {h : Int} {log : List (Event W)} (hl : FolderSteps h log)
    (e0 : Event W)
    (h0 : e0.se.highestUsedStemFolderNumber = (folderScan h log).1
      ∨ (e0.se.highestUsedStemFolderNumber = (folderScan h log).1 + 1
        ∧ e0.step = Step.yielded ∧ e0.se.processStarted = false)) :
    FolderSteps h (log ++ [e0]) := by
  intro pre e post heq
  rcases List.eq_nil_or_concat post with hp | ⟨post1, x, hp⟩
  · subst hp
    obtain ⟨h2, h3⟩ := List.append_inj' heq rfl
    simp only [List.cons.injEq, and_true] at h3
    subst h2 h3
    exact h0
  · subst hp
    have heq1 : log ++ [e0] = (pre ++ e :: post1) ++ [x] := by
      rw [heq]; simp
    exact hl pre e post1 (List.append_inj' heq1 rfl).1

theorem FolderQuiet.fqRefl (s : Sys W) : FolderQuiet s s := ⟨rfl, rfl, rfl, rfl⟩

theorem FolderQuiet.fqTrans {s t u : Sys W} (h1 : FolderQuiet s t) (h2 : FolderQuiet t u) :
    FolderQuiet s u :=
  ⟨h2.1.trans h1.1, h2.2.1.trans h1.2.1, h2.2.2.1.trans h1.2.2.1, h2.2.2.2.trans h1.2.2.2⟩

theorem folderQuiet_startOutputRecording (E : World W) (s : Sys W) :
    FolderQuiet s (startOutputRecordingUntilLoopEndAndSilence E s) := by
  unfold startOutputRecordingUntilLoopEndAndSilence
  dsimp only
  split
  · split
    · exact ⟨rfl, rfl, rfl, rfl⟩
    · exact ⟨rfl, rfl, rfl, rfl⟩
  · exact ⟨rfl, rfl, rfl, rfl⟩

theorem folderQuiet_checkForLoopEnd (E : World W) (s : Sys W) :
    FolderQuiet s (checkForLoopEnd E s).2 := by
  unfold checkForLoopEnd
  split
  · dsimp only
    split
    · exact ⟨rfl, rfl, rfl, rfl⟩
    · exact FolderQuiet.fqRefl s
  · exact FolderQuiet.fqRefl s

theorem folderQuiet_checkForSilence (E : World W) (s : Sys W) :
    FolderQuiet s (checkForSilence E s) := by
  unfold checkForSilence
  split
  · split
    · exact ⟨rfl, rfl, rfl, rfl⟩
    · exact FolderQuiet.fqRefl s
  · exact FolderQuiet.fqRefl s

theorem folderQuiet_exportWaitCondition (E : World W) (s : Sys W) :
    FolderQuiet s (exportWaitCondition E s).2 := by
  unfold exportWaitCondition
  dsimp only
  split
  · exact folderQuiet_checkForSilence E s
  · exact FolderQuiet.fqRefl s

theorem folderMoved_stopStemExportProcess (E : World W) (s : Sys W) :
    FolderMoved s (stopStemExportProcess E s) := ⟨rfl, rfl, rfl, rfl⟩

/-- One scheduler round calls `stopStemExportProcess` exactly when the cancel request is
there after the other tasks and the poll of the transport; it then moves the folder
number by one, and leaves it alone otherwise. -/
theorem schedulerRound_folder (E : World W) (s : Sys W) :
    (E.cancelRequested
        (if E.pollsLoopEnd (E.runOtherTasks s.world)
          then (checkForLoopEnd E { s with world := E.runOtherTasks s.world }).2
          else { s with world := E.runOtherTasks s.world }).world = true →
      FolderMoved s (schedulerRound E s))
    ∧ (E.cancelRequested
        (if E.pollsLoopEnd (E.runOtherTasks s.world)
          then (checkForLoopEnd E { s with world := E.runOtherTasks s.world }).2
          else { s with world := E.runOtherTasks s.world }).world = false →
      FolderQuiet s (schedulerRound E s)) := by
  have h1 : FolderQuiet s { s with world := E.runOtherTasks s.world } := ⟨rfl, rfl, rfl, rfl⟩
  have h2 : FolderQuiet s
      (if E.pollsLoopEnd (E.runOtherTasks s.world)
        then (checkForLoopEnd E { s with world := E.runOtherTasks s.world }).2
        else { s with world := E.runOtherTasks s.world }) := by
    split
    · exact h1.fqTrans (folderQuiet_checkForLoopEnd E _)
    · exact h1
  constructor
  · intro hc
    unfold schedulerRound
    dsimp only
    rw [if_pos hc]
    have hm := folderMoved_stopStemExportProcess E
      (if E.pollsLoopEnd (E.runOtherTasks s.world)
        then (checkForLoopEnd E { s with world := E.runOtherTasks s.world }).2
        else { s with world := E.runOtherTasks s.world })
    exact ⟨hm.1.trans h2.1, by rw [hm.2.1, h2.2.1], hm.2.2.1, hm.2.2.2.trans h2.2.2.2⟩
  · intro hc
    unfold schedulerRound
    dsimp only
    rw [if_neg (by rw [hc]; simp)]
    exact h2

theorem yieldRound_folder (E : World W) (s : Sys W) :
    ∃ t : Sys W, (FolderQuiet s t ∨ FolderMoved s t)
      ∧ (yieldRound E s).2 = Sys.emit Step.yielded t := by
  refine ⟨(exportWaitCondition E (schedulerRound E s)).2, ?_, rfl⟩
  have hw := folderQuiet_exportWaitCondition E (schedulerRound E s)
  cases hc : E.cancelRequested
      (if E.pollsLoopEnd (E.runOtherTasks s.world)
        then (checkForLoopEnd E { s with world := E.runOtherTasks s.world }).2
        else { s with world := E.runOtherTasks s.world }).world with
  | false =>
    left
    exact ((schedulerRound_folder E s).2 hc).fqTrans hw
  | true =>
    right
    have hm := (schedulerRound_folder E s).1 hc
    exact ⟨hw.1.trans hm.1, by rw [hw.2.1, hm.2.1], by rw [hw.2.2.1, hm.2.2.1],
      hw.2.2.2.trans hm.2.2.2⟩

theorem setWavFileNameForStemExport_folder (E : World W) (ty : StemExportType) (o : Output)
    (n : Nat) (s : Sys W) :
    ∃ t, FolderQuiet s t ∧ setWavFileNameForStemExport E ty o n s
      = Sys.emit (Step.fileNameRequested n) t := by
  unfold setWavFileNameForStemExport
  dsimp only
  refine ⟨_, ?_, rfl⟩
  refine ⟨rfl, ?_, ?_, ?_⟩
  · dsimp only
    split <;> split <;> rfl
  · dsimp only
    split <;> split <;> rfl
  · dsimp only
    split <;> split <;> rfl

theorem startCurrentStemExport_folder (E : World W) (ty : StemExportType) (o : Output)
    (r : MuteRef) (k : Nat) (s : Sys W) :
    ∃ t2 t3 : Sys W,
      FolderQuiet (Sys.emit (Step.muteStateWritten k)
        { Sys.emit (Step.startCurrent k) s with song := r.write (startFlag ty) s.song }) t2
      ∧ FolderQuiet (Sys.emit (Step.fileNameRequested k) t2) t3
      ∧ (startCurrentStemExport E ty o r k true s).2
          = Sys.emit (Step.recordingRequested k) t3 := by
  obtain ⟨t2, hq2, he2⟩ := setWavFileNameForStemExport_folder E ty o k
    (Sys.emit (Step.muteStateWritten k)
      { Sys.emit (Step.startCurrent k) s with song := r.write (startFlag ty) s.song })
  refine ⟨t2, startOutputRecordingUntilLoopEndAndSilence E (Sys.emit (Step.fileNameRequested k) t2),
    hq2, folderQuiet_startOutputRecording E _, ?_⟩
  rw [← he2]
  cases ty <;> rfl

theorem folderQuiet_clipPrelude (E : World W) (clip : Clip) (s : Sys W) :
    FolderQuiet s (getLoopEndPointInSamplesForAudioFile E clip.loopLength
      { s with se := getLoopLengthOfLongestNotEmptyNoteRow clip s.se }) := by
  obtain ⟨x, hx⟩ := getLoopLengthOfLongestNotEmptyNoteRow_eq clip s.se
  unfold getLoopEndPointInSamplesForAudioFile
  rw [hx]
  exact ⟨rfl, rfl, rfl, rfl⟩

theorem FolderInv.folderQuiet {h : Int} {name : String} {base : List (Event W)} {s t : Sys W}
    (hi : FolderInv h name base s) (hq : FolderQuiet s t) : FolderInv h name base t := by
  unfold FolderInv at hi ⊢
  rw [hq.1, hq.2.1, hq.2.2.1, hq.2.2.2]
  exact hi

theorem FolderInv.folderEmit {h : Int} {name : String} {base : List (Event W)} {s : Sys W}
    (hi : FolderInv h name base s) (st : Step) : FolderInv h name base (Sys.emit st s) := by
  obtain ⟨new, h1, h2, h3, h4, h5, h6, h7, h8, h9⟩ := hi
  have hscan : folderScan h (new ++ [Event.mk st s.se s.song s.world])
      = (s.se.highestUsedStemFolderNumber, (folderScan h new).2) := by
    rw [folderScan_snoc]
    dsimp only
    rw [if_pos h3.symm]
  refine ⟨new ++ [Event.mk st s.se s.song s.world], ?_, ?_, ?_, ?_, ?_, ?_, h7, ?_, ?_⟩
  · rw [Sys.emit_log, h1, List.append_assoc]
  · exact h2.stepsSnoc _ (Or.inl h3.symm)
  · rw [hscan]; rfl
  · rw [hscan]; exact h4
  · rw [hscan]; exact h5
  · rw [hscan]; exact h6
  · rw [hscan]
    intro hc e he
    rcases List.mem_append.1 he with he | he
    · exact h8 hc e he
    · rw [List.mem_singleton.1 he]
      cases hp : s.se.processStarted with
      | true => rfl
      | false =>
        have hge := h6 hp
        have hc0 : (folderScan h new).2 = 0 := hc
        omega
  · rw [hscan]
    intro hc
    obtain ⟨e, he, hpe⟩ := h9 hc
    exact ⟨e, List.mem_append.2 (Or.inl he), hpe⟩

theorem FolderInv.folderMovedEmit {h : Int} {name : String} {base : List (Event W)}
    {s t : Sys W} (hi : FolderInv h name base s) (hm : FolderMoved s t) :
    FolderInv h name base (Sys.emit Step.yielded t) := by
  obtain ⟨new, h1, h2, h3, h4, _, _, h7, _, _⟩ := hi
  obtain ⟨m1, m2, m3, m4⟩ := hm
  have hne : ¬ t.se.highestUsedStemFolderNumber = (folderScan h new).1 := by
    rw [h3, m2]; omega
  have hscan : folderScan h (new ++ [Event.mk Step.yielded t.se t.song t.world])
      = (t.se.highestUsedStemFolderNumber, (folderScan h new).2 + 1) := by
    rw [folderScan_snoc]
    dsimp only
    rw [if_neg hne]
  refine ⟨new ++ [Event.mk Step.yielded t.se t.song t.world], ?_, ?_, ?_, ?_, ?_, ?_, ?_,
    ?_, ?_⟩
  · rw [Sys.emit_log, m1, h1, List.append_assoc]
  · exact h2.stepsSnoc _ (Or.inr ⟨by rw [h3, m2], rfl, m3⟩)
  · rw [hscan]; rfl
  · rw [hscan]
    show t.se.highestUsedStemFolderNumber = _
    rw [m2, h4]; push_cast; ring
  · intro hp
    have : (Sys.emit Step.yielded t).se.processStarted = false := m3
    rw [this] at hp; cases hp
  · intro _
    rw [hscan]
    exact Nat.le_add_left 1 _
  · exact m4.trans h7
  · rw [hscan]
    intro hc
    exact absurd hc (Nat.succ_ne_zero _)
  · intro _
    exact ⟨Event.mk Step.yielded t.se t.song t.world,
      List.mem_append.2 (Or.inr (List.mem_singleton.2 rfl)), m3⟩

theorem exportTarget_folder (E : World W) (fuel : Nat) (ty : StemExportType) (o : Output)
    (r : MuteRef) (k : Nat) (ex : Bool) (s : Sys W) (h : Int) (name : String)
    (base : List (Event W)) (hi : FolderInv h name base s) :
    (∀ b s1, exportTarget E fuel ty o r k ex s = Progress.returned (b, s1) →
        FolderInv h name base s1)
      ∧ (∀ s1, exportTarget E fuel ty o r k ex s = Progress.suspended s1 →
        FolderInv h name base s1) :=
  exportTarget_rule E fuel ty o r k ex s
    (fun t => FolderInv h name base t) (fun _ t => FolderInv h name base t)
    (fun _ => hi.folderEmit (Step.startCurrent k))
    (fun _ => by
      obtain ⟨t2, t3, hq2, hq3, heq⟩ := startCurrentStemExport_folder E ty o r k s
      rw [heq]
      have h0 : FolderInv h name base
          { Sys.emit (Step.startCurrent k) s with song := r.write (startFlag ty) s.song } :=
        (hi.folderEmit (Step.startCurrent k)).folderQuiet ⟨rfl, rfl, rfl, rfl⟩
      exact ((((h0.folderEmit (Step.muteStateWritten k)).folderQuiet hq2).folderEmit
        (Step.fileNameRequested k)).folderQuiet hq3).folderEmit (Step.recordingRequested k))
    (fun t ht => by
      obtain ⟨t1, hq, heq⟩ := yieldRound_folder E t
      rw [heq]
      rcases hq with hq | hq
      · exact (ht.folderQuiet hq).folderEmit Step.yielded
      · exact ht.folderMovedEmit hq)
    (fun t ht => by
      rw [finishCurrentStemExport_eq]
      have h0 : FolderInv h name base
          { t with song := r.write (!startFlag ty) t.song
                   se := { t.se with numStemsExported := t.se.numStemsExported + 1 } } :=
        ht.folderQuiet ⟨rfl, rfl, rfl, rfl⟩
      exact h0.folderEmit (Step.finishCurrent r))

theorem exportInstrumentBody_folder (E : World W) (fuel : Nat) (ty : StemExportType)
    (k : Nat) (s : Sys W) (h : Int) (name : String) (base : List (Event W))
    (hi : FolderInv h name base s) :
    (∀ b s1, exportInstrumentBody E fuel ty k s = Progress.returned (b, s1) →
        FolderInv h name base s1)
      ∧ (∀ s1, exportInstrumentBody E fuel ty k s = Progress.suspended s1 →
        FolderInv h name base s1) := by
  unfold exportInstrumentBody
  cases hk : s.song.outputs[k]? with
  | none =>
    constructor
    · intro b s1 hb
      simp only [Progress.returned.injEq, Prod.mk.injEq] at hb
      rw [← hb.2]
      exact hi
    · intro s1 hb
      simp at hb
  | some o => exact exportTarget_folder E fuel ty o _ k o.exportStem s h name base hi

theorem exportClipBody_folder (E : World W) (fuel : Nat) (ty : StemExportType)
    (k : Nat) (s : Sys W) (h : Int) (name : String) (base : List (Event W))
    (hi : FolderInv h name base s) :
    (∀ b s1, exportClipBody E fuel ty k s = Progress.returned (b, s1) →
        FolderInv h name base s1)
      ∧ (∀ s1, exportClipBody E fuel ty k s = Progress.suspended s1 →
        FolderInv h name base s1) := by
  unfold exportClipBody
  cases hk : s.song.sessionClips[k]? with
  | none =>
    constructor
    · intro b s1 hb
      simp only [Progress.returned.injEq, Prod.mk.injEq] at hb
      rw [← hb.2]
      exact hi
    · intro s1 hb
      simp at hb
  | some c =>
    exact exportTarget_folder E fuel ty c.output _ k c.exportStem _ h name base
      (hi.folderQuiet (folderQuiet_clipPrelude E c s))

/-- A run of `exportInstrumentStems` that began with `processStarted` set and returns
keeps the invariant of the folder number. -/
theorem exportInstrumentStems_folder (E : World W) (fuel : Nat) (ty : StemExportType)
    (s : Sys W) (n : Nat) (s1 : Sys W) (hp : s.se.processStarted = true)
    (h : exportInstrumentStems E fuel ty s = Progress.returned (n, s1)) :
    FolderInv s.se.highestUsedStemFolderNumber s.se.lastSongNameForStemExport s.log s1 := by
  unfold exportInstrumentStems at h
  rw [disarmAllInstrumentsForStemExport_eq] at h
  dsimp only at h
  have hbase : FolderInv s.se.highestUsedStemFolderNumber s.se.lastSongNameForStemExport s.log
      ({ se := { s.se with numStemsExported := 0
                           totalNumStemsToExport := List.countP outputEligible s.song.outputs }
         song := { s.song with outputs := s.song.outputs.map disarmOutput }
         world := s.world
         log := s.log } : Sys W) :=
    ⟨[], by simp, FolderSteps.stepsNil _, rfl, by simp [folderScan], fun _ => rfl,
      fun hf => (by
        have hf2 : s.se.processStarted = false := hf
        rw [hp] at hf2; cases hf2),
      rfl, fun _ e he => (by cases he), fun hc => (by simp [folderScan] at hc)⟩
  have hloop := descLoop_rule (exportInstrumentBody E fuel ty)
    (fun _ t => FolderInv s.se.highestUsedStemFolderNumber s.se.lastSongNameForStemExport
      s.log t)
    (fun t => FolderInv s.se.highestUsedStemFolderNumber s.se.lastSongNameForStemExport
      s.log t)
    (fun _ => True)
    (fun _ _ _ _ _ => trivial)
    (fun k t t1 ht hb => (exportInstrumentBody_folder E fuel ty k t _ _ _ ht).1 true t1 hb)
    (fun k t t1 ht hb => (exportInstrumentBody_folder E fuel ty k t _ _ _ ht).1 false t1 hb)
    (fun t ht => ht) s.song.outputs.length _ (hbase.folderEmit Step.prepared)
  split at h
  · cases h
  · rename_i s2 hd
    simp only [Progress.returned.injEq, Prod.mk.injEq] at h
    obtain ⟨t, hse, _, hlog, heq⟩ := restoreAllInstrumentMutes_frame s.song.outputs.length s2
    rw [← h.2, heq]
    exact ((hloop.1 s2 hd).folderQuiet ⟨hlog, by rw [hse], by rw [hse], by rw [hse]⟩).folderEmit
      Step.restored

/-- The same for a run of `exportClipStems`. -/
theorem exportClipStems_folder (E : World W) (fuel : Nat) (ty : StemExportType)
    (s : Sys W) (n : Nat) (s1 : Sys W) (hp : s.se.processStarted = true)
    (h : exportClipStems E fuel ty s = Progress.returned (n, s1)) :
    FolderInv s.se.highestUsedStemFolderNumber s.se.lastSongNameForStemExport s.log s1 := by
  unfold exportClipStems at h
  rw [disarmAllClipsForStemExport_eq] at h
  dsimp only at h
  have hbase : FolderInv s.se.highestUsedStemFolderNumber s.se.lastSongNameForStemExport s.log
      ({ se := { s.se with numStemsExported := 0
                           totalNumStemsToExport := List.countP clipEligible s.song.sessionClips }
         song := { s.song with sessionClips := s.song.sessionClips.map disarmClip }
         world := s.world
         log := s.log } : Sys W) :=
    ⟨[], by simp, FolderSteps.stepsNil _, rfl, by simp [folderScan], fun _ => rfl,
      fun hf => (by
        have hf2 : s.se.processStarted = false := hf
        rw [hp] at hf2; cases hf2),
      rfl, fun _ e he => (by cases he), fun hc => (by simp [folderScan] at hc)⟩
  have hloop := descLoop_rule (exportClipBody E fuel ty)
    (fun _ t => FolderInv s.se.highestUsedStemFolderNumber s.se.lastSongNameForStemExport
      s.log t)
    (fun t => FolderInv s.se.highestUsedStemFolderNumber s.se.lastSongNameForStemExport
      s.log t)
    (fun _ => True)
    (fun _ _ _ _ _ => trivial)
    (fun k t t1 ht hb => (exportClipBody_folder E fuel ty k t _ _ _ ht).1 true t1 hb)
    (fun k t t1 ht hb => (exportClipBody_folder E fuel ty k t _ _ _ ht).1 false t1 hb)
    (fun t ht => ht) s.song.sessionClips.length _ (hbase.folderEmit Step.prepared)
  split at h
  · cases h
  · rename_i s2 hd
    simp only [Progress.returned.injEq, Prod.mk.injEq] at h
    obtain ⟨t, hse, _, hlog, heq⟩ := restoreAllClipMutes_frame s.song.sessionClips.length s2
    rw [← h.2, heq]
    exact ((hloop.1 s2 hd).folderQuiet ⟨hlog, by rw [hse], by rw [hse], by rw [hse]⟩).folderEmit
      Step.restored

/-- A round of the scheduler changes the folder number only by a call of
`stopStemExportProcess`, which it makes exactly when it finds a cancel request. -/
theorem schedulerRound_stops (E : World W) (s : Sys W) :
    (schedulerRound E s).se.highestUsedStemFolderNumber = s.se.highestUsedStemFolderNumber
      ∨ ∃ t : Sys W, schedulerRound E s = stopStemExportProcess E t
          ∧ E.cancelRequested t.world = true
          ∧ t.se.highestUsedStemFolderNumber = s.se.highestUsedStemFolderNumber := by
  have hq : FolderQuiet s
      (if E.pollsLoopEnd (E.runOtherTasks s.world)
        then (checkForLoopEnd E { s with world := E.runOtherTasks s.world }).2
        else { s with world := E.runOtherTasks s.world }) := by
    split
    · exact FolderQuiet.fqTrans (⟨rfl, rfl, rfl, rfl⟩ : FolderQuiet s
        { s with world := E.runOtherTasks s.world }) (folderQuiet_checkForLoopEnd E _)
    · exact ⟨rfl, rfl, rfl, rfl⟩
  cases hc : E.cancelRequested
      (if E.pollsLoopEnd (E.runOtherTasks s.world)
        then (checkForLoopEnd E { s with world := E.runOtherTasks s.world }).2
        else { s with world := E.runOtherTasks s.world }).world with
  | false => exact Or.inl ((schedulerRound_folder E s).2 hc).2.1
  | true =>
    refine Or.inr ⟨_, ?_, hc, hq.2.1⟩
    unfold schedulerRound
    dsimp only
    rw [if_pos hc]

/-- A run of the whole process that returns: the entries it added to the trace satisfy
`FolderSteps`; if all of them show `processStarted` set, the folder number ends one
above its value at the start, and if one of them shows it cleared, the folder number
ends above its value at the start by the count of the scan, which is at least one. -/
theorem startStemExportProcess_folder (C : Controls W) (fuel : Nat) (ty : StemExportType)
    (m m1 : Machine W) (h : startStemExportProcess C fuel ty m = Progress.returned m1) :
    ∃ new : List (Event W), m1.sys.log = m.sys.log ++ new
      ∧ FolderSteps m.sys.se.highestUsedStemFolderNumber new
      ∧ ((∀ e ∈ new, e.se.processStarted = true) →
          (folderScan m.sys.se.highestUsedStemFolderNumber new).2 = 0
          ∧ m1.sys.se.highestUsedStemFolderNumber = m.sys.se.highestUsedStemFolderNumber + 1)
      ∧ ((∃ e ∈ new, e.se.processStarted = false) →
          1 ≤ (folderScan m.sys.se.highestUsedStemFolderNumber new).2
          ∧ m1.sys.se.highestUsedStemFolderNumber = m.sys.se.highestUsedStemFolderNumber
              + (folderScan m.sys.se.highestUsedStemFolderNumber new).2)
      ∧ m.sys.se.highestUsedStemFolderNumber < m1.sys.se.highestUsedStemFolderNumber
      ∧ m1.sys.se.lastSongNameForStemExport = m.sys.se.lastSongNameForStemExport := by
  unfold startStemExportProcess at h
  dsimp only at h
  split at h
  · cases h
  · rename_i n s1 hr
    simp only [Progress.returned.injEq] at h
    have hinv : FolderInv m.sys.se.highestUsedStemFolderNumber
        m.sys.se.lastSongNameForStemExport m.sys.log s1 := by
      cases ty with
      | CLIP =>
        exact exportClipStems_folder C.toWorld fuel StemExportType.CLIP
          { m.sys with
              se := { m.sys.se with currentStemExportType := StemExportType.CLIP
                                    processStarted := true }
              world := C.recordButtonPressed m.sys.world } n s1 rfl hr
      | TRACK =>
        exact exportInstrumentStems_folder C.toWorld fuel StemExportType.TRACK
          { m.sys with
              se := { m.sys.se with currentStemExportType := StemExportType.TRACK
                                    processStarted := true }
              world := C.recordButtonPressed m.sys.world } n s1 rfl hr
    obtain ⟨new, g1, g2, _, g4, g5, g6, g7, g8, g9⟩ := hinv
    have hse : m1.sys.se = (if s1.se.processStarted = true
        then finishStemExportProcess ty n s1 else s1).se := by
      rw [← h]
      dsimp only
      by_cases hrec : C.recording (if s1.se.processStarted = true
          then finishStemExportProcess ty n s1 else s1).world ≠ RecordingMode.OFF
      · rw [if_pos hrec]
      · rw [if_neg hrec]
    have hlog : m1.sys.log = s1.log := by
      rw [← h]
      dsimp only
      by_cases hrec : C.recording (if s1.se.processStarted = true
          then finishStemExportProcess ty n s1 else s1).world ≠ RecordingMode.OFF
      · rw [if_pos hrec]
        by_cases hp : s1.se.processStarted = true
        · rw [if_pos hp]; rfl
        · rw [if_neg hp]
      · rw [if_neg hrec]
        by_cases hp : s1.se.processStarted = true
        · rw [if_pos hp]; rfl
        · rw [if_neg hp]
    cases hp : s1.se.processStarted with
    | true =>
      have hc := g5 hp
      have hnum : m1.sys.se.highestUsedStemFolderNumber
          = m.sys.se.highestUsedStemFolderNumber + 1 := by
        rw [hse, hp, if_pos rfl]
        show s1.se.highestUsedStemFolderNumber + 1 = _
        rw [g4, hc]; simp
      refine ⟨new, hlog.trans g1, g2, fun _ => ⟨hc, hnum⟩, ?_, by omega, ?_⟩
      · rintro ⟨e, he, hpe⟩
        rw [g8 hc e he] at hpe
        cases hpe
      · rw [hse, hp, if_pos rfl]
        exact g7
    | false =>
      have hc := g6 hp
      have hnum : m1.sys.se.highestUsedStemFolderNumber
          = m.sys.se.highestUsedStemFolderNumber
            + (folderScan m.sys.se.highestUsedStemFolderNumber new).2 := by
        rw [hse, hp, if_neg (by simp)]
        exact g4
      refine ⟨new, hlog.trans g1, g2, ?_, fun _ => ⟨hc, hnum⟩, by omega, ?_⟩
      · intro hall
        obtain ⟨e, he, hpe⟩ := g9 hc
        rw [hall e he] at hpe
        cases hpe
      · rw [hse, hp, if_neg (by simp)]
        exact g7

/-- After a call that returned `Error::NONE`, a call for the same name on a `stemExport`
object whose folder number has been advanced returns a different path. -/
theorem later_folder_differs {D : Type} (S : Storage D) (fuel fuel2 : Nat)
    (folderName songName filePath filePath2 : String) (st st1 stN st2 : PathState D)
    (p1 p2 : String)
    (hge : -1 ≤ st.se.highestUsedStemFolderNumber)
    (h1 : getUnusedStemRecordingFolderPath S fuel folderName songName filePath st
      = PathResult.returned Error.NONE p1 st1)
    (hn : st1.se.highestUsedStemFolderNumber < stN.se.highestUsedStemFolderNumber)
    (hl : stN.se.lastSongNameForStemExport = st1.se.lastSongNameForStemExport)
    (h2 : getUnusedStemRecordingFolderPath S fuel2 folderName songName filePath2 stN
      = PathResult.returned Error.NONE p2 st2) :
    p2 ≠ p1
    ∧ p2 = folderCandidate (folderName ++ "/" ++ projectName songName)
        stN.se.highestUsedStemFolderNumber := by
  obtain ⟨_, g1, _, g3, r, _, _, g4⟩ :=
    getUnusedStemRecordingFolderPath_returned S fuel folderName songName filePath st p1 st1 h1
  have hlast : st1.se.lastSongNameForStemExport = projectName songName := by rw [g1]
  have hge1 : -1 ≤ st1.se.highestUsedStemFolderNumber := by
    rcases g4 with ⟨_, k2, _⟩ | ⟨_, k2, _⟩
    · exact k2
    · rw [k2]; exact hge
  obtain ⟨k1, _, _⟩ :=
    getUnusedStemRecordingFolderPath_again S fuel2 folderName songName filePath2 stN p2 st2
      (hl.trans hlast) h2
  refine ⟨?_, k1⟩
  intro heq
  rw [k1, g3] at heq
  have := folderCandidate_injective _ _ _ (by omega) hge1 heq
  omega

/-! ## The folder number after a cancelled run -/

/-- C16, amended: every call of `stopStemExportProcess` leaves
`highestUsedStemFolderNumber` one above its value before the call (the increment is in
`stopOutputRecordingAndPlayback`) and clears `processStarted`, and a round of the
scheduler changes the number only by such a call, which it makes when it finds a cancel
request.  So for every run of `startStemExportProcess` that returns, the entries it adds
to the trace show the number unchanged from one entry to the next, except that the entry
of a round with `processStarted` cleared may show it one higher.  If the run was
cancelled (an entry shows `processStarted` cleared), it ends with the number above its
value at the start by the count of those advances, which is at least one,
`finishStemExportProcess` being skipped; if it was not, it ends with the number one
above its value at the start.  Either way the number has advanced: where the resolution
of the name returned a path and left the folder number and last song name with which the
run started, the next resolution of the same name returns, whatever its fuel, and if it
returns `Error::NONE` it returns a different path. -/
theorem cancellation_advances_folder_counter (C : Controls W) (fuel : Nat)
    (ty : StemExportType) (m m1 : Machine W) (S : Storage D)
    (fuel1 fuel2 : Nat) (folderName songName filePath filePath2 : String)
    (st st1 stN : PathState D) (p1 : String)
    (hrun : startStemExportProcess C fuel ty m = Progress.returned m1)
    (hge : -1 ≤ st.se.highestUsedStemFolderNumber)
    (h1 : getUnusedStemRecordingFolderPath S fuel1 folderName songName filePath st
      = PathResult.returned Error.NONE p1 st1)
    (hs : m.sys.se.highestUsedStemFolderNumber = st1.se.highestUsedStemFolderNumber
      ∧ m.sys.se.lastSongNameForStemExport = st1.se.lastSongNameForStemExport)
    (hN : stN.se = m1.sys.se) :
    (∀ s : Sys W,
        (stopStemExportProcess C.toWorld s).se.highestUsedStemFolderNumber
          = s.se.highestUsedStemFolderNumber + 1
        ∧ (stopStemExportProcess C.toWorld s).se.processStarted = false
        ∧ ((schedulerRound C.toWorld s).se.highestUsedStemFolderNumber
              = s.se.highestUsedStemFolderNumber
          ∨ ∃ t : Sys W, schedulerRound C.toWorld s = stopStemExportProcess C.toWorld t
              ∧ C.cancelRequested t.world = true
              ∧ t.se.highestUsedStemFolderNumber = s.se.highestUsedStemFolderNumber))
    ∧ (∃ new : List (Event W), m1.sys.log = m.sys.log ++ new
        ∧ FolderSteps m.sys.se.highestUsedStemFolderNumber new
        ∧ ((∃ e ∈ new, e.se.processStarted = false) →
            1 ≤ (folderScan m.sys.se.highestUsedStemFolderNumber new).2
            ∧ m1.sys.se.highestUsedStemFolderNumber
                = m.sys.se.highestUsedStemFolderNumber
                  + (folderScan m.sys.se.highestUsedStemFolderNumber new).2)
        ∧ ((∀ e ∈ new, e.se.processStarted = true) →
            m1.sys.se.highestUsedStemFolderNumber
              = m.sys.se.highestUsedStemFolderNumber + 1))
    ∧ m.sys.se.highestUsedStemFolderNumber < m1.sys.se.highestUsedStemFolderNumber
    ∧ (∃ (e : Error) (p2 : String) (st2 : PathState D),
        getUnusedStemRecordingFolderPath S fuel2 folderName songName filePath2 stN
          = PathResult.returned e p2 st2)
    ∧ ∀ (p2 : String) (st2 : PathState D),
        getUnusedStemRecordingFolderPath S fuel2 folderName songName filePath2 stN
          = PathResult.returned Error.NONE p2 st2 →
        p2 ≠ p1 := by
  obtain ⟨new, g1, g2, g3, g4, g5, g6⟩ := startStemExportProcess_folder C fuel ty m m1 hrun
  obtain ⟨_, k1, _⟩ :=
    getUnusedStemRecordingFolderPath_returned S fuel1 folderName songName filePath st p1 st1 h1
  have hl1 : st1.se.lastSongNameForStemExport = projectName songName := by rw [k1]
  refine ⟨fun s => ⟨rfl, rfl, schedulerRound_stops C.toWorld s⟩,
    ⟨new, g1, g2, g4, fun hall => (g3 hall).2⟩, g5, ?_, ?_⟩
  · apply getUnusedStemRecordingFolderPath_returns
    rw [hN, g6, hs.2, hl1]
  · intro p2 st2 h2
    exact (later_folder_differs S fuel1 fuel2 folderName songName filePath filePath2 st st1
      stN st2 p1 p2 hge h1 (by rw [hN, ← hs.1]; exact g5) (by rw [hN, g6, hs.2]) h2).1

/-- The amended C16 on an example: "Song A" was resolved to the folder "Song A" with the
folder number `-1`; a clip run with a loud level meter finds the cancel request in two
rounds of the wait for its first clip and returns with the folder number `1`, and the
next resolution is not "Song A". -/
theorem cancellation_advances_folder_counter_witness :
    ∃ m1 : Machine Rig,
      startStemExportProcess loudControls 20 StemExportType.CLIP
          { sys := Sys.start demoResolved.se demoSong { rigIdle with cancelIn := some 1 },
            highestUsedAudioRecordingNumber := -1 }
        = Progress.returned m1
      ∧ demoResolved.se.highestUsedStemFolderNumber = -1
      ∧ m1.sys.se.highestUsedStemFolderNumber = 1
      ∧ (∃ new : List (Event Rig), m1.sys.log = [] ++ new
          ∧ FolderSteps (-1) new
          ∧ ((∃ e ∈ new, e.se.processStarted = false) →
              1 ≤ (folderScan (-1) new).2
              ∧ m1.sys.se.highestUsedStemFolderNumber = -1 + (folderScan (-1) new).2)
          ∧ ((∀ e ∈ new, e.se.processStarted = true) →
              m1.sys.se.highestUsedStemFolderNumber = -1 + 1))
      ∧ (folderScan (-1) m1.sys.log).2 = 2
      ∧ ∀ (p2 : String) (st2 : PathState (List String)),
          getUnusedStemRecordingFolderPath dirStorage 0 "SAMPLES/STEMS" "Song A" ""
              { demoResolved with se := m1.sys.se }
            = PathResult.returned Error.NONE p2 st2 →
          p2 ≠ "SAMPLES/STEMS/Song A" :=
  ⟨_, rfl, rfl, rfl,
    (cancellation_advances_folder_counter loudControls 20 StemExportType.CLIP
      { sys := Sys.start demoResolved.se demoSong { rigIdle with cancelIn := some 1 },
        highestUsedAudioRecordingNumber := -1 } _ dirStorage 5 0
      "SAMPLES/STEMS" "Song A" "" ""
      (PathState.start StemExport.new ["SAMPLES/STEMS"]) demoResolved
      { demoResolved with se := _ }
      "SAMPLES/STEMS/Song A" rfl (by decide) rfl ⟨rfl, rfl⟩ rfl).2.1,
    rfl,
    (cancellation_advances_folder_counter loudControls 20 StemExportType.CLIP
      { sys := Sys.start demoResolved.se demoSong { rigIdle with cancelIn := some 1 },
        highestUsedAudioRecordingNumber := -1 } _ dirStorage 5 0
      "SAMPLES/STEMS" "Song A" "" ""
      (PathState.start StemExport.new ["SAMPLES/STEMS"]) demoResolved _
      "SAMPLES/STEMS/Song A" rfl (by decide) rfl ⟨rfl, rfl⟩ rfl).2.2.2.2⟩

end Deluge
